import Mathlib

/-!
# Neuro: the device-memory sub-allocator and the buffer storage

A shallow embedding of `MemoryManager` (`Neuro/src/Memory/MemoryManager.cpp`):
the singly linked block lists are Lean lists (head of the list = head pointer),
a pointer to a node of a list is the index of that node, addresses are natural
numbers with `0` for `nullptr`, and `size_t` arithmetic is arithmetic modulo
`2 ^ 64`.

A shallow embedding of `Storage` (`Neuro/src/Tensors/Storage.cpp`): one object
is a record of its members, and each member function is a function from the
record to the record it leaves, or to `none` when it is fatal.
-/

namespace Neuro

/-! ## Data model -/

/-- Number of values of a `size_t` (64-bit build). -/
def SIZE_T_RANGE : Nat := 2 ^ 64

/-- The constant `MEM_GRANULARITY` (line 14). -/
def MEM_GRANULARITY : Nat := 512

/-- The constant `CUDA_GRANULARITY`, 128 * 1024 (line 15). -/
def CUDA_GRANULARITY : Nat := 128 * 1024

/-- Status codes returned by the manager (`EMemStatus`). -/
inductive EMemStatus where
  | MEM_STATUS_SUCCESS
  | MEM_STATUS_OUT_OF_MEMORY
  | MEM_STATUS_INVALID_ARGUMENT
  deriving DecidableEq, Repr

/-- A node of the used or the free list: `Block(data, size, next, isHead)`.
The `next` pointer is the tail of the Lean list the block sits in;
`m_Annotation` is a nullable C string. -/
structure Block where
  m_Data : Nat
  m_Size : Nat
  m_IsHead : Bool
  m_Annotation : Option String
  deriving DecidableEq, Repr

/-- One entry of the pool registry `m_CudaBlocks`. -/
structure CudaBlock where
  ptr : Nat
  size : Nat
  deriving DecidableEq, Repr

/-- The allocator state. `m_CannotGrow` is the value of the test
`m_Flags & MEM_FLAGS_CANNOT_GROW` (line 75). -/
structure MemoryManager where
  m_FreeBlocks : List Block
  m_UsedBlocks : List Block
  m_CudaBlocks : List CudaBlock
  m_AllocatedMemSize : Nat
  m_AllocatedMemSizePeak : Nat
  m_Size : Nat
  m_CannotGrow : Bool
  deriving DecidableEq, Repr

/-- The allocator before any call: empty lists, counters at zero. -/
def MemoryManager.empty (cannotGrow : Bool) : MemoryManager :=
  { m_FreeBlocks := [], m_UsedBlocks := [], m_CudaBlocks := [],
    m_AllocatedMemSize := 0, m_AllocatedMemSizePeak := 0, m_Size := 0,
    m_CannotGrow := cannotGrow }

/-! ## `size_t` arithmetic -/

/-- Unsigned 64-bit addition. -/
def addSz (a b : Nat) : Nat := (a + b) % SIZE_T_RANGE

/-- Unsigned 64-bit subtraction (wraps around below zero). -/
def subSz (a b : Nat) : Nat := (a % SIZE_T_RANGE + SIZE_T_RANGE - b % SIZE_T_RANGE) % SIZE_T_RANGE

/-- The function `ceilInt(m, n) = (m + n - 1) / n * n` in `size_t` arithmetic (lines 60-63). -/
def ceilInt (m n : Nat) : Nat :=
  ((m + n - 1) % SIZE_T_RANGE / n * n) % SIZE_T_RANGE

/-! ## The device primitive -/

/-- The call `CUDA_CHECK(cudaMalloc(&data, size))`. The answer of the device is
the argument `dev`: `none` is a CUDA error, `some d` is the address it returns.
The result is `none` when the call is fatal. An answer is within the contract
of the primitive when the returned range lies in the address space and a
request for zero bytes yields the null pointer; other answers cannot occur. -/
def cudaMalloc (dev : Option Nat) (size : Nat) : Option Nat :=
  match dev with
  | none => none
  | some d => if (size = 0 → d = 0) ∧ d + size < SIZE_T_RANGE then some d else none

/-! ## Queries -/

/-- The loop of `GetMemoryUnsafe` (lines 432-438): adds the block sizes in `size_t`. -/
def GetMemoryUnsafe (head : List Block) : Nat :=
  head.foldl (fun size curr => addSz size curr.m_Size) 0

/-- Total size of the used list (lines 420-423). -/
def GetUsedMemoryUnsafe (s : MemoryManager) : Nat := GetMemoryUnsafe s.m_UsedBlocks

/-- Total size of the free list (lines 426-429). -/
def GetFreeMemoryUnsafe (s : MemoryManager) : Nat := GetMemoryUnsafe s.m_FreeBlocks

/-- Sum of the block sizes of a list, as a natural number. -/
def blockBytes (l : List Block) : Nat := (l.map Block.m_Size).sum

/-- Sum of the sizes recorded in the pool registry, as a natural number. -/
def poolBytes (l : List CudaBlock) : Nat := (l.map CudaBlock.size).sum

/-! ## Operations -/

/-- Appends an entry to the pool registry (lines 393-397). -/
def AddCudaBlockUnsafe (s : MemoryManager) (ptr size : Nat) : MemoryManager :=
  { s with m_CudaBlocks := s.m_CudaBlocks ++ [{ ptr := ptr, size := size }] }

/-- The body of the loop of `FindBestBlockUnsafe` (lines 324-328): `temp` at
position `idx` replaces the candidate `best` when it is large enough and there
is no candidate yet or it is strictly smaller than the candidate. -/
def FindBestStep (size : Nat) (temp : Block) (idx : Nat) :
    Option (Nat × Block) → Option (Nat × Block)
  | none => if size ≤ temp.m_Size then some (idx, temp) else none
  | some (bi, b) =>
    if size ≤ temp.m_Size ∧ temp.m_Size < b.m_Size then some (idx, temp) else some (bi, b)

/-- The loop of `FindBestBlockUnsafe` (lines 322-330). `idx` is the position of
`temp`, `best` the position and the block of the best candidate so far. -/
def FindBestLoop (size : Nat) : List Block → Nat → Option (Nat × Block) → Option (Nat × Block)
  | [], _, best => best
  | temp :: rest, idx, best => FindBestLoop size rest (idx + 1) (FindBestStep size temp idx best)

/-- Best-fit search (lines 319-332): position and block of the chosen free
block (`best`; `prev` is the node before that position), `none` for `nullptr`. -/
def FindBestBlockUnsafe (free : List Block) (size : Nat) : Option (Nat × Block) :=
  FindBestLoop size free 0 none

/-- Splits or unlinks the free block at position `i` (lines 292-316). Returns
the block `curr` as it is handed out and the new free list. -/
def ExtractBlockUnsafe (free : List Block) (i : Nat) (size : Nat) (stolen : Bool) :
    Option (Block × List Block) :=
  match free[i]? with
  | none => none
  | some curr =>
    if curr.m_Size = size then
      some (curr, free.eraseIdx i)
    else
      let remaining := subSz curr.m_Size size
      let newBlock : Block :=
        { m_Data := curr.m_Data + size, m_Size := remaining, m_IsHead := stolen,
          m_Annotation := none }
      some ({ curr with m_Size := size }, free.set i newBlock)

/-- Obtains memory from the device (lines 222-289). Returns the new state and
the position of `curr` in the free list; `none` when a `CUDA_CHECK` or a
`NEURO_ASSERT` fails. With a non-empty free list the assertion of line 242
forces the branch of line 246, so the code after it runs only when the free
list is empty. -/
def AllocateBlockUnsafe (s : MemoryManager) (size : Nat) (dev : Option Nat) :
    Option (MemoryManager × Nat) :=
  match s.m_FreeBlocks.getLast? with
  | some last =>
    let extra_size := ceilInt (subSz size last.m_Size) CUDA_GRANULARITY
    match cudaMalloc dev extra_size with
    | none => none
    | some data =>
      if data = last.m_Data + last.m_Size then
        let s1 := AddCudaBlockUnsafe s data extra_size
        some ({ s1 with
                m_FreeBlocks := s.m_FreeBlocks.dropLast ++
                  [{ last with m_Size := addSz last.m_Size extra_size }] },
              s.m_FreeBlocks.length - 1)
      else none
  | none =>
    let size1 := ceilInt size CUDA_GRANULARITY
    match cudaMalloc dev size1 with
    | none => none
    | some data =>
      let s1 := AddCudaBlockUnsafe s data size1
      if data = 0 then none
      else
        let before := s.m_FreeBlocks.takeWhile (fun next => next.m_Data < data)
        let after := s.m_FreeBlocks.dropWhile (fun next => next.m_Data < data)
        let curr : Block :=
          { m_Data := data, m_Size := size1, m_IsHead := false, m_Annotation := none }
        some ({ s1 with m_FreeBlocks := before ++ curr :: after }, before.length)

/-- Pre-grows the allocator (lines 335-341). -/
def Reserve (s : MemoryManager) (size : Nat) (dev : Option Nat) :
    Option (EMemStatus × MemoryManager) :=
  match AllocateBlockUnsafe s size dev with
  | none => none
  | some (s1, _) => some (EMemStatus.MEM_STATUS_SUCCESS, { s1 with m_Size := size })

/-- Lines 86-111 of `Allocate`: extract the block at position `i`, push it on
the used list, update the counters, return its address. -/
def AllocateFinish (s : MemoryManager) (i : Nat) (size : Nat) ( annotation : Option String) :
    Option (EMemStatus × Nat × MemoryManager) :=
  match ExtractBlockUnsafe s.m_FreeBlocks i size false with
  | none => none
  | some (best, free1) =>
    let best1 : Block := { best with m_Annotation := annotation }
    let allocated := addSz s.m_AllocatedMemSize size
    some (EMemStatus.MEM_STATUS_SUCCESS, best1.m_Data,
      { s with
        m_FreeBlocks := free1
        m_UsedBlocks := best1 :: s.m_UsedBlocks
        m_AllocatedMemSize := allocated
        m_AllocatedMemSizePeak := max allocated s.m_AllocatedMemSizePeak })

/-- The call `Allocate(ptr, size, annotation)` (lines 66-112): status, the
value stored in `*ptr`, and the new state; `none` when the call is fatal. -/
def Allocate (s : MemoryManager) (size : Nat) ( annotation : Option String)
    (dev : Option Nat) : Option (EMemStatus × Nat × MemoryManager) :=
  let size1 := ceilInt size MEM_GRANULARITY
  match FindBestBlockUnsafe s.m_FreeBlocks size1 with
  | some (i, _) => AllocateFinish s i size1 annotation
  | none =>
    if !s.m_CannotGrow then
      match AllocateBlockUnsafe s size1 dev with
      | none => none
      | some (s1, i) => AllocateFinish s1 i size1 annotation
    else
      some (EMemStatus.MEM_STATUS_OUT_OF_MEMORY, 0, s)

/-- Lines 191-205 of `ReleaseBlockUnsafe`: `before` is the part of the free list
up to and including `prev`. When `prev` ends where `curr` starts and `curr` is
not a head, `prev` grows by the size of `curr` and takes its place; otherwise
`curr` is linked behind `prev`. Returns the nodes in front of `curr` and `curr`. -/
def mergeWithPrev (before : List Block) (curr : Block) : List Block × Block :=
  match before.getLast? with
  | some prev =>
    if prev.m_Data + prev.m_Size = curr.m_Data ∧ curr.m_IsHead = false then
      (before.dropLast, { prev with m_Size := addSz prev.m_Size curr.m_Size })
    else (before, curr)
  | none => (before, curr)

/-- Lines 207-217 of `ReleaseBlockUnsafe`: `after` starts at `next`. When `curr`
ends where `next` starts and `next` is not a head, `curr` grows by the size of
`next`, which is dropped; otherwise `next` is linked behind `curr`. -/
def mergeWithNext (front : List Block) (curr : Block) (after : List Block) : List Block :=
  match after with
  | next :: rest =>
    if curr.m_Data + curr.m_Size = next.m_Data ∧ next.m_IsHead = false then
      front ++ { curr with m_Size := addSz curr.m_Size next.m_Size } :: rest
    else front ++ curr :: next :: rest
  | [] => front ++ [curr]

/-- Returns a block to the free list (lines 182-218): `curr` has already been
unlinked from the used list; it is inserted at its address-sorted position and
merged with the predecessor and the successor where the code allows it. -/
def ReleaseBlockUnsafe (free : List Block) (curr : Block) : List Block :=
  let before := free.takeWhile (fun iter => iter.m_Data < curr.m_Data)
  let after := free.dropWhile (fun iter => iter.m_Data < curr.m_Data)
  let merged := mergeWithPrev before curr
  mergeWithNext merged.1 merged.2 after

/-- The call `Release(ptr)` (lines 115-144). -/
def Release (s : MemoryManager) (ptr : Nat) : EMemStatus × MemoryManager :=
  if ptr = 0 then (EMemStatus.MEM_STATUS_SUCCESS, s)
  else
    match s.m_UsedBlocks.find? (fun curr => curr.m_Data == ptr) with
    | none => (EMemStatus.MEM_STATUS_INVALID_ARGUMENT, s)
    | some curr =>
      (EMemStatus.MEM_STATUS_SUCCESS,
        { s with
          m_AllocatedMemSize := subSz s.m_AllocatedMemSize curr.m_Size
          m_UsedBlocks := s.m_UsedBlocks.eraseP (fun b => b.m_Data == ptr)
          m_FreeBlocks := ReleaseBlockUnsafe s.m_FreeBlocks curr })

/-! ## Runs of the allocator -/

/-- A call of the public interface, with the answer of the device for the
calls that may reach `cudaMalloc`. -/
inductive Op where
  | reserve (size : Nat) (dev : Option Nat)
  | allocate (size : Nat) ( annotation : Option String) (dev : Option Nat)
  | release (ptr : Nat)
  deriving DecidableEq, Repr

/-- One call; `none` when the call is fatal. -/
def step (s : MemoryManager) : Op → Option MemoryManager
  | Op.reserve size dev => (Reserve s size dev).map (fun r => r.2)
  | Op.allocate size annotation dev => (Allocate s size annotation dev).map (fun r => r.2.2)
  | Op.release ptr => some (Release s ptr).2

/-- A sequence of calls, from left to right. -/
def run (s : MemoryManager) : List Op → Option MemoryManager
  | [] => some s
  | op :: ops =>
    match step s op with
    | none => none
    | some s1 => run s1 ops

/-- The states reachable from the empty allocator. -/
def Reachable (s : MemoryManager) : Prop :=
  ∃ (cannotGrow : Bool) (ops : List Op), run (MemoryManager.empty cannotGrow) ops = some s

/-! ## Specification predicates -/

/-- What the best-fit loop has established about the part `seen` of the free
list it has scanned: no candidate means no block of `seen` is large enough; a
candidate is a block of `seen` that is large enough, no larger than any other
block that is large enough, and strictly smaller than each earlier one. -/
def BestOf (size : Nat) (seen : List Block) : Option (Nat × Block) → Prop
  | none => ∀ c ∈ seen, c.m_Size < size
  | some (i, b) =>
    seen[i]? = some b ∧ size ≤ b.m_Size ∧
      (∀ c ∈ seen, size ≤ c.m_Size → b.m_Size ≤ c.m_Size) ∧
      (∀ j c, j < i → seen[j]? = some c → size ≤ c.m_Size → b.m_Size < c.m_Size)

/-- Every block of the list has a non-null base address and lies in the
64-bit address space. -/
def BlocksInSpace (l : List Block) : Prop :=
  ∀ b ∈ l, b.m_Data ≠ 0 ∧ b.m_Data + b.m_Size < SIZE_T_RANGE

/-- The invariant of the allocator: the blocks of both lists lie in the address
space, the bytes of the two lists add up to the bytes of the pool registry, and
the allocated-byte counter is the `size_t` sum of the used sizes. -/
def Inv (s : MemoryManager) : Prop :=
  BlocksInSpace s.m_FreeBlocks ∧ BlocksInSpace s.m_UsedBlocks ∧
    blockBytes s.m_UsedBlocks + blockBytes s.m_FreeBlocks = poolBytes s.m_CudaBlocks ∧
    s.m_AllocatedMemSize = blockBytes s.m_UsedBlocks % SIZE_T_RANGE

/-! ## Example states -/

/-- A fixed-capacity allocator with three free blocks of sizes 1024, 512 and 2048. -/
def exThreeFree : MemoryManager :=
  { m_FreeBlocks :=
      [⟨4096, 1024, false, none⟩, ⟨8192, 512, false, none⟩, ⟨16384, 2048, false, none⟩],
    m_UsedBlocks := [], m_CudaBlocks := [], m_AllocatedMemSize := 0,
    m_AllocatedMemSizePeak := 0, m_Size := 0, m_CannotGrow := true }

/-- A run in fixed-capacity mode: reserve a pool, allocate twice, release the
first block. -/
def exRunOps : List Op :=
  [Op.reserve 1024 (some 131072), Op.allocate 100 none none, Op.allocate 200 none none,
    Op.release 131072]

/-- The state the run `exRunOps` ends in. -/
def exRunState : MemoryManager :=
  { m_FreeBlocks := [⟨131072, 512, false, none⟩, ⟨132096, 130048, false, none⟩],
    m_UsedBlocks := [⟨131584, 512, false, none⟩],
    m_CudaBlocks := [⟨131072, 131072⟩],
    m_AllocatedMemSize := 512, m_AllocatedMemSizePeak := 1024, m_Size := 1024,
    m_CannotGrow := true }

/-- A fixed-capacity allocator with one used block. -/
def exOneUsed : MemoryManager :=
  { m_FreeBlocks := [⟨131584, 130560, false, none⟩],
    m_UsedBlocks := [⟨131072, 512, false, none⟩],
    m_CudaBlocks := [⟨131072, 131072⟩],
    m_AllocatedMemSize := 512, m_AllocatedMemSizePeak := 512, m_Size := 1024,
    m_CannotGrow := true }

/-- A fixed-capacity allocator whose only free block has 256 bytes. -/
def exSmallFree : MemoryManager :=
  { m_FreeBlocks := [⟨4096, 256, false, none⟩],
    m_UsedBlocks := [], m_CudaBlocks := [], m_AllocatedMemSize := 0,
    m_AllocatedMemSizePeak := 0, m_Size := 0, m_CannotGrow := true }

/-- A fixed-capacity allocator right after `Reserve(1024)` with the pool at 131072. -/
def exReserved : MemoryManager :=
  { m_FreeBlocks := [⟨131072, 131072, false, none⟩],
    m_UsedBlocks := [], m_CudaBlocks := [⟨131072, 131072⟩],
    m_AllocatedMemSize := 0, m_AllocatedMemSizePeak := 0, m_Size := 1024,
    m_CannotGrow := true }

/-- The state after `Reserve(1024)`, `Allocate(100)` and `Allocate(200)` in
fixed-capacity mode with the pool at 131072. -/
def exTwoUsed : MemoryManager :=
  { m_FreeBlocks := [⟨132096, 130048, false, none⟩],
    m_UsedBlocks := [⟨131584, 512, false, none⟩, ⟨131072, 512, false, none⟩],
    m_CudaBlocks := [⟨131072, 131072⟩],
    m_AllocatedMemSize := 1024, m_AllocatedMemSizePeak := 1024, m_Size := 1024,
    m_CannotGrow := true }

/-- A pool is reserved and used up, a second pool is obtained right behind it
for the next allocation, then both blocks are released. -/
def exTwoPoolOps : List Op :=
  [Op.reserve 1024 (some 131072), Op.allocate 131072 none none,
    Op.allocate 512 none (some 262144), Op.release 131072, Op.release 262144]

/-- The state after `exTwoPoolOps`: two pools, one free block. -/
def exTwoPoolState : MemoryManager :=
  { m_FreeBlocks := [⟨131072, 262144, false, none⟩], m_UsedBlocks := [],
    m_CudaBlocks := [⟨131072, 131072⟩, ⟨262144, 131072⟩],
    m_AllocatedMemSize := 0, m_AllocatedMemSizePeak := 131584, m_Size := 1024,
    m_CannotGrow := false }

/-- The free list `free` with one block that covers the adjacent blocks `A` and
`B` (base address of `A`, both sizes together) at the address-sorted position. -/
def coalesced (free : List Block) (A B : Block) : List Block :=
  free.takeWhile (fun iter => iter.m_Data < A.m_Data) ++
    ⟨A.m_Data, A.m_Size + B.m_Size, A.m_IsHead, A.m_Annotation⟩ ::
      free.dropWhile (fun iter => iter.m_Data < A.m_Data)

/-- A run in fixed-capacity mode that leaves a free block of 1024 bytes at the
start of the pool and then releases two adjacent blocks of 512 bytes whose
other neighbours stay in use. -/
def exPairOps : List Op :=
  [Op.reserve 1024 (some 131072), Op.allocate 1024 none none, Op.allocate 512 none none,
    Op.allocate 512 none none, Op.allocate 512 none none, Op.allocate 128512 none none,
    Op.release 131072, Op.release 132608, Op.release 133120]

/-- The state after `exPairOps`. -/
def exPairState : MemoryManager :=
  { m_FreeBlocks := [⟨131072, 1024, false, none⟩, ⟨132608, 1024, false, none⟩],
    m_UsedBlocks := [⟨133632, 128512, false, none⟩, ⟨132096, 512, false, none⟩],
    m_CudaBlocks := [⟨131072, 131072⟩],
    m_AllocatedMemSize := 129024, m_AllocatedMemSizePeak := 131072, m_Size := 1024,
    m_CannotGrow := true }

/-- The state before the two adjacent blocks at 132608 and 133120 are released:
the pool is used up by five blocks. -/
def exPairBefore : MemoryManager :=
  { m_FreeBlocks := [],
    m_UsedBlocks := [⟨133632, 128512, false, none⟩, ⟨133120, 512, false, none⟩,
      ⟨132608, 512, false, none⟩, ⟨132096, 512, false, none⟩, ⟨131072, 1024, false, none⟩],
    m_CudaBlocks := [⟨131072, 131072⟩],
    m_AllocatedMemSize := 131072, m_AllocatedMemSizePeak := 131072, m_Size := 1024,
    m_CannotGrow := true }

/-- Every block of the list has a size that is a multiple of `MEM_GRANULARITY`. -/
def SizesGranular (l : List Block) : Prop := ∀ b ∈ l, MEM_GRANULARITY ∣ b.m_Size

/-- The call `CUDA_CHECK(cudaFree(data))`: `devFree data` tells whether the
device accepts the pointer; `none` when the call is fatal. -/
def cudaFree (devFree : Nat → Bool) (data : Nat) : Option Unit :=
  if devFree data then some () else none

/-- The first loop of `ReleaseAllUnsafe` (lines 150-151): while the used list is
not empty its first block is released. Returns the used and the free list. -/
def releaseAllUsed : List Block → List Block → List Block × List Block
  | [], free => ([], free)
  | curr :: rest, free => releaseAllUsed rest (ReleaseBlockUnsafe free curr)

/-- The second loop of `ReleaseAllUnsafe` (lines 154-159): every node of the free
list is unlinked and deleted. -/
def deleteFreeBlocks : List Block → List Block
  | [] => []
  | _ :: rest => deleteFreeBlocks rest

/-- The third loop of `ReleaseAllUnsafe` (lines 160-164): every entry of the pool
registry is passed to `cudaFree`. Returns the pointers passed, in order. -/
def cudaFreeAll (devFree : Nat → Bool) : List CudaBlock → Option (List Nat)
  | [] => some []
  | it :: rest =>
    match cudaFree devFree it.ptr with
    | none => none
    | some _ =>
      match cudaFreeAll devFree rest with
      | none => none
      | some freed => some (it.ptr :: freed)

/-- The call `ReleaseAllUnsafe()` (lines 147-168): status, new state and the
pointers passed to `cudaFree`; `none` when a `CUDA_CHECK` fails. The pool
registry and the allocated-byte counter are not touched. -/
def ReleaseAllUnsafe (s : MemoryManager) (devFree : Nat → Bool) :
    Option (EMemStatus × MemoryManager × List Nat) :=
  let released := releaseAllUsed s.m_UsedBlocks s.m_FreeBlocks
  let free1 := deleteFreeBlocks released.2
  match cudaFreeAll devFree s.m_CudaBlocks with
  | none => none
  | some freed =>
    some (EMemStatus.MEM_STATUS_SUCCESS,
      { s with m_UsedBlocks := released.1, m_FreeBlocks := free1 }, freed)

/-- A growable allocator whose only free block (512 bytes) is the end of the pool. -/
def exLastSmall : MemoryManager :=
  { m_FreeBlocks := [⟨261632, 512, false, none⟩],
    m_UsedBlocks := [⟨131072, 130560, false, none⟩],
    m_CudaBlocks := [⟨131072, 131072⟩],
    m_AllocatedMemSize := 130560, m_AllocatedMemSizePeak := 130560, m_Size := 1024,
    m_CannotGrow := false }

/-- The state after `Reserve(1024)` and three allocations of 512 bytes in
fixed-capacity mode with the pool at 131072. -/
def exThreeUsed : MemoryManager :=
  { m_FreeBlocks := [⟨132608, 129536, false, none⟩],
    m_UsedBlocks := [⟨132096, 512, false, none⟩, ⟨131584, 512, false, none⟩,
      ⟨131072, 512, false, none⟩],
    m_CudaBlocks := [⟨131072, 131072⟩],
    m_AllocatedMemSize := 1536, m_AllocatedMemSizePeak := 1536, m_Size := 1024,
    m_CannotGrow := true }

/-- The address `a` lies in the range `[base, base + size)` of the block. -/
def Block.covers (b : Block) (a : Nat) : Bool :=
  decide (b.m_Data ≤ a ∧ a < b.m_Data + b.m_Size)

/-- The address `a` lies in the range `[ptr, ptr + size)` of the pool. -/
def CudaBlock.covers (p : CudaBlock) (a : Nat) : Bool :=
  decide (p.ptr ≤ a ∧ a < p.ptr + p.size)

/-- One when the range of the block contains the address `a`, zero otherwise. -/
def coverCount (b : Block) (a : Nat) : Nat := if b.covers a then 1 else 0

/-- Number of blocks of the list whose range contains the address `a`. -/
def blocksAt (l : List Block) (a : Nat) : Nat := l.countP (fun b => b.covers a)

/-- Number of pools of the registry whose range contains the address `a`. -/
def poolsAt (l : List CudaBlock) (a : Nat) : Nat := l.countP (fun p => p.covers a)

/-- Invariant of the layout: every address lies in as many blocks (used and
free together) as pools. -/
def AddressInv (s : MemoryManager) : Prop :=
  ∀ a, blocksAt s.m_UsedBlocks a + blocksAt s.m_FreeBlocks a = poolsAt s.m_CudaBlocks a

/-- A run in fixed-capacity mode with a request of size zero: the block of size
zero is released after the block in front of it, then 1024 bytes are allocated. -/
def exZeroOps : List Op :=
  [Op.reserve 1024 (some 131072), Op.allocate 512 none none, Op.allocate 0 none none,
    Op.release 131072, Op.release 131584, Op.allocate 1024 none none]

/-- The state after `exZeroOps`. -/
def exZeroState : MemoryManager :=
  { m_FreeBlocks := [⟨132096, 130048, false, none⟩, ⟨131584, 0, false, none⟩],
    m_UsedBlocks := [⟨131072, 1024, false, none⟩],
    m_CudaBlocks := [⟨131072, 131072⟩],
    m_AllocatedMemSize := 1024, m_AllocatedMemSizePeak := 1024, m_Size := 1024,
    m_CannotGrow := true }

/-! ## Buffer storage (`Neuro/src/Tensors/Storage.cpp`): data model

One `Storage` object is a record of its members. Pointers are natural numbers
with `0` for `nullptr`. The allocators, the device copies and the threads that
run the transfer callbacks are collaborators: the pointers they return are
arguments of the operations, the calls made on them are recorded in order in
`calls`, and a transfer that was issued and whose callback has not run yet is
recorded in `offloadInFlight` / `preloadInFlight`. An operation returns `none`
when it is fatal (a failed `NEURO_ASSERT` or `CUDA_CHECK`). -/

/-- Values of `m_DataLocation`. -/
inductive ELocation where
  | None
  | Host
  | Device
  deriving DecidableEq, Repr

/-- The capability bits of `m_Type`: each field is the value of the test
`m_Type & ST_...` for that bit. -/
structure StorageType where
  ST_RefCounted : Bool
  ST_DeviceRefCounted : Bool
  ST_Offloadable : Bool
  ST_KeepDevMem : Bool
  deriving DecidableEq, Repr

/-- A call made by a `Storage` on one of its collaborators: the plain host
allocator, the pinned host allocator, the device allocator (allocation, free,
scheduled free, asynchronous offload and preload) and the blocking
`cudaMemcpy`. -/
inductive StorageCall where
  | HostAllocate (size ptr : Nat)
  | HostPinnedAllocate (size ptr : Nat)
  | HostFree (ptr : Nat)
  | HostPinnedFree (ptr : Nat)
  | DeviceAllocate (size ptr : Nat)
  | DeviceFree (ptr : Nat)
  | DeviceScheduleFree (ptr : Nat)
  | DeviceOffload (dst src size : Nat)
  | DevicePreload (dst src size : Nat)
  | MemcpyHostToDevice (dst src size : Nat)
  | MemcpyDeviceToHost (dst src size : Nat)
  deriving DecidableEq, Repr

/-- The members of a `Storage`. `m_OffloadFuture` and `m_PreloadFuture` hold
the value of `valid()` of the future. The last three fields are not members:
`offloadInFlight` (`preloadInFlight`) says that an offload (a preload) was
issued to the device and its completion callback has not run yet, and `calls`
is the sequence of calls made on the collaborators so far. -/
structure Storage where
  m_Type : StorageType
  m_AllocSize : Nat
  m_Size : Nat
  m_DataPtr : Nat
  m_DeviceDataPtr : Nat
  m_DataLocation : ELocation
  m_DataRefCount : Int
  m_DeviceDataRefCount : Int
  m_OffloadRequested : Bool
  m_OffloadDone : Bool
  m_PreloadRequested : Bool
  m_FreeDeviceMemOnOffloadDone : Bool
  m_FreePinnedMemOnOffloadDone : Bool
  m_OffloadFuture : Bool
  m_PreloadFuture : Bool
  offloadInFlight : Bool
  preloadInFlight : Bool
  calls : List StorageCall
  deriving DecidableEq, Repr

/-- The constructor `Storage(type, size, name)` (lines 28-36): the type, both
sizes and the location `None` are set by the constructor; the other members
keep their initial values: null pointers, zero counts, flags off, futures
without a shared state. No transfer is in flight and no call has been made. -/
def Storage.new (type : StorageType) (size : Nat) : Storage :=
  { m_Type := type, m_AllocSize := size, m_Size := size,
    m_DataPtr := 0, m_DeviceDataPtr := 0, m_DataLocation := ELocation.None,
    m_DataRefCount := 0, m_DeviceDataRefCount := 0,
    m_OffloadRequested := false, m_OffloadDone := false, m_PreloadRequested := false,
    m_FreeDeviceMemOnOffloadDone := false, m_FreePinnedMemOnOffloadDone := false,
    m_OffloadFuture := false, m_PreloadFuture := false,
    offloadInFlight := false, preloadInFlight := false, calls := [] }

/-- The size of a `float`, the element type of both data pointers. -/
def SIZEOF_FLOAT : Nat := 4

/-- The inline accessor `SizeInBytes()`: requested elements times the element size. -/
def Storage.SizeInBytes (s : Storage) : Nat := s.m_Size * SIZEOF_FLOAT

/-- The inline accessor `AllocSizeInBytes()`: allocated elements times the element size. -/
def Storage.AllocSizeInBytes (s : Storage) : Nat := s.m_AllocSize * SIZEOF_FLOAT

/-- The constant `MIN_SIZE_TO_OFFLOAD`, 4 MB (line 25). -/
def MIN_SIZE_TO_OFFLOAD : Nat := 4 * 1024 * 1024

/-- Record a call on a collaborator. -/
def Storage.call (s : Storage) (c : StorageCall) : Storage :=
  { s with calls := s.calls ++ [c] }

/-! ## Buffer storage: operations -/

/-- `Storage::AllocateOnHost` (lines 209-228). `host` is the pointer the host
allocator stores into `m_DataPtr`; its status is not looked at. -/
def Storage.AllocateOnHost (s : Storage) (host : Nat) : Option Storage :=
  if s.m_AllocSize = 0 then some s
  else if s.m_DeviceDataPtr ≠ 0 then none
  else if s.m_DataPtr ≠ 0 then some s
  else
    some { s with
      m_DataPtr := host,
      m_DataLocation := ELocation.Host,
      calls := s.calls ++
        [if s.m_Type.ST_Offloadable then StorageCall.HostPinnedAllocate s.AllocSizeInBytes host
         else StorageCall.HostAllocate s.AllocSizeInBytes host] }

/-- `Storage::OffloadDoneCallback` (lines 342-372), run by the device runtime
when the offload copy has completed. -/
def Storage.OffloadDoneCallback (s : Storage) : Storage :=
  let s1 : Storage :=
    if s.m_FreeDeviceMemOnOffloadDone then
      { s with
        calls := s.calls ++ [StorageCall.DeviceScheduleFree s.m_DeviceDataPtr],
        m_DeviceDataPtr := 0,
        m_DataLocation := if s.m_DataPtr ≠ 0 then ELocation.Host else s.m_DataLocation }
    else s
  let s2 : Storage :=
    if s1.m_FreePinnedMemOnOffloadDone then
      { s1 with
        calls := s1.calls ++ [StorageCall.HostPinnedFree s1.m_DataPtr],
        m_DataPtr := 0,
        m_DataLocation := ELocation.None }
    else s1
  { s2 with
    m_OffloadDone := true,
    m_FreeDeviceMemOnOffloadDone := false,
    m_FreePinnedMemOnOffloadDone := false,
    offloadInFlight := false }

/-- `Storage::PreloadDoneCallback` (lines 375-386), run by the device runtime
when the preload copy has completed. -/
def Storage.PreloadDoneCallback (s : Storage) : Storage :=
  { s with
    m_DataLocation := if s.m_DeviceDataPtr ≠ 0 then ELocation.Device else s.m_DataLocation,
    preloadInFlight := false }

/-- The statement `m_OffloadFuture.get()`: it is fatal on a future without a
shared state; otherwise it returns once the callback has fulfilled the promise,
so a callback still outstanding runs first, and the future is left without a
shared state. -/
def Storage.offloadFutureGet (s : Storage) : Option Storage :=
  if s.m_OffloadFuture then
    some { (if s.offloadInFlight then s.OffloadDoneCallback else s) with
      m_OffloadFuture := false }
  else none

/-- The statement `m_PreloadFuture.get()`, as `offloadFutureGet`. -/
def Storage.preloadFutureGet (s : Storage) : Option Storage :=
  if s.m_PreloadFuture then
    some { (if s.preloadInFlight then s.PreloadDoneCallback else s) with
      m_PreloadFuture := false }
  else none

/-- `Storage::WaitForOffload` (lines 389-402). -/
def Storage.WaitForOffload (s : Storage) : Option Storage :=
  if s.m_OffloadRequested then
    s.offloadFutureGet.bind fun s1 => some { s1 with m_OffloadRequested := false }
  else some s

/-- `Storage::WaitForPreload` (lines 405-418). -/
def Storage.WaitForPreload (s : Storage) : Option Storage :=
  if s.m_PreloadRequested then
    s.preloadFutureGet.bind fun s1 => some { s1 with m_PreloadRequested := false }
  else some s

/-- `Storage::FreeOnHost` (lines 231-261). -/
def Storage.FreeOnHost (s : Storage) : Option Storage :=
  if s.m_OffloadRequested ∧ ¬ s.m_OffloadDone then
    some { s with m_FreePinnedMemOnOffloadDone := true }
  else if s.m_DeviceDataPtr ≠ 0 then none
  else if s.m_DataPtr = 0 then some s
  else
    some { s with
      calls := s.calls ++
        [if s.m_Type.ST_Offloadable then StorageCall.HostPinnedFree s.m_DataPtr
         else StorageCall.HostFree s.m_DataPtr],
      m_DataPtr := 0,
      m_DataLocation := ELocation.None }

/-- `Storage::AllocateOnDevice` (lines 264-296). `host` is the answer of the
host allocator and `dev` the answer of the device allocator: `none` for a
status other than success, which `CUDA_CHECK` makes fatal, `some d` for the
pointer it stores. -/
def Storage.AllocateOnDevice (s : Storage) (host : Nat) (dev : Option Nat) : Option Storage :=
  if s.m_AllocSize = 0 then some s
  else
    (if s.m_DataPtr = 0 then s.AllocateOnHost host else some s).bind fun s1 =>
    (if s1.m_OffloadFuture then
      Storage.offloadFutureGet { s1 with m_OffloadRequested := false }
     else some s1).bind fun s2 =>
    (if s2.m_PreloadFuture then
      Storage.preloadFutureGet { s2 with m_PreloadRequested := false }
     else some s2).bind fun s3 =>
    if s3.m_DataPtr = 0 then none
    else if s3.m_DeviceDataPtr ≠ 0 then some s3
    else
      match dev with
      | none => none
      | some d =>
        some { s3 with
          m_DeviceDataPtr := d,
          calls := s3.calls ++ [StorageCall.DeviceAllocate s3.AllocSizeInBytes d] }

/-- `Storage::FreeOnDevice(force, forceWaitForOffload)` (lines 299-339). -/
def Storage.FreeOnDevice (s : Storage) (force forceWaitForOffload : Bool) : Option Storage :=
  s.WaitForPreload.bind fun s1 =>
  (if forceWaitForOffload then s1.WaitForOffload else some s1).bind fun s2 =>
  if s2.m_OffloadRequested ∧ ¬ s2.m_OffloadDone then
    some { s2 with m_FreeDeviceMemOnOffloadDone := true }
  else if s2.m_DeviceDataPtr = 0 then some s2
  else if ¬ force ∧ s2.m_Type.ST_KeepDevMem then some s2
  else
    some { s2 with
      m_FreeDeviceMemOnOffloadDone := false,
      calls := s2.calls ++ [StorageCall.DeviceFree s2.m_DeviceDataPtr],
      m_DeviceDataPtr := 0,
      m_DataLocation := if s2.m_DataPtr ≠ 0 then ELocation.Host else s2.m_DataLocation }

/-- The value of the 32-bit `int` that holds `x` modulo `2 ^ 32`, in two's
complement: the conversion `(int)n` of a `size_t`, and the result of `+=` and
`-=` on the `int` reference counts (a signed overflow, which C++ leaves
undefined, is taken to wrap around). -/
def toInt (x : Int) : Int := (x + 2 ^ 31) % 2 ^ 32 - 2 ^ 31

/-- `Storage::IncDeviceRef` (lines 667-675): `m_DeviceDataRefCount += (int)n`. -/
def Storage.IncDeviceRef (s : Storage) (n : Nat) : Storage :=
  if s.m_Type.ST_DeviceRefCounted then
    { s with m_DeviceDataRefCount := toInt (s.m_DeviceDataRefCount + toInt (n : Int)) }
  else s

/-- `Storage::Offload(force)` (lines 433-478), built without
`DISABLE_OFFLOADABLE_SUPPORT` (its definition at line 11 is commented out). -/
def Storage.Offload (s : Storage) (force : Bool) : Option Storage :=
  if s.m_AllocSize = 0 then some s
  else if s.m_Type.ST_Offloadable then
    if s.m_DataPtr = 0 then none
    else if s.m_DeviceDataPtr = 0 ∨ s.m_DataLocation = ELocation.Host then some s
    else if ¬ force ∧ s.SizeInBytes < MIN_SIZE_TO_OFFLOAD then some (s.IncDeviceRef 1)
    else if s.m_OffloadRequested then some s
    else
      some { s with
        m_OffloadFuture := true,
        m_OffloadRequested := true,
        m_OffloadDone := false,
        calls := s.calls ++
          [StorageCall.DeviceOffload s.m_DataPtr s.m_DeviceDataPtr s.SizeInBytes],
        offloadInFlight := true }
  else some s

/-- `Storage::CopyToDevice` (lines 534-563). -/
def Storage.CopyToDevice (s : Storage) (host : Nat) (dev : Option Nat) : Option Storage :=
  (if s.m_PreloadRequested then
    s.WaitForPreload.bind fun s1 =>
      if s1.m_DataLocation = ELocation.Device then some s1 else none
   else some s).bind fun s1 =>
  if s1.m_DataLocation = ELocation.Device then
    if s1.m_DeviceDataPtr = 0 then none else some s1
  else if s1.m_DataLocation ≠ ELocation.Host then none
  else
    (if s1.m_DeviceDataPtr = 0 then s1.AllocateOnDevice host dev else some s1).bind fun s2 =>
    if s2.m_DataPtr = 0 then none
    else if s2.m_DeviceDataPtr = 0 then none
    else
      some { s2 with
        calls := s2.calls ++
          [StorageCall.MemcpyHostToDevice s2.m_DeviceDataPtr s2.m_DataPtr s2.SizeInBytes],
        m_DataLocation := ELocation.Device }

/-- `Storage::CopyToHost(allowAlloc)` (lines 566-604). -/
def Storage.CopyToHost (s : Storage) (allowAlloc : Bool) (host : Nat) : Option Storage :=
  (if s.m_PreloadRequested then s.WaitForPreload else some s).bind fun s1 =>
  if s1.m_DataLocation = ELocation.Host then
    if s1.m_DataPtr = 0 then none else some s1
  else
    (if allowAlloc ∧ s1.m_DataPtr = 0 then s1.AllocateOnHost host
     else if s1.m_DataLocation = ELocation.None then none
     else if s1.m_DataPtr = 0 ∨ s1.m_DeviceDataPtr = 0 then none
     else if s1.m_OffloadRequested ∧ s1.m_Type.ST_Offloadable then s1.WaitForOffload
     else
      some (s1.call
        (StorageCall.MemcpyDeviceToHost s1.m_DataPtr s1.m_DeviceDataPtr s1.SizeInBytes))).bind
    fun s2 => some { s2 with m_DataLocation := ELocation.Host }

/-- `Storage::OverrideHost` (lines 625-637). -/
def Storage.OverrideHost (s : Storage) (host : Nat) : Option Storage :=
  if s.m_DataLocation = ELocation.Host then
    if s.m_DataPtr = 0 then none else some s
  else
    (if s.m_DataPtr = 0 then s.AllocateOnHost host else some s).bind fun s1 =>
    some { s1 with m_DataLocation := ELocation.Host }

/-- `Storage::OverrideDevice` (lines 640-654). -/
def Storage.OverrideDevice (s : Storage) (host : Nat) (dev : Option Nat) : Option Storage :=
  if s.m_DataLocation = ELocation.Device then
    if s.m_DeviceDataPtr = 0 then none else some s
  else
    (if s.m_DataPtr = 0 then s.AllocateOnHost host else some s).bind fun s1 =>
    (if s1.m_DeviceDataPtr = 0 then s1.AllocateOnDevice host dev else some s1).bind fun s2 =>
    some { s2 with m_DataLocation := ELocation.Device }

/-! ## Buffer storage: example states -/

/-- A storage without capabilities. -/
def exPlainType : StorageType := ⟨false, false, false, false⟩

/-- An offloadable storage. -/
def exOffloadableType : StorageType := ⟨false, false, true, false⟩

/-- An offloadable storage that keeps its device memory. -/
def exKeepType : StorageType := ⟨false, false, true, true⟩

/-- A storage of size zero after `OverrideHost`. -/
def exEmptyHost : Storage :=
  { Storage.new exPlainType 0 with m_DataLocation := ELocation.Host }

/-- A storage of size zero after `OverrideDevice`. -/
def exEmptyDevice : Storage :=
  { Storage.new exPlainType 0 with m_DataLocation := ELocation.Device }

/-- A storage of 1024 elements with host memory at 4096 and device memory at
8192, the state after `AllocateOnDevice` on a new storage. -/
def exBoth (type : StorageType) : Storage :=
  { Storage.new type 1024 with
    m_DataPtr := 4096, m_DeviceDataPtr := 8192, m_DataLocation := ELocation.Host,
    calls :=
      [if type.ST_Offloadable then StorageCall.HostPinnedAllocate 4096 4096
       else StorageCall.HostAllocate 4096 4096,
       StorageCall.DeviceAllocate 4096 8192] }

/-- The state `exBoth` once its data is on the device and a forced offload has
been requested: the copy is in flight. -/
def exOffloading (type : StorageType) : Storage :=
  { exBoth type with
    m_DataLocation := ELocation.Device,
    m_OffloadFuture := true, m_OffloadRequested := true, m_OffloadDone := false,
    offloadInFlight := true,
    calls := (exBoth type).calls ++ [StorageCall.DeviceOffload 4096 8192 4096] }

/-- The state after `FreeOnHost` during the offload and the completion
callback: the host memory is gone, the device memory is still there. -/
def exDeviceOnly : Storage :=
  { exOffloading exOffloadableType with
    m_DataPtr := 0, m_DataLocation := ELocation.None,
    m_OffloadDone := true, offloadInFlight := false,
    calls := (exOffloading exOffloadableType).calls ++ [StorageCall.HostPinnedFree 4096] }

/-- The state after `FreeOnDevice(false, false)` during the offload of a
storage that keeps its device memory, and the completion callback: the device
memory has been handed back. -/
def exKeepFreed : Storage :=
  { exOffloading exKeepType with
    m_DeviceDataPtr := 0, m_DataLocation := ELocation.Host,
    m_OffloadDone := true, offloadInFlight := false,
    calls := (exOffloading exKeepType).calls ++ [StorageCall.DeviceScheduleFree 8192] }

/-! ## Buffer storage: transfers, resizing and reference counts -/

/-- `Storage::Preload` (lines 481-531), built without
`DISABLE_OFFLOADABLE_SUPPORT`. -/
def Storage.Preload (s : Storage) (host : Nat) (dev : Option Nat) : Option Storage :=
  if s.m_AllocSize = 0 then some s
  else if s.m_Type.ST_Offloadable then
    (if s.m_OffloadRequested ∧ ¬ s.m_OffloadDone then
      (if s.m_FreePinnedMemOnOffloadDone then none
       else some { s with m_FreeDeviceMemOnOffloadDone := false })
     else some s).bind fun s1 =>
    if s1.m_DataLocation = ELocation.Device then some s1
    else if s1.m_DataPtr = 0 then none
    else
      (if s1.m_DeviceDataPtr = 0 then s1.AllocateOnDevice host dev else some s1).bind fun s2 =>
      if s2.m_DataPtr = 0 ∨ s2.m_DeviceDataPtr = 0 then none
      else if s2.m_PreloadRequested then some s2
      else
        some { s2 with
          m_PreloadFuture := true,
          m_PreloadRequested := true,
          calls := s2.calls ++
            [StorageCall.DevicePreload s2.m_DeviceDataPtr s2.m_DataPtr s2.SizeInBytes],
          preloadInFlight := true }
  else some s

/-- `Storage::SyncToHost` (lines 607-622). -/
def Storage.SyncToHost (s : Storage) : Option Storage :=
  if s.m_DataLocation = ELocation.Host then
    if s.m_DataPtr = 0 then none else some s
  else if s.m_DataLocation = ELocation.None then none
  else if s.m_DataPtr = 0 ∨ s.m_DeviceDataPtr = 0 then none
  else
    some (s.call
      (StorageCall.MemcpyDeviceToHost s.m_DataPtr s.m_DeviceDataPtr s.SizeInBytes))

/-- `Storage::Resize` (lines 161-187). -/
def Storage.Resize (s : Storage) (size host : Nat) (dev : Option Nat) : Option Storage :=
  if size < s.m_AllocSize then some { s with m_Size := size }
  else
    let s0 : Storage := { s with m_AllocSize := size, m_Size := size }
    (if s0.m_DeviceDataPtr ≠ 0 then s0.FreeOnDevice true true else some s0).bind fun s1 =>
    (if s1.m_DataPtr ≠ 0 then s1.FreeOnHost else some s1).bind fun s2 =>
    (if s0.m_DataPtr ≠ 0 then s2.AllocateOnHost host else some s2).bind fun s3 =>
    if s0.m_DeviceDataPtr ≠ 0 then s3.AllocateOnDevice host dev else some s3

/-- `Storage::Release` (lines 199-206). -/
def Storage.Release (s : Storage) : Option Storage :=
  (s.FreeOnDevice false true).bind fun s1 =>
  s1.FreeOnHost.bind fun s2 =>
  some { s2 with
    m_DataLocation := ELocation.None, m_DeviceDataRefCount := 0, m_DataRefCount := 0 }

/-- The conversion of an `int` to `size_t` that the comparison `n <= count` of
a `size_t` with an `int` makes before it compares. -/
def intToSizeT (c : Int) : Nat := (c % (SIZE_T_RANGE : Int)).toNat

/-- `Storage::ResetDeviceRef` (lines 657-664): `m_DeviceDataRefCount = (int)n`. -/
def Storage.ResetDeviceRef (s : Storage) (n : Nat) : Storage :=
  if s.m_Type.ST_DeviceRefCounted then
    { s with m_DeviceDataRefCount := toInt (n : Int) }
  else s

/-- `Storage::DecDeviceRef` (lines 678-693): the assertion compares `n` with
the count converted to `size_t`, then `m_DeviceDataRefCount -= (int)n`. The
call `FreeOnDevice()` of line 691 takes the default arguments of the
declaration in `Storage.h`, which is not among the sources: they are the
arguments `force` and `forceWaitForOffload` here. -/
def Storage.DecDeviceRef (s : Storage) (n : Nat) (force forceWaitForOffload : Bool) :
    Option Storage :=
  if ¬ s.m_Type.ST_DeviceRefCounted then some s
  else if ¬ n ≤ intToSizeT s.m_DeviceDataRefCount then none
  else
    let s1 : Storage :=
      { s with m_DeviceDataRefCount := toInt (s.m_DeviceDataRefCount - toInt (n : Int)) }
    if s1.m_DeviceDataRefCount ≤ 0 ∧ s1.m_Type.ST_DeviceRefCounted then
      s1.FreeOnDevice force forceWaitForOffload
    else some s1

/-- `Storage::ResetRef` (lines 696-700): `m_DataRefCount = (int)n`. -/
def Storage.ResetRef (s : Storage) (n : Nat) : Storage :=
  { s with m_DataRefCount := toInt (n : Int) }

/-- `Storage::IncRef` (lines 703-708): `m_DataRefCount += (int)n`. -/
def Storage.IncRef (s : Storage) (n : Nat) : Option Storage :=
  if ¬ s.m_Type.ST_RefCounted then none
  else some { s with m_DataRefCount := toInt (s.m_DataRefCount + toInt (n : Int)) }

/-- `Storage::DecRef` (lines 711-724): the assertion compares `n` with the
count converted to `size_t`, then `m_DataRefCount -= (int)n`. The
call `FreeOnDevice()` of line 721 takes the default arguments of the
declaration in `Storage.h`, which is not among the sources: they are the
arguments `force` and `forceWaitForOffload` here. -/
def Storage.DecRef (s : Storage) (n : Nat) (force forceWaitForOffload : Bool) :
    Option Storage :=
  if ¬ s.m_Type.ST_RefCounted then none
  else if ¬ n ≤ intToSizeT s.m_DataRefCount then none
  else
    let s1 : Storage :=
      { s with m_DataRefCount := toInt (s.m_DataRefCount - toInt (n : Int)) }
    if s1.m_DataRefCount ≤ 0 ∧ s1.m_Type.ST_RefCounted then
      (s1.FreeOnDevice force forceWaitForOffload).bind fun s2 => s2.FreeOnHost
    else some s1

/-- The non-const `Storage::Data` (lines 727-734): the state it leaves; the
pointer it returns is `m_DataPtr` of that state. -/
def Storage.Data (s : Storage) (host : Nat) : Option Storage :=
  (if s.m_DataPtr = 0 then s.AllocateOnHost host else some s).bind fun s1 =>
  if s1.m_DataLocation = ELocation.Host then some s1 else none

/-- `Storage::ChangeType` (lines 137-158); the CUDA events it creates and
destroys are not part of the record. -/
def Storage.ChangeType (s : Storage) (type : StorageType) : Option Storage :=
  if s.m_Type = type then some s
  else if s.m_DataPtr ≠ 0 ∨ s.m_DeviceDataPtr ≠ 0 then none
  else some { s with m_Type := type }

/-! ## Buffer storage: runs -/

/-- A call of a member function of one `Storage`, with the answers of the
allocators for the calls that may allocate, or the completion of a transfer
(`OffloadDone`, `PreloadDone`: the device runtime runs the callback). -/
inductive StorageOp where
  | AllocateOnHost (host : Nat)
  | AllocateOnDevice (host : Nat) (dev : Option Nat)
  | FreeOnHost
  | FreeOnDevice (force forceWaitForOffload : Bool)
  | WaitForOffload
  | WaitForPreload
  | Offload (force : Bool)
  | Preload (host : Nat) (dev : Option Nat)
  | CopyToDevice (host : Nat) (dev : Option Nat)
  | CopyToHost (allowAlloc : Bool) (host : Nat)
  | SyncToHost
  | OverrideHost (host : Nat)
  | OverrideDevice (host : Nat) (dev : Option Nat)
  | Resize (size host : Nat) (dev : Option Nat)
  | Release
  | ResetDeviceRef (n : Nat)
  | IncDeviceRef (n : Nat)
  | DecDeviceRef (n : Nat)
  | ResetRef (n : Nat)
  | IncRef (n : Nat)
  | DecRef (n : Nat)
  | Data (host : Nat)
  | ChangeType (type : StorageType)
  | OffloadDone
  | PreloadDone
  deriving DecidableEq, Repr

/-- One step of a run; `none` when the call is fatal, or when a completion is
named while no such transfer is in flight. `force` and `forceWaitForOffload`
are the default arguments of `FreeOnDevice`. -/
def Storage.step (force forceWaitForOffload : Bool) (s : Storage) : StorageOp → Option Storage
  | StorageOp.AllocateOnHost host => s.AllocateOnHost host
  | StorageOp.AllocateOnDevice host dev => s.AllocateOnDevice host dev
  | StorageOp.FreeOnHost => s.FreeOnHost
  | StorageOp.FreeOnDevice f w => s.FreeOnDevice f w
  | StorageOp.WaitForOffload => s.WaitForOffload
  | StorageOp.WaitForPreload => s.WaitForPreload
  | StorageOp.Offload f => s.Offload f
  | StorageOp.Preload host dev => s.Preload host dev
  | StorageOp.CopyToDevice host dev => s.CopyToDevice host dev
  | StorageOp.CopyToHost allowAlloc host => s.CopyToHost allowAlloc host
  | StorageOp.SyncToHost => s.SyncToHost
  | StorageOp.OverrideHost host => s.OverrideHost host
  | StorageOp.OverrideDevice host dev => s.OverrideDevice host dev
  | StorageOp.Resize size host dev => s.Resize size host dev
  | StorageOp.Release => s.Release
  | StorageOp.ResetDeviceRef n => some (s.ResetDeviceRef n)
  | StorageOp.IncDeviceRef n => some (s.IncDeviceRef n)
  | StorageOp.DecDeviceRef n => s.DecDeviceRef n force forceWaitForOffload
  | StorageOp.ResetRef n => some (s.ResetRef n)
  | StorageOp.IncRef n => s.IncRef n
  | StorageOp.DecRef n => s.DecRef n force forceWaitForOffload
  | StorageOp.Data host => s.Data host
  | StorageOp.ChangeType type => s.ChangeType type
  | StorageOp.OffloadDone => if s.offloadInFlight then some s.OffloadDoneCallback else none
  | StorageOp.PreloadDone => if s.preloadInFlight then some s.PreloadDoneCallback else none

/-- A sequence of steps, from left to right. -/
def Storage.run (force forceWaitForOffload : Bool) (s : Storage) :
    List StorageOp → Option Storage
  | [] => some s
  | op :: ops =>
    match Storage.step force forceWaitForOffload s op with
    | none => none
    | some s1 => Storage.run force forceWaitForOffload s1 ops

/-- The states a `Storage` reaches from its construction. -/
def Storage.Reachable (s : Storage) : Prop :=
  ∃ (force forceWaitForOffload : Bool) (type : StorageType) (size : Nat) (ops : List StorageOp),
    Storage.run force forceWaitForOffload (Storage.new type size) ops = some s

/-- The number of offload copies requested from the device so far. -/
def Storage.offloadsIssued (s : Storage) : Nat :=
  s.calls.countP fun c =>
    match c with
    | StorageCall.DeviceOffload _ _ _ => true
    | _ => false

/-- The number of preload copies requested from the device so far. -/
def Storage.preloadsIssued (s : Storage) : Nat :=
  s.calls.countP fun c =>
    match c with
    | StorageCall.DevicePreload _ _ _ => true
    | _ => false

/-- The bookkeeping of the transfers agrees with what is in flight: an offload
is in flight exactly when it is requested and not done; a requested transfer
has its future armed; a preload in flight is requested and has a device
pointer to copy to; and the deferred free of the device memory is flagged only
while an offload and no preload is in flight. -/
def Storage.TransfersTracked (s : Storage) : Prop :=
  (s.offloadInFlight = true → s.m_OffloadRequested = true ∧ s.m_OffloadDone = false) ∧
  (s.m_OffloadRequested = true → s.m_OffloadDone = false → s.offloadInFlight = true) ∧
  (s.m_OffloadRequested = true → s.m_OffloadFuture = true) ∧
  (s.preloadInFlight = true → s.m_PreloadRequested = true ∧ s.m_DeviceDataPtr ≠ 0) ∧
  (s.m_PreloadRequested = true → s.m_PreloadFuture = true) ∧
  (s.m_FreeDeviceMemOnOffloadDone = true →
    s.offloadInFlight = true ∧ s.preloadInFlight = false)

/-- The step from `s` to `s1` keeps the bookkeeping of the transfers and
requests no copy from the device. -/
def Storage.NoNewTransfer (s s1 : Storage) : Prop :=
  (s.TransfersTracked → s1.TransfersTracked) ∧
  s1.offloadsIssued = s.offloadsIssued ∧ s1.preloadsIssued = s.preloadsIssued

/-- An offloadable storage that counts host and device references. -/
def exCountedType : StorageType := ⟨true, true, true, false⟩

/-- The state `exBoth` with its data on the device. -/
def exResident (type : StorageType) : Storage :=
  { exBoth type with m_DataLocation := ELocation.Device }

/-- The run that frees the device memory of a storage that keeps it: the
offload is requested, `FreeOnDevice(false, false)` is called while the copy is
in flight, and the copy completes. -/
def exKeepOps : List StorageOp :=
  [StorageOp.AllocateOnDevice 4096 (some 8192), StorageOp.OverrideDevice 0 none,
    StorageOp.Offload true, StorageOp.FreeOnDevice false false, StorageOp.OffloadDone]

/-- The state `exOffloading` after `OverrideHost` and `Preload`: the offload
and a preload are both in flight. -/
def exTwoTransfers : Storage :=
  { exOffloading exOffloadableType with
    m_DataLocation := ELocation.Host,
    m_PreloadFuture := true, m_PreloadRequested := true, preloadInFlight := true,
    calls := (exOffloading exOffloadableType).calls ++ [StorageCall.DevicePreload 8192 4096 4096] }

/-- The run that leads to `exTwoTransfers`. -/
def exTwoTransfersOps : List StorageOp :=
  [StorageOp.AllocateOnDevice 4096 (some 8192), StorageOp.OverrideDevice 0 none,
    StorageOp.Offload true, StorageOp.OverrideHost 0, StorageOp.Preload 0 none]

/-- A storage that counts host and device references and keeps its device
memory. -/
def exKeepCountedType : StorageType := ⟨true, true, true, true⟩

/-- A storage that counts references and keeps its device memory, holding host
and device memory, with both counts at 1. -/
def exKeepCounted : Storage :=
  { exResident exKeepCountedType with m_DataRefCount := 1, m_DeviceDataRefCount := 1 }

/-- The run that leads to `exKeepCounted`. -/
def exKeepCountedOps : List StorageOp :=
  [StorageOp.AllocateOnDevice 4096 (some 8192), StorageOp.OverrideDevice 0 none,
    StorageOp.ResetRef 1, StorageOp.ResetDeviceRef 1]

/-- A new storage that counts references, with the device count set to 1 and
no memory allocated. -/
def exCountedNew : Storage :=
  { Storage.new exCountedType 1024 with m_DeviceDataRefCount := 1 }

/-- The const `Storage::Data` (lines 737-741): the pointer it returns. -/
def Storage.DataConst (s : Storage) : Option Nat :=
  if s.m_DataLocation = ELocation.Host then some s.m_DataPtr else none

/-- The non-const `Storage::DeviceData` (lines 744-750): the pointer it
returns. -/
def Storage.DeviceData (s : Storage) : Option Nat :=
  if s.m_DeviceDataPtr = 0 then none
  else if s.m_DataLocation ≠ ELocation.Device then none
  else if ¬ (¬ s.m_OffloadRequested ∨ s.m_OffloadDone) then none
  else some s.m_DeviceDataPtr

/-- The const `Storage::DeviceData` (lines 753-757): the pointer it returns. -/
def Storage.DeviceDataConst (s : Storage) : Option Nat :=
  if s.m_DataLocation = ELocation.Device then some s.m_DeviceDataPtr else none

/-- The number of blocking device-to-host copies (`cudaMemcpy`) made so far. -/
def Storage.copiesToHost (s : Storage) : Nat :=
  s.calls.countP fun c =>
    match c with
    | StorageCall.MemcpyDeviceToHost _ _ _ => true
    | _ => false

/-- The run that requests a preload on a new offloadable storage. -/
def exPreloadingOps : List StorageOp :=
  [StorageOp.AllocateOnDevice 4096 (some 8192), StorageOp.Preload 0 none]

/-- The state `exBoth` with a preload requested and its copy in flight. -/
def exPreloading : Storage :=
  { exBoth exOffloadableType with
    m_PreloadFuture := true, m_PreloadRequested := true, preloadInFlight := true,
    calls := (exBoth exOffloadableType).calls ++ [StorageCall.DevicePreload 8192 4096 4096] }

/-- The state `exBoth` after `Resize(1024)`, with the host allocator answering
12288 and the device allocator 16384: both buffers have been freed and
allocated again. -/
def exResized : Storage :=
  { exBoth exPlainType with
    m_DataPtr := 12288, m_DeviceDataPtr := 16384,
    calls := (exBoth exPlainType).calls ++
      [StorageCall.DeviceFree 8192, StorageCall.HostFree 4096,
        StorageCall.HostAllocate 4096 12288, StorageCall.DeviceAllocate 4096 16384] }

/-- The states a run passes through, the start state first; `none` when a call
of the run is fatal. -/
def runStates (s : MemoryManager) : List Op → Option (List MemoryManager)
  | [] => some [s]
  | op :: ops =>
    match step s op with
    | none => none
    | some s1 => (runStates s1 ops).map fun l => s :: l

/-- The largest value of a list of counter readings, `0` for none. -/
def maxReading (l : List Nat) : Nat := l.foldr max 0

/-- A run on one reserved pool in fixed-capacity mode that releases every
pointer it was given: `Allocate(512)` returns 131072 and `Allocate(0)` returns
131584. -/
def exZeroReleasedOps : List Op :=
  [Op.reserve 1024 (some 131072), Op.allocate 512 none none, Op.allocate 0 none none,
    Op.release 131072, Op.release 131584]

/-- The state the run `exZeroReleasedOps` ends in. -/
def exZeroReleased : MemoryManager :=
  { m_FreeBlocks := [⟨131072, 131072, false, none⟩, ⟨131584, 0, false, none⟩],
    m_UsedBlocks := [], m_CudaBlocks := [⟨131072, 131072⟩],
    m_AllocatedMemSize := 0, m_AllocatedMemSizePeak := 512, m_Size := 1024,
    m_CannotGrow := true }

/-- The state after `Reserve(1024)`, `Allocate(0)` and `Allocate(512)` in
fixed-capacity mode with the pool at 131072: both calls returned 131072. -/
def exSameBase : MemoryManager :=
  { m_FreeBlocks := [⟨131584, 130560, false, none⟩],
    m_UsedBlocks := [⟨131072, 512, false, none⟩, ⟨131072, 0, false, none⟩],
    m_CudaBlocks := [⟨131072, 131072⟩],
    m_AllocatedMemSize := 512, m_AllocatedMemSizePeak := 512, m_Size := 1024,
    m_CannotGrow := true }

/-- The base address and the size of a block. -/
def Block.extent (b : Block) : Nat × Nat := (b.m_Data, b.m_Size)

/-- The state after the first four calls of `exTwoPoolOps`: each of the two
pools begins with a block of its own, the first free, the second in use. -/
def exTwoPoolHeld : MemoryManager :=
  { m_FreeBlocks := [⟨131072, 131072, false, none⟩, ⟨262656, 130560, false, none⟩],
    m_UsedBlocks := [⟨262144, 512, false, none⟩],
    m_CudaBlocks := [⟨131072, 131072⟩, ⟨262144, 131072⟩],
    m_AllocatedMemSize := 512, m_AllocatedMemSizePeak := 131584, m_Size := 1024,
    m_CannotGrow := false }

/-! # Theorems -/

/-! ## Rounding -/

theorem ceilInt_ge (m n : Nat) (hn : 0 < n) (h : m + n - 1 < SIZE_T_RANGE) :
    m ≤ ceilInt m n := by
  unfold ceilInt
  rw [Nat.mod_eq_of_lt h]
  have h1 : (m + n - 1) / n * n ≤ m + n - 1 := Nat.div_mul_le_self _ _
  rw [Nat.mod_eq_of_lt (by omega)]
  have h2 := Nat.div_add_mod (m + n - 1) n
  have h3 := Nat.mod_lt (m + n - 1) hn
  rw [Nat.mul_comm] at h2
  omega

/-! ## Best fit -/

theorem BestOf_snoc (size : Nat) (seen : List Block) (temp : Block)
    (best : Option (Nat × Block)) (h : BestOf size seen best) :
    BestOf size (seen ++ [temp]) (FindBestStep size temp seen.length best) := by
  cases best with
  | none =>
    unfold BestOf at h
    by_cases hs : size ≤ temp.m_Size
    · rw [FindBestStep, if_pos hs]
      refine ⟨by simp, hs, ?_, ?_⟩
      · intro c hc hcs
        rcases List.mem_append.1 hc with hc | hc
        · exact absurd (h c hc) (by omega)
        · simp at hc; subst hc; exact le_refl _
      · intro j c hj hjc hcs
        rw [List.getElem?_append_left hj] at hjc
        exact absurd (h c (List.getElem?_mem hjc)) (by omega)
    · rw [FindBestStep, if_neg hs]
      intro c hc
      rcases List.mem_append.1 hc with hc | hc
      · exact h c hc
      · simp at hc; subst hc; omega
  | some p =>
    obtain ⟨bi, b⟩ := p
    unfold BestOf at h
    obtain ⟨h1, h2, h3, h4⟩ := h
    have hbi : bi < seen.length := by
      rcases Nat.lt_or_ge bi seen.length with h | h
      · exact h
      · rw [List.getElem?_eq_none h] at h1; cases h1
    by_cases hs : size ≤ temp.m_Size ∧ temp.m_Size < b.m_Size
    · rw [FindBestStep, if_pos hs]
      refine ⟨by simp, hs.1, ?_, ?_⟩
      · intro c hc hcs
        rcases List.mem_append.1 hc with hc | hc
        · have := h3 c hc hcs; omega
        · simp at hc; subst hc; exact le_refl _
      · intro j c hj hjc hcs
        rw [List.getElem?_append_left hj] at hjc
        have := h3 c (List.getElem?_mem hjc) hcs; omega
    · rw [FindBestStep, if_neg hs]
      refine ⟨by rw [List.getElem?_append_left hbi]; exact h1, h2, ?_, ?_⟩
      · intro c hc hcs
        rcases List.mem_append.1 hc with hc | hc
        · exact h3 c hc hcs
        · simp at hc; subst hc
          by_contra hlt
          exact hs ⟨hcs, by omega⟩
      · intro j c hj hjc hcs
        rw [List.getElem?_append_left (by omega)] at hjc
        exact h4 j c hj hjc hcs

theorem FindBestLoop_spec (size : Nat) (l : List Block) :
    ∀ (seen : List Block) (best : Option (Nat × Block)), BestOf size seen best →
      BestOf size (seen ++ l) (FindBestLoop size l seen.length best) := by
  induction l with
  | nil => intro seen best h; simpa [FindBestLoop] using h
  | cons temp rest ih =>
    intro seen best h
    have := ih (seen ++ [temp]) _ (BestOf_snoc size seen temp best h)
    simpa [FindBestLoop, List.append_assoc] using this

theorem FindBestBlockUnsafe_spec (free : List Block) (size : Nat) :
    BestOf size free (FindBestBlockUnsafe free size) := by
  have := FindBestLoop_spec size free [] none (by simp [BestOf])
  simpa [FindBestBlockUnsafe] using this

theorem AllocateFinish_of_getElem (s : MemoryManager) (i size : Nat)
    ( annotation : Option String) (b : Block) (h : s.m_FreeBlocks[i]? = some b) :
    ∃ s1, AllocateFinish s i size annotation =
      some (EMemStatus.MEM_STATUS_SUCCESS, b.m_Data, s1) := by
  unfold AllocateFinish ExtractBlockUnsafe
  rw [h]
  by_cases hs : b.m_Size = size
  · simp [hs]
  · simp [hs]

/-- C1: for every allocator state and request size, with `r` the request
rounded by `ceilInt` to the granularity 512: a block returned by
`FindBestBlockUnsafe` is a block of the free list with size at least `r` (hence
at least the request when the rounding does not overflow), no larger than any
free block of size at least `r`, and `Allocate` hands out that block;
`FindBestBlockUnsafe` returns no block exactly when every free block is
smaller than `r`. -/
theorem best_fit_selected_block (s : MemoryManager) (size : Nat)
    ( annotation : Option String) (dev : Option Nat) :
    (∀ i best,
      FindBestBlockUnsafe s.m_FreeBlocks (ceilInt size MEM_GRANULARITY) = some (i, best) →
      s.m_FreeBlocks[i]? = some best ∧
      ceilInt size MEM_GRANULARITY ≤ best.m_Size ∧
      (size + 511 < SIZE_T_RANGE → size ≤ best.m_Size) ∧
      (∀ c ∈ s.m_FreeBlocks, ceilInt size MEM_GRANULARITY ≤ c.m_Size →
        best.m_Size ≤ c.m_Size) ∧
      ∃ s1, Allocate s size annotation dev =
        some (EMemStatus.MEM_STATUS_SUCCESS, best.m_Data, s1)) ∧
    (FindBestBlockUnsafe s.m_FreeBlocks (ceilInt size MEM_GRANULARITY) = none ↔
      ∀ c ∈ s.m_FreeBlocks, c.m_Size < ceilInt size MEM_GRANULARITY) := by
  have hspec := FindBestBlockUnsafe_spec s.m_FreeBlocks (ceilInt size MEM_GRANULARITY)
  constructor
  · intro i best hb
    rw [hb] at hspec
    obtain ⟨h1, h2, h3, _⟩ := hspec
    refine ⟨h1, h2, ?_, h3, ?_⟩
    · intro hsz
      exact le_trans (ceilInt_ge size MEM_GRANULARITY (by decide)
        (by simpa [MEM_GRANULARITY] using hsz)) h2
    · unfold Allocate
      simp only [hb]
      exact AllocateFinish_of_getElem s i _ annotation best h1
  · constructor
    · intro hn
      rw [hn] at hspec
      exact hspec
    · intro hall
      cases hf : FindBestBlockUnsafe s.m_FreeBlocks (ceilInt size MEM_GRANULARITY) with
      | none => rfl
      | some p =>
        obtain ⟨i, b⟩ := p
        rw [hf] at hspec
        have := hall b (List.getElem?_mem hspec.1)
        have := hspec.2.1
        omega

/-- Witness for C1: among free blocks of sizes 1024, 512 and 2048 a request of
100 bytes selects the block of size 512. -/
theorem best_fit_selected_block_witness :
    FindBestBlockUnsafe exThreeFree.m_FreeBlocks (ceilInt 100 MEM_GRANULARITY) =
        some (1, ⟨8192, 512, false, none⟩) ∧
      (exThreeFree.m_FreeBlocks[1]? = some (⟨8192, 512, false, none⟩ : Block) ∧
      ceilInt 100 MEM_GRANULARITY ≤ (⟨8192, 512, false, none⟩ : Block).m_Size ∧
      (100 + 511 < SIZE_T_RANGE → 100 ≤ (⟨8192, 512, false, none⟩ : Block).m_Size) ∧
      (∀ c ∈ exThreeFree.m_FreeBlocks, ceilInt 100 MEM_GRANULARITY ≤ c.m_Size →
        (⟨8192, 512, false, none⟩ : Block).m_Size ≤ c.m_Size) ∧
      ∃ s1, Allocate exThreeFree 100 none none =
        some (EMemStatus.MEM_STATUS_SUCCESS, (⟨8192, 512, false, none⟩ : Block).m_Data, s1)) :=
  ⟨by decide,
    (best_fit_selected_block exThreeFree 100 none none).1 1 ⟨8192, 512, false, none⟩
      (by decide)⟩

/-! ## Release keeps the invariant -/

theorem blockBytes_append (a b : List Block) :
    blockBytes (a ++ b) = blockBytes a + blockBytes b := by
  simp [blockBytes]

theorem blockBytes_cons (a : Block) (l : List Block) :
    blockBytes (a :: l) = a.m_Size + blockBytes l := by
  simp [blockBytes]

theorem blockBytes_nil : blockBytes [] = 0 := rfl

theorem BlocksInSpace_append (a b : List Block) :
    BlocksInSpace (a ++ b) ↔ BlocksInSpace a ∧ BlocksInSpace b := by
  unfold BlocksInSpace
  constructor
  · intro h
    exact ⟨fun x hx => h x (List.mem_append_left _ hx), fun x hx => h x (List.mem_append_right _ hx)⟩
  · rintro ⟨h1, h2⟩ x hx
    rcases List.mem_append.1 hx with hx | hx
    · exact h1 x hx
    · exact h2 x hx

theorem BlocksInSpace_cons (a : Block) (l : List Block) :
    BlocksInSpace (a :: l) ↔
      (a.m_Data ≠ 0 ∧ a.m_Data + a.m_Size < SIZE_T_RANGE) ∧ BlocksInSpace l := by
  unfold BlocksInSpace
  simp

theorem BlocksInSpace_nil : BlocksInSpace [] := by
  intro b hb; cases hb

theorem addSz_of_lt (a b : Nat) (h : a + b < SIZE_T_RANGE) : addSz a b = a + b := by
  unfold addSz; exact Nat.mod_eq_of_lt h

theorem subSz_of_le (a b : Nat) (h : b ≤ a) (ha : a < SIZE_T_RANGE) : subSz a b = a - b := by
  unfold subSz
  rw [Nat.mod_eq_of_lt ha, Nat.mod_eq_of_lt (lt_of_le_of_lt h ha)]
  have : a + SIZE_T_RANGE - b = (a - b) + SIZE_T_RANGE := by omega
  rw [this, Nat.add_mod_right, Nat.mod_eq_of_lt (by omega)]

theorem getLast?_eq_some_split (l : List Block) (x : Block) (h : l.getLast? = some x) :
    l = l.dropLast ++ [x] := by
  rcases List.eq_nil_or_concat l with hl | ⟨l1, y, hl⟩
  · subst hl; simp at h
  · subst hl
    simp at h
    subst h
    simp

theorem mergeWithPrev_none (before : List Block) (curr : Block)
    (h : before.getLast? = none) : mergeWithPrev before curr = (before, curr) := by
  unfold mergeWithPrev; rw [h]

theorem mergeWithPrev_merge (before : List Block) (curr prev : Block)
    (h : before.getLast? = some prev)
    (hm : prev.m_Data + prev.m_Size = curr.m_Data ∧ curr.m_IsHead = false) :
    mergeWithPrev before curr =
      (before.dropLast, { prev with m_Size := addSz prev.m_Size curr.m_Size }) := by
  unfold mergeWithPrev; rw [h]; exact if_pos hm

theorem mergeWithPrev_keep (before : List Block) (curr prev : Block)
    (h : before.getLast? = some prev)
    (hm : ¬ (prev.m_Data + prev.m_Size = curr.m_Data ∧ curr.m_IsHead = false)) :
    mergeWithPrev before curr = (before, curr) := by
  unfold mergeWithPrev; rw [h]; exact if_neg hm

theorem mergeWithNext_nil (front : List Block) (curr : Block) :
    mergeWithNext front curr [] = front ++ [curr] := rfl

theorem mergeWithNext_merge (front : List Block) (curr next : Block) (rest : List Block)
    (hm : curr.m_Data + curr.m_Size = next.m_Data ∧ next.m_IsHead = false) :
    mergeWithNext front curr (next :: rest) =
      front ++ { curr with m_Size := addSz curr.m_Size next.m_Size } :: rest := by
  unfold mergeWithNext; exact if_pos hm

theorem mergeWithNext_keep (front : List Block) (curr next : Block) (rest : List Block)
    (hm : ¬ (curr.m_Data + curr.m_Size = next.m_Data ∧ next.m_IsHead = false)) :
    mergeWithNext front curr (next :: rest) = front ++ curr :: next :: rest := by
  unfold mergeWithNext; exact if_neg hm

theorem mergeWithPrev_spec (before : List Block) (curr : Block)
    (hb : BlocksInSpace before)
    (hc : curr.m_Data ≠ 0 ∧ curr.m_Data + curr.m_Size < SIZE_T_RANGE) :
    blockBytes (mergeWithPrev before curr).1 + (mergeWithPrev before curr).2.m_Size =
        blockBytes before + curr.m_Size ∧
      BlocksInSpace (mergeWithPrev before curr).1 ∧
      ((mergeWithPrev before curr).2.m_Data ≠ 0 ∧
        (mergeWithPrev before curr).2.m_Data + (mergeWithPrev before curr).2.m_Size <
          SIZE_T_RANGE) := by
  cases hl : before.getLast? with
  | none => rw [mergeWithPrev_none _ _ hl]; exact ⟨rfl, hb, hc⟩
  | some prev =>
    have hsplit := getLast?_eq_some_split before prev hl
    have hb2 := hb
    rw [hsplit, BlocksInSpace_append, BlocksInSpace_cons] at hb2
    obtain ⟨hd, hp, _⟩ := hb2
    by_cases hm : prev.m_Data + prev.m_Size = curr.m_Data ∧ curr.m_IsHead = false
    · rw [mergeWithPrev_merge _ _ _ hl hm]
      have hno : prev.m_Size + curr.m_Size < SIZE_T_RANGE := by omega
      rw [addSz_of_lt _ _ hno]
      refine ⟨?_, hd, hp.1, ?_⟩
      · conv_rhs => rw [hsplit]
        rw [blockBytes_append, blockBytes_cons, blockBytes_nil]
        simp only
        omega
      · show prev.m_Data + (prev.m_Size + curr.m_Size) < SIZE_T_RANGE
        omega
    · rw [mergeWithPrev_keep _ _ _ hl hm]
      exact ⟨rfl, hb, hc⟩

theorem mergeWithNext_spec (front : List Block) (curr : Block) (after : List Block)
    (hf : BlocksInSpace front)
    (hc : curr.m_Data ≠ 0 ∧ curr.m_Data + curr.m_Size < SIZE_T_RANGE)
    (ha : BlocksInSpace after) :
    blockBytes (mergeWithNext front curr after) =
        blockBytes front + curr.m_Size + blockBytes after ∧
      BlocksInSpace (mergeWithNext front curr after) := by
  cases after with
  | nil =>
    rw [mergeWithNext_nil, blockBytes_append, blockBytes_cons, blockBytes_nil,
      BlocksInSpace_append, BlocksInSpace_cons]
    exact ⟨by omega, hf, hc, BlocksInSpace_nil⟩
  | cons next rest =>
    rw [BlocksInSpace_cons] at ha
    obtain ⟨hn, hr⟩ := ha
    by_cases hm : curr.m_Data + curr.m_Size = next.m_Data ∧ next.m_IsHead = false
    · rw [mergeWithNext_merge _ _ _ _ hm]
      have hno : curr.m_Size + next.m_Size < SIZE_T_RANGE := by omega
      rw [addSz_of_lt _ _ hno, blockBytes_append, blockBytes_cons, blockBytes_cons,
        BlocksInSpace_append, BlocksInSpace_cons]
      refine ⟨by simp only; omega, hf, ⟨hc.1, ?_⟩, hr⟩
      show curr.m_Data + (curr.m_Size + next.m_Size) < SIZE_T_RANGE
      omega
    · rw [mergeWithNext_keep _ _ _ _ hm]
      rw [blockBytes_append, blockBytes_cons, blockBytes_cons,
        BlocksInSpace_append, BlocksInSpace_cons, BlocksInSpace_cons]
      exact ⟨by omega, hf, hc, hn, hr⟩

theorem ReleaseBlockUnsafe_spec (free : List Block) (curr : Block)
    (hf : BlocksInSpace free)
    (hc : curr.m_Data ≠ 0 ∧ curr.m_Data + curr.m_Size < SIZE_T_RANGE) :
    blockBytes (ReleaseBlockUnsafe free curr) = blockBytes free + curr.m_Size ∧
      BlocksInSpace (ReleaseBlockUnsafe free curr) := by
  unfold ReleaseBlockUnsafe
  have hsplit := List.takeWhile_append_dropWhile (fun iter => decide (iter.m_Data < curr.m_Data)) free
  have hf2 := hf
  rw [← hsplit, BlocksInSpace_append] at hf2
  obtain ⟨h1, h2, h3⟩ := mergeWithPrev_spec _ curr hf2.1 hc
  obtain ⟨h4, h5⟩ := mergeWithNext_spec _ _ _ h2 h3 hf2.2
  refine ⟨?_, h5⟩
  simp only at h4 ⊢
  rw [h4, h1]
  conv_rhs => rw [← hsplit]
  rw [blockBytes_append]
  omega

theorem find?_eraseP_bytes (p : Block → Bool) (l : List Block) (c : Block)
    (h : l.find? p = some c) :
    blockBytes l = c.m_Size + blockBytes (l.eraseP p) ∧ c ∈ l ∧
      (∀ b ∈ l.eraseP p, b ∈ l) := by
  induction l with
  | nil => simp at h
  | cons a l ih =>
    by_cases hp : p a = true
    · simp [List.find?, hp] at h
      subst h
      simp [List.eraseP, hp, blockBytes_cons]
      intro b hb; exact Or.inr hb
    · have hpa : p a = false := by simpa using hp
      simp [List.find?, hpa] at h
      obtain ⟨h1, h2, h3⟩ := ih h
      simp only [List.eraseP_cons, hpa, cond_false, blockBytes_cons]
      refine ⟨by omega, List.mem_cons_of_mem _ h2, ?_⟩
      intro b hb
      rcases List.mem_cons.1 hb with hb | hb
      · exact hb ▸ List.mem_cons_self _ _
      · exact List.mem_cons_of_mem _ (h3 b hb)

theorem Release_inv (s : MemoryManager) (ptr : Nat) (h : Inv s) : Inv (Release s ptr).2 := by
  unfold Release
  by_cases hp : ptr = 0
  · simp [hp]; exact h
  · simp only [hp, if_false]
    cases hf : s.m_UsedBlocks.find? (fun curr => curr.m_Data == ptr) with
    | none => exact h
    | some curr =>
      obtain ⟨h1, h2, h3, h4⟩ := h
      obtain ⟨e1, e2, e3⟩ := find?_eraseP_bytes _ _ _ hf
      obtain ⟨r1, r2⟩ := ReleaseBlockUnsafe_spec s.m_FreeBlocks curr h1 (h2 curr e2)
      refine ⟨r2, fun b hb => h2 b (e3 b hb), ?_, ?_⟩
      · simp only
        rw [r1]; omega
      · simp only
        rw [h4, e1]
        have hlt : curr.m_Size < SIZE_T_RANGE := by have := (h2 curr e2).2; omega
        unfold subSz
        rw [Nat.mod_mod, Nat.mod_eq_of_lt hlt]
        generalize blockBytes (List.eraseP (fun b => b.m_Data == ptr) s.m_UsedBlocks) = u
        unfold SIZE_T_RANGE at *
        omega

/-! ## Allocate and Reserve keep the invariant -/

theorem ceilInt_lt (m n : Nat) : ceilInt m n < SIZE_T_RANGE :=
  Nat.mod_lt _ (by decide)

theorem ceilInt_ge_of_ne_zero (m n : Nat) (hm : m < SIZE_T_RANGE) (hn : 0 < n)
    (hn2 : n ≤ SIZE_T_RANGE) (h : ceilInt m n ≠ 0) : m ≤ ceilInt m n := by
  by_cases hov : m + n - 1 < SIZE_T_RANGE
  · exact ceilInt_ge m n hn hov
  · exfalso
    apply h
    unfold ceilInt
    have h1 : (m + n - 1) % SIZE_T_RANGE = m + n - 1 - SIZE_T_RANGE := by
      rw [Nat.mod_eq_sub_mod (by omega)]
      exact Nat.mod_eq_of_lt (by omega)
    rw [h1, Nat.div_eq_of_lt (by omega)]
    simp

theorem cudaMalloc_some (dev : Option Nat) (size d : Nat) (h : cudaMalloc dev size = some d) :
    (size = 0 → d = 0) ∧ d + size < SIZE_T_RANGE := by
  unfold cudaMalloc at h
  cases dev with
  | none => simp at h
  | some x =>
    simp only at h
    by_cases hc : (size = 0 → x = 0) ∧ x + size < SIZE_T_RANGE
    · rw [if_pos hc] at h
      cases h
      exact hc
    · rw [if_neg hc] at h
      cases h

theorem poolBytes_append (a b : List CudaBlock) :
    poolBytes (a ++ b) = poolBytes a + poolBytes b := by
  simp [poolBytes]

theorem getElem?_split (l : List Block) (i : Nat) (b : Block) (h : l[i]? = some b) :
    l = l.take i ++ b :: l.drop (i + 1) ∧ l.eraseIdx i = l.take i ++ l.drop (i + 1) ∧
      ∀ x, l.set i x = l.take i ++ x :: l.drop (i + 1) := by
  obtain ⟨hi, hb⟩ := List.getElem?_eq_some.1 h
  refine ⟨?_, List.eraseIdx_eq_take_drop_succ l i, ?_⟩
  · rw [← hb, List.getElem_cons_drop l i hi, List.take_append_drop]
  · intro x
    rw [List.set_eq_take_append_cons_drop, if_pos hi]

/-- What `AllocateBlockUnsafe` guarantees on a state that satisfies the invariant. -/
theorem AllocateBlockUnsafe_spec (s s1 : MemoryManager) (size i : Nat) (dev : Option Nat)
    (hinv : Inv s) (h : AllocateBlockUnsafe s size dev = some (s1, i)) :
    Inv s1 ∧ s1.m_UsedBlocks = s.m_UsedBlocks ∧
      s1.m_AllocatedMemSize = s.m_AllocatedMemSize ∧
      (size < SIZE_T_RANGE → (∀ c ∈ s.m_FreeBlocks, c.m_Size < size) →
        ∃ b, s1.m_FreeBlocks[i]? = some b ∧ size ≤ b.m_Size) := by
  obtain ⟨hfree, hused, hsum, hcnt⟩ := hinv
  unfold AllocateBlockUnsafe at h
  cases hl : s.m_FreeBlocks.getLast? with
  | some last =>
    rw [hl] at h
    simp only at h
    cases hd : cudaMalloc dev (ceilInt (subSz size last.m_Size) CUDA_GRANULARITY) with
    | none => rw [hd] at h; cases h
    | some data =>
      rw [hd] at h
      simp only at h
      by_cases hadj : data = last.m_Data + last.m_Size
      · rw [if_pos hadj] at h
        obtain ⟨hz, hsp⟩ := cudaMalloc_some _ _ _ hd
        have hsplit := getLast?_eq_some_split _ _ hl
        have hfree2 := hfree
        rw [hsplit, BlocksInSpace_append, BlocksInSpace_cons] at hfree2
        obtain ⟨hdl, hlast, _⟩ := hfree2
        have hno : last.m_Size + ceilInt (subSz size last.m_Size) CUDA_GRANULARITY <
            SIZE_T_RANGE := by omega
        rw [addSz_of_lt _ _ hno] at h
        simp only [Option.some.injEq, Prod.mk.injEq] at h
        obtain ⟨hs1, hi⟩ := h
        subst hs1
        refine ⟨⟨?_, hused, ?_, hcnt⟩, rfl, rfl, ?_⟩
        · show BlocksInSpace (s.m_FreeBlocks.dropLast ++ [_])
          rw [BlocksInSpace_append, BlocksInSpace_cons]
          refine ⟨hdl, ⟨hlast.1, ?_⟩, BlocksInSpace_nil⟩
          show last.m_Data + (last.m_Size + _) < SIZE_T_RANGE
          omega
        · show blockBytes s.m_UsedBlocks + blockBytes (s.m_FreeBlocks.dropLast ++ [_]) =
            poolBytes (s.m_CudaBlocks ++ [_])
          rw [blockBytes_append, blockBytes_cons, blockBytes_nil, poolBytes_append]
          have hb : blockBytes s.m_FreeBlocks =
              blockBytes s.m_FreeBlocks.dropLast + last.m_Size := by
            conv_lhs => rw [hsplit]
            rw [blockBytes_append, blockBytes_cons, blockBytes_nil, Nat.add_zero]
          simp only [poolBytes, List.map_cons, List.map_nil, List.sum_cons, List.sum_nil]
          simp only [poolBytes] at hsum
          omega
        · intro hsz hall
          refine ⟨{ last with
            m_Size := last.m_Size + ceilInt (subSz size last.m_Size) CUDA_GRANULARITY }, ?_, ?_⟩
          · show (s.m_FreeBlocks.dropLast ++ [_])[i]? = some _
            rw [← hi]
            have : s.m_FreeBlocks.length - 1 = s.m_FreeBlocks.dropLast.length := by simp
            rw [this, List.getElem?_append_right (le_refl _)]
            simp
          · show size ≤ last.m_Size + _
            have hlt : last.m_Size < size := hall last (List.mem_of_getLast?_eq_some hl)
            have hsub : subSz size last.m_Size = size - last.m_Size :=
              subSz_of_le _ _ (by omega) hsz
            rw [hsub] at hz hno ⊢
            have hne : ceilInt (size - last.m_Size) CUDA_GRANULARITY ≠ 0 := by
              intro h0
              have := hz h0
              omega
            have := ceilInt_ge_of_ne_zero (size - last.m_Size) CUDA_GRANULARITY (by omega)
              (by decide) (by decide) hne
            omega
      · rw [if_neg hadj] at h; cases h
  | none =>
    rw [hl] at h
    simp only at h
    cases hd : cudaMalloc dev (ceilInt size CUDA_GRANULARITY) with
    | none => rw [hd] at h; cases h
    | some data =>
      rw [hd] at h
      simp only at h
      by_cases hnull : data = 0
      · rw [if_pos hnull] at h; cases h
      · rw [if_neg hnull] at h
        obtain ⟨hz, hsp⟩ := cudaMalloc_some _ _ _ hd
        have hnil : s.m_FreeBlocks = [] := List.getLast?_eq_none_iff.1 hl
        rw [hnil] at h
        simp only [List.takeWhile_nil, List.dropWhile_nil, List.nil_append, List.length_nil,
          Option.some.injEq, Prod.mk.injEq] at h
        obtain ⟨hs1, hi⟩ := h
        subst hs1
        refine ⟨⟨?_, hused, ?_, hcnt⟩, rfl, rfl, ?_⟩
        · show BlocksInSpace [_]
          rw [BlocksInSpace_cons]
          exact ⟨⟨hnull, hsp⟩, BlocksInSpace_nil⟩
        · show blockBytes s.m_UsedBlocks + blockBytes [_] = poolBytes (s.m_CudaBlocks ++ [_])
          rw [blockBytes_cons, blockBytes_nil, poolBytes_append]
          rw [hnil, blockBytes_nil] at hsum
          simp only [poolBytes, List.map_cons, List.map_nil, List.sum_cons, List.sum_nil]
          simp only [poolBytes] at hsum
          omega
        · intro hsz _
          refine ⟨Block.mk data (ceilInt size CUDA_GRANULARITY) false none, ?_, ?_⟩
          · rw [← hi]; rfl
          · show size ≤ ceilInt size CUDA_GRANULARITY
            exact ceilInt_ge_of_ne_zero size CUDA_GRANULARITY hsz (by decide) (by decide)
              (fun h0 => hnull (hz h0))

theorem AllocateFinish_inv (s s1 : MemoryManager) (i size p : Nat) ( annotation : Option String)
    (st : EMemStatus) (b : Block) (hinv : Inv s) (hb : s.m_FreeBlocks[i]? = some b)
    (hsz : size ≤ b.m_Size) (h : AllocateFinish s i size annotation = some (st, p, s1)) :
    Inv s1 := by
  obtain ⟨hfree, hused, hsum, hcnt⟩ := hinv
  obtain ⟨hsplit, herase, hset⟩ := getElem?_split _ _ _ hb
  have hfree2 := hfree
  rw [hsplit, BlocksInSpace_append, BlocksInSpace_cons] at hfree2
  obtain ⟨hpre, hbs, hpost⟩ := hfree2
  have hbytes : blockBytes s.m_FreeBlocks =
      blockBytes (s.m_FreeBlocks.take i) + (b.m_Size + blockBytes (s.m_FreeBlocks.drop (i + 1))) := by
    conv_lhs => rw [hsplit]
    rw [blockBytes_append, blockBytes_cons]
  have hcount : addSz s.m_AllocatedMemSize size =
      (size + blockBytes s.m_UsedBlocks) % SIZE_T_RANGE := by
    unfold addSz
    rw [hcnt, Nat.mod_add_mod, Nat.add_comm]
  unfold AllocateFinish ExtractBlockUnsafe at h
  rw [hb] at h
  simp only at h
  by_cases he : b.m_Size = size
  · rw [if_pos he] at h
    simp only [Option.some.injEq, Prod.mk.injEq] at h
    obtain ⟨_, _, hs1⟩ := h
    subst hs1
    refine ⟨?_, ?_, ?_, ?_⟩
    · show BlocksInSpace (s.m_FreeBlocks.eraseIdx i)
      rw [herase, BlocksInSpace_append]
      exact ⟨hpre, hpost⟩
    · show BlocksInSpace (_ :: s.m_UsedBlocks)
      rw [BlocksInSpace_cons]
      exact ⟨hbs, hused⟩
    · show blockBytes (_ :: s.m_UsedBlocks) + blockBytes (s.m_FreeBlocks.eraseIdx i) = _
      rw [herase, blockBytes_append, blockBytes_cons]
      simp only
      omega
    · show addSz s.m_AllocatedMemSize size = blockBytes (_ :: s.m_UsedBlocks) % SIZE_T_RANGE
      rw [blockBytes_cons, hcount]
      simp only [he]
  · rw [if_neg he] at h
    simp only [Option.some.injEq, Prod.mk.injEq] at h
    obtain ⟨_, _, hs1⟩ := h
    subst hs1
    have hsub : subSz b.m_Size size = b.m_Size - size := subSz_of_le _ _ hsz (by omega)
    refine ⟨?_, ?_, ?_, ?_⟩
    · show BlocksInSpace (s.m_FreeBlocks.set i _)
      rw [hset, BlocksInSpace_append, BlocksInSpace_cons, hsub]
      refine ⟨hpre, ⟨?_, ?_⟩, hpost⟩
      · show b.m_Data + size ≠ 0
        omega
      · show b.m_Data + size + (b.m_Size - size) < SIZE_T_RANGE
        omega
    · show BlocksInSpace (_ :: s.m_UsedBlocks)
      rw [BlocksInSpace_cons]
      refine ⟨⟨hbs.1, ?_⟩, hused⟩
      show b.m_Data + size < SIZE_T_RANGE
      omega
    · show blockBytes (_ :: s.m_UsedBlocks) + blockBytes (s.m_FreeBlocks.set i _) = _
      rw [hset, blockBytes_append, blockBytes_cons, blockBytes_cons, hsub]
      simp only
      omega
    · show addSz s.m_AllocatedMemSize size = blockBytes (_ :: s.m_UsedBlocks) % SIZE_T_RANGE
      rw [blockBytes_cons, hcount]

theorem Allocate_of_best (s : MemoryManager) (size i : Nat) ( annotation : Option String)
    (dev : Option Nat) (b : Block)
    (h : FindBestBlockUnsafe s.m_FreeBlocks (ceilInt size MEM_GRANULARITY) = some (i, b)) :
    Allocate s size annotation dev =
      AllocateFinish s i (ceilInt size MEM_GRANULARITY) annotation := by
  simp only [Allocate, h]

theorem Allocate_of_none_fixed (s : MemoryManager) (size : Nat) ( annotation : Option String)
    (dev : Option Nat)
    (h : FindBestBlockUnsafe s.m_FreeBlocks (ceilInt size MEM_GRANULARITY) = none)
    (hg : s.m_CannotGrow = true) :
    Allocate s size annotation dev = some (EMemStatus.MEM_STATUS_OUT_OF_MEMORY, 0, s) := by
  simp [Allocate, h, hg]

theorem Allocate_of_none_grow (s s1 : MemoryManager) (size i : Nat)
    ( annotation : Option String) (dev : Option Nat)
    (h : FindBestBlockUnsafe s.m_FreeBlocks (ceilInt size MEM_GRANULARITY) = none)
    (hg : s.m_CannotGrow = false)
    (ha : AllocateBlockUnsafe s (ceilInt size MEM_GRANULARITY) dev = some (s1, i)) :
    Allocate s size annotation dev =
      AllocateFinish s1 i (ceilInt size MEM_GRANULARITY) annotation := by
  simp [Allocate, h, hg, ha]

theorem Allocate_of_none_fatal (s : MemoryManager) (size : Nat)
    ( annotation : Option String) (dev : Option Nat)
    (h : FindBestBlockUnsafe s.m_FreeBlocks (ceilInt size MEM_GRANULARITY) = none)
    (hg : s.m_CannotGrow = false)
    (ha : AllocateBlockUnsafe s (ceilInt size MEM_GRANULARITY) dev = none) :
    Allocate s size annotation dev = none := by
  simp [Allocate, h, hg, ha]

theorem Allocate_inv (s s1 : MemoryManager) (size p : Nat) ( annotation : Option String)
    (dev : Option Nat) (st : EMemStatus) (hinv : Inv s)
    (h : Allocate s size annotation dev = some (st, p, s1)) : Inv s1 := by
  have hspec := FindBestBlockUnsafe_spec s.m_FreeBlocks (ceilInt size MEM_GRANULARITY)
  cases hf : FindBestBlockUnsafe s.m_FreeBlocks (ceilInt size MEM_GRANULARITY) with
  | some r =>
    obtain ⟨i, b⟩ := r
    rw [Allocate_of_best s size i annotation dev b hf] at h
    rw [hf] at hspec
    exact AllocateFinish_inv s s1 i _ p annotation st b hinv hspec.1 hspec.2.1 h
  | none =>
    rw [hf] at hspec
    cases hg : s.m_CannotGrow with
    | true =>
      rw [Allocate_of_none_fixed s size annotation dev hf hg] at h
      simp only [Option.some.injEq, Prod.mk.injEq] at h
      rw [← h.2.2]; exact hinv
    | false =>
      cases ha : AllocateBlockUnsafe s (ceilInt size MEM_GRANULARITY) dev with
      | none => rw [Allocate_of_none_fatal s size annotation dev hf hg ha] at h; cases h
      | some r =>
        obtain ⟨s2, i⟩ := r
        rw [Allocate_of_none_grow s s2 size i annotation dev hf hg ha] at h
        obtain ⟨hinv2, _, _, hfit⟩ := AllocateBlockUnsafe_spec s s2 _ i dev hinv ha
        obtain ⟨b, hb1, hb2⟩ := hfit (ceilInt_lt _ _) hspec
        exact AllocateFinish_inv s2 s1 i _ p annotation st b hinv2 hb1 hb2 h

theorem Reserve_inv (s s1 : MemoryManager) (size : Nat) (dev : Option Nat) (st : EMemStatus)
    (hinv : Inv s) (h : Reserve s size dev = some (st, s1)) : Inv s1 := by
  unfold Reserve at h
  cases ha : AllocateBlockUnsafe s size dev with
  | none => rw [ha] at h; cases h
  | some r =>
    obtain ⟨s2, i⟩ := r
    rw [ha] at h
    simp only [Option.some.injEq, Prod.mk.injEq] at h
    obtain ⟨hinv2, _⟩ := AllocateBlockUnsafe_spec s s2 _ i dev hinv ha
    rw [← h.2]
    exact hinv2

theorem step_inv (s s1 : MemoryManager) (op : Op) (hinv : Inv s) (h : step s op = some s1) :
    Inv s1 := by
  cases op with
  | reserve size dev =>
    simp only [step, Option.map_eq_some'] at h
    obtain ⟨⟨st, s2⟩, h1, h2⟩ := h
    simp only at h2
    subst h2
    exact Reserve_inv s _ size dev st hinv h1
  | allocate size annotation dev =>
    simp only [step, Option.map_eq_some'] at h
    obtain ⟨⟨st, p, s2⟩, h1, h2⟩ := h
    simp only at h2
    subst h2
    exact Allocate_inv s _ size p annotation dev st hinv h1
  | release ptr =>
    simp only [step, Option.some.injEq] at h
    subst h
    exact Release_inv s ptr hinv

theorem run_inv (ops : List Op) : ∀ (s s1 : MemoryManager), Inv s → run s ops = some s1 → Inv s1 := by
  induction ops with
  | nil =>
    intro s s1 hinv h
    simp only [run, Option.some.injEq] at h
    subst h; exact hinv
  | cons op ops ih =>
    intro s s1 hinv h
    simp only [run] at h
    cases hs : step s op with
    | none => rw [hs] at h; cases h
    | some s2 =>
      rw [hs] at h
      exact ih s2 s1 (step_inv s s2 op hinv hs) h

theorem Inv_empty (cannotGrow : Bool) : Inv (MemoryManager.empty cannotGrow) := by
  refine ⟨BlocksInSpace_nil, BlocksInSpace_nil, rfl, rfl⟩

theorem Reachable_inv (s : MemoryManager) (h : Reachable s) : Inv s := by
  obtain ⟨g, ops, hr⟩ := h
  exact run_inv ops _ s (Inv_empty g) hr

/-! ## Conservation and the allocated-byte counter -/

theorem GetMemoryUnsafe_loop (l : List Block) :
    ∀ acc : Nat, l.foldl (fun size curr => addSz size curr.m_Size) (acc % SIZE_T_RANGE) =
      (acc + blockBytes l) % SIZE_T_RANGE := by
  induction l with
  | nil => intro acc; simp [blockBytes]
  | cons a l ih =>
    intro acc
    have h1 : addSz (acc % SIZE_T_RANGE) a.m_Size = (acc + a.m_Size) % SIZE_T_RANGE := by
      unfold addSz; rw [Nat.mod_add_mod]
    rw [List.foldl_cons, h1, ih, blockBytes_cons, Nat.add_assoc]

theorem GetMemoryUnsafe_eq (l : List Block) :
    GetMemoryUnsafe l = blockBytes l % SIZE_T_RANGE := by
  have := GetMemoryUnsafe_loop l 0
  simpa [GetMemoryUnsafe] using this

/-- C2: in every state reachable from the empty allocator by Reserve, Allocate
and Release calls, the sizes of the used blocks plus the sizes of the free
blocks add up to the sizes recorded in the pool registry `m_CudaBlocks`. -/
theorem conservation_of_bytes (s : MemoryManager) (h : Reachable s) :
    blockBytes s.m_UsedBlocks + blockBytes s.m_FreeBlocks = poolBytes s.m_CudaBlocks :=
  (Reachable_inv s h).2.2.1

/-- Witness for C2: the state after the run `exRunOps`. -/
theorem conservation_of_bytes_witness :
    Reachable exRunState ∧
      blockBytes exRunState.m_UsedBlocks + blockBytes exRunState.m_FreeBlocks =
        poolBytes exRunState.m_CudaBlocks :=
  ⟨⟨true, exRunOps, by decide⟩, conservation_of_bytes exRunState ⟨true, exRunOps, by decide⟩⟩

/-- C3: in every reachable state the counter `m_AllocatedMemSize` equals the sum
of the used sizes that `GetUsedMemoryUnsafe` computes, it is at most the sum of
the pool sizes, and it is the exact sum of the used sizes whenever the pool
sizes add up to less than `2 ^ 64`. -/
theorem allocated_counter_is_used_bytes (s : MemoryManager) (h : Reachable s) :
    s.m_AllocatedMemSize = GetUsedMemoryUnsafe s ∧
      s.m_AllocatedMemSize ≤ poolBytes s.m_CudaBlocks ∧
      (poolBytes s.m_CudaBlocks < SIZE_T_RANGE →
        s.m_AllocatedMemSize = blockBytes s.m_UsedBlocks) := by
  obtain ⟨_, _, hsum, hcnt⟩ := Reachable_inv s h
  have hle : blockBytes s.m_UsedBlocks % SIZE_T_RANGE ≤ blockBytes s.m_UsedBlocks :=
    Nat.mod_le _ _
  refine ⟨?_, ?_, ?_⟩
  · rw [GetUsedMemoryUnsafe, GetMemoryUnsafe_eq, hcnt]
  · omega
  · intro hp
    rw [hcnt]
    exact Nat.mod_eq_of_lt (by omega)

/-- Witness for C3: the state after the run `exRunOps`. -/
theorem allocated_counter_is_used_bytes_witness :
    Reachable exRunState ∧
      (exRunState.m_AllocatedMemSize = GetUsedMemoryUnsafe exRunState ∧
      exRunState.m_AllocatedMemSize ≤ poolBytes exRunState.m_CudaBlocks ∧
      (poolBytes exRunState.m_CudaBlocks < SIZE_T_RANGE →
        exRunState.m_AllocatedMemSize = blockBytes exRunState.m_UsedBlocks)) :=
  ⟨⟨true, exRunOps, by decide⟩,
    allocated_counter_is_used_bytes exRunState ⟨true, exRunOps, by decide⟩⟩

/-! ## Error returns of Release and Allocate -/

/-- C6: `Release(p)` returns `MEM_STATUS_INVALID_ARGUMENT` exactly when `p` is
not null and no block of the used list has base address `p`; the state is then
unchanged; `Release(nullptr)` returns success and changes nothing. -/
theorem release_unknown_pointer (s : MemoryManager) (ptr : Nat) :
    ((Release s ptr).1 = EMemStatus.MEM_STATUS_INVALID_ARGUMENT ↔
      ptr ≠ 0 ∧ ∀ b ∈ s.m_UsedBlocks, b.m_Data ≠ ptr) ∧
    ((Release s ptr).1 = EMemStatus.MEM_STATUS_INVALID_ARGUMENT → (Release s ptr).2 = s) ∧
    Release s 0 = (EMemStatus.MEM_STATUS_SUCCESS, s) := by
  have key : (Release s ptr).1 = EMemStatus.MEM_STATUS_INVALID_ARGUMENT →
      (ptr ≠ 0 ∧ ∀ b ∈ s.m_UsedBlocks, b.m_Data ≠ ptr) ∧ (Release s ptr).2 = s := by
    unfold Release
    by_cases hp : ptr = 0
    · rw [if_pos hp]; intro h; cases h
    · rw [if_neg hp]
      cases hf : s.m_UsedBlocks.find? (fun curr => curr.m_Data == ptr) with
      | none =>
        intro _
        refine ⟨⟨hp, ?_⟩, rfl⟩
        intro b hb
        have := List.find?_eq_none.1 hf b hb
        simpa using this
      | some curr => intro h; cases h
  refine ⟨⟨fun h => (key h).1, ?_⟩, fun h => (key h).2, ?_⟩
  · rintro ⟨hp, hall⟩
    have hf : s.m_UsedBlocks.find? (fun curr => curr.m_Data == ptr) = none := by
      apply List.find?_eq_none.2
      intro b hb
      simpa using hall b hb
    unfold Release
    rw [if_neg hp, hf]
  · unfold Release
    rw [if_pos rfl]

/-- Witness for C6: releasing an address that is not the base of a used block. -/
theorem release_unknown_pointer_witness :
    (Release exOneUsed 131584).1 = EMemStatus.MEM_STATUS_INVALID_ARGUMENT ∧
      (Release exOneUsed 131584).2 = exOneUsed :=
  ⟨((release_unknown_pointer exOneUsed 131584).1).2 (by decide),
    (release_unknown_pointer exOneUsed 131584).2.1
      (((release_unknown_pointer exOneUsed 131584).1).2 (by decide))⟩

/-- C7: in fixed-capacity mode `Allocate` always returns; it returns
`MEM_STATUS_OUT_OF_MEMORY` exactly when every free block is smaller than the
request rounded by `ceilInt` to 512, and then the pointer is null and the whole
state (both lists, both counters) is unchanged. -/
theorem allocate_fixed_capacity_out_of_memory (s : MemoryManager) (size : Nat)
    ( annotation : Option String) (dev : Option Nat) (hg : s.m_CannotGrow = true) :
    (∃ st p s1, Allocate s size annotation dev = some (st, p, s1) ∧
      (st = EMemStatus.MEM_STATUS_OUT_OF_MEMORY ↔
        ∀ c ∈ s.m_FreeBlocks, c.m_Size < ceilInt size MEM_GRANULARITY) ∧
      (st = EMemStatus.MEM_STATUS_OUT_OF_MEMORY → p = 0 ∧ s1 = s)) := by
  have hspec := FindBestBlockUnsafe_spec s.m_FreeBlocks (ceilInt size MEM_GRANULARITY)
  cases hf : FindBestBlockUnsafe s.m_FreeBlocks (ceilInt size MEM_GRANULARITY) with
  | none =>
    rw [hf] at hspec
    refine ⟨_, _, _, Allocate_of_none_fixed s size annotation dev hf hg, ?_, ?_⟩
    · exact ⟨fun _ => hspec, fun _ => rfl⟩
    · intro _; exact ⟨rfl, rfl⟩
  | some r =>
    obtain ⟨i, b⟩ := r
    rw [hf] at hspec
    obtain ⟨s1, hs1⟩ := AllocateFinish_of_getElem s i (ceilInt size MEM_GRANULARITY)
      annotation b hspec.1
    refine ⟨_, _, _, (Allocate_of_best s size i annotation dev b hf).trans hs1, ?_, ?_⟩
    · constructor
      · intro h; cases h
      · intro hall
        have := hall b (List.getElem?_mem hspec.1)
        have := hspec.2.1
        omega
    · intro h; cases h

/-- Witness for C7: a request of 100 bytes when the only free block has 256 bytes. -/
theorem allocate_fixed_capacity_out_of_memory_witness :
    ∃ st p s1, Allocate exSmallFree 100 none none = some (st, p, s1) ∧
      (st = EMemStatus.MEM_STATUS_OUT_OF_MEMORY ↔
        ∀ c ∈ exSmallFree.m_FreeBlocks, c.m_Size < ceilInt 100 MEM_GRANULARITY) ∧
      (st = EMemStatus.MEM_STATUS_OUT_OF_MEMORY → p = 0 ∧ s1 = exSmallFree) :=
  allocate_fixed_capacity_out_of_memory exSmallFree 100 none none rfl

/-! ## Requests of size zero -/

theorem ceilInt_zero (n : Nat) : ceilInt 0 n = 0 := by
  unfold ceilInt
  rcases Nat.eq_zero_or_pos n with h | h
  · subst h; simp
  · have h1 : (0 + n - 1) % SIZE_T_RANGE / n = 0 :=
      Nat.div_eq_of_lt (lt_of_le_of_lt (Nat.mod_le _ _) (by omega))
    rw [h1]; simp

theorem subSz_zero (a : Nat) : subSz a 0 = a % SIZE_T_RANGE := by
  unfold subSz
  simp

theorem FindBestBlockUnsafe_zero_ne_none (free : List Block) (h : free ≠ []) :
    FindBestBlockUnsafe free 0 ≠ none := by
  intro hn
  have hspec := FindBestBlockUnsafe_spec free 0
  rw [hn] at hspec
  cases free with
  | nil => exact h rfl
  | cons a l => exact absurd (hspec a (List.mem_cons_self _ _)) (by omega)

theorem AllocateFinish_eq (s : MemoryManager) (i size : Nat) ( annotation : Option String)
    (b : Block) (h : s.m_FreeBlocks[i]? = some b) :
    AllocateFinish s i size annotation =
      some (EMemStatus.MEM_STATUS_SUCCESS, b.m_Data,
        { s with
          m_FreeBlocks :=
            if b.m_Size = size then s.m_FreeBlocks.eraseIdx i
            else s.m_FreeBlocks.set i ⟨b.m_Data + size, subSz b.m_Size size, false, none⟩
          m_UsedBlocks := ⟨b.m_Data, size, b.m_IsHead, annotation⟩ :: s.m_UsedBlocks
          m_AllocatedMemSize := addSz s.m_AllocatedMemSize size
          m_AllocatedMemSizePeak :=
            max (addSz s.m_AllocatedMemSize size) s.m_AllocatedMemSizePeak }) := by
  unfold AllocateFinish ExtractBlockUnsafe
  rw [h]
  by_cases hs : b.m_Size = size
  · simp only [if_pos hs]
    subst hs
    rfl
  · simp only [if_neg hs]

/-- Counterexample to C8: on the state after `Reserve(1024)`, `Allocate` with
size 0 succeeds, returns the non-null address 131072 and pushes a block of size
0 on the used list. -/
theorem allocate_zero_counterexample :
    Allocate exReserved 0 none none =
        some (EMemStatus.MEM_STATUS_SUCCESS, 131072,
          { exReserved with m_UsedBlocks := [⟨131072, 0, false, none⟩] }) ∧
      (131072 : Nat) ≠ 0 ∧
      ({ exReserved with m_UsedBlocks := [⟨131072, 0, false, none⟩] } : MemoryManager).m_UsedBlocks
        ≠ exReserved.m_UsedBlocks := by
  decide

/-- C8, amended: `Allocate` with size 0 returns a null pointer only as
`MEM_STATUS_OUT_OF_MEMORY`, with the state unchanged, when the free list is
empty in fixed-capacity mode (with growth allowed the call is then fatal).
When the free list is not empty it succeeds: it returns the base address of
the smallest free block, pushes a block of size 0 with that address on the
used list, puts a block with the same address and size in its place in the
free list (or unlinks it when its size is 0) and leaves the allocated-byte
counter and the pool registry as they are. -/
theorem allocate_zero (s : MemoryManager) ( annotation : Option String) (dev : Option Nat) :
    (s.m_FreeBlocks = [] → s.m_CannotGrow = true →
      Allocate s 0 annotation dev = some (EMemStatus.MEM_STATUS_OUT_OF_MEMORY, 0, s)) ∧
    (s.m_FreeBlocks = [] → s.m_CannotGrow = false → Allocate s 0 annotation dev = none) ∧
    (s.m_FreeBlocks ≠ [] → ∃ i b s1,
      FindBestBlockUnsafe s.m_FreeBlocks 0 = some (i, b) ∧
      s.m_FreeBlocks[i]? = some b ∧
      (∀ c ∈ s.m_FreeBlocks, b.m_Size ≤ c.m_Size) ∧
      Allocate s 0 annotation dev = some (EMemStatus.MEM_STATUS_SUCCESS, b.m_Data, s1) ∧
      s1.m_UsedBlocks = ⟨b.m_Data, 0, b.m_IsHead, annotation⟩ :: s.m_UsedBlocks ∧
      s1.m_FreeBlocks =
        (if b.m_Size = 0 then s.m_FreeBlocks.eraseIdx i
         else s.m_FreeBlocks.set i ⟨b.m_Data, b.m_Size % SIZE_T_RANGE, false, none⟩) ∧
      s1.m_AllocatedMemSize = s.m_AllocatedMemSize % SIZE_T_RANGE ∧
      s1.m_CudaBlocks = s.m_CudaBlocks) := by
  have hc : ceilInt 0 MEM_GRANULARITY = 0 := ceilInt_zero _
  refine ⟨?_, ?_, ?_⟩
  · intro hnil hg
    apply Allocate_of_none_fixed s 0 annotation dev _ hg
    rw [hnil]; rfl
  · intro hnil hg
    apply Allocate_of_none_fatal s 0 annotation dev _ hg
    · unfold AllocateBlockUnsafe
      rw [hnil, hc, ceilInt_zero]
      simp only [List.getLast?_nil]
      cases dev with
      | none => rfl
      | some d =>
        by_cases hd : d = 0
        · subst hd; simp [cudaMalloc, SIZE_T_RANGE]
        · simp [cudaMalloc, hd]
    · rw [hnil]; rfl
  · intro hne
    have hspec := FindBestBlockUnsafe_spec s.m_FreeBlocks 0
    cases hf : FindBestBlockUnsafe s.m_FreeBlocks 0 with
    | none => exact absurd hf (FindBestBlockUnsafe_zero_ne_none _ hne)
    | some r =>
      obtain ⟨i, b⟩ := r
      rw [hf] at hspec
      obtain ⟨h1, _, h3, _⟩ := hspec
      have hA : Allocate s 0 annotation dev = AllocateFinish s i 0 annotation := by
        have := Allocate_of_best s 0 i annotation dev b (by rw [hc]; exact hf)
        rw [hc] at this
        exact this
      rw [AllocateFinish_eq s i 0 annotation b h1] at hA
      refine ⟨i, b, _, rfl, h1, fun c hcm => h3 c hcm (Nat.zero_le _), hA, rfl, ?_, ?_, rfl⟩
      · simp only [subSz_zero, Nat.add_zero]
      · simp only [addSz, Nat.add_zero]

/-- Witness for C8 (amended): the state after `Reserve(1024)` has a non-empty free list. -/
theorem allocate_zero_witness :
    ∃ i b s1,
      FindBestBlockUnsafe exReserved.m_FreeBlocks 0 = some (i, b) ∧
      exReserved.m_FreeBlocks[i]? = some b ∧
      (∀ c ∈ exReserved.m_FreeBlocks, b.m_Size ≤ c.m_Size) ∧
      Allocate exReserved 0 none none = some (EMemStatus.MEM_STATUS_SUCCESS, b.m_Data, s1) ∧
      s1.m_UsedBlocks = ⟨b.m_Data, 0, b.m_IsHead, none⟩ :: exReserved.m_UsedBlocks ∧
      s1.m_FreeBlocks =
        (if b.m_Size = 0 then exReserved.m_FreeBlocks.eraseIdx i
         else exReserved.m_FreeBlocks.set i ⟨b.m_Data, b.m_Size % SIZE_T_RANGE, false, none⟩) ∧
      s1.m_AllocatedMemSize = exReserved.m_AllocatedMemSize % SIZE_T_RANGE ∧
      s1.m_CudaBlocks = exReserved.m_CudaBlocks :=
  (allocate_zero exReserved none none).2.2 (by decide)

/-! ## The scenario of a 1024-byte reservation -/

/-- Counterexample to C9: with growth disabled and the pool at 131072,
`Reserve(1024)` obtains 131072 bytes, so that after `Allocate(100)` 130560 bytes
(not 512) are free and the following `Allocate(200)` succeeds. -/
theorem reserve_1024_scenario_counterexample :
    Reserve (MemoryManager.empty true) 1024 (some 131072) =
        some (EMemStatus.MEM_STATUS_SUCCESS, exReserved) ∧
      Allocate exReserved 100 none none =
        some (EMemStatus.MEM_STATUS_SUCCESS, 131072, exOneUsed) ∧
      blockBytes exOneUsed.m_UsedBlocks = 512 ∧
      blockBytes exOneUsed.m_FreeBlocks = 130560 ∧
      blockBytes exOneUsed.m_FreeBlocks ≠ 512 ∧
      Allocate exOneUsed 200 none none =
        some (EMemStatus.MEM_STATUS_SUCCESS, 131584, exTwoUsed) ∧
      EMemStatus.MEM_STATUS_SUCCESS ≠ EMemStatus.MEM_STATUS_OUT_OF_MEMORY := by
  decide

/-- C9, amended: on an allocator with growth disabled, `Reserve(1024)` obtains a
pool of 131072 bytes at the address `d` the device returns; `Allocate(100)` then
succeeds at `d` and leaves 512 bytes used and 130560 bytes free, and the
following `Allocate(200)` succeeds at `d + 512` and leaves 1024 bytes used and
130048 bytes free. -/
theorem reserve_1024_scenario (d : Nat) (a1 a2 : Option String) (dev1 dev2 : Option Nat)
    (hd : d ≠ 0) (hsp : d + 131072 < SIZE_T_RANGE) :
    ∃ s1 s2 s3,
      Reserve (MemoryManager.empty true) 1024 (some d) =
        some (EMemStatus.MEM_STATUS_SUCCESS, s1) ∧
      s1.m_FreeBlocks = [⟨d, 131072, false, none⟩] ∧
      s1.m_CudaBlocks = [⟨d, 131072⟩] ∧
      Allocate s1 100 a1 dev1 = some (EMemStatus.MEM_STATUS_SUCCESS, d, s2) ∧
      blockBytes s2.m_UsedBlocks = 512 ∧ blockBytes s2.m_FreeBlocks = 130560 ∧
      Allocate s2 200 a2 dev2 = some (EMemStatus.MEM_STATUS_SUCCESS, d + 512, s3) ∧
      blockBytes s3.m_UsedBlocks = 1024 ∧ blockBytes s3.m_FreeBlocks = 130048 := by
  have hc : ceilInt 1024 CUDA_GRANULARITY = 131072 := by decide
  have h100 : ceilInt 100 MEM_GRANULARITY = 512 := by decide
  have h200 : ceilInt 200 MEM_GRANULARITY = 512 := by decide
  have hsub1 : subSz 131072 512 = 130560 := by decide
  have hsub2 : subSz 130560 512 = 130048 := by decide
  have hadd1 : addSz 0 512 = 512 := by decide
  have hadd2 : addSz 512 512 = 1024 := by decide
  have hm : cudaMalloc (some d) 131072 = some d := by
    unfold cudaMalloc
    simp only
    rw [if_pos ⟨fun h => absurd h (by decide), hsp⟩]
  have hfb1 : FindBestBlockUnsafe [(⟨d, 131072, false, none⟩ : Block)] 512 =
      some (0, ⟨d, 131072, false, none⟩) := by
    simp [FindBestBlockUnsafe, FindBestLoop, FindBestStep]
  have hfb2 : FindBestBlockUnsafe [(⟨d + 512, 130560, false, none⟩ : Block)] 512 =
      some (0, ⟨d + 512, 130560, false, none⟩) := by
    simp [FindBestBlockUnsafe, FindBestLoop, FindBestStep]
  have hR : Reserve (MemoryManager.empty true) 1024 (some d) =
      some (EMemStatus.MEM_STATUS_SUCCESS,
        { m_FreeBlocks := [⟨d, 131072, false, none⟩], m_UsedBlocks := [],
          m_CudaBlocks := [⟨d, 131072⟩], m_AllocatedMemSize := 0,
          m_AllocatedMemSizePeak := 0, m_Size := 1024, m_CannotGrow := true }) := by
    simp [Reserve, AllocateBlockUnsafe, MemoryManager.empty, hc, hm, hd, AddCudaBlockUnsafe]
  have hA1 : Allocate
      { m_FreeBlocks := [⟨d, 131072, false, none⟩], m_UsedBlocks := [],
        m_CudaBlocks := [⟨d, 131072⟩], m_AllocatedMemSize := 0,
        m_AllocatedMemSizePeak := 0, m_Size := 1024, m_CannotGrow := true } 100 a1 dev1 =
      some (EMemStatus.MEM_STATUS_SUCCESS, d,
        { m_FreeBlocks := [⟨d + 512, 130560, false, none⟩],
          m_UsedBlocks := [⟨d, 512, false, a1⟩],
          m_CudaBlocks := [⟨d, 131072⟩], m_AllocatedMemSize := 512,
          m_AllocatedMemSizePeak := 512, m_Size := 1024, m_CannotGrow := true }) := by
    rw [Allocate_of_best _ 100 0 a1 dev1 ⟨d, 131072, false, none⟩
      (by rw [h100]; exact hfb1), h100]
    rw [AllocateFinish_eq _ 0 512 a1 ⟨d, 131072, false, none⟩ (by rfl)]
    simp only [hsub1, hadd1]
    rfl
  have hA2 : Allocate
      { m_FreeBlocks := [⟨d + 512, 130560, false, none⟩],
        m_UsedBlocks := [⟨d, 512, false, a1⟩],
        m_CudaBlocks := [⟨d, 131072⟩], m_AllocatedMemSize := 512,
        m_AllocatedMemSizePeak := 512, m_Size := 1024, m_CannotGrow := true } 200 a2 dev2 =
      some (EMemStatus.MEM_STATUS_SUCCESS, d + 512,
        { m_FreeBlocks := [⟨d + 512 + 512, 130048, false, none⟩],
          m_UsedBlocks := [⟨d + 512, 512, false, a2⟩, ⟨d, 512, false, a1⟩],
          m_CudaBlocks := [⟨d, 131072⟩], m_AllocatedMemSize := 1024,
          m_AllocatedMemSizePeak := 1024, m_Size := 1024, m_CannotGrow := true }) := by
    rw [Allocate_of_best _ 200 0 a2 dev2 ⟨d + 512, 130560, false, none⟩
      (by rw [h200]; exact hfb2), h200]
    rw [AllocateFinish_eq _ 0 512 a2 ⟨d + 512, 130560, false, none⟩ (by rfl)]
    simp only [hsub2, hadd2]
    rfl
  exact ⟨_, _, _, hR, rfl, rfl, hA1, rfl, rfl, hA2, rfl, rfl⟩

/-- Witness for C9 (amended): the pool at address 131072. -/
theorem reserve_1024_scenario_witness :
    ∃ s1 s2 s3,
      Reserve (MemoryManager.empty true) 1024 (some 131072) =
        some (EMemStatus.MEM_STATUS_SUCCESS, s1) ∧
      s1.m_FreeBlocks = [⟨131072, 131072, false, none⟩] ∧
      s1.m_CudaBlocks = [⟨131072, 131072⟩] ∧
      Allocate s1 100 none none = some (EMemStatus.MEM_STATUS_SUCCESS, 131072, s2) ∧
      blockBytes s2.m_UsedBlocks = 512 ∧ blockBytes s2.m_FreeBlocks = 130560 ∧
      Allocate s2 200 none none = some (EMemStatus.MEM_STATUS_SUCCESS, 131072 + 512, s3) ∧
      blockBytes s3.m_UsedBlocks = 1024 ∧ blockBytes s3.m_FreeBlocks = 130048 :=
  reserve_1024_scenario 131072 none none none none (by decide) (by decide)

/-! ## Splitting the selected block -/

/-- C10: let `Allocate` select the free block `b` at position `i` for the
rounded request `r`, either by `FindBestBlockUnsafe` or, when that finds
nothing and growth is allowed, by `AllocateBlockUnsafe`, with
`r ≤ size b < 2 ^ 64`. Then `Allocate` succeeds and returns the base address
of `b`; the used list gets in front a block with that base address, size `r`
and the given annotation; when `r < size b` the free list holds at position `i`
a new non-head block with base address `base + r` and size `size b - r`, and
when `size b = r` the block is unlinked and nothing is put in its place. -/
theorem allocate_split_or_unlink (s0 s : MemoryManager) (size i : Nat)
    ( annotation : Option String) (dev : Option Nat) (b : Block)
    (hsel :
      (FindBestBlockUnsafe s0.m_FreeBlocks (ceilInt size MEM_GRANULARITY) = some (i, b) ∧
        s = s0) ∨
      (FindBestBlockUnsafe s0.m_FreeBlocks (ceilInt size MEM_GRANULARITY) = none ∧
        s0.m_CannotGrow = false ∧
        AllocateBlockUnsafe s0 (ceilInt size MEM_GRANULARITY) dev = some (s, i) ∧
        s.m_FreeBlocks[i]? = some b))
    (hle : ceilInt size MEM_GRANULARITY ≤ b.m_Size) (hR : b.m_Size < SIZE_T_RANGE) :
    ∃ s1, Allocate s0 size annotation dev =
        some (EMemStatus.MEM_STATUS_SUCCESS, b.m_Data, s1) ∧
      s.m_FreeBlocks = s.m_FreeBlocks.take i ++ b :: s.m_FreeBlocks.drop (i + 1) ∧
      s1.m_UsedBlocks =
        ⟨b.m_Data, ceilInt size MEM_GRANULARITY, b.m_IsHead, annotation⟩ :: s.m_UsedBlocks ∧
      (ceilInt size MEM_GRANULARITY < b.m_Size →
        s1.m_FreeBlocks = s.m_FreeBlocks.take i ++
          ⟨b.m_Data + ceilInt size MEM_GRANULARITY, b.m_Size - ceilInt size MEM_GRANULARITY,
            false, none⟩ :: s.m_FreeBlocks.drop (i + 1)) ∧
      (b.m_Size = ceilInt size MEM_GRANULARITY →
        s1.m_FreeBlocks = s.m_FreeBlocks.take i ++ s.m_FreeBlocks.drop (i + 1)) ∧
      s1.m_AllocatedMemSize = addSz s.m_AllocatedMemSize (ceilInt size MEM_GRANULARITY) ∧
      s1.m_AllocatedMemSizePeak =
        max (addSz s.m_AllocatedMemSize (ceilInt size MEM_GRANULARITY))
          s.m_AllocatedMemSizePeak ∧
      s1.m_CudaBlocks = s.m_CudaBlocks := by
  have hb : s.m_FreeBlocks[i]? = some b := by
    rcases hsel with ⟨hf, hs⟩ | ⟨_, _, _, hb⟩
    · have hspec := FindBestBlockUnsafe_spec s0.m_FreeBlocks (ceilInt size MEM_GRANULARITY)
      rw [hf] at hspec
      rw [hs]; exact hspec.1
    · exact hb
  have hA : Allocate s0 size annotation dev =
      AllocateFinish s i (ceilInt size MEM_GRANULARITY) annotation := by
    rcases hsel with ⟨hf, hs⟩ | ⟨hf, hg, ha, _⟩
    · rw [hs]; exact Allocate_of_best s0 size i annotation dev b hf
    · exact Allocate_of_none_grow s0 s size i annotation dev hf hg ha
  obtain ⟨hsplit, herase, hset⟩ := getElem?_split _ _ _ hb
  rw [AllocateFinish_eq s i _ annotation b hb] at hA
  refine ⟨_, hA, hsplit, rfl, ?_, ?_, rfl, rfl, rfl⟩
  · intro hlt
    simp only [if_neg (Nat.ne_of_gt hlt), hset, subSz_of_le _ _ hle hR]
  · intro heq
    simp only [if_pos heq, herase]

/-- Witness for C10: a request of 100 bytes on the state after `Reserve(1024)`
splits the free block of 131072 bytes. -/
theorem allocate_split_or_unlink_witness :
    ∃ s1, Allocate exReserved 100 none none =
        some (EMemStatus.MEM_STATUS_SUCCESS, (⟨131072, 131072, false, none⟩ : Block).m_Data, s1) ∧
      exReserved.m_FreeBlocks = exReserved.m_FreeBlocks.take 0 ++
        (⟨131072, 131072, false, none⟩ : Block) :: exReserved.m_FreeBlocks.drop (0 + 1) ∧
      s1.m_UsedBlocks =
        ⟨(⟨131072, 131072, false, none⟩ : Block).m_Data, ceilInt 100 MEM_GRANULARITY,
          (⟨131072, 131072, false, none⟩ : Block).m_IsHead, none⟩ :: exReserved.m_UsedBlocks ∧
      (ceilInt 100 MEM_GRANULARITY < (⟨131072, 131072, false, none⟩ : Block).m_Size →
        s1.m_FreeBlocks = exReserved.m_FreeBlocks.take 0 ++
          ⟨(⟨131072, 131072, false, none⟩ : Block).m_Data + ceilInt 100 MEM_GRANULARITY,
            (⟨131072, 131072, false, none⟩ : Block).m_Size - ceilInt 100 MEM_GRANULARITY,
            false, none⟩ :: exReserved.m_FreeBlocks.drop (0 + 1)) ∧
      ((⟨131072, 131072, false, none⟩ : Block).m_Size = ceilInt 100 MEM_GRANULARITY →
        s1.m_FreeBlocks = exReserved.m_FreeBlocks.take 0 ++ exReserved.m_FreeBlocks.drop (0 + 1)) ∧
      s1.m_AllocatedMemSize =
        addSz exReserved.m_AllocatedMemSize (ceilInt 100 MEM_GRANULARITY) ∧
      s1.m_AllocatedMemSizePeak =
        max (addSz exReserved.m_AllocatedMemSize (ceilInt 100 MEM_GRANULARITY))
          exReserved.m_AllocatedMemSizePeak ∧
      s1.m_CudaBlocks = exReserved.m_CudaBlocks :=
  allocate_split_or_unlink exReserved exReserved 100 0 none none ⟨131072, 131072, false, none⟩
    (Or.inl ⟨by decide, rfl⟩) (by decide) (by decide)

/-! ## The release of a block, unfolded -/

/-- `ReleaseBlockUnsafe` as the two merge steps around the insertion point. -/
theorem ReleaseBlockUnsafe_eq (free : List Block) (curr : Block) :
    ReleaseBlockUnsafe free curr =
      mergeWithNext
        (mergeWithPrev (free.takeWhile (fun iter => iter.m_Data < curr.m_Data)) curr).1
        (mergeWithPrev (free.takeWhile (fun iter => iter.m_Data < curr.m_Data)) curr).2
        (free.dropWhile (fun iter => iter.m_Data < curr.m_Data)) := rfl

/-! ## Coalescing on release -/

theorem takeWhile_dropWhile_of_split (p : Block → Bool) (l1 l2 : List Block)
    (h1 : ∀ x ∈ l1, p x = true) (h2 : ∀ x, l2.head? = some x → p x = false) :
    (l1 ++ l2).takeWhile p = l1 ∧ (l1 ++ l2).dropWhile p = l2 := by
  induction l1 with
  | nil =>
    cases l2 with
    | nil => exact ⟨rfl, rfl⟩
    | cons x l =>
      have hx : p x = false := h2 x rfl
      simp [List.takeWhile, List.dropWhile, hx]
  | cons a l ih =>
    have ha : p a = true := h1 a (List.mem_cons_self _ _)
    obtain ⟨i1, i2⟩ := ih (fun x hx => h1 x (List.mem_cons_of_mem _ hx))
    simp only [List.cons_append, List.takeWhile_cons, List.dropWhile_cons, ha, if_true]
    exact ⟨by rw [i1], i2⟩

theorem head?_dropWhile_false (p : Block → Bool) (l : List Block) (x : Block)
    (h : (l.dropWhile p).head? = some x) : p x = false := by
  induction l with
  | nil => simp at h
  | cons a l ih =>
    by_cases ha : p a = true
    · rw [List.dropWhile_cons_of_pos ha] at h
      exact ih h
    · rw [List.dropWhile_cons_of_neg ha] at h
      simp only [List.head?_cons, Option.some.injEq] at h
      subst h
      simpa using ha

theorem takeWhile_dropWhile_congr (p q : Block → Bool) (l : List Block)
    (h : ∀ x ∈ l, p x = q x) :
    l.takeWhile p = l.takeWhile q ∧ l.dropWhile p = l.dropWhile q := by
  induction l with
  | nil => exact ⟨rfl, rfl⟩
  | cons a l ih =>
    obtain ⟨i1, i2⟩ := ih (fun x hx => h x (List.mem_cons_of_mem _ hx))
    have ha := h a (List.mem_cons_self _ _)
    rw [List.takeWhile_cons, List.takeWhile_cons, List.dropWhile_cons, List.dropWhile_cons,
      ha, i1, i2]
    exact ⟨rfl, rfl⟩

/-- A released block with no free block touching it is inserted unmerged. -/
theorem ReleaseBlockUnsafe_isolated (free : List Block) (c : Block)
    (hfar : ∀ f ∈ free, f.m_Data + f.m_Size < c.m_Data ∨ c.m_Data + c.m_Size < f.m_Data) :
    ReleaseBlockUnsafe free c =
      free.takeWhile (fun iter => iter.m_Data < c.m_Data) ++
        c :: free.dropWhile (fun iter => iter.m_Data < c.m_Data) := by
  rw [ReleaseBlockUnsafe_eq]
  have hprev : mergeWithPrev (free.takeWhile (fun iter => iter.m_Data < c.m_Data)) c =
      (free.takeWhile (fun iter => iter.m_Data < c.m_Data), c) := by
    cases hl : (free.takeWhile (fun iter => decide (iter.m_Data < c.m_Data))).getLast? with
    | none => exact mergeWithPrev_none _ _ hl
    | some prev =>
      apply mergeWithPrev_keep _ _ _ hl
      rintro ⟨hadj, _⟩
      have hmem := List.mem_of_getLast?_eq_some hl
      have hlt : prev.m_Data < c.m_Data := by simpa using List.mem_takeWhile_imp hmem
      rcases hfar prev ((List.takeWhile_sublist _).subset hmem) with h | h <;> omega
  rw [hprev]
  cases hd : free.dropWhile (fun iter => decide (iter.m_Data < c.m_Data)) with
  | nil => rfl
  | cons next rest =>
    apply mergeWithNext_keep
    rintro ⟨hadj, _⟩
    have hmem : next ∈ free := by
      have h1 : next ∈ free.dropWhile (fun iter => decide (iter.m_Data < c.m_Data)) := by
        rw [hd]; exact List.mem_cons_self _ _
      exact (List.dropWhile_sublist _).subset h1
    have hnlt : ¬ next.m_Data < c.m_Data := by
      have := head?_dropWhile_false (fun iter => decide (iter.m_Data < c.m_Data)) free next
        (by rw [hd]; rfl)
      simpa using this
    simp only at hadj
    rcases hfar next hmem with h | h <;> omega

/-- Releasing `B` when the free block `A` right before it ends where `B` starts. -/
theorem ReleaseBlockUnsafe_after_left (before after : List Block) (A B : Block)
    (hbefore : ∀ f ∈ before, f.m_Data < B.m_Data) (hAB : A.m_Data < B.m_Data)
    (hadj : A.m_Data + A.m_Size = B.m_Data) (hBh : B.m_IsHead = false)
    (hsp : B.m_Data + B.m_Size < SIZE_T_RANGE)
    (hafter : ∀ x, after.head? = some x → B.m_Data + B.m_Size < x.m_Data) :
    ReleaseBlockUnsafe (before ++ A :: after) B =
      before ++ ⟨A.m_Data, A.m_Size + B.m_Size, A.m_IsHead, A.m_Annotation⟩ :: after := by
  have hsplit : before ++ A :: after = (before ++ [A]) ++ after := by simp
  obtain ⟨ht, hd⟩ := takeWhile_dropWhile_of_split
    (fun iter => decide (iter.m_Data < B.m_Data)) (before ++ [A]) after
    (by
      intro x hx
      rcases List.mem_append.1 hx with hx | hx
      · simpa using hbefore x hx
      · simp at hx; subst hx; simpa using hAB)
    (by
      intro x hx
      have := hafter x hx
      simp only [decide_eq_false_iff_not]; omega)
  rw [ReleaseBlockUnsafe_eq, hsplit, ht, hd]
  have hno : A.m_Size + B.m_Size < SIZE_T_RANGE := by omega
  rw [mergeWithPrev_merge (before ++ [A]) B A (by simp) ⟨hadj, hBh⟩, addSz_of_lt _ _ hno]
  simp only [List.dropLast_concat]
  cases after with
  | nil => rfl
  | cons next rest =>
    apply mergeWithNext_keep
    rintro ⟨h, _⟩
    have := hafter next rfl
    simp only at h
    omega

/-- Releasing `A` when the free block `B` right behind it starts where `A` ends. -/
theorem ReleaseBlockUnsafe_before_right (before after : List Block) (A B : Block)
    (hbefore : ∀ f ∈ before, f.m_Data + f.m_Size < A.m_Data)
    (hadj : A.m_Data + A.m_Size = B.m_Data) (hBh : B.m_IsHead = false)
    (hsp : B.m_Data + B.m_Size < SIZE_T_RANGE) :
    ReleaseBlockUnsafe (before ++ B :: after) A =
      before ++ ⟨A.m_Data, A.m_Size + B.m_Size, A.m_IsHead, A.m_Annotation⟩ :: after := by
  obtain ⟨ht, hd⟩ := takeWhile_dropWhile_of_split
    (fun iter => decide (iter.m_Data < A.m_Data)) before (B :: after)
    (by
      intro x hx
      have := hbefore x hx
      simp only [decide_eq_true_eq]; omega)
    (by
      intro x hx
      simp only [List.head?_cons, Option.some.injEq] at hx
      subst hx
      simp only [decide_eq_false_iff_not]; omega)
  rw [ReleaseBlockUnsafe_eq, ht, hd]
  have hprev : mergeWithPrev before A = (before, A) := by
    cases hl : before.getLast? with
    | none => exact mergeWithPrev_none _ _ hl
    | some prev =>
      apply mergeWithPrev_keep _ _ _ hl
      rintro ⟨h, _⟩
      have := hbefore prev (List.mem_of_getLast?_eq_some hl)
      omega
  have hno : A.m_Size + B.m_Size < SIZE_T_RANGE := by omega
  rw [hprev, mergeWithNext_merge _ _ _ _ ⟨hadj, hBh⟩, addSz_of_lt _ _ hno]

theorem ceilInt_of_dvd_granularity (m : Nat) (h : MEM_GRANULARITY ∣ m) (hm : m < SIZE_T_RANGE) :
    ceilInt m MEM_GRANULARITY = m := by
  obtain ⟨k, hk⟩ := h
  unfold ceilInt MEM_GRANULARITY SIZE_T_RANGE at *
  omega

theorem find?_of_unique (l : List Block) (A : Block) (hA : A ∈ l)
    (hu : ∀ c ∈ l, c.m_Data = A.m_Data → c = A) :
    l.find? (fun curr => curr.m_Data == A.m_Data) = some A := by
  cases hf : l.find? (fun curr => curr.m_Data == A.m_Data) with
  | none =>
    have := List.find?_eq_none.1 hf A hA
    simp at this
  | some x =>
    have h1 := List.find?_some hf
    have h2 := List.mem_of_find?_eq_some hf
    rw [hu x h2 (by simpa using h1)]

theorem Release_of_find (s : MemoryManager) (ptr : Nat) (curr : Block) (hp : ptr ≠ 0)
    (hf : s.m_UsedBlocks.find? (fun curr => curr.m_Data == ptr) = some curr) :
    Release s ptr =
      (EMemStatus.MEM_STATUS_SUCCESS,
        { s with
          m_AllocatedMemSize := subSz s.m_AllocatedMemSize curr.m_Size
          m_UsedBlocks := s.m_UsedBlocks.eraseP (fun b => b.m_Data == ptr)
          m_FreeBlocks := ReleaseBlockUnsafe s.m_FreeBlocks curr }) := by
  unfold Release
  rw [if_neg hp, hf]

/-! ## Two adjacent blocks -/

/-- Counterexample to C4: the adjacent blocks at 132608 and 133120 (512 bytes
each, neighbours in use) are released and coalesce into the free block
(132608, 1024), but the following fixed-capacity `Allocate(1024)` is served from
the other free block of 1024 bytes at 131072, and the coalesced block stays free. -/
theorem coalescing_counterexample :
    run (MemoryManager.empty true) exPairOps = some exPairState ∧
      (⟨132608, 1024, false, none⟩ : Block) ∈ exPairState.m_FreeBlocks ∧
      Allocate exPairState (512 + 512) none none =
        some (EMemStatus.MEM_STATUS_SUCCESS, 131072,
          { exPairState with
            m_FreeBlocks := [⟨132608, 1024, false, none⟩],
            m_UsedBlocks := ⟨131072, 1024, false, none⟩ :: exPairState.m_UsedBlocks,
            m_AllocatedMemSize := 130048 }) ∧
      (131072 : Nat) ≠ 132608 := by
  decide

theorem ReleaseBlockUnsafe_pair_left_first (free : List Block) (A B : Block)
    (hadj : A.m_Data + A.m_Size = B.m_Data) (hAsz : 0 < A.m_Size)
    (hsp : B.m_Data + B.m_Size < SIZE_T_RANGE) (hBh : B.m_IsHead = false)
    (hfar : ∀ f ∈ free,
      f.m_Data + f.m_Size < A.m_Data ∨ B.m_Data + B.m_Size < f.m_Data) :
    ReleaseBlockUnsafe free A =
        free.takeWhile (fun iter => iter.m_Data < A.m_Data) ++
          A :: free.dropWhile (fun iter => iter.m_Data < A.m_Data) ∧
      ReleaseBlockUnsafe (ReleaseBlockUnsafe free A) B = coalesced free A B := by
  have h1 : ReleaseBlockUnsafe free A =
      free.takeWhile (fun iter => iter.m_Data < A.m_Data) ++
        A :: free.dropWhile (fun iter => iter.m_Data < A.m_Data) := by
    apply ReleaseBlockUnsafe_isolated
    intro f hf
    rcases hfar f hf with h | h
    · exact Or.inl h
    · exact Or.inr (by omega)
  refine ⟨h1, ?_⟩
  rw [h1]
  apply ReleaseBlockUnsafe_after_left _ _ A B _ (by omega) hadj hBh hsp
  · intro x hx
    have hmem : x ∈ free := (List.dropWhile_sublist _).subset (List.mem_of_mem_head? hx)
    have hnlt : ¬ x.m_Data < A.m_Data := by
      simpa using head?_dropWhile_false _ free x hx
    rcases hfar x hmem with h | h <;> omega
  · intro f hf
    have hlt : f.m_Data < A.m_Data := by simpa using List.mem_takeWhile_imp hf
    omega

theorem ReleaseBlockUnsafe_pair_right_first (free : List Block) (A B : Block)
    (hadj : A.m_Data + A.m_Size = B.m_Data)
    (hsp : B.m_Data + B.m_Size < SIZE_T_RANGE) (hBh : B.m_IsHead = false)
    (hfar : ∀ f ∈ free,
      f.m_Data + f.m_Size < A.m_Data ∨ B.m_Data + B.m_Size < f.m_Data) :
    ReleaseBlockUnsafe free B =
        free.takeWhile (fun iter => iter.m_Data < A.m_Data) ++
          B :: free.dropWhile (fun iter => iter.m_Data < A.m_Data) ∧
      ReleaseBlockUnsafe (ReleaseBlockUnsafe free B) A = coalesced free A B := by
  obtain ⟨ct, cd⟩ := takeWhile_dropWhile_congr
    (fun iter => decide (iter.m_Data < B.m_Data)) (fun iter => decide (iter.m_Data < A.m_Data))
    free (by
      intro f hf
      rcases hfar f hf with h | h
      · have h1 : f.m_Data < B.m_Data := by omega
        have h2 : f.m_Data < A.m_Data := by omega
        simp [h1, h2]
      · have h1 : ¬ f.m_Data < B.m_Data := by omega
        have h2 : ¬ f.m_Data < A.m_Data := by omega
        simp [h1, h2])
  have h1 : ReleaseBlockUnsafe free B =
      free.takeWhile (fun iter => iter.m_Data < A.m_Data) ++
        B :: free.dropWhile (fun iter => iter.m_Data < A.m_Data) := by
    rw [← ct, ← cd]
    apply ReleaseBlockUnsafe_isolated
    intro f hf
    rcases hfar f hf with h | h
    · exact Or.inl (by omega)
    · exact Or.inr h
  refine ⟨h1, ?_⟩
  rw [h1]
  apply ReleaseBlockUnsafe_before_right _ _ A B _ hadj hBh hsp
  intro f hf
  have hlt : f.m_Data < A.m_Data := by simpa using List.mem_takeWhile_imp hf
  rcases hfar f ((List.takeWhile_sublist _).subset hf) with h | h <;> omega

theorem Release_two (s : MemoryManager) (X Y : Block)
    (hX : X ∈ s.m_UsedBlocks) (hY : Y ∈ s.m_UsedBlocks)
    (hXu : ∀ c ∈ s.m_UsedBlocks, c.m_Data = X.m_Data → c = X)
    (hYu : ∀ c ∈ s.m_UsedBlocks, c.m_Data = Y.m_Data → c = Y)
    (hX0 : X.m_Data ≠ 0) (hY0 : Y.m_Data ≠ 0) (hXY : X.m_Data ≠ Y.m_Data) :
    (Release s X.m_Data).1 = EMemStatus.MEM_STATUS_SUCCESS ∧
      (Release s X.m_Data).2.m_FreeBlocks = ReleaseBlockUnsafe s.m_FreeBlocks X ∧
      (Release s X.m_Data).2.m_CannotGrow = s.m_CannotGrow ∧
      (Release (Release s X.m_Data).2 Y.m_Data).1 = EMemStatus.MEM_STATUS_SUCCESS ∧
      (Release (Release s X.m_Data).2 Y.m_Data).2.m_FreeBlocks =
        ReleaseBlockUnsafe (ReleaseBlockUnsafe s.m_FreeBlocks X) Y ∧
      (Release (Release s X.m_Data).2 Y.m_Data).2.m_CannotGrow = s.m_CannotGrow := by
  have h1 := Release_of_find s X.m_Data X hX0 (find?_of_unique _ X hX hXu)
  have hYmem : Y ∈ s.m_UsedBlocks.eraseP (fun b => b.m_Data == X.m_Data) := by
    rw [List.mem_eraseP_of_neg]
    · exact hY
    · simp only [beq_iff_eq]
      exact fun h => hXY h.symm
  rw [h1]
  have h2 := Release_of_find
    { s with
      m_AllocatedMemSize := subSz s.m_AllocatedMemSize X.m_Size
      m_UsedBlocks := s.m_UsedBlocks.eraseP (fun b => b.m_Data == X.m_Data)
      m_FreeBlocks := ReleaseBlockUnsafe s.m_FreeBlocks X } Y.m_Data Y hY0
    (find?_of_unique _ Y hYmem (fun c hc => hYu c (List.mem_of_mem_eraseP hc)))
  rw [h2]
  exact ⟨rfl, rfl, rfl, rfl, rfl, rfl⟩

theorem Allocate_out_of_memory_of_small (t : MemoryManager) (size : Nat)
    ( annotation : Option String) (dev : Option Nat) (hg : t.m_CannotGrow = true)
    (h : ∀ f ∈ t.m_FreeBlocks, f.m_Size < ceilInt size MEM_GRANULARITY) :
    Allocate t size annotation dev = some (EMemStatus.MEM_STATUS_OUT_OF_MEMORY, 0, t) := by
  apply Allocate_of_none_fixed t size annotation dev _ hg
  have hspec := FindBestBlockUnsafe_spec t.m_FreeBlocks (ceilInt size MEM_GRANULARITY)
  cases hf : FindBestBlockUnsafe t.m_FreeBlocks (ceilInt size MEM_GRANULARITY) with
  | none => rfl
  | some r =>
    obtain ⟨i, c⟩ := r
    rw [hf] at hspec
    have := h c (List.getElem?_mem hspec.1)
    have := hspec.2.1
    omega

theorem Allocate_from_coalesced (t : MemoryManager) (free : List Block) (A B : Block)
    ( annotation : Option String) (dev : Option Nat)
    (ht : t.m_FreeBlocks = coalesced free A B)
    (hr : ceilInt (A.m_Size + B.m_Size) MEM_GRANULARITY = A.m_Size + B.m_Size) :
    (∃ p s3, Allocate t (A.m_Size + B.m_Size) annotation dev =
      some (EMemStatus.MEM_STATUS_SUCCESS, p, s3)) ∧
    ((∀ f ∈ free, f.m_Size < A.m_Size + B.m_Size) →
      ∃ s3, Allocate t (A.m_Size + B.m_Size) annotation dev =
          some (EMemStatus.MEM_STATUS_SUCCESS, A.m_Data, s3) ∧
        s3.m_FreeBlocks = free.takeWhile (fun iter => iter.m_Data < A.m_Data) ++
          free.dropWhile (fun iter => iter.m_Data < A.m_Data)) := by
  have hspec := FindBestBlockUnsafe_spec t.m_FreeBlocks (A.m_Size + B.m_Size)
  have hmemA : (⟨A.m_Data, A.m_Size + B.m_Size, A.m_IsHead, A.m_Annotation⟩ : Block) ∈
      t.m_FreeBlocks := by
    rw [ht]; unfold coalesced; simp
  cases hf : FindBestBlockUnsafe t.m_FreeBlocks (A.m_Size + B.m_Size) with
  | none =>
    rw [hf] at hspec
    have := hspec _ hmemA
    simp only at this
    omega
  | some r =>
    obtain ⟨i, c⟩ := r
    rw [hf] at hspec
    obtain ⟨hi, hc, _, _⟩ := hspec
    have hAl : Allocate t (A.m_Size + B.m_Size) annotation dev =
        AllocateFinish t i (A.m_Size + B.m_Size) annotation := by
      have := Allocate_of_best t (A.m_Size + B.m_Size) i annotation dev c (by rw [hr]; exact hf)
      rw [hr] at this
      exact this
    rw [AllocateFinish_eq t i _ annotation c hi] at hAl
    refine ⟨⟨_, _, hAl⟩, ?_⟩
    intro hsmall
    have hbefore : ∀ f ∈ free.takeWhile (fun iter => decide (iter.m_Data < A.m_Data)),
        f.m_Size < A.m_Size + B.m_Size :=
      fun f hf => hsmall f ((List.takeWhile_sublist _).subset hf)
    have hafter : ∀ f ∈ free.dropWhile (fun iter => decide (iter.m_Data < A.m_Data)),
        f.m_Size < A.m_Size + B.m_Size :=
      fun f hf => hsmall f ((List.dropWhile_sublist _).subset hf)
    rw [ht] at hi
    unfold coalesced at hi
    have hidx : i = (free.takeWhile (fun iter => decide (iter.m_Data < A.m_Data))).length := by
      rcases Nat.lt_trichotomy i
        (free.takeWhile (fun iter => decide (iter.m_Data < A.m_Data))).length with h | h | h
      · rw [List.getElem?_append_left h] at hi
        have := hbefore c (List.getElem?_mem hi)
        omega
      · exact h
      · rw [List.getElem?_append_right (Nat.le_of_lt h)] at hi
        obtain ⟨k, hk⟩ : ∃ k, i -
            (free.takeWhile (fun iter => decide (iter.m_Data < A.m_Data))).length = k + 1 :=
          ⟨i - (free.takeWhile (fun iter => decide (iter.m_Data < A.m_Data))).length - 1,
            by omega⟩
        rw [hk, List.getElem?_cons_succ] at hi
        have := hafter c (List.getElem?_mem hi)
        omega
    have hcA : c = ⟨A.m_Data, A.m_Size + B.m_Size, A.m_IsHead, A.m_Annotation⟩ := by
      rw [hidx, List.getElem?_append_right (le_refl _)] at hi
      simp only [Nat.sub_self, List.getElem?_cons_zero, Option.some.injEq] at hi
      exact hi.symm
    have hcd : c.m_Data = A.m_Data := by rw [hcA]
    have hcs : c.m_Size = A.m_Size + B.m_Size := by rw [hcA]
    rw [hcd] at hAl
    refine ⟨_, hAl, ?_⟩
    simp only [if_pos hcs]
    rw [ht]
    unfold coalesced
    have hdrop : ∀ (l1 l2 : List Block) (x : Block),
        List.drop (l1.length + 1) (l1 ++ x :: l2) = l2 := by
      intro l1 l2 x
      have h : l1 ++ x :: l2 = (l1 ++ [x]) ++ l2 := by simp
      rw [h]
      exact List.drop_left' (by simp)
    rw [List.eraseIdx_eq_take_drop_succ, hidx, List.take_left, hdrop]

/-- C4, amended: let `A` and `B` be used blocks of positive sizes that are
multiples of 512, each the only used block at its base address, `B` not a head
(the head flag of `A` plays no part), with `B` starting where `A` ends and no
free block touching or overlapping the range of `A` and `B`. Releasing both, in either order, succeeds and leaves the
free list as it was plus exactly one block with the base address of `A` and
the size `size A + size B` at the address-sorted position. A following
fixed-capacity `Allocate(size A + size B)` succeeds; it is served from that
block (and removes it from the free list) provided no other free block has at
least that size, and in that case the same request is out of memory when only
one of the two blocks has been released. -/
theorem release_adjacent_pair_coalesces (s : MemoryManager) (A B : Block)
    ( annotation : Option String) (dev : Option Nat)
    (hA : A ∈ s.m_UsedBlocks) (hB : B ∈ s.m_UsedBlocks)
    (hAu : ∀ c ∈ s.m_UsedBlocks, c.m_Data = A.m_Data → c = A)
    (hBu : ∀ c ∈ s.m_UsedBlocks, c.m_Data = B.m_Data → c = B)
    (hA0 : A.m_Data ≠ 0) (hadj : A.m_Data + A.m_Size = B.m_Data)
    (hsp : B.m_Data + B.m_Size < SIZE_T_RANGE)
    (hAsz : 0 < A.m_Size) (hBsz : 0 < B.m_Size)
    (hAg : MEM_GRANULARITY ∣ A.m_Size) (hBg : MEM_GRANULARITY ∣ B.m_Size)
    (hBh : B.m_IsHead = false)
    (hfar : ∀ f ∈ s.m_FreeBlocks,
      f.m_Data + f.m_Size < A.m_Data ∨ B.m_Data + B.m_Size < f.m_Data)
    (hg : s.m_CannotGrow = true) :
    (Release s A.m_Data).1 = EMemStatus.MEM_STATUS_SUCCESS ∧
    (Release (Release s A.m_Data).2 B.m_Data).1 = EMemStatus.MEM_STATUS_SUCCESS ∧
    (Release (Release s A.m_Data).2 B.m_Data).2.m_FreeBlocks = coalesced s.m_FreeBlocks A B ∧
    (Release s B.m_Data).1 = EMemStatus.MEM_STATUS_SUCCESS ∧
    (Release (Release s B.m_Data).2 A.m_Data).1 = EMemStatus.MEM_STATUS_SUCCESS ∧
    (Release (Release s B.m_Data).2 A.m_Data).2.m_FreeBlocks = coalesced s.m_FreeBlocks A B ∧
    (∃ p s3, Allocate (Release (Release s A.m_Data).2 B.m_Data).2 (A.m_Size + B.m_Size)
      annotation dev = some (EMemStatus.MEM_STATUS_SUCCESS, p, s3)) ∧
    ((∀ f ∈ s.m_FreeBlocks, f.m_Size < A.m_Size + B.m_Size) →
      (∃ s3, Allocate (Release (Release s A.m_Data).2 B.m_Data).2 (A.m_Size + B.m_Size)
          annotation dev = some (EMemStatus.MEM_STATUS_SUCCESS, A.m_Data, s3) ∧
        s3.m_FreeBlocks = s.m_FreeBlocks.takeWhile (fun iter => iter.m_Data < A.m_Data) ++
          s.m_FreeBlocks.dropWhile (fun iter => iter.m_Data < A.m_Data)) ∧
      Allocate (Release s A.m_Data).2 (A.m_Size + B.m_Size) annotation dev =
        some (EMemStatus.MEM_STATUS_OUT_OF_MEMORY, 0, (Release s A.m_Data).2) ∧
      Allocate (Release s B.m_Data).2 (A.m_Size + B.m_Size) annotation dev =
        some (EMemStatus.MEM_STATUS_OUT_OF_MEMORY, 0, (Release s B.m_Data).2)) := by
  have hB0 : B.m_Data ≠ 0 := by omega
  have hAB : A.m_Data ≠ B.m_Data := by omega
  have hr : ceilInt (A.m_Size + B.m_Size) MEM_GRANULARITY = A.m_Size + B.m_Size :=
    ceilInt_of_dvd_granularity _ (Dvd.dvd.add hAg hBg) (by omega)
  obtain ⟨a1, a2, a3, a4, a5, _⟩ := Release_two s A B hA hB hAu hBu hA0 hB0 hAB
  obtain ⟨b1, b2, b3, b4, b5, _⟩ := Release_two s B A hB hA hBu hAu hB0 hA0 (Ne.symm hAB)
  obtain ⟨l1, l2⟩ := ReleaseBlockUnsafe_pair_left_first s.m_FreeBlocks A B hadj hAsz hsp hBh hfar
  obtain ⟨r1, r2⟩ := ReleaseBlockUnsafe_pair_right_first s.m_FreeBlocks A B hadj hsp hBh hfar
  rw [l2] at a5
  rw [r2] at b5
  obtain ⟨c1, c2⟩ := Allocate_from_coalesced (Release (Release s A.m_Data).2 B.m_Data).2
    s.m_FreeBlocks A B annotation dev a5 hr
  refine ⟨a1, a4, a5, b1, b4, b5, c1, ?_⟩
  intro hsmall
  refine ⟨c2 hsmall, ?_, ?_⟩
  · apply Allocate_out_of_memory_of_small _ _ _ _ (by rw [a3]; exact hg)
    rw [hr, a2, l1]
    intro f hf
    rcases List.mem_append.1 hf with h | h
    · exact hsmall f ((List.takeWhile_sublist _).subset h)
    · rcases List.mem_cons.1 h with h | h
      · rw [h]; omega
      · exact hsmall f ((List.dropWhile_sublist _).subset h)
  · apply Allocate_out_of_memory_of_small _ _ _ _ (by rw [b3]; exact hg)
    rw [hr, b2, r1]
    intro f hf
    rcases List.mem_append.1 hf with h | h
    · exact hsmall f ((List.takeWhile_sublist _).subset h)
    · rcases List.mem_cons.1 h with h | h
      · rw [h]; omega
      · exact hsmall f ((List.dropWhile_sublist _).subset h)

/-- Witness for C4 (amended): the blocks at 132608 and 133120 of a pool that is
used up; after both are released one free block of 1024 bytes at 132608 serves
a request of 1024 bytes, which fails when only one of them is released. -/
theorem release_adjacent_pair_coalesces_witness :
    run (MemoryManager.empty true)
        [Op.reserve 1024 (some 131072), Op.allocate 1024 none none, Op.allocate 512 none none,
          Op.allocate 512 none none, Op.allocate 512 none none, Op.allocate 128512 none none] =
        some exPairBefore ∧
      (Release (Release exPairBefore 132608).2 133120).2.m_FreeBlocks =
        [⟨132608, 1024, false, none⟩] ∧
      (Release (Release exPairBefore 133120).2 132608).2.m_FreeBlocks =
        [⟨132608, 1024, false, none⟩] ∧
      (∃ s3, Allocate (Release (Release exPairBefore 132608).2 133120).2 (512 + 512) none none =
          some (EMemStatus.MEM_STATUS_SUCCESS, 132608, s3) ∧ s3.m_FreeBlocks = []) ∧
      Allocate (Release exPairBefore 132608).2 (512 + 512) none none =
        some (EMemStatus.MEM_STATUS_OUT_OF_MEMORY, 0, (Release exPairBefore 132608).2) :=
  have h := release_adjacent_pair_coalesces exPairBefore ⟨132608, 512, false, none⟩
    ⟨133120, 512, false, none⟩ none none (by decide) (by decide) (by decide) (by decide)
    (by decide) (by decide) (by decide) (by decide) (by decide) (by decide) (by decide)
    (by decide) (by decide) (by decide)
  ⟨by decide, h.2.2.1, h.2.2.2.2.2.1, (h.2.2.2.2.2.2.2 (by decide)).1,
    (h.2.2.2.2.2.2.2 (by decide)).2.1⟩

/-! ## Block sizes are multiples of the granularity -/

theorem ceilInt_dvd (m n : Nat) : n ∣ ceilInt m n := by
  unfold ceilInt
  have h1 : (m + n - 1) % SIZE_T_RANGE / n * n ≤ (m + n - 1) % SIZE_T_RANGE :=
    Nat.div_mul_le_self _ _
  have h2 : (m + n - 1) % SIZE_T_RANGE < SIZE_T_RANGE := Nat.mod_lt _ (by decide)
  rw [Nat.mod_eq_of_lt (by omega)]
  exact Dvd.intro_left _ rfl

theorem granular_ceilInt_cuda (m : Nat) : MEM_GRANULARITY ∣ ceilInt m CUDA_GRANULARITY :=
  Dvd.dvd.trans (by decide) (ceilInt_dvd m CUDA_GRANULARITY)

theorem granular_addSz (a b : Nat) (ha : MEM_GRANULARITY ∣ a) (hb : MEM_GRANULARITY ∣ b) :
    MEM_GRANULARITY ∣ addSz a b := by
  unfold addSz MEM_GRANULARITY SIZE_T_RANGE at *
  omega

theorem granular_subSz (a b : Nat) (ha : MEM_GRANULARITY ∣ a) (hb : MEM_GRANULARITY ∣ b) :
    MEM_GRANULARITY ∣ subSz a b := by
  unfold subSz MEM_GRANULARITY SIZE_T_RANGE at *
  omega

theorem SizesGranular_append (a b : List Block) :
    SizesGranular (a ++ b) ↔ SizesGranular a ∧ SizesGranular b := by
  unfold SizesGranular
  constructor
  · intro h
    exact ⟨fun x hx => h x (List.mem_append_left _ hx),
      fun x hx => h x (List.mem_append_right _ hx)⟩
  · rintro ⟨h1, h2⟩ x hx
    rcases List.mem_append.1 hx with hx | hx
    · exact h1 x hx
    · exact h2 x hx

theorem SizesGranular_cons (a : Block) (l : List Block) :
    SizesGranular (a :: l) ↔ MEM_GRANULARITY ∣ a.m_Size ∧ SizesGranular l := by
  unfold SizesGranular
  simp

theorem SizesGranular_nil : SizesGranular [] := by
  intro b hb; cases hb

theorem SizesGranular_of_sublist (a b : List Block) (h : a.Sublist b) (hb : SizesGranular b) :
    SizesGranular a := fun x hx => hb x (h.subset hx)

theorem ReleaseBlockUnsafe_granular (free : List Block) (curr : Block)
    (hf : SizesGranular free) (hc : MEM_GRANULARITY ∣ curr.m_Size) :
    SizesGranular (ReleaseBlockUnsafe free curr) := by
  rw [ReleaseBlockUnsafe_eq]
  have hb : SizesGranular (free.takeWhile (fun iter => decide (iter.m_Data < curr.m_Data))) :=
    SizesGranular_of_sublist _ _ (List.takeWhile_sublist _) hf
  have ha : SizesGranular (free.dropWhile (fun iter => decide (iter.m_Data < curr.m_Data))) :=
    SizesGranular_of_sublist _ _ (List.dropWhile_sublist _) hf
  generalize free.takeWhile (fun iter => decide (iter.m_Data < curr.m_Data)) = before at hb
  generalize free.dropWhile (fun iter => decide (iter.m_Data < curr.m_Data)) = after at ha
  have hm : SizesGranular (mergeWithPrev before curr).1 ∧
      MEM_GRANULARITY ∣ (mergeWithPrev before curr).2.m_Size := by
    cases hl : before.getLast? with
    | none => rw [mergeWithPrev_none _ _ hl]; exact ⟨hb, hc⟩
    | some prev =>
      have hsplit := getLast?_eq_some_split before prev hl
      have hb2 := hb
      rw [hsplit, SizesGranular_append, SizesGranular_cons] at hb2
      by_cases hmg : prev.m_Data + prev.m_Size = curr.m_Data ∧ curr.m_IsHead = false
      · rw [mergeWithPrev_merge _ _ _ hl hmg]
        exact ⟨hb2.1, granular_addSz _ _ hb2.2.1 hc⟩
      · rw [mergeWithPrev_keep _ _ _ hl hmg]; exact ⟨hb, hc⟩
  obtain ⟨hm1, hm2⟩ := hm
  generalize (mergeWithPrev before curr).1 = front at hm1
  generalize (mergeWithPrev before curr).2 = c at hm2
  cases after with
  | nil =>
    rw [mergeWithNext_nil, SizesGranular_append, SizesGranular_cons]
    exact ⟨hm1, hm2, SizesGranular_nil⟩
  | cons next rest =>
    rw [SizesGranular_cons] at ha
    by_cases hmg : c.m_Data + c.m_Size = next.m_Data ∧ next.m_IsHead = false
    · rw [mergeWithNext_merge _ _ _ _ hmg, SizesGranular_append, SizesGranular_cons]
      exact ⟨hm1, granular_addSz _ _ hm2 ha.1, ha.2⟩
    · rw [mergeWithNext_keep _ _ _ _ hmg, SizesGranular_append, SizesGranular_cons,
        SizesGranular_cons]
      exact ⟨hm1, hm2, ha.1, ha.2⟩

theorem Release_granular (s : MemoryManager) (ptr : Nat)
    (h : SizesGranular s.m_FreeBlocks ∧ SizesGranular s.m_UsedBlocks) :
    SizesGranular (Release s ptr).2.m_FreeBlocks ∧
      SizesGranular (Release s ptr).2.m_UsedBlocks := by
  unfold Release
  by_cases hp : ptr = 0
  · rw [if_pos hp]; exact h
  · rw [if_neg hp]
    cases hf : s.m_UsedBlocks.find? (fun curr => curr.m_Data == ptr) with
    | none => exact h
    | some curr =>
      refine ⟨ReleaseBlockUnsafe_granular _ _ h.1 (h.2 curr (List.mem_of_find?_eq_some hf)), ?_⟩
      exact fun b hb => h.2 b (List.mem_of_mem_eraseP hb)

theorem AllocateBlockUnsafe_granular (s s1 : MemoryManager) (size i : Nat) (dev : Option Nat)
    (h : SizesGranular s.m_FreeBlocks ∧ SizesGranular s.m_UsedBlocks)
    (ha : AllocateBlockUnsafe s size dev = some (s1, i)) :
    SizesGranular s1.m_FreeBlocks ∧ SizesGranular s1.m_UsedBlocks := by
  unfold AllocateBlockUnsafe at ha
  cases hl : s.m_FreeBlocks.getLast? with
  | some last =>
    rw [hl] at ha
    simp only at ha
    cases hd : cudaMalloc dev (ceilInt (subSz size last.m_Size) CUDA_GRANULARITY) with
    | none => rw [hd] at ha; cases ha
    | some data =>
      rw [hd] at ha
      simp only at ha
      by_cases hadj : data = last.m_Data + last.m_Size
      · rw [if_pos hadj] at ha
        simp only [Option.some.injEq, Prod.mk.injEq] at ha
        obtain ⟨hs1, _⟩ := ha
        subst hs1
        have hsplit := getLast?_eq_some_split _ _ hl
        have h1 := h.1
        rw [hsplit, SizesGranular_append, SizesGranular_cons] at h1
        refine ⟨?_, h.2⟩
        show SizesGranular (s.m_FreeBlocks.dropLast ++ [_])
        rw [SizesGranular_append, SizesGranular_cons]
        exact ⟨h1.1, granular_addSz _ _ h1.2.1 (granular_ceilInt_cuda _), SizesGranular_nil⟩
      · rw [if_neg hadj] at ha; cases ha
  | none =>
    rw [hl] at ha
    simp only at ha
    cases hd : cudaMalloc dev (ceilInt size CUDA_GRANULARITY) with
    | none => rw [hd] at ha; cases ha
    | some data =>
      rw [hd] at ha
      simp only at ha
      by_cases hnull : data = 0
      · rw [if_pos hnull] at ha; cases ha
      · rw [if_neg hnull] at ha
        have hnil : s.m_FreeBlocks = [] := List.getLast?_eq_none_iff.1 hl
        rw [hnil] at ha
        simp only [List.takeWhile_nil, List.dropWhile_nil, List.nil_append, List.length_nil,
          Option.some.injEq, Prod.mk.injEq] at ha
        obtain ⟨hs1, _⟩ := ha
        subst hs1
        refine ⟨?_, h.2⟩
        show SizesGranular [_]
        rw [SizesGranular_cons]
        exact ⟨granular_ceilInt_cuda _, SizesGranular_nil⟩

theorem AllocateFinish_granular (s s1 : MemoryManager) (i size p : Nat)
    ( annotation : Option String) (st : EMemStatus)
    (h : SizesGranular s.m_FreeBlocks ∧ SizesGranular s.m_UsedBlocks)
    (hsz : MEM_GRANULARITY ∣ size)
    (ha : AllocateFinish s i size annotation = some (st, p, s1)) :
    SizesGranular s1.m_FreeBlocks ∧ SizesGranular s1.m_UsedBlocks := by
  cases hb : s.m_FreeBlocks[i]? with
  | none =>
    unfold AllocateFinish ExtractBlockUnsafe at ha
    rw [hb] at ha
    cases ha
  | some b =>
    rw [AllocateFinish_eq s i size annotation b hb] at ha
    simp only [Option.some.injEq, Prod.mk.injEq] at ha
    obtain ⟨_, _, hs1⟩ := ha
    subst hs1
    obtain ⟨hsplit, herase, hset⟩ := getElem?_split _ _ _ hb
    have h1 := h.1
    rw [hsplit, SizesGranular_append, SizesGranular_cons] at h1
    refine ⟨?_, ?_⟩
    · show SizesGranular (if b.m_Size = size then _ else _)
      by_cases he : b.m_Size = size
      · rw [if_pos he, herase, SizesGranular_append]
        exact ⟨h1.1, h1.2.2⟩
      · rw [if_neg he, hset, SizesGranular_append, SizesGranular_cons]
        exact ⟨h1.1, granular_subSz _ _ h1.2.1 hsz, h1.2.2⟩
    · show SizesGranular (_ :: s.m_UsedBlocks)
      rw [SizesGranular_cons]
      exact ⟨hsz, h.2⟩

theorem step_granular (s s1 : MemoryManager) (op : Op)
    (h : SizesGranular s.m_FreeBlocks ∧ SizesGranular s.m_UsedBlocks)
    (hs : step s op = some s1) :
    SizesGranular s1.m_FreeBlocks ∧ SizesGranular s1.m_UsedBlocks := by
  cases op with
  | reserve size dev =>
    simp only [step, Option.map_eq_some'] at hs
    obtain ⟨⟨st, s2⟩, h1, h2⟩ := hs
    simp only at h2
    subst h2
    unfold Reserve at h1
    cases ha : AllocateBlockUnsafe s size dev with
    | none => rw [ha] at h1; cases h1
    | some r =>
      obtain ⟨s3, i⟩ := r
      rw [ha] at h1
      simp only [Option.some.injEq, Prod.mk.injEq] at h1
      rw [← h1.2]
      exact AllocateBlockUnsafe_granular s s3 size i dev h ha
  | allocate size annotation dev =>
    simp only [step, Option.map_eq_some'] at hs
    obtain ⟨⟨st, p, s2⟩, h1, h2⟩ := hs
    simp only at h2
    subst h2
    have hr : MEM_GRANULARITY ∣ ceilInt size MEM_GRANULARITY := ceilInt_dvd _ _
    cases hf : FindBestBlockUnsafe s.m_FreeBlocks (ceilInt size MEM_GRANULARITY) with
    | some r =>
      obtain ⟨i, b⟩ := r
      rw [Allocate_of_best s size i annotation dev b hf] at h1
      exact AllocateFinish_granular s _ i _ p annotation st h hr h1
    | none =>
      cases hg : s.m_CannotGrow with
      | true =>
        rw [Allocate_of_none_fixed s size annotation dev hf hg] at h1
        simp only [Option.some.injEq, Prod.mk.injEq] at h1
        rw [← h1.2.2]; exact h
      | false =>
        cases ha : AllocateBlockUnsafe s (ceilInt size MEM_GRANULARITY) dev with
        | none => rw [Allocate_of_none_fatal s size annotation dev hf hg ha] at h1; cases h1
        | some r =>
          obtain ⟨s3, i⟩ := r
          rw [Allocate_of_none_grow s s3 size i annotation dev hf hg ha] at h1
          exact AllocateFinish_granular s3 _ i _ p annotation st
            (AllocateBlockUnsafe_granular s s3 _ i dev h ha) hr h1
  | release ptr =>
    simp only [step, Option.some.injEq] at hs
    subst hs
    exact Release_granular s ptr h

theorem run_granular (ops : List Op) : ∀ (s s1 : MemoryManager),
    SizesGranular s.m_FreeBlocks ∧ SizesGranular s.m_UsedBlocks → run s ops = some s1 →
    SizesGranular s1.m_FreeBlocks ∧ SizesGranular s1.m_UsedBlocks := by
  induction ops with
  | nil =>
    intro s s1 h hr
    simp only [run, Option.some.injEq] at hr
    subst hr; exact h
  | cons op ops ih =>
    intro s s1 h hr
    simp only [run] at hr
    cases hs : step s op with
    | none => rw [hs] at hr; cases hr
    | some s2 =>
      rw [hs] at hr
      exact ih s2 s1 (step_granular s s2 op h hs) hr

/-- C13: in every state reachable from the empty allocator by Reserve, Allocate
and Release calls, the size of every block of the used list and of the free
list is a multiple of the block granularity 512. -/
theorem block_sizes_multiple_of_granularity (s : MemoryManager) (h : Reachable s) :
    (∀ b ∈ s.m_UsedBlocks, 512 ∣ b.m_Size) ∧ (∀ b ∈ s.m_FreeBlocks, 512 ∣ b.m_Size) := by
  obtain ⟨g, ops, hr⟩ := h
  have := run_granular ops _ s ⟨SizesGranular_nil, SizesGranular_nil⟩ hr
  exact ⟨this.2, this.1⟩

/-- Witness for C13: the state after the run `exRunOps`. -/
theorem block_sizes_multiple_of_granularity_witness :
    (∀ b ∈ exRunState.m_UsedBlocks, 512 ∣ b.m_Size) ∧
      (∀ b ∈ exRunState.m_FreeBlocks, 512 ∣ b.m_Size) :=
  block_sizes_multiple_of_granularity exRunState ⟨true, exRunOps, by decide⟩

/-! ## Releasing everything -/

theorem releaseAllUsed_fst (used : List Block) :
    ∀ free : List Block, (releaseAllUsed used free).1 = [] := by
  induction used with
  | nil => intro free; rfl
  | cons curr rest ih => intro free; exact ih _

theorem deleteFreeBlocks_eq (free : List Block) : deleteFreeBlocks free = [] := by
  induction free with
  | nil => rfl
  | cons a l ih => exact ih

theorem cudaFreeAll_some (devFree : Nat → Bool) (pools : List CudaBlock) :
    ∀ freed, cudaFreeAll devFree pools = some freed → freed = pools.map CudaBlock.ptr := by
  induction pools with
  | nil => intro freed h; simp only [cudaFreeAll, Option.some.injEq] at h; rw [← h]; rfl
  | cons it rest ih =>
    intro freed h
    unfold cudaFreeAll at h
    cases h1 : cudaFree devFree it.ptr with
    | none => rw [h1] at h; cases h
    | some u =>
      rw [h1] at h
      cases h2 : cudaFreeAll devFree rest with
      | none => rw [h2] at h; cases h
      | some fr =>
        rw [h2] at h
        simp only [Option.some.injEq] at h
        rw [← h, ih fr h2]
        rfl

theorem cudaFreeAll_of_ok (devFree : Nat → Bool) (pools : List CudaBlock)
    (h : ∀ it ∈ pools, devFree it.ptr = true) :
    cudaFreeAll devFree pools = some (pools.map CudaBlock.ptr) := by
  induction pools with
  | nil => rfl
  | cons it rest ih =>
    have h1 : cudaFree devFree it.ptr = some () := by
      unfold cudaFree; rw [if_pos (h it (List.mem_cons_self _ _))]
    unfold cudaFreeAll
    rw [h1, ih (fun x hx => h x (List.mem_cons_of_mem _ hx))]
    rfl

/-- C16: for every allocator state, when `ReleaseAllUnsafe` returns, the used
list and the free list are empty and the pointers passed to the device free
primitive are exactly the entries of the pool registry, each once and in
order; it returns (with success) whenever the device accepts every pool. -/
theorem release_all_empties_lists_and_frees_pools (s : MemoryManager)
    (devFree : Nat → Bool) :
    (∀ st s1 freed, ReleaseAllUnsafe s devFree = some (st, s1, freed) →
      st = EMemStatus.MEM_STATUS_SUCCESS ∧ s1.m_UsedBlocks = [] ∧ s1.m_FreeBlocks = [] ∧
      freed = s.m_CudaBlocks.map CudaBlock.ptr) ∧
    ((∀ it ∈ s.m_CudaBlocks, devFree it.ptr = true) →
      ∃ s1, ReleaseAllUnsafe s devFree =
        some (EMemStatus.MEM_STATUS_SUCCESS, s1, s.m_CudaBlocks.map CudaBlock.ptr)) := by
  constructor
  · intro st s1 freed h
    unfold ReleaseAllUnsafe at h
    cases hc : cudaFreeAll devFree s.m_CudaBlocks with
    | none => rw [hc] at h; cases h
    | some fr =>
      rw [hc] at h
      simp only [Option.some.injEq, Prod.mk.injEq] at h
      obtain ⟨h1, h2, h3⟩ := h
      subst h1 h2 h3
      exact ⟨rfl, releaseAllUsed_fst _ _, deleteFreeBlocks_eq _, cudaFreeAll_some _ _ _ hc⟩
  · intro hok
    unfold ReleaseAllUnsafe
    rw [cudaFreeAll_of_ok devFree _ hok]
    exact ⟨_, rfl⟩

/-- Witness for C16: the state with two used and one free block after the run
`exTwoUsed`, with a device that accepts every pointer. -/
theorem release_all_empties_lists_and_frees_pools_witness :
    ∃ s1, ReleaseAllUnsafe exTwoUsed (fun _ => true) =
        some (EMemStatus.MEM_STATUS_SUCCESS, s1, [131072]) ∧
      s1.m_UsedBlocks = [] ∧ s1.m_FreeBlocks = [] :=
  match (release_all_empties_lists_and_frees_pools exTwoUsed (fun _ => true)).2
    (fun _ _ => rfl) with
  | ⟨s1, h⟩ =>
    ⟨s1, h, ((release_all_empties_lists_and_frees_pools exTwoUsed (fun _ => true)).1
      _ s1 _ h).2.1,
      ((release_all_empties_lists_and_frees_pools exTwoUsed (fun _ => true)).1
        _ s1 _ h).2.2.1⟩

/-! ## Growth of the pool -/

theorem AllocateBlockUnsafe_extend (s : MemoryManager) (size d : Nat) (dev : Option Nat)
    (last : Block) (hl : s.m_FreeBlocks.getLast? = some last)
    (hm : cudaMalloc dev (ceilInt (subSz size last.m_Size) CUDA_GRANULARITY) = some d)
    (hadj : d = last.m_Data + last.m_Size) :
    AllocateBlockUnsafe s size dev =
      some ({ s with
          m_CudaBlocks := s.m_CudaBlocks ++
            [⟨d, ceilInt (subSz size last.m_Size) CUDA_GRANULARITY⟩],
          m_FreeBlocks := s.m_FreeBlocks.dropLast ++
            [⟨last.m_Data, addSz last.m_Size (ceilInt (subSz size last.m_Size) CUDA_GRANULARITY),
              last.m_IsHead, last.m_Annotation⟩] },
          s.m_FreeBlocks.length - 1) := by
  unfold AllocateBlockUnsafe
  rw [hl]
  simp only [hm, if_pos hadj, AddCudaBlockUnsafe]

theorem AllocateBlockUnsafe_discontinuous (s : MemoryManager) (size d : Nat)
    (dev : Option Nat) (last : Block) (hl : s.m_FreeBlocks.getLast? = some last)
    (hm : cudaMalloc dev (ceilInt (subSz size last.m_Size) CUDA_GRANULARITY) = some d)
    (hadj : d ≠ last.m_Data + last.m_Size) :
    AllocateBlockUnsafe s size dev = none := by
  unfold AllocateBlockUnsafe
  rw [hl]
  simp only [hm, if_neg hadj]

theorem AllocateBlockUnsafe_fresh (s : MemoryManager) (size d : Nat) (dev : Option Nat)
    (hl : s.m_FreeBlocks = [])
    (hm : cudaMalloc dev (ceilInt size CUDA_GRANULARITY) = some d) (hd : d ≠ 0) :
    AllocateBlockUnsafe s size dev =
      some ({ s with
          m_CudaBlocks := s.m_CudaBlocks ++ [⟨d, ceilInt size CUDA_GRANULARITY⟩],
          m_FreeBlocks := [⟨d, ceilInt size CUDA_GRANULARITY, false, none⟩] }, 0) := by
  unfold AllocateBlockUnsafe
  rw [hl]
  simp only [List.getLast?_nil, hm, if_neg hd, AddCudaBlockUnsafe, List.takeWhile_nil,
    List.dropWhile_nil, List.nil_append, List.length_nil]

theorem FindBestBlockUnsafe_none_of_small (free : List Block) (size : Nat)
    (h : ∀ c ∈ free, c.m_Size < size) : FindBestBlockUnsafe free size = none := by
  have hspec := FindBestBlockUnsafe_spec free size
  cases hf : FindBestBlockUnsafe free size with
  | none => rfl
  | some r =>
    obtain ⟨i, c⟩ := r
    rw [hf] at hspec
    have := h c (List.getElem?_mem hspec.1)
    have := hspec.2.1
    omega

/-- Counterexample to C15: growth is allowed, no free block fits 1024 bytes, the
device primitive succeeds, but it returns an address that is not the end of the
last free block, and `Allocate` does not succeed (the assertion of line 242 fails). -/
theorem growth_counterexample :
    run (MemoryManager.empty false)
        [Op.reserve 1024 (some 131072), Op.allocate 130560 none none] = some exLastSmall ∧
      (∀ c ∈ exLastSmall.m_FreeBlocks, c.m_Size < ceilInt 1024 MEM_GRANULARITY) ∧
      cudaMalloc (some 1048576) (ceilInt (subSz (ceilInt 1024 MEM_GRANULARITY) 512)
        CUDA_GRANULARITY) = some 1048576 ∧
      Allocate exLastSmall 1024 none (some 1048576) = none := by
  decide

/-- C15, amended: let growth be permitted and no free block fit the rounded
request `r`, in a state that satisfies the allocator invariant. With a
non-empty free list `AllocateBlockUnsafe` requests `r - size last` rounded up to
131072 bytes; when the device returns the address where the last free block
ends, that block is enlarged by the amount requested to a size of at least `r`
and `Allocate` succeeds from it; for any other address the call is fatal. With
an empty free list it requests `r` rounded up to 131072 bytes; for a non-null
address the free list becomes one block of that size at that address, of size
at least `r`, and `Allocate` succeeds at that address. -/
theorem allocate_growth (s : MemoryManager) (size : Nat) ( annotation : Option String)
    (dev : Option Nat) (hinv : Inv s) (hg : s.m_CannotGrow = false)
    (hsmall : ∀ c ∈ s.m_FreeBlocks, c.m_Size < ceilInt size MEM_GRANULARITY) :
    (∀ last d, s.m_FreeBlocks.getLast? = some last →
      cudaMalloc dev (ceilInt (subSz (ceilInt size MEM_GRANULARITY) last.m_Size)
        CUDA_GRANULARITY) = some d →
      subSz (ceilInt size MEM_GRANULARITY) last.m_Size =
        ceilInt size MEM_GRANULARITY - last.m_Size ∧
      (d = last.m_Data + last.m_Size →
        ∃ s1 s2,
          AllocateBlockUnsafe s (ceilInt size MEM_GRANULARITY) dev =
            some (s1, s.m_FreeBlocks.length - 1) ∧
          s1.m_FreeBlocks = s.m_FreeBlocks.dropLast ++
            [⟨last.m_Data, last.m_Size +
              ceilInt (ceilInt size MEM_GRANULARITY - last.m_Size) CUDA_GRANULARITY,
              last.m_IsHead, last.m_Annotation⟩] ∧
          ceilInt size MEM_GRANULARITY ≤ last.m_Size +
            ceilInt (ceilInt size MEM_GRANULARITY - last.m_Size) CUDA_GRANULARITY ∧
          Allocate s size annotation dev =
            some (EMemStatus.MEM_STATUS_SUCCESS, last.m_Data, s2)) ∧
      (d ≠ last.m_Data + last.m_Size → Allocate s size annotation dev = none)) ∧
    (∀ d, s.m_FreeBlocks = [] →
      cudaMalloc dev (ceilInt (ceilInt size MEM_GRANULARITY) CUDA_GRANULARITY) = some d →
      d ≠ 0 →
      ∃ s1 s2,
        AllocateBlockUnsafe s (ceilInt size MEM_GRANULARITY) dev = some (s1, 0) ∧
        s1.m_FreeBlocks =
          [⟨d, ceilInt (ceilInt size MEM_GRANULARITY) CUDA_GRANULARITY, false, none⟩] ∧
        ceilInt size MEM_GRANULARITY ≤
          ceilInt (ceilInt size MEM_GRANULARITY) CUDA_GRANULARITY ∧
        Allocate s size annotation dev = some (EMemStatus.MEM_STATUS_SUCCESS, d, s2)) := by
  have hnone := FindBestBlockUnsafe_none_of_small _ _ hsmall
  have hrlt : ceilInt size MEM_GRANULARITY < SIZE_T_RANGE := ceilInt_lt _ _
  constructor
  · intro last d hl hm
    have hlast : last.m_Size < ceilInt size MEM_GRANULARITY :=
      hsmall last (List.mem_of_getLast?_eq_some hl)
    have hsub : subSz (ceilInt size MEM_GRANULARITY) last.m_Size =
        ceilInt size MEM_GRANULARITY - last.m_Size := subSz_of_le _ _ (by omega) hrlt
    refine ⟨hsub, ?_, ?_⟩
    · intro hadj
      have hA := AllocateBlockUnsafe_extend s _ d dev last hl hm hadj
      obtain ⟨_, _, _, hfit⟩ := AllocateBlockUnsafe_spec s _ _ _ dev hinv hA
      obtain ⟨b, hb1, hb2⟩ := hfit hrlt hsmall
      obtain ⟨hz, hsp⟩ := cudaMalloc_some _ _ _ hm
      have hno : last.m_Size +
          ceilInt (subSz (ceilInt size MEM_GRANULARITY) last.m_Size) CUDA_GRANULARITY <
          SIZE_T_RANGE := by omega
      have hbeq : b = ⟨last.m_Data, addSz last.m_Size
          (ceilInt (subSz (ceilInt size MEM_GRANULARITY) last.m_Size) CUDA_GRANULARITY),
          last.m_IsHead, last.m_Annotation⟩ := by
        have hlen : s.m_FreeBlocks.length - 1 = s.m_FreeBlocks.dropLast.length := by simp
        simp only at hb1
        rw [hlen, List.getElem?_append_right (le_refl _)] at hb1
        simp only [Nat.sub_self, List.getElem?_cons_zero, Option.some.injEq] at hb1
        exact hb1.symm
      have hAl := Allocate_of_none_grow s _ size _ annotation dev hnone hg hA
      rw [AllocateFinish_eq _ _ _ annotation b hb1] at hAl
      rw [hbeq] at hb2 hAl
      rw [addSz_of_lt _ _ hno, hsub] at hb2
      rw [addSz_of_lt _ _ hno, hsub] at hA
      exact ⟨_, _, hA, rfl, hb2, hAl⟩
    · intro hadj
      exact Allocate_of_none_fatal s size annotation dev hnone hg
        (AllocateBlockUnsafe_discontinuous s _ d dev last hl hm hadj)
  · intro d hnil hm hd
    have hA := AllocateBlockUnsafe_fresh s _ d dev hnil hm hd
    obtain ⟨_, _, _, hfit⟩ := AllocateBlockUnsafe_spec s _ _ _ dev hinv hA
    obtain ⟨b, hb1, hb2⟩ := hfit hrlt hsmall
    have hbeq : b = ⟨d, ceilInt (ceilInt size MEM_GRANULARITY) CUDA_GRANULARITY, false, none⟩ := by
      simp only [List.getElem?_cons_zero, Option.some.injEq] at hb1
      exact hb1.symm
    have hAl := Allocate_of_none_grow s _ size _ annotation dev hnone hg hA
    rw [AllocateFinish_eq _ _ _ annotation b hb1] at hAl
    rw [hbeq] at hb2 hAl
    exact ⟨_, _, hA, rfl, hb2, hAl⟩

/-- Witness for C15 (amended): the device returns 262144, where the last free
block of `exLastSmall` ends; the block grows to 131584 bytes and serves 1024 bytes. -/
theorem allocate_growth_witness :
    ∃ s1 s2,
      AllocateBlockUnsafe exLastSmall (ceilInt 1024 MEM_GRANULARITY) (some 262144) =
        some (s1, exLastSmall.m_FreeBlocks.length - 1) ∧
      s1.m_FreeBlocks = exLastSmall.m_FreeBlocks.dropLast ++
        [⟨261632, 512 + ceilInt (ceilInt 1024 MEM_GRANULARITY - 512) CUDA_GRANULARITY,
          false, none⟩] ∧
      ceilInt 1024 MEM_GRANULARITY ≤
        512 + ceilInt (ceilInt 1024 MEM_GRANULARITY - 512) CUDA_GRANULARITY ∧
      Allocate exLastSmall 1024 none (some 262144) =
        some (EMemStatus.MEM_STATUS_SUCCESS, 261632, s2) :=
  ((allocate_growth exLastSmall 1024 none (some 262144)
    (Reachable_inv exLastSmall ⟨false,
      [Op.reserve 1024 (some 131072), Op.allocate 130560 none none], by decide⟩)
    rfl (by decide)).1 ⟨261632, 512, false, none⟩ 262144 (by decide) (by decide)).2.1
    (by decide)

/-! ## Releasing the middle block -/

/-- C14: let `A`, `B`, `C` be used blocks of positive size with `B` starting
where `A` ends and `C` starting where `B` ends, `B` the only used block at its
non-null base address, in a state whose free blocks are not empty and overlap
no used block. Then `Release(base B)` succeeds and the free list becomes the
old free list with the block `B` itself (same base address and size, merged
with nothing) inserted at its address-sorted position. -/
theorem release_middle_of_three (s : MemoryManager) (A B C : Block)
    (hA : A ∈ s.m_UsedBlocks) (hB : B ∈ s.m_UsedBlocks) (hC : C ∈ s.m_UsedBlocks)
    (hBu : ∀ c ∈ s.m_UsedBlocks, c.m_Data = B.m_Data → c = B) (hB0 : B.m_Data ≠ 0)
    (hAB : A.m_Data + A.m_Size = B.m_Data) (hBC : B.m_Data + B.m_Size = C.m_Data)
    (hAs : 0 < A.m_Size) (hCs : 0 < C.m_Size)
    (hfree : ∀ f ∈ s.m_FreeBlocks, 0 < f.m_Size ∧
      ∀ u ∈ s.m_UsedBlocks,
        f.m_Data + f.m_Size ≤ u.m_Data ∨ u.m_Data + u.m_Size ≤ f.m_Data) :
    (Release s B.m_Data).1 = EMemStatus.MEM_STATUS_SUCCESS ∧
      (Release s B.m_Data).2.m_FreeBlocks =
        s.m_FreeBlocks.takeWhile (fun iter => iter.m_Data < B.m_Data) ++
          B :: s.m_FreeBlocks.dropWhile (fun iter => iter.m_Data < B.m_Data) ∧
      (Release s B.m_Data).2.m_UsedBlocks =
        s.m_UsedBlocks.eraseP (fun b => b.m_Data == B.m_Data) ∧
      B ∉ s.m_FreeBlocks := by
  have hfar : ∀ f ∈ s.m_FreeBlocks,
      f.m_Data + f.m_Size < B.m_Data ∨ B.m_Data + B.m_Size < f.m_Data := by
    intro f hf
    obtain ⟨hpos, hdis⟩ := hfree f hf
    have h1 := hdis A hA
    have h2 := hdis B hB
    have h3 := hdis C hC
    omega
  rw [Release_of_find s B.m_Data B hB0 (find?_of_unique _ B hB hBu)]
  refine ⟨rfl, ReleaseBlockUnsafe_isolated _ _ hfar, rfl, ?_⟩
  intro hmem
  have := hfar B hmem
  omega

/-- Witness for C14: three allocations of 512 bytes at 131072, 131584 and
132096; releasing the middle one leaves the free block (131584, 512) in front
of the rest of the pool. -/
theorem release_middle_of_three_witness :
    run (MemoryManager.empty true)
        [Op.reserve 1024 (some 131072), Op.allocate 512 none none, Op.allocate 512 none none,
          Op.allocate 512 none none] = some exThreeUsed ∧
      (Release exThreeUsed 131584).1 = EMemStatus.MEM_STATUS_SUCCESS ∧
      (Release exThreeUsed 131584).2.m_FreeBlocks =
        [⟨131584, 512, false, none⟩, ⟨132608, 129536, false, none⟩] :=
  have h := release_middle_of_three exThreeUsed ⟨131072, 512, false, none⟩
    ⟨131584, 512, false, none⟩ ⟨132096, 512, false, none⟩ (by decide) (by decide) (by decide)
    (by decide) (by decide) (by decide) (by decide) (by decide) (by decide) (by decide)
  ⟨by decide, h.1, h.2.1⟩

/-! ## Blocks do not overlap -/

theorem blocksAt_append (l1 l2 : List Block) (a : Nat) :
    blocksAt (l1 ++ l2) a = blocksAt l1 a + blocksAt l2 a := by
  simp [blocksAt]

theorem blocksAt_cons (b : Block) (l : List Block) (a : Nat) :
    blocksAt (b :: l) a = coverCount b a + blocksAt l a := by
  simp [blocksAt, coverCount, List.countP_cons, Nat.add_comm]

theorem blocksAt_nil (a : Nat) : blocksAt [] a = 0 := rfl

theorem poolsAt_append (l1 l2 : List CudaBlock) (a : Nat) :
    poolsAt (l1 ++ l2) a = poolsAt l1 a + poolsAt l2 a := by
  simp [poolsAt]

theorem poolsAt_single (p : CudaBlock) (a : Nat) :
    poolsAt [p] a = if p.covers a then 1 else 0 := by
  simp [poolsAt, List.countP_cons]

/-- Two ranges that follow each other cover together what their union covers. -/
theorem coverCount_union (x y z : Block) (a : Nat) (hzd : z.m_Data = x.m_Data)
    (hzs : z.m_Size = x.m_Size + y.m_Size) (hadj : x.m_Data + x.m_Size = y.m_Data) :
    coverCount z a = coverCount x a + coverCount y a := by
  unfold coverCount Block.covers
  simp only [decide_eq_true_eq]
  rw [hzd, hzs, ← hadj]
  by_cases c1 : x.m_Data ≤ a ∧ a < x.m_Data + x.m_Size
  · have c2 : ¬ (x.m_Data + x.m_Size ≤ a ∧ a < x.m_Data + x.m_Size + y.m_Size) := by omega
    have c3 : x.m_Data ≤ a ∧ a < x.m_Data + (x.m_Size + y.m_Size) := by omega
    rw [if_pos c1, if_neg c2, if_pos c3]
  · by_cases c2 : x.m_Data + x.m_Size ≤ a ∧ a < x.m_Data + x.m_Size + y.m_Size
    · have c3 : x.m_Data ≤ a ∧ a < x.m_Data + (x.m_Size + y.m_Size) := by omega
      rw [if_neg c1, if_pos c2, if_pos c3]
    · have c3 : ¬ (x.m_Data ≤ a ∧ a < x.m_Data + (x.m_Size + y.m_Size)) := by omega
      rw [if_neg c1, if_neg c2, if_neg c3]

theorem covers_congr (x y : Block) (a : Nat) (hd : x.m_Data = y.m_Data)
    (hs : x.m_Size = y.m_Size) : x.covers a = y.covers a := by
  unfold Block.covers; rw [hd, hs]

theorem mergeWithPrev_at (before : List Block) (curr : Block) (a : Nat)
    (hb : BlocksInSpace before)
    (hc : curr.m_Data ≠ 0 ∧ curr.m_Data + curr.m_Size < SIZE_T_RANGE) :
    blocksAt (mergeWithPrev before curr).1 a + coverCount (mergeWithPrev before curr).2 a =
      blocksAt before a + coverCount curr a := by
  cases hl : before.getLast? with
  | none => rw [mergeWithPrev_none _ _ hl]
  | some prev =>
    have hsplit := getLast?_eq_some_split before prev hl
    by_cases hm : prev.m_Data + prev.m_Size = curr.m_Data ∧ curr.m_IsHead = false
    · rw [mergeWithPrev_merge _ _ _ hl hm]
      have hno : prev.m_Size + curr.m_Size < SIZE_T_RANGE := by
        have := hb prev (List.mem_of_getLast?_eq_some hl)
        omega
      rw [addSz_of_lt _ _ hno]
      conv_rhs => rw [hsplit]
      rw [blocksAt_append, blocksAt_cons, blocksAt_nil]
      simp only
      rw [coverCount_union prev curr
        ⟨prev.m_Data, prev.m_Size + curr.m_Size, prev.m_IsHead, prev.m_Annotation⟩ a rfl rfl hm.1]
      omega
    · rw [mergeWithPrev_keep _ _ _ hl hm]

theorem mergeWithNext_at (front : List Block) (curr : Block) (after : List Block) (a : Nat)
    (ha : BlocksInSpace after) :
    blocksAt (mergeWithNext front curr after) a =
      blocksAt front a + coverCount curr a + blocksAt after a := by
  cases after with
  | nil =>
    rw [mergeWithNext_nil, blocksAt_append, blocksAt_cons, blocksAt_nil]
    omega
  | cons next rest =>
    by_cases hm : curr.m_Data + curr.m_Size = next.m_Data ∧ next.m_IsHead = false
    · rw [mergeWithNext_merge _ _ _ _ hm]
      have hno : curr.m_Size + next.m_Size < SIZE_T_RANGE := by
        have := ha next (List.mem_cons_self _ _)
        omega
      rw [addSz_of_lt _ _ hno, blocksAt_append, blocksAt_cons, blocksAt_cons,
        coverCount_union curr next
          ⟨curr.m_Data, curr.m_Size + next.m_Size, curr.m_IsHead, curr.m_Annotation⟩ a rfl rfl
          hm.1]
      omega
    · rw [mergeWithNext_keep _ _ _ _ hm, blocksAt_append, blocksAt_cons, blocksAt_cons]
      omega

theorem ReleaseBlockUnsafe_at (free : List Block) (curr : Block) (a : Nat)
    (hf : BlocksInSpace free)
    (hc : curr.m_Data ≠ 0 ∧ curr.m_Data + curr.m_Size < SIZE_T_RANGE) :
    blocksAt (ReleaseBlockUnsafe free curr) a = blocksAt free a + coverCount curr a := by
  have hsplit := List.takeWhile_append_dropWhile
    (fun iter => decide (iter.m_Data < curr.m_Data)) free
  have hf2 := hf
  rw [← hsplit, BlocksInSpace_append] at hf2
  rw [ReleaseBlockUnsafe_eq, mergeWithNext_at _ _ _ a hf2.2,
    mergeWithPrev_at _ curr a hf2.1 hc]
  conv_rhs => rw [← hsplit]
  rw [blocksAt_append]
  omega

theorem find?_eraseP_at (p : Block → Bool) (l : List Block) (c : Block) (a : Nat)
    (h : l.find? p = some c) :
    blocksAt l a = coverCount c a + blocksAt (l.eraseP p) a := by
  induction l with
  | nil => simp at h
  | cons x l ih =>
    by_cases hp : p x = true
    · simp [List.find?, hp] at h
      subst h
      simp [List.eraseP, hp, blocksAt_cons]
    · have hpx : p x = false := by simpa using hp
      simp [List.find?, hpx] at h
      simp only [List.eraseP_cons, hpx, cond_false, blocksAt_cons]
      rw [ih h]
      omega

theorem Release_address (s : MemoryManager) (ptr : Nat) (hinv : Inv s) (h : AddressInv s) :
    AddressInv (Release s ptr).2 := by
  by_cases hp : ptr = 0
  · unfold Release; rw [if_pos hp]; exact h
  · cases hf : s.m_UsedBlocks.find? (fun curr => curr.m_Data == ptr) with
    | none => unfold Release; rw [if_neg hp, hf]; exact h
    | some curr =>
      rw [Release_of_find s ptr curr hp hf]
      intro a
      have h1 := find?_eraseP_at _ _ _ a hf
      have h2 := ReleaseBlockUnsafe_at s.m_FreeBlocks curr a hinv.1
        (hinv.2.1 curr (List.mem_of_find?_eq_some hf))
      have h3 := h a
      show blocksAt (s.m_UsedBlocks.eraseP _) a + blocksAt (ReleaseBlockUnsafe _ curr) a =
        poolsAt s.m_CudaBlocks a
      omega

/-- The two ways in which `AllocateBlockUnsafe` returns. -/
theorem AllocateBlockUnsafe_cases (s s1 : MemoryManager) (size i : Nat) (dev : Option Nat)
    (h : AllocateBlockUnsafe s size dev = some (s1, i)) :
    (∃ last d, s.m_FreeBlocks.getLast? = some last ∧
      cudaMalloc dev (ceilInt (subSz size last.m_Size) CUDA_GRANULARITY) = some d ∧
      d = last.m_Data + last.m_Size) ∨
    (∃ d, s.m_FreeBlocks = [] ∧ cudaMalloc dev (ceilInt size CUDA_GRANULARITY) = some d ∧
      d ≠ 0) := by
  cases hl : s.m_FreeBlocks.getLast? with
  | some last =>
    left
    cases hd : cudaMalloc dev (ceilInt (subSz size last.m_Size) CUDA_GRANULARITY) with
    | none =>
      unfold AllocateBlockUnsafe at h
      rw [hl] at h
      simp only [hd] at h
      cases h
    | some d =>
      by_cases hadj : d = last.m_Data + last.m_Size
      · exact ⟨last, d, rfl, hd, hadj⟩
      · rw [AllocateBlockUnsafe_discontinuous s size d dev last hl hd hadj] at h
        cases h
  | none =>
    right
    have hnil : s.m_FreeBlocks = [] := List.getLast?_eq_none_iff.1 hl
    cases hd : cudaMalloc dev (ceilInt size CUDA_GRANULARITY) with
    | none =>
      unfold AllocateBlockUnsafe at h
      rw [hl] at h
      simp only [hd] at h
      cases h
    | some d =>
      by_cases hnull : d = 0
      · unfold AllocateBlockUnsafe at h
        rw [hl] at h
        simp only [hd, if_pos hnull] at h
        cases h
      · exact ⟨d, hnil, rfl, hnull⟩

theorem AllocateBlockUnsafe_address (s s1 : MemoryManager) (size i : Nat) (dev : Option Nat)
    (h : AddressInv s) (ha : AllocateBlockUnsafe s size dev = some (s1, i)) :
    AddressInv s1 := by
  rcases AllocateBlockUnsafe_cases s s1 size i dev ha with
    ⟨last, d, hl, hm, hadj⟩ | ⟨d, hnil, hm, hd⟩
  · rw [AllocateBlockUnsafe_extend s size d dev last hl hm hadj] at ha
    simp only [Option.some.injEq, Prod.mk.injEq] at ha
    obtain ⟨hs1, _⟩ := ha
    subst hs1
    obtain ⟨_, hsp⟩ := cudaMalloc_some _ _ _ hm
    have hno : last.m_Size + ceilInt (subSz size last.m_Size) CUDA_GRANULARITY <
        SIZE_T_RANGE := by omega
    have hsplit := getLast?_eq_some_split _ _ hl
    intro a
    have h3 := h a
    rw [hsplit, blocksAt_append, blocksAt_cons, blocksAt_nil] at h3
    show blocksAt s.m_UsedBlocks a + blocksAt (s.m_FreeBlocks.dropLast ++ [_]) a =
      poolsAt (s.m_CudaBlocks ++ [_]) a
    rw [blocksAt_append, blocksAt_cons, blocksAt_nil, poolsAt_append, poolsAt_single,
      addSz_of_lt _ _ hno]
    have hu := coverCount_union last
      ⟨d, ceilInt (subSz size last.m_Size) CUDA_GRANULARITY, false, none⟩
      ⟨last.m_Data, last.m_Size + ceilInt (subSz size last.m_Size) CUDA_GRANULARITY,
        last.m_IsHead, last.m_Annotation⟩ a rfl rfl hadj.symm
    have hp : (if (CudaBlock.mk d
        (ceilInt (subSz size last.m_Size) CUDA_GRANULARITY)).covers a then 1 else 0) =
        coverCount ⟨d, ceilInt (subSz size last.m_Size) CUDA_GRANULARITY, false, none⟩ a := rfl
    rw [hp]
    omega
  · rw [AllocateBlockUnsafe_fresh s size d dev hnil hm hd] at ha
    simp only [Option.some.injEq, Prod.mk.injEq] at ha
    obtain ⟨hs1, _⟩ := ha
    subst hs1
    intro a
    have h3 := h a
    rw [hnil, blocksAt_nil] at h3
    show blocksAt s.m_UsedBlocks a + blocksAt [_] a = poolsAt (s.m_CudaBlocks ++ [_]) a
    rw [blocksAt_cons, blocksAt_nil, poolsAt_append, poolsAt_single]
    have hp : (if (CudaBlock.mk d (ceilInt size CUDA_GRANULARITY)).covers a then 1 else 0) =
        coverCount ⟨d, ceilInt size CUDA_GRANULARITY, false, none⟩ a := rfl
    rw [hp]
    omega

theorem AllocateFinish_address (s s1 : MemoryManager) (i size p : Nat)
    ( annotation : Option String) (st : EMemStatus) (b : Block) (hinv : Inv s)
    (h : AddressInv s) (hb : s.m_FreeBlocks[i]? = some b) (hsz : size ≤ b.m_Size)
    (ha : AllocateFinish s i size annotation = some (st, p, s1)) : AddressInv s1 := by
  rw [AllocateFinish_eq s i size annotation b hb] at ha
  simp only [Option.some.injEq, Prod.mk.injEq] at ha
  obtain ⟨_, _, hs1⟩ := ha
  subst hs1
  obtain ⟨hsplit, herase, hset⟩ := getElem?_split _ _ _ hb
  have hbR : b.m_Size < SIZE_T_RANGE := by
    have := hinv.1 b (List.getElem?_mem hb)
    omega
  intro a
  have h3 := h a
  rw [hsplit, blocksAt_append, blocksAt_cons] at h3
  show blocksAt (_ :: s.m_UsedBlocks) a + blocksAt (if b.m_Size = size then _ else _) a =
    poolsAt s.m_CudaBlocks a
  by_cases he : b.m_Size = size
  · rw [if_pos he, herase, blocksAt_append, blocksAt_cons]
    have hc : coverCount ⟨b.m_Data, size, b.m_IsHead, annotation⟩ a = coverCount b a := by
      unfold coverCount
      rw [covers_congr ⟨b.m_Data, size, b.m_IsHead, annotation⟩ b a rfl he.symm]
    rw [hc]
    omega
  · rw [if_neg he, hset, blocksAt_append, blocksAt_cons, blocksAt_cons,
      subSz_of_le _ _ hsz hbR]
    have hu := coverCount_union ⟨b.m_Data, size, b.m_IsHead, annotation⟩
      ⟨b.m_Data + size, b.m_Size - size, false, none⟩ b a rfl
      (by show b.m_Size = size + (b.m_Size - size); omega) rfl
    omega

theorem step_address (s s1 : MemoryManager) (op : Op) (hinv : Inv s) (h : AddressInv s)
    (hs : step s op = some s1) : AddressInv s1 := by
  cases op with
  | reserve size dev =>
    simp only [step, Option.map_eq_some'] at hs
    obtain ⟨⟨st, s2⟩, h1, h2⟩ := hs
    simp only at h2
    subst h2
    unfold Reserve at h1
    cases ha : AllocateBlockUnsafe s size dev with
    | none => rw [ha] at h1; cases h1
    | some r =>
      obtain ⟨s3, i⟩ := r
      rw [ha] at h1
      simp only [Option.some.injEq, Prod.mk.injEq] at h1
      rw [← h1.2]
      exact AllocateBlockUnsafe_address s s3 size i dev h ha
  | allocate size annotation dev =>
    simp only [step, Option.map_eq_some'] at hs
    obtain ⟨⟨st, p, s2⟩, h1, h2⟩ := hs
    simp only at h2
    subst h2
    have hspec := FindBestBlockUnsafe_spec s.m_FreeBlocks (ceilInt size MEM_GRANULARITY)
    cases hf : FindBestBlockUnsafe s.m_FreeBlocks (ceilInt size MEM_GRANULARITY) with
    | some r =>
      obtain ⟨i, b⟩ := r
      rw [hf] at hspec
      rw [Allocate_of_best s size i annotation dev b hf] at h1
      exact AllocateFinish_address s _ i _ p annotation st b hinv h hspec.1 hspec.2.1 h1
    | none =>
      rw [hf] at hspec
      cases hg : s.m_CannotGrow with
      | true =>
        rw [Allocate_of_none_fixed s size annotation dev hf hg] at h1
        simp only [Option.some.injEq, Prod.mk.injEq] at h1
        rw [← h1.2.2]; exact h
      | false =>
        cases ha : AllocateBlockUnsafe s (ceilInt size MEM_GRANULARITY) dev with
        | none => rw [Allocate_of_none_fatal s size annotation dev hf hg ha] at h1; cases h1
        | some r =>
          obtain ⟨s3, i⟩ := r
          rw [Allocate_of_none_grow s s3 size i annotation dev hf hg ha] at h1
          obtain ⟨hinv3, _, _, hfit⟩ := AllocateBlockUnsafe_spec s s3 _ i dev hinv ha
          obtain ⟨b, hb1, hb2⟩ := hfit (ceilInt_lt _ _) hspec
          exact AllocateFinish_address s3 _ i _ p annotation st b hinv3
            (AllocateBlockUnsafe_address s s3 _ i dev h ha) hb1 hb2 h1
  | release ptr =>
    simp only [step, Option.some.injEq] at hs
    subst hs
    exact Release_address s ptr hinv h

theorem run_address (ops : List Op) : ∀ (s s1 : MemoryManager), Inv s → AddressInv s →
    run s ops = some s1 → AddressInv s1 := by
  induction ops with
  | nil =>
    intro s s1 _ h hr
    simp only [run, Option.some.injEq] at hr
    subst hr; exact h
  | cons op ops ih =>
    intro s s1 hinv h hr
    simp only [run] at hr
    cases hs : step s op with
    | none => rw [hs] at hr; cases hr
    | some s2 =>
      rw [hs] at hr
      exact ih s2 s1 (step_inv s s2 op hinv hs) (step_address s s2 op hinv h hs) hr

theorem Reachable_address (s : MemoryManager) (h : Reachable s) : AddressInv s := by
  obtain ⟨g, ops, hr⟩ := h
  exact run_address ops _ s (Inv_empty g) (fun _ => rfl) hr

theorem poolsAt_le_one (pools : List CudaBlock)
    (h : pools.Pairwise (fun p q => ∀ a,
      ¬ (p.ptr ≤ a ∧ a < p.ptr + p.size ∧ q.ptr ≤ a ∧ a < q.ptr + q.size))) :
    ∀ a, poolsAt pools a ≤ 1 := by
  induction pools with
  | nil => intro a; exact Nat.zero_le _
  | cons p l ih =>
    intro a
    rw [List.pairwise_cons] at h
    have hl := ih h.2 a
    unfold poolsAt at hl ⊢
    rw [List.countP_cons]
    by_cases hc : p.covers a = true
    · have hz : l.countP (fun q => q.covers a) = 0 := by
        rw [List.countP_eq_zero]
        intro q hq hqa
        have hpa : p.ptr ≤ a ∧ a < p.ptr + p.size := by
          simpa [CudaBlock.covers] using hc
        have hqa2 : q.ptr ≤ a ∧ a < q.ptr + q.size := by
          simpa [CudaBlock.covers] using hqa
        exact h.1 q hq a ⟨hpa.1, hpa.2, hqa2.1, hqa2.2⟩
      rw [hz, if_pos hc]
    · rw [if_neg hc]; omega

theorem pairwise_of_blocksAt_le_one (l : List Block) (h : ∀ a, blocksAt l a ≤ 1) :
    l.Pairwise (fun x y => ∀ a,
      ¬ (x.m_Data ≤ a ∧ a < x.m_Data + x.m_Size ∧ y.m_Data ≤ a ∧ a < y.m_Data + y.m_Size)) := by
  induction l with
  | nil => exact List.Pairwise.nil
  | cons x l ih =>
    rw [List.pairwise_cons]
    constructor
    · intro y hy a hxy
      have hx : x.covers a = true := by
        simp only [Block.covers, decide_eq_true_eq]; exact ⟨hxy.1, hxy.2.1⟩
      have hyc : y.covers a = true := by
        simp only [Block.covers, decide_eq_true_eq]; exact ⟨hxy.2.2.1, hxy.2.2.2⟩
      have h1 := h a
      rw [blocksAt_cons] at h1
      have h2 : 0 < blocksAt l a := List.countP_pos_iff.2 ⟨y, hy, hyc⟩
      have h3 : coverCount x a = 1 := by unfold coverCount; rw [if_pos hx]
      omega
    · apply ih
      intro a
      have h1 := h a
      rw [blocksAt_cons] at h1
      omega

/-- C12: in every state reachable from the empty allocator by Reserve, Allocate
and Release calls in which the pools of the registry are pairwise disjoint (the
device returned each pool disjoint from the existing ones), the address ranges
`[base, base + size)` of the blocks of the used list and the free list taken
together are pairwise disjoint: no address lies in two of them. -/
theorem blocks_pairwise_disjoint (s : MemoryManager) (h : Reachable s)
    (hp : s.m_CudaBlocks.Pairwise (fun p q => ∀ a,
      ¬ (p.ptr ≤ a ∧ a < p.ptr + p.size ∧ q.ptr ≤ a ∧ a < q.ptr + q.size))) :
    (s.m_UsedBlocks ++ s.m_FreeBlocks).Pairwise (fun x y => ∀ a,
      ¬ (x.m_Data ≤ a ∧ a < x.m_Data + x.m_Size ∧
        y.m_Data ≤ a ∧ a < y.m_Data + y.m_Size)) := by
  apply pairwise_of_blocksAt_le_one
  intro a
  have h1 := Reachable_address s h a
  have h2 := poolsAt_le_one _ hp a
  rw [blocksAt_append]
  omega

/-- Witness for C12: the state after the run `exRunOps`, with a single pool. -/
theorem blocks_pairwise_disjoint_witness :
    (exRunState.m_UsedBlocks ++ exRunState.m_FreeBlocks).Pairwise (fun x y => ∀ a,
      ¬ (x.m_Data ≤ a ∧ a < x.m_Data + x.m_Size ∧
        y.m_Data ≤ a ∧ a < y.m_Data + y.m_Size)) :=
  blocks_pairwise_disjoint exRunState ⟨true, exRunOps, by decide⟩
    (List.pairwise_singleton _ _)

/-- C11, evaluation at the failing input: after the run `exZeroOps`, which
contains a request of size zero, the free list holds the block at 132096 in
front of the block at 131584 and is not sorted by base address. -/
theorem free_list_unsorted_after_zero_size_request :
    run (MemoryManager.empty true) exZeroOps = some exZeroState ∧
      exZeroState.m_FreeBlocks =
        [⟨132096, 130048, false, none⟩, ⟨131584, 0, false, none⟩] ∧
      ¬ exZeroState.m_FreeBlocks.Pairwise (fun x y => x.m_Data < y.m_Data) := by
  decide

/-! ## Buffer storage: residency and pointers -/

/-- `AllocateOnDevice` returns with a host pointer: on a storage of non-zero
allocated size, whenever the call returns the host pointer is not null. -/
theorem AllocateOnDevice_host_ne_zero (s s1 : Storage) (host : Nat) (dev : Option Nat)
    (hsize : s.m_AllocSize ≠ 0) (h : s.AllocateOnDevice host dev = some s1) :
    s1.m_DataPtr ≠ 0 := by
  unfold Storage.AllocateOnDevice at h
  rw [if_neg hsize] at h
  simp only [Option.bind_eq_some] at h
  obtain ⟨a, _, b, _, c, _, h⟩ := h
  by_cases hc : c.m_DataPtr = 0
  · rw [if_pos hc] at h; exact absurd h (by simp)
  · rw [if_neg hc] at h
    by_cases hd : c.m_DeviceDataPtr ≠ 0
    · rw [if_pos hd] at h
      cases h; exact hc
    · rw [if_neg hd] at h
      cases dev with
      | none => exact absurd h (by simp)
      | some d =>
        simp only [Option.some.injEq] at h
        rw [← h]; exact hc

/-- `FreeOnDevice(false, ·)` on a storage that keeps its device memory, with no
preload and no offload requested, changes nothing. -/
theorem FreeOnDevice_keep_of_idle (s : Storage) (w : Bool)
    (hk : s.m_Type.ST_KeepDevMem = true) (hp : s.m_PreloadRequested = false)
    (ho : s.m_OffloadRequested = false) :
    s.FreeOnDevice false w = some s := by
  unfold Storage.FreeOnDevice Storage.WaitForPreload Storage.WaitForOffload
  simp [hp, ho, hk]

/-- C17, evaluation at the failing input: on a new storage of size zero
`OverrideHost` returns with location `Host` and a null host pointer, and a
second `OverrideHost` then fails the assertion of line 629; `OverrideDevice`
returns with location `Device` and a null device pointer, and a second
`OverrideDevice` then fails the assertion of line 644; `CopyToHost(true)`
reaches the same state as `OverrideHost`. -/
theorem residency_without_pointer_on_size_zero :
    (Storage.new exPlainType 0).OverrideHost 4096 = some exEmptyHost ∧
      exEmptyHost.m_DataLocation = ELocation.Host ∧ exEmptyHost.m_DataPtr = 0 ∧
      exEmptyHost.OverrideHost 4096 = none ∧
      (Storage.new exPlainType 0).OverrideDevice 4096 (some 8192) = some exEmptyDevice ∧
      exEmptyDevice.m_DataLocation = ELocation.Device ∧ exEmptyDevice.m_DeviceDataPtr = 0 ∧
      exEmptyDevice.OverrideDevice 4096 (some 8192) = none ∧
      (Storage.new exPlainType 0).CopyToHost true 4096 = some exEmptyHost := by
  decide

/-- C18, evaluation at the failing input: on a new offloadable storage of 1024
elements `AllocateOnDevice` returns with host pointer 4096 and device pointer
8192; after `OverrideDevice` and `Offload(true)` the copy is in flight;
`FreeOnHost` then returns with the deferred-free flag set, and the completion
callback frees the host memory and keeps the device memory: the device pointer
is 8192 and the host pointer is null. Without the offload, `FreeOnHost` in the
same state fails the assertion of line 246, and in the state reached
`AllocateOnDevice` is fatal. -/
theorem device_only_after_deferred_host_free :
    (Storage.new exOffloadableType 1024).AllocateOnDevice 4096 (some 8192) =
        some (exBoth exOffloadableType) ∧
      (exBoth exOffloadableType).m_DataPtr = 4096 ∧
      ((exBoth exOffloadableType).OverrideDevice 0 none).bind (fun s => s.Offload true) =
        some (exOffloading exOffloadableType) ∧
      ((exOffloading exOffloadableType).FreeOnHost.map Storage.OffloadDoneCallback) =
        some exDeviceOnly ∧
      exDeviceOnly.m_DeviceDataPtr = 8192 ∧ exDeviceOnly.m_DataPtr = 0 ∧
      ((exBoth exOffloadableType).OverrideDevice 0 none).bind (fun s => s.FreeOnHost) = none ∧
      exDeviceOnly.AllocateOnDevice 4096 (some 8192) = none := by
  decide

/-- C19, counterexample: on the storage `exBoth`, whose host pointer is 4096
and whose device pointer is 8192, reached by `AllocateOnDevice` on a new
storage, `AllocateOnHost` does not return: the assertion of line 214 fails. -/
theorem allocate_on_host_counterexample :
    (Storage.new exPlainType 1024).AllocateOnDevice 4096 (some 8192) =
        some (exBoth exPlainType) ∧
      (exBoth exPlainType).m_DataPtr ≠ 0 ∧
      (exBoth exPlainType).AllocateOnHost 12288 = none := by
  decide

/-- C19, amended: `AllocateOnHost` changes nothing when the allocated size is
zero; for a non-zero allocated size it is fatal when the device pointer is set;
with a null device pointer it changes nothing when the host pointer is already
set, and when the host pointer is null it stores the pointer obtained from the
pinned host allocator if the storage is offloadable, from the plain host
allocator otherwise, asking for the allocated size in bytes, and sets the
location to `Host`, leaving every other member as it was. -/
theorem allocate_on_host_cases (s : Storage) (host : Nat) :
    (s.m_AllocSize = 0 → s.AllocateOnHost host = some s) ∧
      (s.m_AllocSize ≠ 0 → s.m_DeviceDataPtr ≠ 0 → s.AllocateOnHost host = none) ∧
      (s.m_AllocSize ≠ 0 → s.m_DeviceDataPtr = 0 → s.m_DataPtr ≠ 0 →
        s.AllocateOnHost host = some s) ∧
      (s.m_AllocSize ≠ 0 → s.m_DeviceDataPtr = 0 → s.m_DataPtr = 0 →
        s.AllocateOnHost host = some { s with
          m_DataPtr := host,
          m_DataLocation := ELocation.Host,
          calls := s.calls ++
            [if s.m_Type.ST_Offloadable then
              StorageCall.HostPinnedAllocate (s.m_AllocSize * SIZEOF_FLOAT) host
             else StorageCall.HostAllocate (s.m_AllocSize * SIZEOF_FLOAT) host] }) := by
  refine ⟨?_, ?_, ?_, ?_⟩
  · intro h0
    unfold Storage.AllocateOnHost
    rw [if_pos h0]
  · intro h0 hd
    unfold Storage.AllocateOnHost
    rw [if_neg h0, if_pos hd]
  · intro h0 hd hh
    unfold Storage.AllocateOnHost
    rw [if_neg h0, if_neg (not_not.mpr hd), if_pos hh]
  · intro h0 hd hh
    unfold Storage.AllocateOnHost
    rw [if_neg h0, if_neg (not_not.mpr hd), if_neg (not_not.mpr hh)]
    rfl

/-- Witness for C19: on a new offloadable storage of 1024 elements
`AllocateOnHost` obtains 4096 bytes from the pinned host allocator. -/
theorem allocate_on_host_cases_witness :
    (Storage.new exOffloadableType 1024).AllocateOnHost 4096 =
      some { Storage.new exOffloadableType 1024 with
        m_DataPtr := 4096,
        m_DataLocation := ELocation.Host,
        calls := [StorageCall.HostPinnedAllocate 4096 4096] } :=
  (allocate_on_host_cases (Storage.new exOffloadableType 1024) 4096).2.2.2
    (by decide) (by decide) (by decide)

/-- C20, evaluation at the failing input: on a storage that keeps its device
memory, with an offload in flight, `FreeOnDevice(false, false)` returns with
the flag `m_FreeDeviceMemOnOffloadDone` set, and the completion callback then
hands the device memory at 8192 back and nulls the device pointer. With no
offload requested the same call changes nothing. -/
theorem free_on_device_keep_during_offload :
    (exOffloading exKeepType).m_Type.ST_KeepDevMem = true ∧
      (exOffloading exKeepType).m_FreeDeviceMemOnOffloadDone = false ∧
      (exOffloading exKeepType).FreeOnDevice false false =
        some { exOffloading exKeepType with m_FreeDeviceMemOnOffloadDone := true } ∧
      ((exOffloading exKeepType).FreeOnDevice false false).map Storage.OffloadDoneCallback =
        some exKeepFreed ∧
      exKeepFreed.m_DeviceDataPtr = 0 ∧
      exKeepFreed.calls.getLast? = some (StorageCall.DeviceScheduleFree 8192) ∧
      (exBoth exKeepType).FreeOnDevice false false = some (exBoth exKeepType) := by
  decide



/-! ## Buffer storage: offload requests and reference counts -/

/-- `Offload` on a storage that holds host and device memory, is offloadable,
has a non-zero allocated size and has its data on the device: the call reaches
the test of the size against the threshold. -/
theorem Offload_of_resident (s : Storage) (force : Bool)
    (hoff : s.m_Type.ST_Offloadable = true) (hloc : s.m_DataLocation = ELocation.Device)
    (hsize : s.m_AllocSize ≠ 0) (hh : s.m_DataPtr ≠ 0) (hd : s.m_DeviceDataPtr ≠ 0) :
    s.Offload force =
      if ¬ force ∧ s.SizeInBytes < MIN_SIZE_TO_OFFLOAD then some (s.IncDeviceRef 1)
      else if s.m_OffloadRequested then some s
      else
        some { s with
          m_OffloadFuture := true,
          m_OffloadRequested := true,
          m_OffloadDone := false,
          calls := s.calls ++
            [StorageCall.DeviceOffload s.m_DataPtr s.m_DeviceDataPtr s.SizeInBytes],
          offloadInFlight := true } := by
  unfold Storage.Offload
  rw [if_neg hsize, if_pos hoff, if_neg hh]
  have h1 : ¬ (s.m_DeviceDataPtr = 0 ∨ s.m_DataLocation = ELocation.Host) := by
    rw [hloc]; intro h; rcases h with h | h
    · exact hd h
    · exact absurd h (by decide)
  rw [if_neg h1]

/-- C21, evaluation at the failing input: on a new storage of 1024 elements
that is offloadable and keeps its device memory, the run `exKeepOps`, whose
only `FreeOnDevice` call passes `force = false`, ends with the device memory at
8192 handed to `ScheduleFree` and a null device pointer. -/
theorem keep_device_memory_freed_without_force :
    Storage.run false false (Storage.new exKeepType 1024) exKeepOps = some exKeepFreed ∧
      (Storage.new exKeepType 1024).m_Type.ST_KeepDevMem = true ∧
      StorageCall.DeviceScheduleFree 8192 ∈ exKeepFreed.calls ∧
      exKeepFreed.m_DeviceDataPtr = 0 ∧
      Storage.run true true (Storage.new exKeepType 1024) exKeepOps = some exKeepFreed := by
  decide

/-- C23, counterexample: a new offloadable storage of 1024 elements has no
device pointer, and `Offload` on it does not return: the assertion of line 447
fails. -/
theorem offload_counterexample :
    (Storage.new exOffloadableType 1024).m_DeviceDataPtr = 0 ∧
      (Storage.new exOffloadableType 1024).Offload false = none ∧
      (Storage.new exOffloadableType 1024).Offload true = none := by
  decide

/-- C23, amended: `Offload` returns and changes nothing when the allocated size
is zero, when the storage is not offloadable, and when the storage is
offloadable with its host pointer set and either has no device pointer or has
its data on the host. On an offloadable storage of non-zero allocated size
whose host pointer is null it is fatal. -/
theorem offload_no_op_cases (s : Storage) (force : Bool) :
    (s.m_AllocSize = 0 → s.Offload force = some s) ∧
      (s.m_Type.ST_Offloadable = false → s.Offload force = some s) ∧
      (s.m_Type.ST_Offloadable = true → s.m_DataPtr ≠ 0 →
        (s.m_DeviceDataPtr = 0 ∨ s.m_DataLocation = ELocation.Host) →
        s.Offload force = some s) ∧
      (s.m_Type.ST_Offloadable = true → s.m_AllocSize ≠ 0 → s.m_DataPtr = 0 →
        s.Offload force = none) := by
  refine ⟨?_, ?_, ?_, ?_⟩
  · intro h0
    unfold Storage.Offload
    rw [if_pos h0]
  · intro hoff
    unfold Storage.Offload
    by_cases h0 : s.m_AllocSize = 0
    · rw [if_pos h0]
    · rw [if_neg h0, hoff]; rfl
  · intro hoff hh hd
    unfold Storage.Offload
    by_cases h0 : s.m_AllocSize = 0
    · rw [if_pos h0]
    · rw [if_neg h0, if_pos hoff, if_neg hh, if_pos hd]
  · intro hoff h0 hh
    unfold Storage.Offload
    rw [if_neg h0, if_pos hoff, if_pos hh]

/-- Witness for C23: on the storage `exBoth`, which holds host and device
memory and has its data on the host, `Offload` changes nothing. -/
theorem offload_no_op_cases_witness :
    (exBoth exOffloadableType).Offload true = some (exBoth exOffloadableType) :=
  (offload_no_op_cases (exBoth exOffloadableType) true).2.2.1
    (by decide) (by decide) (Or.inr (by decide))

/-- An integer in the range of an `int` is stored unchanged. -/
theorem toInt_of_range (x : Int) (h0 : -2 ^ 31 ≤ x) (h1 : x < 2 ^ 31) : toInt x = x := by
  unfold toInt
  omega

/-- The conversion `(int)n` wraps around: `ResetDeviceRef(4294967295)` stores
`-1`, and `IncDeviceRef` at `INT_MAX` does not give `2 ^ 31`. -/
theorem ResetDeviceRef_wraps (s : Storage) (h : s.m_Type.ST_DeviceRefCounted = true) :
    (s.ResetDeviceRef 4294967295).m_DeviceDataRefCount = -1 ∧
      ((s.ResetDeviceRef 2147483647).IncDeviceRef 1).m_DeviceDataRefCount = -2147483648 := by
  unfold Storage.IncDeviceRef Storage.ResetDeviceRef
  simp only [h, if_true]
  decide

/-- Taking `n` from a non-negative `int` count that is at least `n`. -/
theorem toInt_sub (c : Int) (n : Nat) (h0 : 0 ≤ c) (h1 : c < 2 ^ 31) (hn : (n : Int) ≤ c) :
    toInt (c - toInt (n : Int)) = c - (n : Int) := by
  rw [toInt_of_range (n : Int) (by omega) (by omega), toInt_of_range _ (by omega) (by omega)]

/-- Adding one to an `int` count below `INT_MAX`. -/
theorem toInt_succ (c : Int) (h0 : -2 ^ 31 ≤ c) (h1 : c < 2 ^ 31 - 1) :
    toInt (c + toInt ((1 : Nat) : Int)) = c + 1 := by
  rw [toInt_of_range ((1 : Nat) : Int) (by omega) (by omega),
    toInt_of_range _ (by omega) (by omega)]
  rfl

/-- C24: on an offloadable storage of non-zero allocated size that holds host
and device memory and has its data on the device, `Offload(false)` with a size
in bytes below `MIN_SIZE_TO_OFFLOAD` requests no transfer and returns the
storage unchanged except for the device reference count; on a storage that
counts device references, with the count in the range of an `int` and below
`INT_MAX`, the count is one more. With `force = true`, or with a size in bytes
of at least the threshold, the call returns with the offload requested: a
request already pending is left as it is, and otherwise the future is armed,
the flags are set and one copy is requested from the device. -/
theorem offload_threshold (s : Storage) (force : Bool)
    (hoff : s.m_Type.ST_Offloadable = true) (hloc : s.m_DataLocation = ELocation.Device)
    (hsize : s.m_AllocSize ≠ 0) (hh : s.m_DataPtr ≠ 0) (hd : s.m_DeviceDataPtr ≠ 0)
    (hcnt : s.m_Type.ST_DeviceRefCounted = true →
      -2 ^ 31 ≤ s.m_DeviceDataRefCount ∧ s.m_DeviceDataRefCount < 2 ^ 31 - 1) :
    (force = false → s.SizeInBytes < MIN_SIZE_TO_OFFLOAD →
        s.Offload force =
          some (if s.m_Type.ST_DeviceRefCounted then
            { s with m_DeviceDataRefCount := s.m_DeviceDataRefCount + 1 } else s)) ∧
      ((force = true ∨ MIN_SIZE_TO_OFFLOAD ≤ s.SizeInBytes) →
        ∃ s1, s.Offload force = some s1 ∧ s1.m_OffloadRequested = true ∧
          (s.m_OffloadRequested = true → s1 = s) ∧
          (s.m_OffloadRequested = false →
            s1 = { s with
              m_OffloadFuture := true,
              m_OffloadRequested := true,
              m_OffloadDone := false,
              calls := s.calls ++
                [StorageCall.DeviceOffload s.m_DataPtr s.m_DeviceDataPtr s.SizeInBytes],
              offloadInFlight := true })) := by
  have hO := Offload_of_resident s force hoff hloc hsize hh hd
  constructor
  · intro hf hsmall
    rw [hO, if_pos ⟨by simp [hf], hsmall⟩]
    unfold Storage.IncDeviceRef
    by_cases hc : s.m_Type.ST_DeviceRefCounted = true
    · rw [if_pos hc, if_pos hc, toInt_succ _ (hcnt hc).1 (hcnt hc).2]
    · rw [if_neg hc, if_neg hc]
  · intro hbig
    have hn : ¬ (¬ force = true ∧ s.SizeInBytes < MIN_SIZE_TO_OFFLOAD) := by
      rintro ⟨h1, h2⟩
      rcases hbig with h | h
      · exact h1 h
      · omega
    rw [hO, if_neg hn]
    by_cases hr : s.m_OffloadRequested = true
    · rw [if_pos hr]
      exact ⟨s, rfl, hr, fun _ => rfl, fun h => absurd hr (by simp [h])⟩
    · rw [if_neg hr]
      exact ⟨_, rfl, rfl, fun h => absurd h hr, fun _ => rfl⟩

/-- Witness for C24: the storage `exResident`, of 4096 bytes, counting device
references, with `force = false`: the device reference count becomes 1. -/
theorem offload_threshold_witness :
    (exResident exCountedType).Offload false =
      some { exResident exCountedType with m_DeviceDataRefCount := 1 } :=
  (offload_threshold (exResident exCountedType) false
    (by decide) (by decide) (by decide) (by decide) (by decide)
    (fun _ => by decide)).1 rfl (by decide)

/-- C25: on an offloadable storage of non-zero allocated size that holds host
and device memory, has its data on the device and has no offload requested,
`Offload`, forced or with a size in bytes of at least the threshold, requests
exactly one copy from the device; a second `Offload` right after it returns the
storage unchanged, so one copy has been requested in all; and `WaitForOffload`
then returns, with the requested flag cleared, the offload done and no copy in
flight, and still one copy requested in all. -/
theorem offload_twice_requests_one_copy (s : Storage) (force : Bool)
    (hoff : s.m_Type.ST_Offloadable = true) (hloc : s.m_DataLocation = ELocation.Device)
    (hsize : s.m_AllocSize ≠ 0) (hh : s.m_DataPtr ≠ 0) (hd : s.m_DeviceDataPtr ≠ 0)
    (hreq : s.m_OffloadRequested = false)
    (hbig : force = true ∨ MIN_SIZE_TO_OFFLOAD ≤ s.SizeInBytes) :
    ∃ s1 s2, s.Offload force = some s1 ∧
      s1.calls = s.calls ++
        [StorageCall.DeviceOffload s.m_DataPtr s.m_DeviceDataPtr s.SizeInBytes] ∧
      s1.offloadsIssued = s.offloadsIssued + 1 ∧
      s1.Offload force = some s1 ∧
      s1.WaitForOffload = some s2 ∧
      s2.m_OffloadRequested = false ∧ s2.m_OffloadDone = true ∧
      s2.offloadInFlight = false ∧
      s2.offloadsIssued = s.offloadsIssued + 1 := by
  have hn : ∀ t : Storage, t.SizeInBytes = s.SizeInBytes →
      ¬ (¬ force = true ∧ t.SizeInBytes < MIN_SIZE_TO_OFFLOAD) := by
    rintro t ht ⟨h1, h2⟩
    rcases hbig with h | h
    · exact h1 h
    · omega
  have hO := Offload_of_resident s force hoff hloc hsize hh hd
  rw [if_neg (hn s rfl), hreq] at hO
  refine ⟨_, _, hO, rfl, ?_, ?_, rfl, rfl, rfl, rfl, ?_⟩
  · simp [Storage.offloadsIssued, List.countP_append]
  · refine (Offload_of_resident _ force ?_ ?_ ?_ ?_ ?_).trans ?_
    · exact hoff
    · exact hloc
    · exact hsize
    · exact hh
    · exact hd
    · rw [if_neg]
      · rfl
      · exact hn _ rfl
  · simp only [Storage.offloadsIssued, Storage.OffloadDoneCallback]
    split_ifs <;> simp [List.countP_append]

/-- Witness for C25: the storage `exResident`, with a forced offload. -/
theorem offload_twice_requests_one_copy_witness :
    ∃ s1 s2, (exResident exOffloadableType).Offload true = some s1 ∧
      s1.calls = (exResident exOffloadableType).calls ++
        [StorageCall.DeviceOffload (exResident exOffloadableType).m_DataPtr
          (exResident exOffloadableType).m_DeviceDataPtr
          (exResident exOffloadableType).SizeInBytes] ∧
      s1.offloadsIssued = (exResident exOffloadableType).offloadsIssued + 1 ∧
      s1.Offload true = some s1 ∧
      s1.WaitForOffload = some s2 ∧
      s2.m_OffloadRequested = false ∧ s2.m_OffloadDone = true ∧
      s2.offloadInFlight = false ∧
      s2.offloadsIssued = (exResident exOffloadableType).offloadsIssued + 1 :=
  offload_twice_requests_one_copy (exResident exOffloadableType) true
    (by decide) (by decide) (by decide) (by decide) (by decide) (by decide) (Or.inl rfl)

/-- C28, counterexample: on a storage without the capability to count host
references, `IncRef` and `DecRef` do not return: the assertions of lines 705
and 713 fail. -/
theorem ref_count_without_capability_counterexample :
    (exBoth exPlainType).m_Type.ST_RefCounted = false ∧
      (exBoth exPlainType).IncRef 1 = none ∧
      (exBoth exPlainType).DecRef 0 false false = none ∧
      (exBoth exPlainType).DecRef 0 true true = none := by
  decide

/-- C28, amended: on a storage that does not count host references `IncRef`
and `DecRef` are fatal; on a storage that does not count device references
`IncDeviceRef` and `DecDeviceRef` return and change nothing. -/
theorem ref_count_without_capability (s : Storage) (n : Nat) (force wait : Bool) :
    (s.m_Type.ST_RefCounted = false →
        s.IncRef n = none ∧ s.DecRef n force wait = none) ∧
      (s.m_Type.ST_DeviceRefCounted = false →
        s.IncDeviceRef n = s ∧ s.DecDeviceRef n force wait = some s) := by
  constructor
  · intro h
    unfold Storage.IncRef Storage.DecRef
    simp [h]
  · intro h
    unfold Storage.IncDeviceRef Storage.DecDeviceRef
    simp [h]

/-- Witness for C28: the storage `exBoth` without capabilities. -/
theorem ref_count_without_capability_witness :
    (exBoth exPlainType).IncDeviceRef 1 = exBoth exPlainType ∧
      (exBoth exPlainType).DecDeviceRef 1 false false = some (exBoth exPlainType) :=
  (ref_count_without_capability (exBoth exPlainType) 1 false false).2 (by decide)

/-! ## Buffer storage: deferred frees -/

/-- What `WaitForPreload` leaves when it returns: with a preload requested, the
request and the future are cleared, no preload is in flight, and the location
is `Device` when the callback was outstanding and the device pointer is set. -/
theorem WaitForPreload_eq (s s1 : Storage) (h : s.WaitForPreload = some s1) :
    s1 = if s.m_PreloadRequested then
        { s with
          m_DataLocation :=
            if s.preloadInFlight = true ∧ s.m_DeviceDataPtr ≠ 0 then ELocation.Device
            else s.m_DataLocation,
          preloadInFlight := false,
          m_PreloadFuture := false,
          m_PreloadRequested := false }
      else s := by
  unfold Storage.WaitForPreload at h
  by_cases hr : s.m_PreloadRequested = true
  · rw [if_pos hr] at h
    rw [if_pos hr]
    unfold Storage.preloadFutureGet at h
    by_cases hf : s.m_PreloadFuture = true
    · rw [if_pos hf] at h
      simp only [Option.some_bind, Option.some.injEq] at h
      rw [← h]
      by_cases hi : s.preloadInFlight = true
      · by_cases hd : s.m_DeviceDataPtr ≠ 0
        · simp [hi, hd, Storage.PreloadDoneCallback]
        · simp [hi, hd, Storage.PreloadDoneCallback]
      · have hi2 : s.preloadInFlight = false := by simpa using hi
        cases s
        simp_all
    · rw [if_neg hf] at h
      exact absurd h (by simp)
  · rw [if_neg hr] at h
    rw [if_neg hr]
    exact (Option.some.inj h).symm

/-- `FreeOnDevice` without forced waiting while an offload is requested and not
done: after the wait for a requested preload, only the flag is set. -/
theorem FreeOnDevice_of_pending (s : Storage) (force : Bool)
    (hreq : s.m_OffloadRequested = true) (hdone : s.m_OffloadDone = false) :
    s.FreeOnDevice force false =
      s.WaitForPreload.bind fun s1 =>
        some { s1 with m_FreeDeviceMemOnOffloadDone := true } := by
  unfold Storage.FreeOnDevice
  cases hw : s.WaitForPreload with
  | none => rfl
  | some s1 =>
    have h1 := WaitForPreload_eq s s1 hw
    have hreq1 : s1.m_OffloadRequested = true := by
      rw [h1]; split_ifs <;> exact hreq
    have hdone1 : s1.m_OffloadDone = false := by
      rw [h1]; split_ifs <;> exact hdone
    simp [hreq1, hdone1]

/-- C22, counterexample: in the state `exTwoTransfers`, reached by the run
`exTwoTransfersOps`, an offload is requested and not done and the data is on
the host; `FreeOnDevice(false, false)` returns with the location `Device`. -/
theorem deferred_free_counterexample :
    Storage.run false false (Storage.new exOffloadableType 1024) exTwoTransfersOps =
        some exTwoTransfers ∧
      exTwoTransfers.m_OffloadRequested = true ∧ exTwoTransfers.m_OffloadDone = false ∧
      exTwoTransfers.m_DataLocation = ELocation.Host ∧
      (exTwoTransfers.FreeOnDevice false false).map (fun s => s.m_DataLocation) =
        some ELocation.Device := by
  decide

/-- C22, amended: while an offload is requested and not done, `FreeOnHost`
returns with the flag `m_FreePinnedMemOnOffloadDone` set and nothing else
changed. `FreeOnDevice` without forced waiting first waits for a requested
preload; with no preload requested it returns with the flag
`m_FreeDeviceMemOnOffloadDone` set and nothing else changed, and whenever it
returns the flag is set, both pointers are unchanged, no call has been made on
an allocator or on the device, and the location is unchanged if no preload was
in flight. `OffloadDoneCallback` hands the device pointer to `ScheduleFree`
and nulls it exactly when the first flag is set, hands the host pointer to the
pinned allocator and nulls it exactly when the second flag is set, clears both
flags and marks the offload done. -/
theorem deferred_free (s : Storage) (force : Bool)
    (hreq : s.m_OffloadRequested = true) (hdone : s.m_OffloadDone = false) :
    s.FreeOnHost = some { s with m_FreePinnedMemOnOffloadDone := true } ∧
      (s.m_PreloadRequested = false →
        s.FreeOnDevice force false = some { s with m_FreeDeviceMemOnOffloadDone := true }) ∧
      (∀ s1, s.FreeOnDevice force false = some s1 →
        s1.m_FreeDeviceMemOnOffloadDone = true ∧
        s1.m_FreePinnedMemOnOffloadDone = s.m_FreePinnedMemOnOffloadDone ∧
        s1.m_DataPtr = s.m_DataPtr ∧ s1.m_DeviceDataPtr = s.m_DeviceDataPtr ∧
        s1.calls = s.calls ∧
        (s.preloadInFlight = false → s1.m_DataLocation = s.m_DataLocation)) ∧
      s.OffloadDoneCallback.m_DeviceDataPtr =
        (if s.m_FreeDeviceMemOnOffloadDone then 0 else s.m_DeviceDataPtr) ∧
      s.OffloadDoneCallback.m_DataPtr =
        (if s.m_FreePinnedMemOnOffloadDone then 0 else s.m_DataPtr) ∧
      s.OffloadDoneCallback.calls =
        s.calls ++
          (if s.m_FreeDeviceMemOnOffloadDone then
            [StorageCall.DeviceScheduleFree s.m_DeviceDataPtr] else []) ++
          (if s.m_FreePinnedMemOnOffloadDone then
            [StorageCall.HostPinnedFree s.m_DataPtr] else []) ∧
      s.OffloadDoneCallback.m_FreeDeviceMemOnOffloadDone = false ∧
      s.OffloadDoneCallback.m_FreePinnedMemOnOffloadDone = false ∧
      s.OffloadDoneCallback.m_OffloadDone = true := by
  refine ⟨?_, ?_, ?_, ?_, ?_, ?_, ?_, ?_, ?_⟩
  · unfold Storage.FreeOnHost
    simp [hreq, hdone]
  · intro hp
    rw [FreeOnDevice_of_pending s force hreq hdone]
    unfold Storage.WaitForPreload
    simp [hp]
  · intro s1 h
    rw [FreeOnDevice_of_pending s force hreq hdone] at h
    simp only [Option.bind_eq_some, Option.some.injEq] at h
    obtain ⟨s0, hw, h⟩ := h
    have h0 := WaitForPreload_eq s s0 hw
    rw [← h, h0]
    refine ⟨rfl, ?_, ?_, ?_, ?_, ?_⟩
    · split_ifs <;> rfl
    · split_ifs <;> rfl
    · split_ifs <;> rfl
    · split_ifs <;> rfl
    · intro hfl
      by_cases hr : s.m_PreloadRequested = true
      · simp [hr, hfl]
      · simp [hr]
  · unfold Storage.OffloadDoneCallback
    by_cases h1 : s.m_FreeDeviceMemOnOffloadDone = true <;>
      by_cases h2 : s.m_FreePinnedMemOnOffloadDone = true <;> simp [h1, h2]
  · unfold Storage.OffloadDoneCallback
    by_cases h1 : s.m_FreeDeviceMemOnOffloadDone = true <;>
      by_cases h2 : s.m_FreePinnedMemOnOffloadDone = true <;> simp [h1, h2]
  · unfold Storage.OffloadDoneCallback
    by_cases h1 : s.m_FreeDeviceMemOnOffloadDone = true <;>
      by_cases h2 : s.m_FreePinnedMemOnOffloadDone = true <;> simp [h1, h2]
  · rfl
  · rfl
  · rfl

/-- Witness for C22: the state `exOffloading`, with a forced offload in flight
and no preload requested. -/
theorem deferred_free_witness :
    (exOffloading exOffloadableType).FreeOnHost =
        some { exOffloading exOffloadableType with m_FreePinnedMemOnOffloadDone := true } ∧
      (exOffloading exOffloadableType).FreeOnDevice true false =
        some { exOffloading exOffloadableType with m_FreeDeviceMemOnOffloadDone := true } :=
  ⟨(deferred_free (exOffloading exOffloadableType) true (by decide) (by decide)).1,
    (deferred_free (exOffloading exOffloadableType) true (by decide) (by decide)).2.1
      (by decide)⟩

/-! ## Buffer storage: preload during an offload -/

/-- `AllocateOnHost` does not touch the deferred-free flags. -/
theorem AllocateOnHost_flags (s s1 : Storage) (host : Nat)
    (h : s.AllocateOnHost host = some s1) :
    s1.m_FreeDeviceMemOnOffloadDone = s.m_FreeDeviceMemOnOffloadDone ∧
      s1.m_FreePinnedMemOnOffloadDone = s.m_FreePinnedMemOnOffloadDone := by
  unfold Storage.AllocateOnHost at h
  split_ifs at h <;> cases h <;> exact ⟨rfl, rfl⟩

/-- After `m_OffloadFuture.get()` the deferred-free flags are off if they were
off before. -/
theorem offloadFutureGet_flags (s s1 : Storage) (h : s.offloadFutureGet = some s1)
    (h1 : s.m_FreeDeviceMemOnOffloadDone = false)
    (h2 : s.m_FreePinnedMemOnOffloadDone = false) :
    s1.m_FreeDeviceMemOnOffloadDone = false ∧ s1.m_FreePinnedMemOnOffloadDone = false := by
  unfold Storage.offloadFutureGet at h
  split_ifs at h <;> cases h
  · exact ⟨rfl, rfl⟩
  · exact ⟨h1, h2⟩

/-- `m_PreloadFuture.get()` does not touch the deferred-free flags. -/
theorem preloadFutureGet_flags (s s1 : Storage) (h : s.preloadFutureGet = some s1) :
    s1.m_FreeDeviceMemOnOffloadDone = s.m_FreeDeviceMemOnOffloadDone ∧
      s1.m_FreePinnedMemOnOffloadDone = s.m_FreePinnedMemOnOffloadDone := by
  unfold Storage.preloadFutureGet at h
  split_ifs at h <;> cases h <;> exact ⟨rfl, rfl⟩

/-- `AllocateOnDevice` leaves the deferred-free flags off if they were off. -/
theorem AllocateOnDevice_flags (s s1 : Storage) (host : Nat) (dev : Option Nat)
    (h : s.AllocateOnDevice host dev = some s1)
    (h1 : s.m_FreeDeviceMemOnOffloadDone = false)
    (h2 : s.m_FreePinnedMemOnOffloadDone = false) :
    s1.m_FreeDeviceMemOnOffloadDone = false ∧ s1.m_FreePinnedMemOnOffloadDone = false := by
  unfold Storage.AllocateOnDevice at h
  by_cases h0 : s.m_AllocSize = 0
  · rw [if_pos h0] at h; cases h; exact ⟨h1, h2⟩
  · rw [if_neg h0] at h
    simp only [Option.bind_eq_some] at h
    obtain ⟨a, ha, b, hb, c, hc, h⟩ := h
    have fa : a.m_FreeDeviceMemOnOffloadDone = false ∧ a.m_FreePinnedMemOnOffloadDone = false := by
      split_ifs at ha
      · have := AllocateOnHost_flags s a host ha
        exact ⟨this.1.trans h1, this.2.trans h2⟩
      · cases ha; exact ⟨h1, h2⟩
    have fb : b.m_FreeDeviceMemOnOffloadDone = false ∧ b.m_FreePinnedMemOnOffloadDone = false := by
      split_ifs at hb
      · exact offloadFutureGet_flags _ b hb fa.1 fa.2
      · cases hb; exact fa
    have fc : c.m_FreeDeviceMemOnOffloadDone = false ∧ c.m_FreePinnedMemOnOffloadDone = false := by
      split_ifs at hc
      · have := preloadFutureGet_flags _ c hc
        exact ⟨this.1.trans fb.1, this.2.trans fb.2⟩
      · cases hc; exact fb
    split_ifs at h
    · cases h; exact fc
    · cases dev with
      | none => exact absurd h (by simp)
      | some d => cases h; exact fc

/-- With both deferred-free flags off, `OffloadDoneCallback` frees nothing. -/
theorem OffloadDoneCallback_of_no_flags (s : Storage)
    (h1 : s.m_FreeDeviceMemOnOffloadDone = false)
    (h2 : s.m_FreePinnedMemOnOffloadDone = false) :
    s.OffloadDoneCallback.m_DeviceDataPtr = s.m_DeviceDataPtr ∧
      s.OffloadDoneCallback.m_DataPtr = s.m_DataPtr ∧
      s.OffloadDoneCallback.calls = s.calls := by
  unfold Storage.OffloadDoneCallback
  simp [h1, h2]

/-- C26: on an offloadable storage of non-zero allocated size with an offload
requested and not done, whenever `Preload` returns the flag
`m_FreeDeviceMemOnOffloadDone` is off, and `OffloadDoneCallback` in the state
it leaves keeps the device pointer and makes no call to free memory. The call
returns when the flag `m_FreePinnedMemOnOffloadDone` is off and the data is on
the device, with nothing changed but the flag; and when that flag is off, the
data is not on the device and both pointers are set, with the flag off and the
preload requested. -/
theorem preload_cancels_deferred_device_free (s : Storage) (host : Nat) (dev : Option Nat)
    (hoff : s.m_Type.ST_Offloadable = true) (hsize : s.m_AllocSize ≠ 0)
    (hreq : s.m_OffloadRequested = true) (hdone : s.m_OffloadDone = false) :
    (∀ s1, s.Preload host dev = some s1 →
        s1.m_FreeDeviceMemOnOffloadDone = false ∧
        s1.OffloadDoneCallback.m_DeviceDataPtr = s1.m_DeviceDataPtr ∧
        s1.OffloadDoneCallback.calls = s1.calls) ∧
      (s.m_FreePinnedMemOnOffloadDone = false → s.m_DataLocation = ELocation.Device →
        s.Preload host dev = some { s with m_FreeDeviceMemOnOffloadDone := false }) ∧
      (s.m_FreePinnedMemOnOffloadDone = false → s.m_DataLocation ≠ ELocation.Device →
        s.m_DataPtr ≠ 0 → s.m_DeviceDataPtr ≠ 0 →
        ∃ s1, s.Preload host dev = some s1 ∧ s1.m_FreeDeviceMemOnOffloadDone = false ∧
          s1.m_PreloadRequested = true ∧ s1.m_DeviceDataPtr = s.m_DeviceDataPtr) := by
  have hpend : s.m_OffloadRequested = true ∧ ¬ s.m_OffloadDone = true := ⟨hreq, by simp [hdone]⟩
  refine ⟨?_, ?_, ?_⟩
  · intro s1 h
    have key : s1.m_FreeDeviceMemOnOffloadDone = false ∧
        s1.m_FreePinnedMemOnOffloadDone = false := by
      unfold Storage.Preload at h
      rw [if_neg hsize, if_pos hoff, if_pos hpend] at h
      by_cases hp : s.m_FreePinnedMemOnOffloadDone = true
      · rw [if_pos hp] at h
        exact absurd h (by simp)
      · rw [if_neg hp] at h
        have hp2 : s.m_FreePinnedMemOnOffloadDone = false := by simpa using hp
        simp only [Option.some_bind] at h
        by_cases hl : s.m_DataLocation = ELocation.Device
        · rw [if_pos hl] at h; cases h; exact ⟨rfl, hp2⟩
        · rw [if_neg hl] at h
          by_cases hh : s.m_DataPtr = 0
          · rw [if_pos hh] at h; exact absurd h (by simp)
          · rw [if_neg hh] at h
            simp only [Option.bind_eq_some] at h
            obtain ⟨b, hb, h⟩ := h
            have fb : b.m_FreeDeviceMemOnOffloadDone = false ∧
                b.m_FreePinnedMemOnOffloadDone = false := by
              by_cases hd : s.m_DeviceDataPtr = 0
              · rw [if_pos hd] at hb
                exact AllocateOnDevice_flags _ b host dev hb rfl hp2
              · rw [if_neg hd] at hb; cases hb; exact ⟨rfl, hp2⟩
            split_ifs at h <;> cases h <;> exact fb
    have hcb := OffloadDoneCallback_of_no_flags s1 key.1 key.2
    exact ⟨key.1, hcb.1, hcb.2.2⟩
  · intro hp hl
    unfold Storage.Preload
    rw [if_neg hsize, if_pos hoff, if_pos hpend, hp]
    simp [hl]
  · intro hp hl hh hd
    unfold Storage.Preload
    rw [if_neg hsize, if_pos hoff, if_pos hpend, hp]
    simp only [Bool.false_eq_true, if_false, Option.some_bind]
    rw [if_neg hl, if_neg hh, if_neg hd]
    simp only [Option.some_bind]
    have hn : ¬ (s.m_DataPtr = 0 ∨ s.m_DeviceDataPtr = 0) := by
      rintro (h | h)
      · exact hh h
      · exact hd h
    rw [if_neg hn]
    by_cases hr : s.m_PreloadRequested = true
    · rw [if_pos hr]
      exact ⟨_, rfl, rfl, hr, rfl⟩
    · rw [if_neg hr]
      exact ⟨_, rfl, rfl, rfl, rfl⟩

/-- Witness for C26: the state `exOffloading` with the deferred free of the
device memory flagged; `Preload` returns with the flag off. -/
theorem preload_cancels_deferred_device_free_witness :
    Storage.Preload
        { exOffloading exOffloadableType with m_FreeDeviceMemOnOffloadDone := true } 0 none =
      some { ({ exOffloading exOffloadableType with m_FreeDeviceMemOnOffloadDone := true } :
        Storage) with m_FreeDeviceMemOnOffloadDone := false } :=
  (preload_cancels_deferred_device_free
    { exOffloading exOffloadableType with m_FreeDeviceMemOnOffloadDone := true } 0 none
    (by decide) (by decide) (by decide) (by decide)).2.1 (by decide) (by decide)

/-! ## Buffer storage: transfers in flight -/

theorem Storage.NoNewTransfer.refl (s : Storage) : s.NoNewTransfer s :=
  ⟨id, rfl, rfl⟩

theorem Storage.NoNewTransfer.trans {a b c : Storage} (h1 : a.NoNewTransfer b)
    (h2 : b.NoNewTransfer c) : a.NoNewTransfer c :=
  ⟨fun h => h2.1 (h1.1 h), h2.2.1.trans h1.2.1, h2.2.2.trans h1.2.2⟩

/-- A step that leaves the transfer fields, the device pointer, the deferred
device free and the calls as they are. -/
theorem Storage.NoNewTransfer.of_frame (s s1 : Storage)
    (h1 : s1.offloadInFlight = s.offloadInFlight)
    (h2 : s1.m_OffloadRequested = s.m_OffloadRequested)
    (h3 : s1.m_OffloadDone = s.m_OffloadDone)
    (h4 : s1.m_OffloadFuture = s.m_OffloadFuture)
    (h5 : s1.preloadInFlight = s.preloadInFlight)
    (h6 : s1.m_PreloadRequested = s.m_PreloadRequested)
    (h7 : s1.m_PreloadFuture = s.m_PreloadFuture)
    (h8 : s1.m_FreeDeviceMemOnOffloadDone = s.m_FreeDeviceMemOnOffloadDone)
    (h9 : s1.preloadInFlight = true → s.m_DeviceDataPtr ≠ 0 → s1.m_DeviceDataPtr ≠ 0)
    (h10 : s1.offloadsIssued = s.offloadsIssued)
    (h11 : s1.preloadsIssued = s.preloadsIssued) : s.NoNewTransfer s1 := by
  refine ⟨?_, h10, h11⟩
  intro hJ
  unfold Storage.TransfersTracked at hJ ⊢
  rw [h1, h2, h3, h4, h6, h7, h8]
  refine ⟨hJ.1, hJ.2.1, hJ.2.2.1, ?_, hJ.2.2.2.2.1, ?_⟩
  · intro hp
    have := hJ.2.2.2.1 (h5 ▸ hp)
    exact ⟨this.1, h9 hp this.2⟩
  · intro hf
    rw [h5]
    exact hJ.2.2.2.2.2 hf

theorem AllocateOnHost_quiet (s s1 : Storage) (host : Nat)
    (h : s.AllocateOnHost host = some s1) : s.NoNewTransfer s1 := by
  unfold Storage.AllocateOnHost at h
  split_ifs at h <;> cases h
  all_goals first
    | exact Storage.NoNewTransfer.refl s
    | (apply Storage.NoNewTransfer.of_frame <;> first
        | rfl
        | (intro _ h; exact h)
        | simp [Storage.offloadsIssued, Storage.preloadsIssued, List.countP_append])

theorem FreeOnHost_quiet (s s1 : Storage) (h : s.FreeOnHost = some s1) :
    s.NoNewTransfer s1 := by
  unfold Storage.FreeOnHost at h
  split_ifs at h <;> cases h
  all_goals first
    | exact Storage.NoNewTransfer.refl s
    | (apply Storage.NoNewTransfer.of_frame <;> first
        | rfl
        | (intro _ h; exact h)
        | simp [Storage.offloadsIssued, Storage.preloadsIssued, List.countP_append])

theorem SyncToHost_quiet (s s1 : Storage) (h : s.SyncToHost = some s1) :
    s.NoNewTransfer s1 := by
  unfold Storage.SyncToHost Storage.call at h
  split_ifs at h <;> cases h
  all_goals first
    | exact Storage.NoNewTransfer.refl s
    | (apply Storage.NoNewTransfer.of_frame <;> first
        | rfl
        | (intro _ h; exact h)
        | simp [Storage.offloadsIssued, Storage.preloadsIssued, List.countP_append])

/-- `OffloadDoneCallback` as one update of the record. -/
theorem OffloadDoneCallback_eq (s : Storage) :
    s.OffloadDoneCallback =
      { s with
        m_DeviceDataPtr := if s.m_FreeDeviceMemOnOffloadDone then 0 else s.m_DeviceDataPtr,
        m_DataPtr := if s.m_FreePinnedMemOnOffloadDone then 0 else s.m_DataPtr,
        m_DataLocation :=
          if s.m_FreePinnedMemOnOffloadDone then ELocation.None
          else if s.m_FreeDeviceMemOnOffloadDone = true ∧ s.m_DataPtr ≠ 0 then ELocation.Host
          else s.m_DataLocation,
        calls := s.calls ++
          (if s.m_FreeDeviceMemOnOffloadDone then
            [StorageCall.DeviceScheduleFree s.m_DeviceDataPtr] else []) ++
          (if s.m_FreePinnedMemOnOffloadDone then
            [StorageCall.HostPinnedFree s.m_DataPtr] else []),
        m_OffloadDone := true,
        m_FreeDeviceMemOnOffloadDone := false,
        m_FreePinnedMemOnOffloadDone := false,
        offloadInFlight := false } := by
  unfold Storage.OffloadDoneCallback
  by_cases h1 : s.m_FreeDeviceMemOnOffloadDone = true <;>
    by_cases h2 : s.m_FreePinnedMemOnOffloadDone = true <;>
    by_cases h3 : s.m_DataPtr = 0 <;> simp [h1, h2, h3]

/-- The completion of the offload keeps the bookkeeping. -/
theorem OffloadDoneCallback_quiet (s : Storage) : s.NoNewTransfer s.OffloadDoneCallback := by
  rw [OffloadDoneCallback_eq]
  refine ⟨?_, ?_, ?_⟩
  · intro hJ
    unfold Storage.TransfersTracked at hJ ⊢
    obtain ⟨a, b, c, d, e, f⟩ := hJ
    refine ⟨?_, ?_, c, ?_, e, ?_⟩
    · intro h; exact absurd h (by simp)
    · intro _ h; exact absurd h (by simp)
    · intro hp
      have hd := d hp
      refine ⟨hd.1, ?_⟩
      by_cases hf : s.m_FreeDeviceMemOnOffloadDone = true
      · have := (f hf).2
        rw [hp] at this
        exact absurd this (by simp)
      · simp only [hf]
        exact hd.2
    · intro h; exact absurd h (by simp)
  · simp only [Storage.offloadsIssued]
    split_ifs <;> simp [List.countP_append]
  · simp only [Storage.preloadsIssued]
    split_ifs <;> simp [List.countP_append]

/-- The completion of the preload keeps the bookkeeping. -/
theorem PreloadDoneCallback_quiet (s : Storage) : s.NoNewTransfer s.PreloadDoneCallback := by
  refine ⟨?_, rfl, rfl⟩
  intro hJ
  unfold Storage.TransfersTracked at hJ ⊢
  unfold Storage.PreloadDoneCallback
  obtain ⟨a, b, c, d, e, f⟩ := hJ
  refine ⟨a, b, c, ?_, e, ?_⟩
  · intro h; exact absurd h (by simp)
  · intro h; exact ⟨(f h).1, rfl⟩

/-- Clearing the offload request and its future keeps the bookkeeping when no
offload is in flight. -/
theorem Storage.TransfersTracked.clear_offload (x : Storage) (hJ : x.TransfersTracked)
    (hi : x.offloadInFlight = false) :
    Storage.TransfersTracked { x with m_OffloadFuture := false, m_OffloadRequested := false } := by
  unfold Storage.TransfersTracked at hJ ⊢
  obtain ⟨a, b, c, d, e, f⟩ := hJ
  refine ⟨?_, ?_, ?_, d, e, f⟩
  · intro h; rw [hi] at h; exact absurd h (by simp)
  · intro h; exact absurd h (by simp)
  · intro h; exact absurd h (by simp)

/-- Clearing the preload request and its future keeps the bookkeeping when no
preload is in flight. -/
theorem Storage.TransfersTracked.clear_preload (x : Storage) (hJ : x.TransfersTracked)
    (hi : x.preloadInFlight = false) :
    Storage.TransfersTracked { x with m_PreloadFuture := false, m_PreloadRequested := false } := by
  unfold Storage.TransfersTracked at hJ ⊢
  obtain ⟨a, b, c, d, e, f⟩ := hJ
  refine ⟨a, b, c, ?_, ?_, f⟩
  · intro h; rw [hi] at h; exact absurd h (by simp)
  · intro h; exact absurd h (by simp)

/-- With the bookkeeping in order, a state without a requested offload has no
offload in flight. -/
theorem Storage.TransfersTracked.offload_idle (x : Storage) (hJ : x.TransfersTracked)
    (h : ¬ x.m_OffloadRequested = true) : x.offloadInFlight = false := by
  by_cases hi : x.offloadInFlight = true
  · exact absurd (hJ.1 hi).1 h
  · simpa using hi

/-- With the bookkeeping in order, a state without a requested preload has no
preload in flight. -/
theorem Storage.TransfersTracked.preload_idle (x : Storage) (hJ : x.TransfersTracked)
    (h : ¬ x.m_PreloadRequested = true) : x.preloadInFlight = false := by
  by_cases hi : x.preloadInFlight = true
  · exact absurd (hJ.2.2.2.1 hi).1 h
  · simpa using hi

/-- `OffloadDoneCallback` does not read the request flag. -/
theorem OffloadDoneCallback_clear (s : Storage) :
    Storage.OffloadDoneCallback { s with m_OffloadRequested := false } =
      { s.OffloadDoneCallback with m_OffloadRequested := false } := by
  rw [OffloadDoneCallback_eq, OffloadDoneCallback_eq]

/-- `PreloadDoneCallback` does not read the request flag. -/
theorem PreloadDoneCallback_clear (s : Storage) :
    Storage.PreloadDoneCallback { s with m_PreloadRequested := false } =
      { s.PreloadDoneCallback with m_PreloadRequested := false } := rfl

/-- Clearing the offload request and waiting on the future, in either order. -/
theorem offloadGet_quiet (s s1 : Storage)
    (h : Storage.offloadFutureGet { s with m_OffloadRequested := false } = some s1) :
    s.NoNewTransfer s1 ∧ s1.preloadInFlight = s.preloadInFlight ∧
      (s.m_FreeDeviceMemOnOffloadDone = false → s1.m_FreeDeviceMemOnOffloadDone = false) ∧
      s1.offloadInFlight = false ∧ s1.m_OffloadRequested = false := by
  unfold Storage.offloadFutureGet at h
  split_ifs at h with hf hi <;> cases h
  · rw [OffloadDoneCallback_clear]
    have hq := OffloadDoneCallback_quiet s
    refine ⟨⟨?_, hq.2.1, hq.2.2⟩, ?_, ?_, ?_, rfl⟩
    · intro hJ
      exact Storage.TransfersTracked.clear_offload s.OffloadDoneCallback (hq.1 hJ)
        (by rw [OffloadDoneCallback_eq])
    · rw [OffloadDoneCallback_eq]
    · intro _; rw [OffloadDoneCallback_eq]
    · rw [OffloadDoneCallback_eq]
  · have hi2 : s.offloadInFlight = false := by simpa using hi
    refine ⟨⟨?_, rfl, rfl⟩, rfl, fun h => h, hi2, rfl⟩
    intro hJ
    exact Storage.TransfersTracked.clear_offload s hJ hi2

/-- Clearing the preload request and waiting on the future, in either order. -/
theorem preloadGet_quiet (s s1 : Storage)
    (h : Storage.preloadFutureGet { s with m_PreloadRequested := false } = some s1) :
    s.NoNewTransfer s1 ∧ s1.preloadInFlight = false ∧
      s1.m_FreeDeviceMemOnOffloadDone = s.m_FreeDeviceMemOnOffloadDone := by
  unfold Storage.preloadFutureGet at h
  split_ifs at h with hf hi <;> cases h
  · have hq := PreloadDoneCallback_quiet s
    refine ⟨⟨?_, hq.2.1, hq.2.2⟩, rfl, rfl⟩
    intro hJ
    exact Storage.TransfersTracked.clear_preload s.PreloadDoneCallback (hq.1 hJ) rfl
  · have hi2 : s.preloadInFlight = false := by simpa using hi
    refine ⟨⟨?_, rfl, rfl⟩, hi2, rfl⟩
    intro hJ
    exact Storage.TransfersTracked.clear_preload s hJ hi2

/-- `WaitForOffload` with a request pending is the wait on the future with the
request cleared. -/
theorem WaitForOffload_of_requested (s : Storage) (hr : s.m_OffloadRequested = true) :
    s.WaitForOffload = Storage.offloadFutureGet { s with m_OffloadRequested := false } := by
  unfold Storage.WaitForOffload Storage.offloadFutureGet
  rw [if_pos hr]
  by_cases hf : s.m_OffloadFuture = true
  · rw [if_pos hf, if_pos (show ({ s with m_OffloadRequested := false } : Storage).m_OffloadFuture
      = true from hf)]
    by_cases hi : s.offloadInFlight = true
    · rw [if_pos hi, if_pos (show ({ s with m_OffloadRequested := false } :
        Storage).offloadInFlight = true from hi), OffloadDoneCallback_clear]
      rfl
    · rw [if_neg hi, if_neg (show ¬ ({ s with m_OffloadRequested := false } :
        Storage).offloadInFlight = true from hi)]
      rfl
  · rw [if_neg hf, if_neg (show ¬ ({ s with m_OffloadRequested := false } :
      Storage).m_OffloadFuture = true from hf)]
    rfl

/-- `WaitForPreload` with a request pending is the wait on the future with the
request cleared. -/
theorem WaitForPreload_of_requested (s : Storage) (hr : s.m_PreloadRequested = true) :
    s.WaitForPreload = Storage.preloadFutureGet { s with m_PreloadRequested := false } := by
  unfold Storage.WaitForPreload Storage.preloadFutureGet
  rw [if_pos hr]
  by_cases hf : s.m_PreloadFuture = true
  · rw [if_pos hf, if_pos (show ({ s with m_PreloadRequested := false } : Storage).m_PreloadFuture
      = true from hf)]
    by_cases hi : s.preloadInFlight = true
    · rw [if_pos hi, if_pos (show ({ s with m_PreloadRequested := false } :
        Storage).preloadInFlight = true from hi)]
      rfl
    · rw [if_neg hi, if_neg (show ¬ ({ s with m_PreloadRequested := false } :
        Storage).preloadInFlight = true from hi)]
      rfl
  · rw [if_neg hf, if_neg (show ¬ ({ s with m_PreloadRequested := false } :
      Storage).m_PreloadFuture = true from hf)]
    rfl

theorem WaitForOffload_quiet (s s1 : Storage) (h : s.WaitForOffload = some s1) :
    s.NoNewTransfer s1 ∧ s1.preloadInFlight = s.preloadInFlight ∧
      (s.m_FreeDeviceMemOnOffloadDone = false → s1.m_FreeDeviceMemOnOffloadDone = false) ∧
      (s.TransfersTracked → s1.offloadInFlight = false ∧ s1.m_OffloadRequested = false) := by
  by_cases hr : s.m_OffloadRequested = true
  · rw [WaitForOffload_of_requested s hr] at h
    have hq := offloadGet_quiet s s1 h
    exact ⟨hq.1, hq.2.1, hq.2.2.1, fun _ => hq.2.2.2⟩
  · unfold Storage.WaitForOffload at h
    rw [if_neg hr] at h
    cases h
    refine ⟨Storage.NoNewTransfer.refl s, rfl, fun h => h, ?_⟩
    intro hJ
    exact ⟨Storage.TransfersTracked.offload_idle s hJ hr, by simpa using hr⟩

theorem WaitForPreload_quiet (s s1 : Storage) (h : s.WaitForPreload = some s1) :
    s.NoNewTransfer s1 ∧
      s1.m_FreeDeviceMemOnOffloadDone = s.m_FreeDeviceMemOnOffloadDone ∧
      (s.TransfersTracked → s1.preloadInFlight = false) := by
  by_cases hr : s.m_PreloadRequested = true
  · rw [WaitForPreload_of_requested s hr] at h
    have hq := preloadGet_quiet s s1 h
    exact ⟨hq.1, hq.2.2, fun _ => hq.2.1⟩
  · unfold Storage.WaitForPreload at h
    rw [if_neg hr] at h
    cases h
    exact ⟨Storage.NoNewTransfer.refl s, rfl, fun hJ => Storage.TransfersTracked.preload_idle s hJ hr⟩

/-- Setting the device pointer, the calls and members outside the bookkeeping
keeps it when no preload is in flight. -/
theorem Storage.TransfersTracked.of_idle_preload (s s1 : Storage)
    (h1 : s1.offloadInFlight = s.offloadInFlight)
    (h2 : s1.m_OffloadRequested = s.m_OffloadRequested)
    (h3 : s1.m_OffloadDone = s.m_OffloadDone)
    (h4 : s1.m_OffloadFuture = s.m_OffloadFuture)
    (h5 : s1.preloadInFlight = s.preloadInFlight)
    (h6 : s1.m_PreloadRequested = s.m_PreloadRequested)
    (h7 : s1.m_PreloadFuture = s.m_PreloadFuture)
    (h8 : s1.m_FreeDeviceMemOnOffloadDone = true →
      s.m_FreeDeviceMemOnOffloadDone = true ∨
        (s.m_OffloadRequested = true ∧ s.m_OffloadDone = false))
    (hi : s.preloadInFlight = false) (hJ : s.TransfersTracked) : s1.TransfersTracked := by
  unfold Storage.TransfersTracked at hJ ⊢
  rw [h1, h2, h3, h4, h5, h6, h7]
  obtain ⟨a, b, c, d, e, f⟩ := hJ
  refine ⟨a, b, c, ?_, e, ?_⟩
  · intro h; rw [hi] at h; exact absurd h (by simp)
  · intro h
    rcases h8 h with h | h
    · exact f h
    · exact ⟨b h.1 h.2, hi⟩

theorem AllocateOnDevice_quiet (s s1 : Storage) (host : Nat) (dev : Option Nat)
    (h : s.AllocateOnDevice host dev = some s1) :
    s.NoNewTransfer s1 ∧
      (s.m_FreeDeviceMemOnOffloadDone = false → s1.m_FreeDeviceMemOnOffloadDone = false) := by
  unfold Storage.AllocateOnDevice at h
  by_cases h0 : s.m_AllocSize = 0
  · rw [if_pos h0] at h; cases h; exact ⟨Storage.NoNewTransfer.refl s, fun h => h⟩
  · rw [if_neg h0] at h
    simp only [Option.bind_eq_some] at h
    obtain ⟨a, ha, b, hb, c, hc, h⟩ := h
    have qa : s.NoNewTransfer a ∧
        a.m_FreeDeviceMemOnOffloadDone = s.m_FreeDeviceMemOnOffloadDone := by
      split_ifs at ha
      · exact ⟨AllocateOnHost_quiet s a host ha, (AllocateOnHost_flags s a host ha).1⟩
      · cases ha; exact ⟨Storage.NoNewTransfer.refl s, rfl⟩
    have qb : a.NoNewTransfer b ∧
        (a.m_FreeDeviceMemOnOffloadDone = false → b.m_FreeDeviceMemOnOffloadDone = false) := by
      split_ifs at hb
      · have := offloadGet_quiet a b hb
        exact ⟨this.1, this.2.2.1⟩
      · cases hb; exact ⟨Storage.NoNewTransfer.refl a, fun h => h⟩
    have qc : b.NoNewTransfer c ∧
        c.m_FreeDeviceMemOnOffloadDone = b.m_FreeDeviceMemOnOffloadDone ∧
        (b.TransfersTracked → c.preloadInFlight = false) := by
      by_cases hf : b.m_PreloadFuture = true
      · rw [if_pos hf] at hc
        have := preloadGet_quiet b c hc
        exact ⟨this.1, this.2.2, fun _ => this.2.1⟩
      · rw [if_neg hf] at hc
        cases hc
        refine ⟨Storage.NoNewTransfer.refl b, rfl, ?_⟩
        intro hJ
        apply Storage.TransfersTracked.preload_idle b hJ
        intro hr
        exact hf (hJ.2.2.2.2.1 hr)
    have qsc : s.NoNewTransfer c := qa.1.trans (qb.1.trans qc.1)
    have fsc : s.m_FreeDeviceMemOnOffloadDone = false → c.m_FreeDeviceMemOnOffloadDone = false := by
      intro hs
      rw [qc.2.1]
      exact qb.2 (qa.2.trans hs)
    split_ifs at h
    · cases h; exact ⟨qsc, fsc⟩
    · cases dev with
      | none => exact absurd h (by simp)
      | some d =>
        cases h
        refine ⟨⟨fun hJ => ?_, ?_, ?_⟩, fsc⟩
        · exact Storage.TransfersTracked.of_idle_preload c _ rfl rfl rfl rfl rfl rfl rfl
            (fun h => Or.inl h) (qc.2.2 (qb.1.1 (qa.1.1 hJ))) (qsc.1 hJ)
        · rw [← qsc.2.1]
          simp [Storage.offloadsIssued, List.countP_append]
        · rw [← qsc.2.2]
          simp [Storage.preloadsIssued, List.countP_append]

theorem FreeOnDevice_quiet (s s1 : Storage) (force wait : Bool)
    (h : s.FreeOnDevice force wait = some s1) : s.NoNewTransfer s1 := by
  unfold Storage.FreeOnDevice at h
  simp only [Option.bind_eq_some] at h
  obtain ⟨a, ha, b, hb, h⟩ := h
  have qa := WaitForPreload_quiet s a ha
  have qb : a.NoNewTransfer b ∧ b.preloadInFlight = a.preloadInFlight := by
    split_ifs at hb
    · have := WaitForOffload_quiet a b hb
      exact ⟨this.1, this.2.1⟩
    · cases hb; exact ⟨Storage.NoNewTransfer.refl a, rfl⟩
  have qsb : s.NoNewTransfer b := qa.1.trans qb.1
  have hidle : s.TransfersTracked → b.preloadInFlight = false := by
    intro hJ
    rw [qb.2]
    exact qa.2.2 hJ
  split_ifs at h with hp hd hk <;> cases h
  any_goals exact qsb
  · refine ⟨fun hJ => ?_, qsb.2.1, qsb.2.2⟩
    exact Storage.TransfersTracked.of_idle_preload b _ rfl rfl rfl rfl rfl rfl rfl
      (fun _ => Or.inr ⟨hp.1, by simpa using hp.2⟩) (hidle hJ) (qsb.1 hJ)
  all_goals
    refine ⟨fun hJ => ?_, ?_, ?_⟩
    · exact Storage.TransfersTracked.of_idle_preload b _ rfl rfl rfl rfl rfl rfl rfl
        (fun h => absurd h (by simp)) (hidle hJ) (qsb.1 hJ)
    · rw [← qsb.2.1]
      simp [Storage.offloadsIssued, List.countP_append]
    · rw [← qsb.2.2]
      simp [Storage.preloadsIssued, List.countP_append]

theorem CopyToDevice_quiet (s s1 : Storage) (host : Nat) (dev : Option Nat)
    (h : s.CopyToDevice host dev = some s1) : s.NoNewTransfer s1 := by
  unfold Storage.CopyToDevice at h
  simp only [Option.bind_eq_some] at h
  obtain ⟨a, ha, h⟩ := h
  have qa : s.NoNewTransfer a := by
    by_cases hr : s.m_PreloadRequested = true
    · rw [if_pos hr] at ha
      simp only [Option.bind_eq_some] at ha
      obtain ⟨a0, ha0, ha⟩ := ha
      split_ifs at ha; cases ha
      exact (WaitForPreload_quiet s a ha0).1
    · rw [if_neg hr] at ha
      cases ha
      exact Storage.NoNewTransfer.refl s
  by_cases hl : a.m_DataLocation = ELocation.Device
  · rw [if_pos hl] at h
    split_ifs at h; cases h
    exact qa
  · rw [if_neg hl] at h
    by_cases hl2 : a.m_DataLocation ≠ ELocation.Host
    · rw [if_pos hl2] at h
      exact absurd h (by simp)
    · rw [if_neg hl2] at h
      simp only [Option.bind_eq_some] at h
      obtain ⟨b, hb, h⟩ := h
      have qb : a.NoNewTransfer b := by
        split_ifs at hb
        · exact (AllocateOnDevice_quiet a b host dev hb).1
        · cases hb; exact Storage.NoNewTransfer.refl a
      split_ifs at h; cases h
      refine (qa.trans qb).trans ?_
      (apply Storage.NoNewTransfer.of_frame <;> first
        | rfl
        | (intro _ h; exact h)
        | simp [Storage.offloadsIssued, Storage.preloadsIssued, List.countP_append])

theorem CopyToHost_quiet (s s1 : Storage) (allowAlloc : Bool) (host : Nat)
    (h : s.CopyToHost allowAlloc host = some s1) : s.NoNewTransfer s1 := by
  unfold Storage.CopyToHost at h
  simp only [Option.bind_eq_some] at h
  obtain ⟨a, ha, h⟩ := h
  have qa : s.NoNewTransfer a := by
    split_ifs at ha
    · exact (WaitForPreload_quiet s a ha).1
    · cases ha; exact Storage.NoNewTransfer.refl s
  by_cases hl : a.m_DataLocation = ELocation.Host
  · rw [if_pos hl] at h
    split_ifs at h; cases h
    exact qa
  · rw [if_neg hl] at h
    simp only [Option.bind_eq_some] at h
    obtain ⟨b, hb, h⟩ := h
    have qb : a.NoNewTransfer b := by
      split_ifs at hb
      · exact AllocateOnHost_quiet a b host hb
      · exact (WaitForOffload_quiet a b hb).1
      · unfold Storage.call at hb
        cases hb
        (apply Storage.NoNewTransfer.of_frame <;> first
        | rfl
        | (intro _ h; exact h)
        | simp [Storage.offloadsIssued, Storage.preloadsIssued, List.countP_append])
    cases h
    refine (qa.trans qb).trans ?_
    exact Storage.NoNewTransfer.of_frame _ _ rfl rfl rfl rfl rfl rfl rfl rfl
      (fun _ h => h) rfl rfl

theorem OverrideHost_quiet (s s1 : Storage) (host : Nat)
    (h : s.OverrideHost host = some s1) : s.NoNewTransfer s1 := by
  unfold Storage.OverrideHost at h
  by_cases hl : s.m_DataLocation = ELocation.Host
  · rw [if_pos hl] at h
    split_ifs at h; cases h
    exact Storage.NoNewTransfer.refl s
  · rw [if_neg hl] at h
    simp only [Option.bind_eq_some] at h
    obtain ⟨a, ha, h⟩ := h
    have qa : s.NoNewTransfer a := by
      split_ifs at ha
      · exact AllocateOnHost_quiet s a host ha
      · cases ha; exact Storage.NoNewTransfer.refl s
    cases h
    refine qa.trans ?_
    exact Storage.NoNewTransfer.of_frame _ _ rfl rfl rfl rfl rfl rfl rfl rfl
      (fun _ h => h) rfl rfl

theorem OverrideDevice_quiet (s s1 : Storage) (host : Nat) (dev : Option Nat)
    (h : s.OverrideDevice host dev = some s1) : s.NoNewTransfer s1 := by
  unfold Storage.OverrideDevice at h
  by_cases hl : s.m_DataLocation = ELocation.Device
  · rw [if_pos hl] at h
    split_ifs at h; cases h
    exact Storage.NoNewTransfer.refl s
  · rw [if_neg hl] at h
    simp only [Option.bind_eq_some] at h
    obtain ⟨a, ha, b, hb, h⟩ := h
    have qa : s.NoNewTransfer a := by
      split_ifs at ha
      · exact AllocateOnHost_quiet s a host ha
      · cases ha; exact Storage.NoNewTransfer.refl s
    have qb : a.NoNewTransfer b := by
      split_ifs at hb
      · exact (AllocateOnDevice_quiet a b host dev hb).1
      · cases hb; exact Storage.NoNewTransfer.refl a
    cases h
    refine (qa.trans qb).trans ?_
    exact Storage.NoNewTransfer.of_frame _ _ rfl rfl rfl rfl rfl rfl rfl rfl
      (fun _ h => h) rfl rfl

theorem Resize_quiet (s s1 : Storage) (size host : Nat) (dev : Option Nat)
    (h : s.Resize size host dev = some s1) : s.NoNewTransfer s1 := by
  unfold Storage.Resize at h
  by_cases hlt : size < s.m_AllocSize
  · rw [if_pos hlt] at h
    cases h
    exact Storage.NoNewTransfer.of_frame _ _ rfl rfl rfl rfl rfl rfl rfl rfl
      (fun _ h => h) rfl rfl
  · rw [if_neg hlt] at h
    simp only [Option.bind_eq_some] at h
    obtain ⟨a, ha, b, hb, c, hc, h⟩ := h
    have q0 : s.NoNewTransfer { s with m_AllocSize := size, m_Size := size } := by
      exact Storage.NoNewTransfer.of_frame _ _ rfl rfl rfl rfl rfl rfl rfl rfl
        (fun _ h => h) rfl rfl
    have qa : Storage.NoNewTransfer { s with m_AllocSize := size, m_Size := size } a := by
      split_ifs at ha
      · exact FreeOnDevice_quiet _ a true true ha
      · cases ha; exact Storage.NoNewTransfer.refl _
    have qb : a.NoNewTransfer b := by
      split_ifs at hb
      · exact FreeOnHost_quiet a b hb
      · cases hb; exact Storage.NoNewTransfer.refl a
    have qc : b.NoNewTransfer c := by
      split_ifs at hc
      · exact AllocateOnHost_quiet b c host hc
      · cases hc; exact Storage.NoNewTransfer.refl b
    have qd : c.NoNewTransfer s1 := by
      split_ifs at h
      · exact (AllocateOnDevice_quiet c s1 host dev h).1
      · cases h; exact Storage.NoNewTransfer.refl _
    exact q0.trans (qa.trans (qb.trans (qc.trans qd)))

theorem Release_quiet (s s1 : Storage) (h : s.Release = some s1) : s.NoNewTransfer s1 := by
  unfold Storage.Release at h
  simp only [Option.bind_eq_some] at h
  obtain ⟨a, ha, b, hb, h⟩ := h
  cases h
  refine ((FreeOnDevice_quiet s a false true ha).trans (FreeOnHost_quiet a b hb)).trans ?_
  exact Storage.NoNewTransfer.of_frame _ _ rfl rfl rfl rfl rfl rfl rfl rfl
    (fun _ h => h) rfl rfl

theorem ResetDeviceRef_quiet (s : Storage) (n : Nat) : s.NoNewTransfer (s.ResetDeviceRef n) := by
  unfold Storage.ResetDeviceRef
  split_ifs
  · exact Storage.NoNewTransfer.of_frame _ _ rfl rfl rfl rfl rfl rfl rfl rfl
      (fun _ h => h) (by unfold Storage.offloadsIssued; rfl)
      (by unfold Storage.preloadsIssued; rfl)
  · exact Storage.NoNewTransfer.refl s

theorem IncDeviceRef_quiet (s : Storage) (n : Nat) : s.NoNewTransfer (s.IncDeviceRef n) := by
  unfold Storage.IncDeviceRef
  split_ifs
  · exact Storage.NoNewTransfer.of_frame _ _ rfl rfl rfl rfl rfl rfl rfl rfl
      (fun _ h => h) rfl rfl
  · exact Storage.NoNewTransfer.refl s

theorem ResetRef_quiet (s : Storage) (n : Nat) : s.NoNewTransfer (s.ResetRef n) := by
  unfold Storage.ResetRef
  exact Storage.NoNewTransfer.of_frame _ _ rfl rfl rfl rfl rfl rfl rfl rfl
    (fun _ h => h) (by unfold Storage.offloadsIssued; rfl)
    (by unfold Storage.preloadsIssued; rfl)

theorem IncRef_quiet (s s1 : Storage) (n : Nat) (h : s.IncRef n = some s1) :
    s.NoNewTransfer s1 := by
  unfold Storage.IncRef at h
  split_ifs at h; cases h
  exact Storage.NoNewTransfer.of_frame _ _ rfl rfl rfl rfl rfl rfl rfl rfl
    (fun _ h => h) rfl rfl

theorem DecDeviceRef_quiet (s s1 : Storage) (n : Nat) (force wait : Bool)
    (h : s.DecDeviceRef n force wait = some s1) : s.NoNewTransfer s1 := by
  unfold Storage.DecDeviceRef at h
  by_cases hc : ¬ s.m_Type.ST_DeviceRefCounted = true
  · rw [if_pos hc] at h; cases h; exact Storage.NoNewTransfer.refl s
  · rw [if_neg hc] at h
    by_cases hn : ¬ n ≤ intToSizeT s.m_DeviceDataRefCount
    · rw [if_pos hn] at h; exact absurd h (by simp)
    · rw [if_neg hn] at h
      have q0 : s.NoNewTransfer
          { s with
            m_DeviceDataRefCount := toInt (s.m_DeviceDataRefCount - toInt (n : Int)) } := by
        exact Storage.NoNewTransfer.of_frame _ _ rfl rfl rfl rfl rfl rfl rfl rfl
          (fun _ h => h) rfl rfl
      simp only at h
      split_ifs at h
      · exact q0.trans (FreeOnDevice_quiet _ s1 force wait h)
      · cases h; exact q0

theorem DecRef_quiet (s s1 : Storage) (n : Nat) (force wait : Bool)
    (h : s.DecRef n force wait = some s1) : s.NoNewTransfer s1 := by
  unfold Storage.DecRef at h
  by_cases hc : ¬ s.m_Type.ST_RefCounted = true
  · rw [if_pos hc] at h; exact absurd h (by simp)
  · rw [if_neg hc] at h
    by_cases hn : ¬ n ≤ intToSizeT s.m_DataRefCount
    · rw [if_pos hn] at h; exact absurd h (by simp)
    · rw [if_neg hn] at h
      have q0 : s.NoNewTransfer
          { s with m_DataRefCount := toInt (s.m_DataRefCount - toInt (n : Int)) } := by
        exact Storage.NoNewTransfer.of_frame _ _ rfl rfl rfl rfl rfl rfl rfl rfl
          (fun _ h => h) rfl rfl
      simp only at h
      split_ifs at h
      · simp only [Option.bind_eq_some] at h
        obtain ⟨a, ha, h⟩ := h
        exact q0.trans ((FreeOnDevice_quiet _ a force wait ha).trans (FreeOnHost_quiet a s1 h))
      · cases h; exact q0

theorem Data_quiet (s s1 : Storage) (host : Nat) (h : s.Data host = some s1) :
    s.NoNewTransfer s1 := by
  unfold Storage.Data at h
  simp only [Option.bind_eq_some] at h
  obtain ⟨a, ha, h⟩ := h
  have qa : s.NoNewTransfer a := by
    split_ifs at ha
    · exact AllocateOnHost_quiet s a host ha
    · cases ha; exact Storage.NoNewTransfer.refl s
  split_ifs at h; cases h
  exact qa

theorem ChangeType_quiet (s s1 : Storage) (type : StorageType)
    (h : s.ChangeType type = some s1) : s.NoNewTransfer s1 := by
  unfold Storage.ChangeType at h
  split_ifs at h <;> cases h
  · exact Storage.NoNewTransfer.refl s
  · exact Storage.NoNewTransfer.of_frame _ _ rfl rfl rfl rfl rfl rfl rfl rfl
      (fun _ h => h) rfl rfl

/-- `Offload` keeps the bookkeeping, requests no preload, and requests no
offload while one is in flight. -/
theorem Offload_tracked (s s1 : Storage) (force : Bool) (hJ : s.TransfersTracked)
    (h : s.Offload force = some s1) :
    s1.TransfersTracked ∧ s1.preloadsIssued = s.preloadsIssued ∧
      (s.offloadInFlight = true → s1.offloadsIssued = s.offloadsIssued) := by
  unfold Storage.Offload at h
  split_ifs at h with h0 hoff hh hd hsmall hr <;> cases h
  · exact ⟨hJ, rfl, fun _ => rfl⟩
  · exact ⟨hJ, rfl, fun _ => rfl⟩
  · have hq := IncDeviceRef_quiet s 1
    exact ⟨hq.1 hJ, hq.2.2, fun _ => hq.2.1⟩
  · exact ⟨hJ, rfl, fun _ => rfl⟩
  · have hr2 : s.m_OffloadRequested = false := by simpa using hr
    refine ⟨?_, ?_, ?_⟩
    · unfold Storage.TransfersTracked at hJ ⊢
      obtain ⟨a, b, c, d, e, f⟩ := hJ
      refine ⟨fun _ => ⟨rfl, rfl⟩, fun _ _ => rfl, fun _ => rfl, d, e, ?_⟩
      intro hf
      have := (a (f hf).1).1
      rw [hr2] at this
      exact absurd this (by simp)
    · simp [Storage.preloadsIssued, List.countP_append]
    · intro hi
      have := (hJ.1 hi).1
      rw [hr2] at this
      exact absurd this (by simp)
  · exact ⟨hJ, rfl, fun _ => rfl⟩

/-- With the bookkeeping in order, the deferred free of the device memory is
flagged only while an offload is requested and not done. -/
theorem Storage.TransfersTracked.no_deferred (x : Storage) (hJ : x.TransfersTracked)
    (h : ¬ (x.m_OffloadRequested = true ∧ ¬ x.m_OffloadDone = true)) :
    x.m_FreeDeviceMemOnOffloadDone = false := by
  by_cases hf : x.m_FreeDeviceMemOnOffloadDone = true
  · have := hJ.1 (hJ.2.2.2.2.2 hf).1
    exact absurd ⟨this.1, by simp [this.2]⟩ h
  · simpa using hf

/-- `Preload` keeps the bookkeeping, requests no offload, and requests no
preload while one is in flight. -/
theorem Preload_tracked (s s1 : Storage) (host : Nat) (dev : Option Nat)
    (hJ : s.TransfersTracked) (h : s.Preload host dev = some s1) :
    s1.TransfersTracked ∧ s1.offloadsIssued = s.offloadsIssued ∧
      (s.preloadInFlight = true → s1.preloadsIssued = s.preloadsIssued) := by
  unfold Storage.Preload at h
  by_cases h0 : s.m_AllocSize = 0
  · rw [if_pos h0] at h; cases h; exact ⟨hJ, rfl, fun _ => rfl⟩
  rw [if_neg h0] at h
  by_cases hoff : s.m_Type.ST_Offloadable = true
  swap
  · rw [if_neg hoff] at h; cases h; exact ⟨hJ, rfl, fun _ => rfl⟩
  rw [if_pos hoff] at h
  simp only [Option.bind_eq_some] at h
  obtain ⟨a, ha, h⟩ := h
  have qa : a.TransfersTracked ∧ a.m_FreeDeviceMemOnOffloadDone = false ∧
      a.calls = s.calls ∧ a.preloadInFlight = s.preloadInFlight ∧
      a.m_PreloadRequested = s.m_PreloadRequested ∧ a.m_DeviceDataPtr = s.m_DeviceDataPtr := by
    by_cases hp : s.m_OffloadRequested = true ∧ ¬ s.m_OffloadDone = true
    · rw [if_pos hp] at ha
      split_ifs at ha; cases ha
      refine ⟨?_, rfl, rfl, rfl, rfl, rfl⟩
      unfold Storage.TransfersTracked at hJ ⊢
      obtain ⟨a, b, c, d, e, f⟩ := hJ
      exact ⟨a, b, c, d, e, fun h => absurd h (by simp)⟩
    · rw [if_neg hp] at ha
      cases ha
      exact ⟨hJ, Storage.TransfersTracked.no_deferred s hJ hp, rfl, rfl, rfl, rfl⟩
  obtain ⟨hJa, hfa, hca, hia, hra, hda⟩ := qa
  by_cases hl : a.m_DataLocation = ELocation.Device
  · rw [if_pos hl] at h
    cases h
    exact ⟨hJa, by simp [Storage.offloadsIssued, hca],
      fun _ => by simp [Storage.preloadsIssued, hca]⟩
  rw [if_neg hl] at h
  by_cases hh : a.m_DataPtr = 0
  · rw [if_pos hh] at h; exact absurd h (by simp)
  rw [if_neg hh] at h
  simp only [Option.bind_eq_some] at h
  obtain ⟨b, hb, h⟩ := h
  have qb : a.NoNewTransfer b ∧ b.m_FreeDeviceMemOnOffloadDone = false ∧
      (s.preloadInFlight = true → b.m_PreloadRequested = true) := by
    by_cases hd : a.m_DeviceDataPtr = 0
    · rw [if_pos hd] at hb
      have := AllocateOnDevice_quiet a b host dev hb
      refine ⟨this.1, this.2 hfa, ?_⟩
      intro hi
      have := (hJ.2.2.2.1 hi).2
      rw [← hda] at this
      exact absurd hd this
    · rw [if_neg hd] at hb
      cases hb
      refine ⟨Storage.NoNewTransfer.refl _, hfa, ?_⟩
      intro hi
      rw [hra]
      exact (hJ.2.2.2.1 hi).1
  obtain ⟨qab, hfb, hrb⟩ := qb
  have hJb := qab.1 hJa
  have hob : b.offloadsIssued = s.offloadsIssued := by
    rw [qab.2.1]; simp [Storage.offloadsIssued, hca]
  have hpb : b.preloadsIssued = s.preloadsIssued := by
    rw [qab.2.2]; simp [Storage.preloadsIssued, hca]
  by_cases hn : b.m_DataPtr = 0 ∨ b.m_DeviceDataPtr = 0
  · rw [if_pos hn] at h; exact absurd h (by simp)
  rw [if_neg hn] at h
  by_cases hr : b.m_PreloadRequested = true
  · rw [if_pos hr] at h
    cases h
    exact ⟨hJb, hob, fun _ => hpb⟩
  · rw [if_neg hr] at h
    cases h
    refine ⟨?_, ?_, ?_⟩
    · unfold Storage.TransfersTracked at hJb ⊢
      obtain ⟨a, b1, c, d, e, f⟩ := hJb
      refine ⟨a, b1, c, fun _ => ⟨rfl, fun h => hn (Or.inr h)⟩, fun _ => rfl, ?_⟩
      intro hf
      rw [hfb] at hf
      exact absurd hf (by simp)
    · rw [← hob]
      simp [Storage.offloadsIssued, List.countP_append]
    · intro hi
      exact absurd (hrb hi) hr

/-- Every step keeps the bookkeeping of the transfers; while an offload is in
flight it requests no offload, and while a preload is in flight it requests no
preload. -/
theorem Storage.step_tracked (force wait : Bool) (s s1 : Storage) (op : StorageOp)
    (hJ : s.TransfersTracked) (h : Storage.step force wait s op = some s1) :
    s1.TransfersTracked ∧
      (s.offloadInFlight = true → s1.offloadsIssued = s.offloadsIssued) ∧
      (s.preloadInFlight = true → s1.preloadsIssued = s.preloadsIssued) := by
  have key : ∀ t : Storage, s.NoNewTransfer t →
      t.TransfersTracked ∧
        (s.offloadInFlight = true → t.offloadsIssued = s.offloadsIssued) ∧
        (s.preloadInFlight = true → t.preloadsIssued = s.preloadsIssued) :=
    fun t q => ⟨q.1 hJ, fun _ => q.2.1, fun _ => q.2.2⟩
  cases op with
  | AllocateOnHost host => exact key _ (AllocateOnHost_quiet s s1 host h)
  | AllocateOnDevice host dev => exact key _ (AllocateOnDevice_quiet s s1 host dev h).1
  | FreeOnHost => exact key _ (FreeOnHost_quiet s s1 h)
  | FreeOnDevice f w => exact key _ (FreeOnDevice_quiet s s1 f w h)
  | WaitForOffload => exact key _ (WaitForOffload_quiet s s1 h).1
  | WaitForPreload => exact key _ (WaitForPreload_quiet s s1 h).1
  | Offload f =>
    have := Offload_tracked s s1 f hJ h
    exact ⟨this.1, this.2.2, fun _ => this.2.1⟩
  | Preload host dev =>
    have := Preload_tracked s s1 host dev hJ h
    exact ⟨this.1, fun _ => this.2.1, this.2.2⟩
  | CopyToDevice host dev => exact key _ (CopyToDevice_quiet s s1 host dev h)
  | CopyToHost allowAlloc host => exact key _ (CopyToHost_quiet s s1 allowAlloc host h)
  | SyncToHost => exact key _ (SyncToHost_quiet s s1 h)
  | OverrideHost host => exact key _ (OverrideHost_quiet s s1 host h)
  | OverrideDevice host dev => exact key _ (OverrideDevice_quiet s s1 host dev h)
  | Resize size host dev => exact key _ (Resize_quiet s s1 size host dev h)
  | Release => exact key _ (Release_quiet s s1 h)
  | ResetDeviceRef n =>
    cases h
    exact key _ (ResetDeviceRef_quiet s n)
  | IncDeviceRef n =>
    cases h
    exact key _ (IncDeviceRef_quiet s n)
  | DecDeviceRef n => exact key _ (DecDeviceRef_quiet s s1 n force wait h)
  | ResetRef n =>
    cases h
    exact key _ (ResetRef_quiet s n)
  | IncRef n => exact key _ (IncRef_quiet s s1 n h)
  | DecRef n => exact key _ (DecRef_quiet s s1 n force wait h)
  | Data host => exact key _ (Data_quiet s s1 host h)
  | ChangeType type => exact key _ (ChangeType_quiet s s1 type h)
  | OffloadDone =>
    change (if s.offloadInFlight then some s.OffloadDoneCallback else none) = some s1 at h
    split_ifs at h; cases h
    exact key _ (OffloadDoneCallback_quiet s)
  | PreloadDone =>
    change (if s.preloadInFlight then some s.PreloadDoneCallback else none) = some s1 at h
    split_ifs at h; cases h
    exact key _ (PreloadDoneCallback_quiet s)

theorem Storage.run_tracked (force wait : Bool) (ops : List StorageOp) :
    ∀ (s s1 : Storage), s.TransfersTracked → Storage.run force wait s ops = some s1 →
      s1.TransfersTracked := by
  induction ops with
  | nil =>
    intro s s1 hJ h
    cases h
    exact hJ
  | cons op ops ih =>
    intro s s1 hJ h
    unfold Storage.run at h
    cases hs : Storage.step force wait s op with
    | none => rw [hs] at h; exact absurd h (by simp)
    | some s2 =>
      rw [hs] at h
      exact ih s2 s1 (Storage.step_tracked force wait s s2 op hJ hs).1 h

theorem Storage.new_tracked (type : StorageType) (size : Nat) :
    (Storage.new type size).TransfersTracked := by
  unfold Storage.TransfersTracked Storage.new
  simp

/-- In every reachable state the bookkeeping of the transfers is in order. -/
theorem Storage.Reachable.tracked (s : Storage) (h : s.Reachable) : s.TransfersTracked := by
  obtain ⟨force, wait, type, size, ops, h⟩ := h
  exact Storage.run_tracked force wait ops _ s (Storage.new_tracked type size) h

/-- C27, counterexample: the run `exTwoTransfersOps` on a new offloadable
storage of 1024 elements requests an offload, overrides the host copy and
requests a preload; in the state it reaches the offload and the preload are
both in flight. -/
theorem two_transfers_in_flight_counterexample :
    Storage.run false false (Storage.new exOffloadableType 1024) exTwoTransfersOps =
        some exTwoTransfers ∧
      Storage.run true true (Storage.new exOffloadableType 1024) exTwoTransfersOps =
        some exTwoTransfers ∧
      exTwoTransfers.offloadInFlight = true ∧ exTwoTransfers.preloadInFlight = true := by
  decide

/-- C27, amended: in every state a storage reaches, an offload in flight is
requested and not done and a preload in flight is requested, and no step
requests a second offload from the device while an offload is in flight, nor a
second preload while a preload is in flight: at most one transfer of each kind
is in flight. -/
theorem one_transfer_of_each_kind (s : Storage) (h : s.Reachable) (force wait : Bool)
    (op : StorageOp) (s1 : Storage) (hs : Storage.step force wait s op = some s1) :
    (s.offloadInFlight = true → s.m_OffloadRequested = true ∧ s.m_OffloadDone = false) ∧
      (s.preloadInFlight = true → s.m_PreloadRequested = true) ∧
      (s.offloadInFlight = true → s1.offloadsIssued = s.offloadsIssued) ∧
      (s.preloadInFlight = true → s1.preloadsIssued = s.preloadsIssued) := by
  have hJ := Storage.Reachable.tracked s h
  have hstep := Storage.step_tracked force wait s s1 op hJ hs
  exact ⟨hJ.1, fun hp => (hJ.2.2.2.1 hp).1, hstep.2.1, hstep.2.2⟩

/-- Witness for C27: in the state `exTwoTransfers`, with both transfers in
flight, `Preload` requests no further copy. -/
theorem one_transfer_of_each_kind_witness :
    ∃ s1, Storage.step false false exTwoTransfers (StorageOp.Preload 0 none) = some s1 ∧
      s1.offloadsIssued = exTwoTransfers.offloadsIssued ∧
      s1.preloadsIssued = exTwoTransfers.preloadsIssued :=
  ⟨exTwoTransfers, by decide,
    (one_transfer_of_each_kind exTwoTransfers
      ⟨false, false, exOffloadableType, 1024, exTwoTransfersOps, by decide⟩
      false false (StorageOp.Preload 0 none) exTwoTransfers (by decide)).2.2.1 (by decide),
    (one_transfer_of_each_kind exTwoTransfers
      ⟨false, false, exOffloadableType, 1024, exTwoTransfersOps, by decide⟩
      false false (StorageOp.Preload 0 none) exTwoTransfers (by decide)).2.2.2 (by decide)⟩

/-! ## Buffer storage: decrementing a reference count -/

/-- On a count that is a non-negative `int`, the comparison `n <= count` of
the source is the comparison of the numbers. -/
theorem le_intToSizeT (n : Nat) (c : Int) (h0 : 0 ≤ c) (h1 : c < 2 ^ 31) :
    n ≤ intToSizeT c ↔ (n : Int) ≤ c := by
  unfold intToSizeT
  have hR : ((SIZE_T_RANGE : Nat) : Int) = 18446744073709551616 := by
    unfold SIZE_T_RANGE; norm_num
  rw [hR, Int.emod_eq_of_lt h0 (by omega)]
  omega

/-- `FreeOnHost` leaves the type and the reference counts as they are. -/
theorem FreeOnHost_frame (s s1 : Storage) (h : s.FreeOnHost = some s1) :
    s1.m_Type = s.m_Type ∧ s1.m_DataRefCount = s.m_DataRefCount ∧
      s1.m_DeviceDataRefCount = s.m_DeviceDataRefCount := by
  unfold Storage.FreeOnHost at h
  split_ifs at h <;> cases h <;> exact ⟨rfl, rfl, rfl⟩

/-- `WaitForOffload` leaves the type and the reference counts as they are. -/
theorem WaitForOffload_frame (s s1 : Storage) (h : s.WaitForOffload = some s1) :
    s1.m_Type = s.m_Type ∧ s1.m_DataRefCount = s.m_DataRefCount ∧
      s1.m_DeviceDataRefCount = s.m_DeviceDataRefCount := by
  unfold Storage.WaitForOffload Storage.offloadFutureGet at h
  split_ifs at h <;> cases h
  · rw [OffloadDoneCallback_eq]; exact ⟨rfl, rfl, rfl⟩
  · exact ⟨rfl, rfl, rfl⟩
  · exact ⟨rfl, rfl, rfl⟩

/-- `FreeOnDevice` leaves the type and the reference counts as they are. -/
theorem FreeOnDevice_frame (s s1 : Storage) (force wait : Bool)
    (h : s.FreeOnDevice force wait = some s1) :
    s1.m_Type = s.m_Type ∧ s1.m_DataRefCount = s.m_DataRefCount ∧
      s1.m_DeviceDataRefCount = s.m_DeviceDataRefCount := by
  unfold Storage.FreeOnDevice at h
  simp only [Option.bind_eq_some] at h
  obtain ⟨a, ha, b, hb, h⟩ := h
  have fa : a.m_Type = s.m_Type ∧ a.m_DataRefCount = s.m_DataRefCount ∧
      a.m_DeviceDataRefCount = s.m_DeviceDataRefCount := by
    rw [WaitForPreload_eq s a ha]
    split_ifs <;> exact ⟨rfl, rfl, rfl⟩
  have fb : b.m_Type = a.m_Type ∧ b.m_DataRefCount = a.m_DataRefCount ∧
      b.m_DeviceDataRefCount = a.m_DeviceDataRefCount := by
    split_ifs at hb
    · exact WaitForOffload_frame a b hb
    · cases hb; exact ⟨rfl, rfl, rfl⟩
  have fsb : b.m_Type = s.m_Type ∧ b.m_DataRefCount = s.m_DataRefCount ∧
      b.m_DeviceDataRefCount = s.m_DeviceDataRefCount :=
    ⟨fb.1.trans fa.1, fb.2.1.trans fa.2.1, fb.2.2.trans fa.2.2⟩
  split_ifs at h <;> cases h <;> exact fsb

/-- With the bookkeeping of the transfers in order, both waits return. -/
theorem WaitForPreload_returns (s : Storage) (hJ : s.TransfersTracked) :
    ∃ s1, s.WaitForPreload = some s1 := by
  unfold Storage.WaitForPreload Storage.preloadFutureGet
  by_cases hr : s.m_PreloadRequested = true
  · rw [if_pos hr, if_pos (hJ.2.2.2.2.1 hr)]
    exact ⟨_, rfl⟩
  · rw [if_neg hr]
    exact ⟨_, rfl⟩

theorem WaitForOffload_returns (s : Storage) (hJ : s.TransfersTracked) :
    ∃ s1, s.WaitForOffload = some s1 := by
  unfold Storage.WaitForOffload Storage.offloadFutureGet
  by_cases hr : s.m_OffloadRequested = true
  · rw [if_pos hr, if_pos (hJ.2.2.1 hr)]
    exact ⟨_, rfl⟩
  · rw [if_neg hr]
    exact ⟨_, rfl⟩

/-- With the bookkeeping of the transfers in order `FreeOnDevice` returns; when
the storage does not keep its device memory, or the call is forced, it leaves
an offload pending or a null device pointer. -/
theorem FreeOnDevice_returns (s : Storage) (force wait : Bool) (hJ : s.TransfersTracked) :
    ∃ s1, s.FreeOnDevice force wait = some s1 ∧
      ((s.m_Type.ST_KeepDevMem = false ∨ force = true) →
        (s1.m_OffloadRequested = true ∧ s1.m_OffloadDone = false) ∨ s1.m_DeviceDataPtr = 0) := by
  obtain ⟨a, ha⟩ := WaitForPreload_returns s hJ
  have hJa := (WaitForPreload_quiet s a ha).1.1 hJ
  have hta : a.m_Type = s.m_Type := by
    rw [WaitForPreload_eq s a ha]
    split_ifs <;> rfl
  have hb : ∃ b, (if wait = true then a.WaitForOffload else some a) = some b ∧
      b.m_Type = s.m_Type := by
    by_cases hw : wait = true
    · rw [if_pos hw]
      obtain ⟨b, hb⟩ := WaitForOffload_returns a hJa
      exact ⟨b, hb, (WaitForOffload_frame a b hb).1.trans hta⟩
    · rw [if_neg hw]
      exact ⟨a, rfl, hta⟩
  obtain ⟨b, hb, htb⟩ := hb
  unfold Storage.FreeOnDevice
  rw [ha, Option.some_bind, hb, Option.some_bind]
  by_cases hp : b.m_OffloadRequested = true ∧ ¬ b.m_OffloadDone = true
  · rw [if_pos hp]
    exact ⟨_, rfl, fun _ => Or.inl ⟨hp.1, by simpa using hp.2⟩⟩
  · rw [if_neg hp]
    by_cases hd : b.m_DeviceDataPtr = 0
    · rw [if_pos hd]
      exact ⟨_, rfl, fun _ => Or.inr hd⟩
    · rw [if_neg hd]
      by_cases hk : ¬ force = true ∧ b.m_Type.ST_KeepDevMem = true
      · rw [if_pos hk]
        refine ⟨_, rfl, ?_⟩
        intro hkeep
        rw [htb] at hk
        rcases hkeep with h | h
        · rw [h] at hk; exact absurd hk.2 (by simp)
        · exact absurd h hk.1
      · rw [if_neg hk]
        exact ⟨_, rfl, fun _ => Or.inr rfl⟩

/-- `FreeOnHost` returns when an offload is pending or the device pointer is
null. -/
theorem FreeOnHost_returns (s : Storage)
    (h : (s.m_OffloadRequested = true ∧ s.m_OffloadDone = false) ∨ s.m_DeviceDataPtr = 0) :
    ∃ s1, s.FreeOnHost = some s1 := by
  unfold Storage.FreeOnHost
  by_cases hp : s.m_OffloadRequested = true ∧ ¬ s.m_OffloadDone = true
  · rw [if_pos hp]; exact ⟨_, rfl⟩
  · rw [if_neg hp]
    have hd : s.m_DeviceDataPtr = 0 := by
      rcases h with h | h
      · exact absurd ⟨h.1, by simp [h.2]⟩ hp
      · exact h
    rw [if_neg (not_not.mpr hd)]
    split_ifs <;> exact ⟨_, rfl⟩

/-- `DecRef(n)` on a non-negative `int` count that is at least `n`: the
subtraction does not leave the range of an `int`. -/
theorem DecRef_of_le (s : Storage) (n : Nat) (force wait : Bool)
    (h0 : 0 ≤ s.m_DataRefCount) (h1 : s.m_DataRefCount < 2 ^ 31)
    (hn : (n : Int) ≤ s.m_DataRefCount) :
    s.DecRef n force wait =
      if ¬ s.m_Type.ST_RefCounted then none
      else if ¬ n ≤ intToSizeT s.m_DataRefCount then none
      else
        let s1 : Storage := { s with m_DataRefCount := s.m_DataRefCount - (n : Int) }
        if s1.m_DataRefCount ≤ 0 ∧ s1.m_Type.ST_RefCounted then
          (s1.FreeOnDevice force wait).bind fun s2 => s2.FreeOnHost
        else some s1 := by
  unfold Storage.DecRef
  rw [toInt_sub _ n h0 h1 hn]

/-- `DecDeviceRef(n)` on a non-negative `int` count that is at least `n`: the
subtraction does not leave the range of an `int`. -/
theorem DecDeviceRef_of_le (s : Storage) (n : Nat) (force wait : Bool)
    (h0 : 0 ≤ s.m_DeviceDataRefCount) (h1 : s.m_DeviceDataRefCount < 2 ^ 31)
    (hn : (n : Int) ≤ s.m_DeviceDataRefCount) :
    s.DecDeviceRef n force wait =
      if ¬ s.m_Type.ST_DeviceRefCounted then some s
      else if ¬ n ≤ intToSizeT s.m_DeviceDataRefCount then none
      else
        let s1 : Storage :=
          { s with m_DeviceDataRefCount := s.m_DeviceDataRefCount - (n : Int) }
        if s1.m_DeviceDataRefCount ≤ 0 ∧ s1.m_Type.ST_DeviceRefCounted then
          s1.FreeOnDevice force wait
        else some s1 := by
  unfold Storage.DecDeviceRef
  rw [toInt_sub _ n h0 h1 hn]

/-- C29, counterexample: the storage `exKeepCounted`, reached by the run
`exKeepCountedOps`, counts host references, keeps its device memory and holds
host and device memory, with a host count of 1; `DecRef(1)`, with `FreeOnDevice`
not forced, does not return although 1 is not greater than the count: the
device memory is kept and the assertion of line 246 in `FreeOnHost` fails. -/
theorem dec_ref_counterexample :
    Storage.run false false (Storage.new exKeepCountedType 1024) exKeepCountedOps =
        some exKeepCounted ∧
      exKeepCounted.m_DataRefCount = 1 ∧
      exKeepCounted.DecRef 1 false false = none ∧
      exKeepCounted.DecRef 1 false true = none := by
  decide

/-- C29, amended: in a state a storage reaches, with a count that is a
non-negative `int`: `DecRef(n)` on a storage that counts host references is
fatal when `n` is greater than the count; when `n` is less than the count it
returns with the count decreased by `n` and nothing else changed; when `n`
equals the count it returns if the storage does not keep its device memory or
`FreeOnDevice` is forced; and whenever it returns with `n` at most the count,
the count has decreased by exactly `n` and is not negative. `DecDeviceRef(n)`
on a storage that counts device references is fatal when `n` is greater than
the count, and otherwise returns with the count decreased by exactly `n` and
not negative, with nothing else changed when the count stays positive. -/
theorem dec_ref_contract (s : Storage) (h : s.Reachable) (n : Nat) (force wait : Bool) :
    (s.m_Type.ST_RefCounted = true → 0 ≤ s.m_DataRefCount → s.m_DataRefCount < 2 ^ 31 →
        (s.m_DataRefCount < n → s.DecRef n force wait = none) ∧
        ((n : Int) < s.m_DataRefCount →
          s.DecRef n force wait =
            some { s with m_DataRefCount := s.m_DataRefCount - (n : Int) }) ∧
        ((n : Int) = s.m_DataRefCount →
          (s.m_Type.ST_KeepDevMem = false ∨ force = true) →
          ∃ s1, s.DecRef n force wait = some s1) ∧
        ((n : Int) ≤ s.m_DataRefCount → ∀ s1, s.DecRef n force wait = some s1 →
          s1.m_DataRefCount = s.m_DataRefCount - (n : Int) ∧ 0 ≤ s1.m_DataRefCount)) ∧
      (s.m_Type.ST_DeviceRefCounted = true → 0 ≤ s.m_DeviceDataRefCount →
        s.m_DeviceDataRefCount < 2 ^ 31 →
        (s.m_DeviceDataRefCount < n → s.DecDeviceRef n force wait = none) ∧
        ((n : Int) < s.m_DeviceDataRefCount →
          s.DecDeviceRef n force wait =
            some { s with m_DeviceDataRefCount := s.m_DeviceDataRefCount - (n : Int) }) ∧
        ((n : Int) ≤ s.m_DeviceDataRefCount →
          ∃ s1, s.DecDeviceRef n force wait = some s1 ∧
            s1.m_DeviceDataRefCount = s.m_DeviceDataRefCount - (n : Int) ∧
            0 ≤ s1.m_DeviceDataRefCount)) := by
  have hJ := Storage.Reachable.tracked s h
  constructor
  · intro hcap h0 h1
    have hle := le_intToSizeT n s.m_DataRefCount h0 h1
    have hJ0 : Storage.TransfersTracked
        { s with m_DataRefCount := s.m_DataRefCount - (n : Int) } := hJ
    refine ⟨?_, ?_, ?_, ?_⟩
    · intro hlt
      unfold Storage.DecRef
      rw [if_neg (by simp [hcap]), if_pos (by rw [hle]; omega)]
    · intro hlt
      rw [DecRef_of_le s n force wait h0 h1 (by omega)]
      rw [if_neg (by simp [hcap]), if_neg (by rw [hle]; omega)]
      simp only
      rw [if_neg]
      rintro ⟨h2, _⟩
      omega
    · intro heq hkeep
      rw [DecRef_of_le s n force wait h0 h1 (by omega)]
      rw [if_neg (by simp [hcap]), if_neg (by rw [hle]; omega)]
      simp only
      rw [if_pos ⟨by omega, hcap⟩]
      obtain ⟨a, ha, hpost⟩ := FreeOnDevice_returns
        { s with m_DataRefCount := s.m_DataRefCount - (n : Int) } force wait hJ0
      obtain ⟨b, hb⟩ := FreeOnHost_returns a (hpost hkeep)
      exact ⟨b, by rw [ha, Option.some_bind, hb]⟩
    · intro hn s1 hs
      rw [DecRef_of_le s n force wait h0 h1 hn] at hs
      rw [if_neg (by simp [hcap]), if_neg (by rw [hle]; omega)] at hs
      simp only at hs
      have key : s1.m_DataRefCount = s.m_DataRefCount - (n : Int) := by
        split_ifs at hs
        · simp only [Option.bind_eq_some] at hs
          obtain ⟨a, ha, hs⟩ := hs
          rw [(FreeOnHost_frame a s1 hs).2.1, (FreeOnDevice_frame _ a force wait ha).2.1]
        · cases hs; rfl
      exact ⟨key, by rw [key]; omega⟩
  · intro hcap h0 h1
    have hle := le_intToSizeT n s.m_DeviceDataRefCount h0 h1
    have hJ0 : Storage.TransfersTracked
        { s with m_DeviceDataRefCount := s.m_DeviceDataRefCount - (n : Int) } := hJ
    refine ⟨?_, ?_, ?_⟩
    · intro hlt
      unfold Storage.DecDeviceRef
      rw [if_neg (by simp [hcap]), if_pos (by rw [hle]; omega)]
    · intro hlt
      rw [DecDeviceRef_of_le s n force wait h0 h1 (by omega)]
      rw [if_neg (by simp [hcap]), if_neg (by rw [hle]; omega)]
      simp only
      rw [if_neg]
      rintro ⟨h2, _⟩
      omega
    · intro hn
      rw [DecDeviceRef_of_le s n force wait h0 h1 hn]
      rw [if_neg (by simp [hcap]), if_neg (by rw [hle]; omega)]
      simp only
      by_cases hz : s.m_DeviceDataRefCount - (n : Int) ≤ 0 ∧ s.m_Type.ST_DeviceRefCounted = true
      · rw [if_pos hz]
        obtain ⟨a, ha, _⟩ := FreeOnDevice_returns
          { s with m_DeviceDataRefCount := s.m_DeviceDataRefCount - (n : Int) } force wait hJ0
        have hf := (FreeOnDevice_frame _ a force wait ha).2.2
        exact ⟨a, ha, hf, by rw [hf]; simp only; omega⟩
      · rw [if_neg hz]
        exact ⟨_, rfl, rfl, by simp only; omega⟩

/-- Witness for C29: the storage `exKeepCounted` with `n = 2`, greater than
both counts. -/
theorem dec_ref_contract_witness :
    exKeepCounted.DecRef 2 false false = none ∧
      exKeepCounted.DecDeviceRef 2 false false = none :=
  ⟨((dec_ref_contract exKeepCounted
      ⟨false, false, exKeepCountedType, 1024, exKeepCountedOps, by decide⟩
      2 false false).1 (by decide) (by decide) (by decide)).1 (by decide),
    ((dec_ref_contract exKeepCounted
      ⟨false, false, exKeepCountedType, 1024, exKeepCountedOps, by decide⟩
      2 false false).2 (by decide) (by decide) (by decide)).1 (by decide)⟩

/-- With no transfer requested, `FreeOnDevice` that is forced, or on a storage
that does not keep its device memory, frees the device memory if there is any. -/
theorem FreeOnDevice_of_idle (s : Storage) (force wait : Bool)
    (hoff : s.m_OffloadRequested = false) (hpre : s.m_PreloadRequested = false)
    (hkeep : s.m_Type.ST_KeepDevMem = false ∨ force = true) :
    s.FreeOnDevice force wait =
      some (if s.m_DeviceDataPtr = 0 then s
        else
          { s with
            m_FreeDeviceMemOnOffloadDone := false,
            calls := s.calls ++ [StorageCall.DeviceFree s.m_DeviceDataPtr],
            m_DeviceDataPtr := 0,
            m_DataLocation := if s.m_DataPtr ≠ 0 then ELocation.Host else s.m_DataLocation }) := by
  have hw : s.WaitForPreload = some s := by
    unfold Storage.WaitForPreload; simp [hpre]
  have hw2 : (if wait = true then s.WaitForOffload else some s) = some s := by
    unfold Storage.WaitForOffload; simp [hoff]
  unfold Storage.FreeOnDevice
  rw [hw, Option.some_bind, hw2, Option.some_bind]
  rw [if_neg (by simp [hoff])]
  by_cases hd : s.m_DeviceDataPtr = 0
  · rw [if_pos hd, if_pos hd]
  · rw [if_neg hd, if_neg hd]
    rw [if_neg]
    rintro ⟨h1, h2⟩
    rcases hkeep with h | h
    · rw [h] at h2; exact absurd h2 (by simp)
    · exact h1 h

/-- C30, counterexample: on the storage `exCountedNew`, a new storage after
`ResetDeviceRef(1)`, which counts device references, holds no memory and has no
transfer pending, `DecDeviceRef(1)` returns with the location `None`, whatever
the default arguments of `FreeOnDevice`; and on the storage `exKeepCounted`,
reached by the run `exKeepCountedOps`, which keeps its device memory,
`DecDeviceRef(1)` with `FreeOnDevice` not forced returns with the device
pointer still 8192, and `DecRef(1)` does not return. -/
theorem release_at_zero_counterexample :
    (Storage.new exCountedType 1024).ResetDeviceRef 1 = exCountedNew ∧
      Storage.run false false (Storage.new exKeepCountedType 1024) exKeepCountedOps =
        some exKeepCounted ∧
      (exCountedNew.DecDeviceRef 1 false false).map (fun s => s.m_DataLocation) =
        some ELocation.None ∧
      (exCountedNew.DecDeviceRef 1 false true).map (fun s => s.m_DataLocation) =
        some ELocation.None ∧
      (exCountedNew.DecDeviceRef 1 true false).map (fun s => s.m_DataLocation) =
        some ELocation.None ∧
      (exCountedNew.DecDeviceRef 1 true true).map (fun s => s.m_DataLocation) =
        some ELocation.None ∧
      exKeepCounted.m_OffloadRequested = false ∧ exKeepCounted.m_PreloadRequested = false ∧
      (exKeepCounted.DecDeviceRef 1 false false).map (fun s => s.m_DeviceDataPtr) =
        some 8192 ∧
      exKeepCounted.DecRef 1 false false = none := by
  decide

/-- C30, amended: on a storage with no offload and no preload requested, that
does not keep its device memory or for which `FreeOnDevice` is forced, and a
count `n` that fits an `int`: when the storage counts device references and
its device count is `n`, `DecDeviceRef(n)` returns with the count at zero; a
storage without device memory is otherwise unchanged, and one with device
memory has handed it to the device allocator, has a null device pointer and,
if it holds host memory, the location `Host`. When the storage counts host
references and its host count is `n`, `DecRef(n)` returns with the count at
zero and both pointers null, and with the location `None` if it held host
memory. -/
theorem release_at_zero (s : Storage) (n : Nat) (force wait : Bool)
    (hoff : s.m_OffloadRequested = false) (hpre : s.m_PreloadRequested = false)
    (hkeep : s.m_Type.ST_KeepDevMem = false ∨ force = true) (hn : (n : Int) < 2 ^ 31) :
    (s.m_Type.ST_DeviceRefCounted = true → s.m_DeviceDataRefCount = (n : Int) →
        s.DecDeviceRef n force wait =
          some (if s.m_DeviceDataPtr = 0 then { s with m_DeviceDataRefCount := 0 }
            else
              { s with
                m_DeviceDataRefCount := 0,
                m_FreeDeviceMemOnOffloadDone := false,
                calls := s.calls ++ [StorageCall.DeviceFree s.m_DeviceDataPtr],
                m_DeviceDataPtr := 0,
                m_DataLocation :=
                  if s.m_DataPtr ≠ 0 then ELocation.Host else s.m_DataLocation })) ∧
      (s.m_Type.ST_RefCounted = true → s.m_DataRefCount = (n : Int) →
        ∃ s1, s.DecRef n force wait = some s1 ∧
          s1.m_DeviceDataPtr = 0 ∧ s1.m_DataPtr = 0 ∧
          (s.m_DataPtr ≠ 0 → s1.m_DataLocation = ELocation.None) ∧
          s1.m_DataRefCount = 0) := by
  constructor
  · intro hcap hc
    have hle := le_intToSizeT n s.m_DeviceDataRefCount (by omega) (by omega)
    rw [DecDeviceRef_of_le s n force wait (by omega) (by omega) (by omega)]
    rw [if_neg (by simp [hcap]), if_neg (by rw [hle]; omega)]
    simp only
    rw [if_pos ⟨by omega, hcap⟩]
    have hF := FreeOnDevice_of_idle
      { s with m_DeviceDataRefCount := s.m_DeviceDataRefCount - (n : Int) }
      force wait hoff hpre hkeep
    rw [hF]
    have h0 : s.m_DeviceDataRefCount - (n : Int) = 0 := by omega
    simp only [h0]
  · intro hcap hc
    have hle := le_intToSizeT n s.m_DataRefCount (by omega) (by omega)
    rw [DecRef_of_le s n force wait (by omega) (by omega) (by omega)]
    rw [if_neg (by simp [hcap]), if_neg (by rw [hle]; omega)]
    simp only
    rw [if_pos ⟨by omega, hcap⟩]
    have hF := FreeOnDevice_of_idle
      { s with m_DataRefCount := s.m_DataRefCount - (n : Int) }
      force wait hoff hpre hkeep
    rw [hF]
    have h0 : s.m_DataRefCount - (n : Int) = 0 := by omega
    simp only [h0, Option.some_bind]
    unfold Storage.FreeOnHost
    by_cases hd : s.m_DeviceDataPtr = 0 <;> by_cases hh : s.m_DataPtr = 0 <;>
      simp [hd, hh, hoff]

/-- Witness for C30: the storage `exResident` counting references, with both
counts at 1: `DecDeviceRef(1)` frees the device memory at 8192 and leaves the
location `Host`. -/
theorem release_at_zero_witness :
    Storage.DecDeviceRef
        { exResident exCountedType with m_DataRefCount := 1, m_DeviceDataRefCount := 1 }
        1 false false =
      some { exResident exCountedType with
        m_DataRefCount := 1,
        m_DeviceDataRefCount := 0,
        calls := (exResident exCountedType).calls ++ [StorageCall.DeviceFree 8192],
        m_DeviceDataPtr := 0,
        m_DataLocation := ELocation.Host } :=
  (release_at_zero
    { exResident exCountedType with m_DataRefCount := 1, m_DeviceDataRefCount := 1 }
    1 false false (by decide) (by decide) (Or.inl (by decide)) (by decide)).1
    (by decide) (by decide)

/-! ## Rounding up to a multiple -/

/-- Without overflow `ceilInt m n` is `(m + n - 1) / n * n`. -/
theorem ceilInt_eq (m n : Nat) (h : m + n - 1 < SIZE_T_RANGE) :
    ceilInt m n = (m + n - 1) / n * n := by
  unfold ceilInt
  rw [Nat.mod_eq_of_lt h]
  have h1 : (m + n - 1) / n * n ≤ m + n - 1 := Nat.div_mul_le_self _ _
  exact Nat.mod_eq_of_lt (by omega)

/-- Without overflow `ceilInt m n` is below `m + n`. -/
theorem ceilInt_lt_add (m n : Nat) (hn : 0 < n) (h : m + n - 1 < SIZE_T_RANGE) :
    ceilInt m n < m + n := by
  rw [ceilInt_eq m n h]
  have h1 : (m + n - 1) / n * n ≤ m + n - 1 := Nat.div_mul_le_self _ _
  omega

/-- Without overflow `ceilInt m n` is below every multiple of `n` that is at
least `m`. -/
theorem ceilInt_le_of_dvd (m n k : Nat) (hn : 0 < n) (h : m + n - 1 < SIZE_T_RANGE)
    (hk : n ∣ k) (hmk : m ≤ k) : ceilInt m n ≤ k := by
  rw [ceilInt_eq m n h]
  obtain ⟨q, rfl⟩ := hk
  rw [Nat.mul_comm n q]
  apply Nat.mul_le_mul_right
  rw [Nat.div_le_iff_le_mul_add_pred hn]
  have : m ≤ n * q := hmk
  omega

/-- A multiple of `n` is a fixed point of `ceilInt · n` when the sum does not
overflow. -/
theorem ceilInt_of_dvd (c n : Nat) (hn : 0 < n) (h : c + n - 1 < SIZE_T_RANGE)
    (hc : n ∣ c) : ceilInt c n = c := by
  apply Nat.le_antisymm
  · exact ceilInt_le_of_dvd c n c hn h hc (Nat.le_refl c)
  · exact ceilInt_ge c n hn h

/-- C35: for `n > 0` and `m + n - 1` below `2^64`, `ceilInt m n` is a multiple
of `n`, lies in `[m, m + n)`, is the least multiple of `n` that is at least
`m`, `ceilInt 0 n = 0`, and a second application returns the same value when
its own sum `ceilInt m n + n - 1` is below `2^64`. -/
theorem ceilInt_least_multiple (m n : Nat) (hn : 0 < n) (h : m + n - 1 < SIZE_T_RANGE) :
    n ∣ ceilInt m n ∧ m ≤ ceilInt m n ∧ ceilInt m n < m + n ∧
      (∀ k, n ∣ k → m ≤ k → ceilInt m n ≤ k) ∧
      ceilInt 0 n = 0 ∧
      (ceilInt m n + n - 1 < SIZE_T_RANGE → ceilInt (ceilInt m n) n = ceilInt m n) :=
  ⟨ceilInt_dvd m n, ceilInt_ge m n hn h, ceilInt_lt_add m n hn h,
    fun k hk hmk => ceilInt_le_of_dvd m n k hn h hk hmk,
    ceilInt_zero n,
    fun h2 => ceilInt_of_dvd (ceilInt m n) n hn h2 (ceilInt_dvd m n)⟩

/-- Witness for C35: `ceilInt 100 512 = 512`. -/
theorem ceilInt_least_multiple_witness :
    512 ∣ ceilInt 100 512 ∧ 100 ≤ ceilInt 100 512 ∧ ceilInt 100 512 < 100 + 512 ∧
      (∀ k, 512 ∣ k → 100 ≤ k → ceilInt 100 512 ≤ k) ∧
      ceilInt 0 512 = 0 ∧
      (ceilInt 100 512 + 512 - 1 < SIZE_T_RANGE →
        ceilInt (ceilInt 100 512) 512 = ceilInt 100 512) :=
  ceilInt_least_multiple 100 512 (by decide) (by decide)

/-! ## Buffer storage: synchronising and the accessors -/

/-- C34: whenever `SyncToHost` returns, every member of the storage, and what
is in flight, is as before: only the record of calls may have grown. It
returns the state unchanged when the location is `Host` and the host pointer is
set, returns after one blocking copy when the location is `Device` and both
pointers are set, and is fatal when the location is `None`. -/
theorem sync_to_host_frame (s : Storage) :
    (∀ s1, s.SyncToHost = some s1 → s1 = { s with calls := s1.calls }) ∧
      (s.m_DataLocation = ELocation.Host → s.m_DataPtr ≠ 0 → s.SyncToHost = some s) ∧
      (s.m_DataLocation = ELocation.Device → s.m_DataPtr ≠ 0 → s.m_DeviceDataPtr ≠ 0 →
        s.SyncToHost = some (s.call
          (StorageCall.MemcpyDeviceToHost s.m_DataPtr s.m_DeviceDataPtr s.SizeInBytes))) ∧
      (s.m_DataLocation = ELocation.None → s.SyncToHost = none) := by
  refine ⟨?_, ?_, ?_, ?_⟩
  · intro s1 h
    unfold Storage.SyncToHost at h
    split_ifs at h <;> cases h <;> rfl
  · intro hl hh
    unfold Storage.SyncToHost
    rw [if_pos hl, if_neg hh]
  · intro hl hh hd
    unfold Storage.SyncToHost
    simp [hl, hh, hd]
  · intro hl
    unfold Storage.SyncToHost
    simp [hl]

/-- Witness for C34: the state `exResident`, with its data on the device. -/
theorem sync_to_host_frame_witness :
    (exResident exPlainType).SyncToHost =
      some ((exResident exPlainType).call (StorageCall.MemcpyDeviceToHost 4096 8192 4096)) :=
  (sync_to_host_frame (exResident exPlainType)).2.2.1 (by decide) (by decide) (by decide)

/-- C32, counterexample: in the state `exPreloading`, reached by the run
`exPreloadingOps`, a preload is requested and its copy has not completed; both
overloads of `Data` return the host pointer. -/
theorem accessors_counterexample :
    Storage.run false false (Storage.new exOffloadableType 1024) exPreloadingOps =
        some exPreloading ∧
      exPreloading.m_PreloadRequested = true ∧ exPreloading.preloadInFlight = true ∧
      (exPreloading.Data 0).map (fun s => s.m_DataPtr) = some 4096 ∧
      exPreloading.DataConst = some 4096 := by
  decide

/-- C32, amended: whenever the non-const `Data` returns, the location is
`Host`; with the host pointer set it returns exactly when the location is
`Host`, and leaves the state as it is; the const `Data` returns the host
pointer exactly when the location is `Host`. Neither looks at a requested
preload. The non-const `DeviceData` returns the device pointer exactly when
that pointer is set, the location is `Device` and no offload is requested and
not done; the const `DeviceData` returns the device pointer exactly when the
location is `Device`. -/
theorem accessors_enforce_residency (s : Storage) (host : Nat) :
    (∀ s1, s.Data host = some s1 → s1.m_DataLocation = ELocation.Host) ∧
      (s.m_DataPtr ≠ 0 →
        s.Data host = if s.m_DataLocation = ELocation.Host then some s else none) ∧
      (∀ p, s.DataConst = some p ↔ s.m_DataLocation = ELocation.Host ∧ p = s.m_DataPtr) ∧
      (∀ p, s.DeviceData = some p ↔
        s.m_DeviceDataPtr ≠ 0 ∧ s.m_DataLocation = ELocation.Device ∧
          ¬ (s.m_OffloadRequested = true ∧ s.m_OffloadDone = false) ∧ p = s.m_DeviceDataPtr) ∧
      (∀ p, s.DeviceDataConst = some p ↔
        s.m_DataLocation = ELocation.Device ∧ p = s.m_DeviceDataPtr) := by
  refine ⟨?_, ?_, ?_, ?_, ?_⟩
  · intro s1 h
    unfold Storage.Data at h
    simp only [Option.bind_eq_some] at h
    obtain ⟨a, _, h⟩ := h
    split_ifs at h with hl
    cases h
    exact hl
  · intro hh
    unfold Storage.Data
    rw [if_neg hh]
    rfl
  · intro p
    unfold Storage.DataConst
    split_ifs with hl
    · simp [hl, eq_comm]
    · simp [hl]
  · intro p
    unfold Storage.DeviceData
    by_cases hd : s.m_DeviceDataPtr = 0
    · simp [hd]
    · by_cases hl : s.m_DataLocation = ELocation.Device
      · cases hr : s.m_OffloadRequested <;> cases hdn : s.m_OffloadDone <;>
          simp [hd, hl, eq_comm]
      · simp [hd, hl]
  · intro p
    unfold Storage.DeviceDataConst
    split_ifs with hl
    · simp [hl, eq_comm]
    · simp [hl]

/-- Witness for C32: the state `exBoth`, with its data on the host. -/
theorem accessors_enforce_residency_witness :
    (exBoth exPlainType).Data 0 =
      if (exBoth exPlainType).m_DataLocation = ELocation.Host then some (exBoth exPlainType)
      else none :=
  (accessors_enforce_residency (exBoth exPlainType) 0).2.1 (by decide)

/-! ## Buffer storage: copying to the host -/

/-- The completion of an offload makes no blocking device-to-host copy. -/
theorem copiesToHost_OffloadDoneCallback (s : Storage) :
    s.OffloadDoneCallback.copiesToHost = s.copiesToHost := by
  rw [OffloadDoneCallback_eq]
  unfold Storage.copiesToHost
  by_cases h1 : s.m_FreeDeviceMemOnOffloadDone = true <;>
    by_cases h2 : s.m_FreePinnedMemOnOffloadDone = true <;>
    simp [h1, h2, List.countP_append, List.countP_cons]

/-- What `CopyToHost` does after its wait for a requested preload has returned
a state `s1` whose data is on the device with both pointers set: with an
offload requested on an offloadable storage it waits for it, otherwise it
makes one blocking copy; then the location is `Host`. -/
theorem CopyToHost_of_wait (s s1 : Storage) (allowAlloc : Bool) (host : Nat)
    (hw : s.WaitForPreload = some s1)
    (hloc : s1.m_DataLocation = ELocation.Device)
    (hh : s1.m_DataPtr ≠ 0) (hd : s1.m_DeviceDataPtr ≠ 0) :
    s.CopyToHost allowAlloc host =
      (if s1.m_OffloadRequested = true ∧ s1.m_Type.ST_Offloadable = true then s1.WaitForOffload
       else some (s1.call
        (StorageCall.MemcpyDeviceToHost s1.m_DataPtr s1.m_DeviceDataPtr s1.SizeInBytes))).bind
      fun s2 => some { s2 with m_DataLocation := ELocation.Host } := by
  have h1 : (if s.m_PreloadRequested then s.WaitForPreload else some s) = some s1 := by
    by_cases hr : s.m_PreloadRequested = true
    · rw [if_pos hr, hw]
    · rw [if_neg hr]
      unfold Storage.WaitForPreload at hw
      rw [if_neg hr] at hw
      exact hw
  unfold Storage.CopyToHost
  rw [h1]
  simp only [Option.some_bind]
  rw [if_neg (by rw [hloc]; decide)]
  rw [if_neg (by rintro ⟨_, h⟩; exact hh h), if_neg (by rw [hloc]; decide),
    if_neg (by rintro (h | h); exact hh h; exact hd h)]

/-- C33: on an offloadable storage whose data is on the device, with both
pointers set and every requested transfer holding an armed future,
`CopyToHost` returns. With an offload requested it makes no blocking
device-to-host copy: the offload callback has run, the request flag is off and
the location is `Host`. With no offload requested it makes exactly one
blocking copy, of `SizeInBytes()` bytes from the device pointer to the host
pointer, and the location is `Host`. -/
theorem copy_to_host_waits_or_copies (s : Storage) (allowAlloc : Bool) (host : Nat)
    (hoff : s.m_Type.ST_Offloadable = true)
    (hloc : s.m_DataLocation = ELocation.Device)
    (hh : s.m_DataPtr ≠ 0) (hd : s.m_DeviceDataPtr ≠ 0)
    (hof : s.m_OffloadRequested = true → s.m_OffloadFuture = true)
    (hpf : s.m_PreloadRequested = true → s.m_PreloadFuture = true) :
    (s.m_OffloadRequested = true →
        ∃ s1, s.CopyToHost allowAlloc host = some s1 ∧
          s1.copiesToHost = s.copiesToHost ∧
          s1.m_OffloadRequested = false ∧ s1.offloadInFlight = false ∧
          s1.m_DataLocation = ELocation.Host) ∧
      (s.m_OffloadRequested = false →
        ∃ s1, s.CopyToHost allowAlloc host = some s1 ∧
          s1.calls = s.calls ++
            [StorageCall.MemcpyDeviceToHost s.m_DataPtr s.m_DeviceDataPtr s.SizeInBytes] ∧
          s1.copiesToHost = s.copiesToHost + 1 ∧
          s1.m_DataLocation = ELocation.Host) := by
  have hw : ∃ s0, s.WaitForPreload = some s0 := by
    unfold Storage.WaitForPreload Storage.preloadFutureGet
    by_cases hr : s.m_PreloadRequested = true
    · rw [if_pos hr, if_pos (hpf hr)]
      exact ⟨_, rfl⟩
    · rw [if_neg hr]
      exact ⟨_, rfl⟩
  obtain ⟨s0, hw⟩ := hw
  have h0 := WaitForPreload_eq s s0 hw
  have f1 : s0.m_DataLocation = ELocation.Device := by
    rw [h0]; split_ifs <;> first | exact hloc | rfl
  have f2 : s0.m_DataPtr = s.m_DataPtr := by rw [h0]; split_ifs <;> rfl
  have f3 : s0.m_DeviceDataPtr = s.m_DeviceDataPtr := by rw [h0]; split_ifs <;> rfl
  have f4 : s0.m_OffloadRequested = s.m_OffloadRequested := by rw [h0]; split_ifs <;> rfl
  have f5 : s0.m_Type = s.m_Type := by rw [h0]; split_ifs <;> rfl
  have f6 : s0.calls = s.calls := by rw [h0]; split_ifs <;> rfl
  have f7 : s0.m_OffloadFuture = s.m_OffloadFuture := by rw [h0]; split_ifs <;> rfl
  have f8 : s0.m_Size = s.m_Size := by rw [h0]; split_ifs <;> rfl
  have hc := CopyToHost_of_wait s s0 allowAlloc host hw f1 (by rw [f2]; exact hh)
    (by rw [f3]; exact hd)
  refine ⟨?_, ?_⟩
  · intro hr
    rw [hc, if_pos ⟨by rw [f4]; exact hr, by rw [f5]; exact hoff⟩]
    unfold Storage.WaitForOffload Storage.offloadFutureGet
    rw [if_pos (by rw [f4]; exact hr), if_pos (by rw [f7]; exact hof hr)]
    refine ⟨_, rfl, ?_, rfl, ?_, rfl⟩
    · by_cases hi : s0.offloadInFlight = true
      · rw [if_pos hi]
        have := copiesToHost_OffloadDoneCallback s0
        unfold Storage.copiesToHost at this ⊢
        rw [← f6]
        exact this
      · rw [if_neg hi]
        unfold Storage.copiesToHost
        rw [← f6]
    · by_cases hi : s0.offloadInFlight = true
      · rw [if_pos hi]; rfl
      · rw [if_neg hi]; simpa using hi
  · intro hr
    rw [hc, if_neg (by rw [f4, hr]; simp)]
    refine ⟨_, rfl, ?_, ?_, rfl⟩
    · show s0.calls ++ _ = _
      rw [f6, f2, f3]
      unfold Storage.SizeInBytes
      rw [f8]
    · unfold Storage.copiesToHost
      show List.countP _ (s0.calls ++ _) = _
      rw [f6]
      simp [List.countP_append, List.countP_cons]

/-- Witness for C33: the state `exOffloading`, with a forced offload in flight;
`CopyToHost` makes no blocking copy. -/
theorem copy_to_host_waits_or_copies_witness :
    ∃ s1, (exOffloading exOffloadableType).CopyToHost false 0 = some s1 ∧
      s1.copiesToHost = (exOffloading exOffloadableType).copiesToHost ∧
      s1.m_OffloadRequested = false ∧ s1.offloadInFlight = false ∧
      s1.m_DataLocation = ELocation.Host :=
  (copy_to_host_waits_or_copies (exOffloading exOffloadableType) false 0
    (by decide) (by decide) (by decide) (by decide) (by decide) (by decide)).1 (by decide)

/-! ## Buffer storage: resizing -/

/-- `Storage.Resize` below the allocated size. -/
theorem Resize_of_lt (s : Storage) (size host : Nat) (dev : Option Nat)
    (h : size < s.m_AllocSize) : s.Resize size host dev = some { s with m_Size := size } := by
  unfold Storage.Resize
  rw [if_pos h]

/-- `Storage.Resize` at or above the allocated size. -/
theorem Resize_of_ge (s : Storage) (size host : Nat) (dev : Option Nat)
    (h : s.m_AllocSize ≤ size) :
    s.Resize size host dev =
      ((if s.m_DeviceDataPtr ≠ 0 then
          Storage.FreeOnDevice { s with m_AllocSize := size, m_Size := size } true true
        else some { s with m_AllocSize := size, m_Size := size }).bind fun s1 =>
      (if s1.m_DataPtr ≠ 0 then s1.FreeOnHost else some s1).bind fun s2 =>
      (if s.m_DataPtr ≠ 0 then s2.AllocateOnHost host else some s2).bind fun s3 =>
      if s.m_DeviceDataPtr ≠ 0 then s3.AllocateOnDevice host dev else some s3) := by
  unfold Storage.Resize
  rw [if_neg (Nat.not_lt.mpr h)]

/-- What `WaitForOffload` leaves when it returns. -/
theorem WaitForOffload_eq (s s1 : Storage) (h : s.WaitForOffload = some s1) :
    s1 = if s.m_OffloadRequested then
        { (if s.offloadInFlight then s.OffloadDoneCallback else s) with
          m_OffloadFuture := false, m_OffloadRequested := false }
      else s := by
  unfold Storage.WaitForOffload at h
  by_cases hr : s.m_OffloadRequested = true
  · rw [if_pos hr] at h
    rw [if_pos hr]
    unfold Storage.offloadFutureGet at h
    by_cases hf : s.m_OffloadFuture = true
    · rw [if_pos hf] at h
      simp only [Option.some_bind, Option.some.injEq] at h
      exact h.symm
    · rw [if_neg hf] at h
      exact absurd h (by simp)
  · rw [if_neg hr] at h
    rw [if_neg hr]
    exact (Option.some.inj h).symm

/-- The forced `FreeOnDevice(true, true)` on a storage with device memory and
its transfers in order: it returns with the device pointer null and no offload
requested; the device pointer has gone to `Free` or to `ScheduleFree`; the
host pointer is as before, or null and handed to the pinned allocator. -/
theorem FreeOnDevice_forced (x : Storage) (hJ : x.TransfersTracked)
    (hd : x.m_DeviceDataPtr ≠ 0) :
    ∃ y, x.FreeOnDevice true true = some y ∧ y.TransfersTracked ∧
      y.m_DeviceDataPtr = 0 ∧ y.m_OffloadRequested = false ∧
      y.m_AllocSize = x.m_AllocSize ∧ y.m_Size = x.m_Size ∧ y.m_Type = x.m_Type ∧
      ∃ cs, y.calls = x.calls ++ cs ∧
        (StorageCall.DeviceFree x.m_DeviceDataPtr ∈ cs ∨
          StorageCall.DeviceScheduleFree x.m_DeviceDataPtr ∈ cs) ∧
        ((y.m_DataPtr = x.m_DataPtr ∧ ∀ p, StorageCall.HostPinnedFree p ∉ cs ∧
            StorageCall.HostFree p ∉ cs) ∨
          (y.m_DataPtr = 0 ∧ StorageCall.HostPinnedFree x.m_DataPtr ∈ cs)) := by
  obtain ⟨y, hy, _⟩ := FreeOnDevice_returns x true true hJ
  have hJy := (FreeOnDevice_quiet x y true true hy).1 hJ
  refine ⟨y, hy, hJy, ?_⟩
  unfold Storage.FreeOnDevice at hy
  simp only [Option.bind_eq_some] at hy
  obtain ⟨a, ha, b, hb, h⟩ := hy
  have hJa := (WaitForPreload_quiet x a ha).1.1 hJ
  have ea := WaitForPreload_eq x a ha
  rw [if_pos trivial] at hb
  have hbq := (WaitForOffload_quiet a b hb).2.2.2 hJa
  have eb := WaitForOffload_eq a b hb
  have a1 : a.m_DeviceDataPtr = x.m_DeviceDataPtr := by rw [ea]; split_ifs <;> rfl
  have a2 : a.m_DataPtr = x.m_DataPtr := by rw [ea]; split_ifs <;> rfl
  have a3 : a.calls = x.calls := by rw [ea]; split_ifs <;> rfl
  have a4 : a.m_AllocSize = x.m_AllocSize ∧ a.m_Size = x.m_Size ∧ a.m_Type = x.m_Type := by
    rw [ea]; split_ifs <;> exact ⟨rfl, rfl, rfl⟩
  have hnp : ¬ (b.m_OffloadRequested = true ∧ ¬ b.m_OffloadDone = true) := by
    rw [hbq.2]; simp
  rw [if_neg hnp] at h
  -- the state after the wait for the offload
  have b4 : b.m_AllocSize = a.m_AllocSize ∧ b.m_Size = a.m_Size ∧ b.m_Type = a.m_Type := by
    rw [eb]; split_ifs <;> first | exact ⟨rfl, rfl, rfl⟩ | (rw [OffloadDoneCallback_eq]; exact ⟨rfl, rfl, rfl⟩)
  have key : ∃ cs, b.calls = a.calls ++ cs ∧
      ((b.m_DeviceDataPtr = a.m_DeviceDataPtr ∧
          ∀ p, StorageCall.DeviceFree p ∉ cs ∧ StorageCall.DeviceScheduleFree p ∉ cs) ∨
        (b.m_DeviceDataPtr = 0 ∧ StorageCall.DeviceScheduleFree a.m_DeviceDataPtr ∈ cs)) ∧
      ((b.m_DataPtr = a.m_DataPtr ∧ ∀ p, StorageCall.HostPinnedFree p ∉ cs ∧
            StorageCall.HostFree p ∉ cs) ∨
        (b.m_DataPtr = 0 ∧ StorageCall.HostPinnedFree a.m_DataPtr ∈ cs)) := by
    rw [eb]
    by_cases hr : a.m_OffloadRequested = true
    · rw [if_pos hr]
      by_cases hi : a.offloadInFlight = true
      · rw [if_pos hi, OffloadDoneCallback_eq]
        refine ⟨(if a.m_FreeDeviceMemOnOffloadDone then
            [StorageCall.DeviceScheduleFree a.m_DeviceDataPtr] else []) ++
          (if a.m_FreePinnedMemOnOffloadDone then
            [StorageCall.HostPinnedFree a.m_DataPtr] else []), ?_, ?_, ?_⟩
        · show a.calls ++ _ ++ _ = _
          rw [List.append_assoc]
        · by_cases h1 : a.m_FreeDeviceMemOnOffloadDone = true <;>
            by_cases h2 : a.m_FreePinnedMemOnOffloadDone = true <;> simp [h1, h2]
        · by_cases h1 : a.m_FreeDeviceMemOnOffloadDone = true <;>
            by_cases h2 : a.m_FreePinnedMemOnOffloadDone = true <;> simp [h1, h2]
      · rw [if_neg hi]
        exact ⟨[], by simp, by simp, by simp⟩
    · rw [if_neg hr]
      exact ⟨[], by simp, by simp, by simp⟩
  obtain ⟨cs, hcs, kd, kh⟩ := key
  by_cases hbd : b.m_DeviceDataPtr = 0
  · rw [if_pos hbd] at h
    cases h
    refine ⟨hbd, hbq.2, b4.1.trans a4.1, b4.2.1.trans a4.2.1, b4.2.2.trans a4.2.2, cs, ?_, ?_, ?_⟩
    · rw [hcs, a3]
    · rcases kd with kd | kd
      · exact absurd (kd.1.symm.trans hbd |>.symm.trans a1 |>.symm) hd
      · right; rw [← a1]; exact kd.2
    · rw [← a2]; exact kh
  · rw [if_neg hbd, if_neg (by simp)] at h
    cases h
    have hbd2 : b.m_DeviceDataPtr = x.m_DeviceDataPtr := by
      rcases kd with kd | kd
      · exact kd.1.trans a1
      · exact absurd kd.1 hbd
    refine ⟨rfl, hbq.2, b4.1.trans a4.1, b4.2.1.trans a4.2.1, b4.2.2.trans a4.2.2,
      cs ++ [StorageCall.DeviceFree b.m_DeviceDataPtr], ?_, ?_, ?_⟩
    · show b.calls ++ _ = _
      rw [hcs, a3, List.append_assoc]
    · left; rw [hbd2]; simp
    · show (b.m_DataPtr = _ ∧ _) ∨ (b.m_DataPtr = 0 ∧ _)
      rw [← a2]
      rcases kh with kh | kh
      · left
        refine ⟨kh.1, fun p => ?_⟩
        have := kh.2 p
        simp [this.1, this.2]
      · right
        exact ⟨kh.1, by simp [kh.2]⟩

/-- `FreeOnHost` with no offload pending, no device memory and host memory. -/
theorem FreeOnHost_of_idle (y : Storage)
    (hp : ¬ (y.m_OffloadRequested = true ∧ ¬ y.m_OffloadDone = true))
    (hd : y.m_DeviceDataPtr = 0) (hh : y.m_DataPtr ≠ 0) :
    y.FreeOnHost = some { y with
      calls := y.calls ++
        [if y.m_Type.ST_Offloadable then StorageCall.HostPinnedFree y.m_DataPtr
         else StorageCall.HostFree y.m_DataPtr],
      m_DataPtr := 0,
      m_DataLocation := ELocation.None } := by
  unfold Storage.FreeOnHost
  rw [if_neg hp, if_neg (by simp [hd]), if_neg hh]

/-- `AllocateOnHost` on a storage of non-zero size without memory. -/
theorem AllocateOnHost_of_null (z : Storage) (host : Nat) (hs : z.m_AllocSize ≠ 0)
    (hd : z.m_DeviceDataPtr = 0) (hh : z.m_DataPtr = 0) :
    z.AllocateOnHost host = some { z with
      m_DataPtr := host,
      m_DataLocation := ELocation.Host,
      calls := z.calls ++
        [if z.m_Type.ST_Offloadable then StorageCall.HostPinnedAllocate z.AllocSizeInBytes host
         else StorageCall.HostAllocate z.AllocSizeInBytes host] } := by
  unfold Storage.AllocateOnHost
  rw [if_neg hs, if_neg (by simp [hd]), if_neg (by simp [hh])]

/-- `AllocateOnDevice` on a storage of non-zero size with host memory, no device
memory and no offload requested: the device allocator is asked once. -/
theorem AllocateOnDevice_of_null (w : Storage) (host d : Nat) (hJ : w.TransfersTracked)
    (hs : w.m_AllocSize ≠ 0) (hh : w.m_DataPtr ≠ 0) (hd : w.m_DeviceDataPtr = 0)
    (hr : w.m_OffloadRequested = false) :
    ∃ v, w.AllocateOnDevice host (some d) = some v ∧ v.m_DeviceDataPtr = d ∧
      v.m_DataPtr = w.m_DataPtr ∧ v.m_AllocSize = w.m_AllocSize ∧ v.m_Size = w.m_Size ∧
      v.calls = w.calls ++ [StorageCall.DeviceAllocate w.AllocSizeInBytes d] := by
  have hio : w.offloadInFlight = false :=
    Storage.TransfersTracked.offload_idle w hJ (by rw [hr]; simp)
  have hip : w.preloadInFlight = false := by
    by_cases hi : w.preloadInFlight = true
    · exact absurd hd (hJ.2.2.2.1 hi).2
    · simpa using hi
  unfold Storage.AllocateOnDevice
  rw [if_neg hs, if_neg hh]
  by_cases h1 : w.m_OffloadFuture = true <;> by_cases h2 : w.m_PreloadFuture = true <;>
    simp [Storage.offloadFutureGet, Storage.preloadFutureGet, h1, h2, hio, hip, hh, hd,
      Storage.AllocSizeInBytes]

/-- The step `if (m_DataPtr) FreeOnHost()` of `Resize`, with no offload pending
and no device memory: it returns with the host pointer null, and a host
pointer that was set has gone to the host allocator. -/
theorem Resize_host_step (y : Storage) (hJ : y.TransfersTracked)
    (hp : ¬ (y.m_OffloadRequested = true ∧ ¬ y.m_OffloadDone = true))
    (hd : y.m_DeviceDataPtr = 0) :
    ∃ z, (if y.m_DataPtr ≠ 0 then y.FreeOnHost else some y) = some z ∧ z.TransfersTracked ∧
      z.m_DataPtr = 0 ∧ z.m_DeviceDataPtr = 0 ∧
      z.m_OffloadRequested = y.m_OffloadRequested ∧
      z.m_AllocSize = y.m_AllocSize ∧ z.m_Size = y.m_Size ∧ z.m_Type = y.m_Type ∧
      ∃ cs, z.calls = y.calls ++ cs ∧
        (∀ p, StorageCall.DeviceFree p ∉ cs ∧ StorageCall.DeviceScheduleFree p ∉ cs) ∧
        (y.m_DataPtr ≠ 0 →
          StorageCall.HostFree y.m_DataPtr ∈ cs ∨ StorageCall.HostPinnedFree y.m_DataPtr ∈ cs) := by
  by_cases hh : y.m_DataPtr = 0
  · rw [if_neg (not_not.mpr hh)]
    exact ⟨y, rfl, hJ, hh, hd, rfl, rfl, rfl, rfl, [], by simp, by simp, fun h => absurd hh h⟩
  · rw [if_pos hh]
    have e := FreeOnHost_of_idle y hp hd hh
    refine ⟨_, e, (FreeOnHost_quiet y _ e).1 hJ, rfl, hd, rfl, rfl, rfl, rfl, _, rfl, ?_, ?_⟩
    · intro p
      by_cases ht : y.m_Type.ST_Offloadable = true <;> simp [ht]
    · intro _
      by_cases ht : y.m_Type.ST_Offloadable = true <;> simp [ht]

/-- C31, counterexample: the state `exBoth`, reached by `AllocateOnDevice` on a
new storage, has 1024 elements allocated; `Resize(1024)`, to exactly the
allocated size, frees both buffers and allocates them again: both pointers
change. -/
theorem resize_counterexample :
    Storage.run false false (Storage.new exPlainType 1024)
        [StorageOp.AllocateOnDevice 4096 (some 8192)] = some (exBoth exPlainType) ∧
      (exBoth exPlainType).m_AllocSize = 1024 ∧
      (exBoth exPlainType).Resize 1024 12288 (some 16384) = some exResized ∧
      exResized.m_DataPtr ≠ (exBoth exPlainType).m_DataPtr ∧
      exResized.m_DeviceDataPtr ≠ (exBoth exPlainType).m_DeviceDataPtr := by
  decide

/-- C31, amended: `Resize(size)` with `size` strictly below the allocated size
only sets the logical size. With `size` at least the allocated size, and not
zero, on a storage whose transfers are in order, that has host memory whenever
it has device memory and device memory whenever an offload is pending, and
with both allocators answering non-null pointers, it returns with both sizes
set to `size`; a device pointer that was set has gone to `Free` or
`ScheduleFree` and the new one is the answer of the device allocator, a host
pointer that was set has gone to the host allocator and the new one is the
answer of the host allocator, and a pointer that was null is null. -/
theorem resize_cases (s : Storage) (size host : Nat) (dev : Option Nat) :
    (size < s.m_AllocSize → s.Resize size host dev = some { s with m_Size := size }) ∧
      (s.m_AllocSize ≤ size → 0 < size → s.TransfersTracked →
        (s.m_DeviceDataPtr ≠ 0 → s.m_DataPtr ≠ 0) →
        (s.m_OffloadRequested = true → s.m_OffloadDone = false → s.m_DeviceDataPtr ≠ 0) →
        host ≠ 0 → ∀ d, dev = some d → d ≠ 0 →
        ∃ s1 cs, s.Resize size host dev = some s1 ∧
          s1.m_AllocSize = size ∧ s1.m_Size = size ∧
          s1.m_DataPtr = (if s.m_DataPtr ≠ 0 then host else 0) ∧
          s1.m_DeviceDataPtr = (if s.m_DeviceDataPtr ≠ 0 then d else 0) ∧
          s1.calls = s.calls ++ cs ∧
          (s.m_DeviceDataPtr ≠ 0 →
            StorageCall.DeviceFree s.m_DeviceDataPtr ∈ cs ∨
              StorageCall.DeviceScheduleFree s.m_DeviceDataPtr ∈ cs) ∧
          (s.m_DataPtr ≠ 0 →
            StorageCall.HostFree s.m_DataPtr ∈ cs ∨
              StorageCall.HostPinnedFree s.m_DataPtr ∈ cs)) := by
  refine ⟨Resize_of_lt s size host dev, ?_⟩
  intro hge hpos hJ hdo hpend hhost d hdev hd0
  subst hdev
  have hsz : size ≠ 0 := Nat.pos_iff_ne_zero.mp hpos
  rw [Resize_of_ge s size host _ hge]
  have hJ0 : Storage.TransfersTracked { s with m_AllocSize := size, m_Size := size } := hJ
  by_cases hdv : s.m_DeviceDataPtr = 0
  · -- no device memory
    rw [if_neg (not_not.mpr hdv), Option.some_bind]
    have hp : ¬ (({ s with m_AllocSize := size, m_Size := size } : Storage).m_OffloadRequested
        = true ∧ ¬ ({ s with m_AllocSize := size, m_Size := size } : Storage).m_OffloadDone
        = true) := by
      rintro ⟨h1, h2⟩
      exact hpend h1 (by simpa using h2) hdv
    obtain ⟨z, hz, hJz, z1, z2, z3, z4, z5, z6, cs, zc, zd, zh⟩ :=
      Resize_host_step { s with m_AllocSize := size, m_Size := size } hJ0 hp hdv
    rw [hz, Option.some_bind]
    by_cases hh : s.m_DataPtr = 0
    · rw [if_neg (not_not.mpr hh), Option.some_bind, if_neg (not_not.mpr hdv)]
      refine ⟨z, cs, rfl, z4, z5, ?_, ?_, zc, fun h => absurd hdv h, fun h => absurd hh h⟩
      · rw [z1, if_neg (not_not.mpr hh)]
      · rw [z2, if_neg (not_not.mpr hdv)]
    · rw [if_pos hh, AllocateOnHost_of_null z host (by rw [z4]; exact hsz) z2 z1,
        Option.some_bind, if_neg (not_not.mpr hdv)]
      refine ⟨_, cs ++ [if z.m_Type.ST_Offloadable then
          StorageCall.HostPinnedAllocate z.AllocSizeInBytes host
          else StorageCall.HostAllocate z.AllocSizeInBytes host],
        rfl, z4, z5, ?_, ?_, ?_, fun h => absurd hdv h, ?_⟩
      · rw [if_pos hh]
      · rw [if_neg (not_not.mpr hdv)]; exact z2
      · show z.calls ++ _ = _
        rw [zc, List.append_assoc]
      · intro _
        rcases zh hh with h | h
        · left; exact List.mem_append_left _ h
        · right; exact List.mem_append_left _ h
  · -- device memory, hence host memory
    have hh := hdo hdv
    rw [if_pos hdv]
    obtain ⟨y, hy, hJy, y1, y2, y3, y4, y5, cs1, yc, yd, yh⟩ :=
      FreeOnDevice_forced { s with m_AllocSize := size, m_Size := size } hJ0 hdv
    rw [hy, Option.some_bind]
    obtain ⟨z, hz, hJz, z1, z2, z3, z4, z5, z6, cs2, zc, zd, zh⟩ :=
      Resize_host_step y hJy (by rw [y2]; simp) y1
    rw [hz, Option.some_bind, if_pos hh]
    have ew := AllocateOnHost_of_null z host (by rw [z4, y3]; exact hsz) z2 z1
    rw [ew, Option.some_bind, if_pos hdv]
    have hJw := (AllocateOnHost_quiet z _ host ew).1 hJz
    obtain ⟨v, hv, v1, v2, v3, v4, v5⟩ :=
      AllocateOnDevice_of_null _ host d hJw (by show z.m_AllocSize ≠ 0; rw [z4, y3]; exact hsz)
        (by show host ≠ 0; exact hhost) (by show z.m_DeviceDataPtr = 0; exact z2)
        (by show z.m_OffloadRequested = false; rw [z3]; exact y2)
    rw [hv]
    refine ⟨v, cs1 ++ (cs2 ++ ([if z.m_Type.ST_Offloadable then
          StorageCall.HostPinnedAllocate z.AllocSizeInBytes host
          else StorageCall.HostAllocate z.AllocSizeInBytes host] ++
        [StorageCall.DeviceAllocate z.AllocSizeInBytes d])), rfl, ?_, ?_, ?_, ?_, ?_, ?_, ?_⟩
    · rw [v3]; show z.m_AllocSize = size; rw [z4, y3]
    · rw [v4]; show z.m_Size = size; rw [z5, y4]
    · rw [v2, if_pos hh]
    · rw [v1, if_pos hdv]
    · rw [v5]
      show z.calls ++ _ ++ _ = _
      rw [zc, yc]
      simp only [List.append_assoc]
      rfl
    · intro _
      rcases yd with h | h
      · left; exact List.mem_append_left _ h
      · right; exact List.mem_append_left _ h
    · intro _
      rcases yh with h | h
      · -- the host pointer survived the wait and is freed by `FreeOnHost`
        have hyh : y.m_DataPtr ≠ 0 := by rw [h.1]; exact hh
        have := zh hyh
        rw [h.1] at this
        rcases this with h2 | h2
        · left; exact List.mem_append_right _ (List.mem_append_left _ h2)
        · right; exact List.mem_append_right _ (List.mem_append_left _ h2)
      · right; exact List.mem_append_left _ h.2

/-- Witness for C31: the state `exBoth` resized from 1024 to 2048 elements. -/
theorem resize_cases_witness :
    ∃ s1 cs, (exBoth exPlainType).Resize 2048 12288 (some 16384) = some s1 ∧
      s1.m_AllocSize = 2048 ∧ s1.m_Size = 2048 ∧
      s1.m_DataPtr = (if (exBoth exPlainType).m_DataPtr ≠ 0 then 12288 else 0) ∧
      s1.m_DeviceDataPtr = (if (exBoth exPlainType).m_DeviceDataPtr ≠ 0 then 16384 else 0) ∧
      s1.calls = (exBoth exPlainType).calls ++ cs ∧
      ((exBoth exPlainType).m_DeviceDataPtr ≠ 0 →
        StorageCall.DeviceFree (exBoth exPlainType).m_DeviceDataPtr ∈ cs ∨
          StorageCall.DeviceScheduleFree (exBoth exPlainType).m_DeviceDataPtr ∈ cs) ∧
      ((exBoth exPlainType).m_DataPtr ≠ 0 →
        StorageCall.HostFree (exBoth exPlainType).m_DataPtr ∈ cs ∨
          StorageCall.HostPinnedFree (exBoth exPlainType).m_DataPtr ∈ cs) :=
  (resize_cases (exBoth exPlainType) 2048 12288 (some 16384)).2 (by decide) (by decide)
    (by unfold Storage.TransfersTracked; decide) (by decide) (by decide) (by decide)
    16384 rfl (by decide)

/-! ## The peak counter -/

/-- Growth of the pool leaves both counters as they are. -/
theorem AllocateBlockUnsafe_counters (s s1 : MemoryManager) (size i : Nat) (dev : Option Nat)
    (h : AllocateBlockUnsafe s size dev = some (s1, i)) :
    s1.m_AllocatedMemSize = s.m_AllocatedMemSize ∧
      s1.m_AllocatedMemSizePeak = s.m_AllocatedMemSizePeak := by
  rcases AllocateBlockUnsafe_cases s s1 size i dev h with ⟨last, d, hl, hm, hadj⟩ | ⟨d, hl, hm, hd⟩
  · rw [AllocateBlockUnsafe_extend s size d dev last hl hm hadj] at h
    cases h
    exact ⟨rfl, rfl⟩
  · rw [AllocateBlockUnsafe_fresh s size d dev hl hm hd] at h
    cases h
    exact ⟨rfl, rfl⟩

/-- The second half of `Allocate` adds the rounded size to the counter and
raises the peak to the new counter when that is larger. -/
theorem AllocateFinish_counters (s s1 : MemoryManager) (i size p : Nat)
    ( annotation : Option String) (st : EMemStatus)
    (h : AllocateFinish s i size annotation = some (st, p, s1)) :
    s1.m_AllocatedMemSize = addSz s.m_AllocatedMemSize size ∧
      s1.m_AllocatedMemSizePeak =
        max (addSz s.m_AllocatedMemSize size) s.m_AllocatedMemSizePeak := by
  unfold AllocateFinish at h
  cases he : ExtractBlockUnsafe s.m_FreeBlocks i size false with
  | none => rw [he] at h; cases h
  | some r =>
    obtain ⟨best, free1⟩ := r
    rw [he] at h
    cases h
    exact ⟨rfl, rfl⟩

/-- One call: the peak becomes the larger of the old peak and the new counter. -/
theorem Allocate_counters (s s1 : MemoryManager) (size p : Nat) ( annotation : Option String)
    (dev : Option Nat) (st : EMemStatus)
    (h : Allocate s size annotation dev = some (st, p, s1))
    (hle : s.m_AllocatedMemSize ≤ s.m_AllocatedMemSizePeak) :
    s1.m_AllocatedMemSizePeak = max s.m_AllocatedMemSizePeak s1.m_AllocatedMemSize := by
  cases hb : FindBestBlockUnsafe s.m_FreeBlocks (ceilInt size MEM_GRANULARITY) with
  | some r =>
    obtain ⟨i, b⟩ := r
    rw [Allocate_of_best s size i annotation dev b hb] at h
    obtain ⟨h1, h2⟩ := AllocateFinish_counters s s1 i _ p annotation st h
    rw [h1, h2, Nat.max_comm]
  | none =>
    cases hg : s.m_CannotGrow with
    | true =>
      rw [Allocate_of_none_fixed s size annotation dev hb hg] at h
      cases h
      exact (Nat.max_eq_left hle).symm
    | false =>
      cases ha : AllocateBlockUnsafe s (ceilInt size MEM_GRANULARITY) dev with
      | none =>
        rw [Allocate_of_none_fatal s size annotation dev hb hg ha] at h
        cases h
      | some r =>
        obtain ⟨s2, i⟩ := r
        rw [Allocate_of_none_grow s s2 size i annotation dev hb hg ha] at h
        obtain ⟨h1, h2⟩ := AllocateFinish_counters s2 s1 i _ p annotation st h
        obtain ⟨g1, g2⟩ := AllocateBlockUnsafe_counters s s2 _ i dev ha
        rw [h1, h2, g1, g2, Nat.max_comm]

/-- A block of a list is no larger than the bytes of the list. -/
theorem size_le_blockBytes (l : List Block) (c : Block) (h : c ∈ l) :
    c.m_Size ≤ blockBytes l := by
  induction l with
  | nil => cases h
  | cons a l ih =>
    rw [blockBytes_cons]
    rcases List.mem_cons.mp h with h | h
    · subst h; omega
    · have := ih h; omega

/-- `Release` leaves the peak as it is and, when the pool sizes add up to less
than `2 ^ 64`, does not raise the counter. -/
theorem Release_counters (s : MemoryManager) (ptr : Nat) (hinv : Inv s)
    (hp : poolBytes s.m_CudaBlocks < SIZE_T_RANGE) :
    (Release s ptr).2.m_AllocatedMemSizePeak = s.m_AllocatedMemSizePeak ∧
      (Release s ptr).2.m_AllocatedMemSize ≤ s.m_AllocatedMemSize := by
  by_cases h0 : ptr = 0
  · unfold Release
    rw [if_pos h0]
    exact ⟨rfl, Nat.le_refl _⟩
  · cases hf : s.m_UsedBlocks.find? (fun curr => curr.m_Data == ptr) with
    | none =>
      unfold Release
      rw [if_neg h0, hf]
      exact ⟨rfl, Nat.le_refl _⟩
    | some curr =>
      rw [Release_of_find s ptr curr h0 hf]
      refine ⟨rfl, ?_⟩
      show subSz s.m_AllocatedMemSize curr.m_Size ≤ s.m_AllocatedMemSize
      obtain ⟨_, _, hsum, hcnt⟩ := hinv
      have hmem : curr ∈ s.m_UsedBlocks := List.mem_of_find?_eq_some hf
      have hle := size_le_blockBytes _ _ hmem
      have hcnt2 : s.m_AllocatedMemSize = blockBytes s.m_UsedBlocks := by
        rw [hcnt]; exact Nat.mod_eq_of_lt (by omega)
      rw [subSz_of_le _ _ (by omega) (by omega)]
      omega

/-- One call of a run: with the invariant, pool sizes that add up to less than
`2 ^ 64` and the counter at most the peak, the new peak is the larger of the
old peak and the new counter. -/
theorem step_counters (s s1 : MemoryManager) (op : Op) (hinv : Inv s)
    (hp : poolBytes s.m_CudaBlocks < SIZE_T_RANGE)
    (hle : s.m_AllocatedMemSize ≤ s.m_AllocatedMemSizePeak)
    (h : step s op = some s1) :
    s1.m_AllocatedMemSizePeak = max s.m_AllocatedMemSizePeak s1.m_AllocatedMemSize := by
  cases op with
  | reserve size dev =>
    simp only [step, Option.map_eq_some'] at h
    obtain ⟨⟨st, s2⟩, h1, h2⟩ := h
    simp only at h2
    subst h2
    unfold Reserve at h1
    cases ha : AllocateBlockUnsafe s size dev with
    | none => rw [ha] at h1; cases h1
    | some r =>
      obtain ⟨s3, i⟩ := r
      rw [ha] at h1
      cases h1
      obtain ⟨g1, g2⟩ := AllocateBlockUnsafe_counters s s3 _ i dev ha
      show s3.m_AllocatedMemSizePeak = max _ s3.m_AllocatedMemSize
      rw [g1, g2]
      exact (Nat.max_eq_left hle).symm
  | allocate size annotation dev =>
    simp only [step, Option.map_eq_some'] at h
    obtain ⟨⟨st, p, s2⟩, h1, h2⟩ := h
    simp only at h2
    subst h2
    exact Allocate_counters s _ size p annotation dev st h1 hle
  | release ptr =>
    simp only [step, Option.some.injEq] at h
    subst h
    obtain ⟨h1, h2⟩ := Release_counters s ptr hinv hp
    rw [h1]
    exact (Nat.max_eq_left (Nat.le_trans h2 hle)).symm

/-- The start state is the first state of the history. -/
theorem runStates_head (ops : List Op) (s : MemoryManager) (hist : List MemoryManager)
    (h : runStates s ops = some hist) : ∃ tl, hist = s :: tl := by
  cases ops with
  | nil =>
    simp only [runStates, Option.some.injEq] at h
    exact ⟨[], h.symm⟩
  | cons op ops =>
    simp only [runStates] at h
    cases hs : step s op with
    | none => rw [hs] at h; cases h
    | some s2 =>
      rw [hs] at h
      simp only [Option.map_eq_some'] at h
      obtain ⟨l, _, h⟩ := h
      exact ⟨l, h.symm⟩

/-- The last state of the history is the state the run returns. -/
theorem runStates_last (ops : List Op) : ∀ (s : MemoryManager) (hist : List MemoryManager),
    runStates s ops = some hist → (run s ops) = hist.getLast? := by
  induction ops with
  | nil =>
    intro s hist h
    simp only [runStates, Option.some.injEq] at h
    subst h
    rfl
  | cons op ops ih =>
    intro s hist h
    simp only [runStates] at h
    simp only [run]
    cases hs : step s op with
    | none => rw [hs] at h; cases h
    | some s2 =>
      rw [hs] at h
      simp only [Option.map_eq_some'] at h
      obtain ⟨l, hl, h⟩ := h
      subst h
      obtain ⟨tl, htl⟩ := runStates_head ops s2 l hl
      show run s2 ops = _
      rw [ih s2 l hl, htl]
      simp [List.getLast?_cons_cons]

/-- A run that returns has a history. -/
theorem runStates_of_run (ops : List Op) : ∀ (s s1 : MemoryManager),
    run s ops = some s1 → ∃ hist, runStates s ops = some hist := by
  induction ops with
  | nil => intro s s1 _; exact ⟨[s], rfl⟩
  | cons op ops ih =>
    intro s s1 h
    simp only [run] at h
    simp only [runStates]
    cases hs : step s op with
    | none => rw [hs] at h; cases h
    | some s2 =>
      rw [hs] at h
      obtain ⟨l, hl⟩ := ih s2 s1 h
      exact ⟨s :: l, by simp [hl]⟩

/-- The three properties of the peak along a history that starts in a state
with the invariant and the counter at most the peak. -/
theorem runStates_counters (ops : List Op) : ∀ (s : MemoryManager) (hist : List MemoryManager),
    Inv s → s.m_AllocatedMemSize ≤ s.m_AllocatedMemSizePeak →
    runStates s ops = some hist →
    (∀ t ∈ hist, poolBytes t.m_CudaBlocks < SIZE_T_RANGE) →
    (∀ t ∈ hist, s.m_AllocatedMemSizePeak ≤ t.m_AllocatedMemSizePeak) ∧
      hist.Pairwise (fun a b => a.m_AllocatedMemSizePeak ≤ b.m_AllocatedMemSizePeak) ∧
      (∀ t ∈ hist, t.m_AllocatedMemSize ≤ t.m_AllocatedMemSizePeak) ∧
      (∀ t, hist.getLast? = some t →
        t.m_AllocatedMemSizePeak =
          max s.m_AllocatedMemSizePeak
            (maxReading (hist.map fun u => u.m_AllocatedMemSize))) := by
  induction ops with
  | nil =>
    intro s hist hinv hle h _
    simp only [runStates, Option.some.injEq] at h
    subst h
    refine ⟨?_, List.pairwise_singleton _ _, ?_, ?_⟩
    · intro t ht
      rw [List.mem_singleton.mp ht]
    · intro t ht
      rw [List.mem_singleton.mp ht]
      exact hle
    · intro t ht
      simp only [List.getLast?_singleton, Option.some.injEq] at ht
      subst ht
      simp only [maxReading, List.map_cons, List.map_nil, List.foldr_cons, List.foldr_nil]
      omega
  | cons op ops ih =>
    intro s hist hinv hle h hpool
    simp only [runStates] at h
    cases hs : step s op with
    | none => rw [hs] at h; cases h
    | some s2 =>
      rw [hs] at h
      simp only [Option.map_eq_some'] at h
      obtain ⟨l, hl, h⟩ := h
      subst h
      have hps : poolBytes s.m_CudaBlocks < SIZE_T_RANGE := hpool s (List.mem_cons_self _ _)
      have hstep := step_counters s s2 op hinv hps hle hs
      have hle2 : s2.m_AllocatedMemSize ≤ s2.m_AllocatedMemSizePeak := by
        rw [hstep]; exact Nat.le_max_right _ _
      have hmono : s.m_AllocatedMemSizePeak ≤ s2.m_AllocatedMemSizePeak := by
        rw [hstep]; exact Nat.le_max_left _ _
      obtain ⟨i1, i2, i3, i4⟩ := ih s2 l (step_inv s s2 op hinv hs) hle2 hl
        (fun t ht => hpool t (List.mem_cons_of_mem _ ht))
      obtain ⟨tl, htl⟩ := runStates_head ops s2 l hl
      refine ⟨?_, ?_, ?_, ?_⟩
      · intro t ht
        rcases List.mem_cons.mp ht with ht | ht
        · rw [ht]
        · exact Nat.le_trans hmono (i1 t ht)
      · exact List.pairwise_cons.mpr ⟨fun t ht => Nat.le_trans hmono (i1 t ht), i2⟩
      · intro t ht
        rcases List.mem_cons.mp ht with ht | ht
        · rw [ht]; exact hle
        · exact i3 t ht
      · intro t ht
        have ht2 : l.getLast? = some t := by
          rw [htl] at ht ⊢
          simpa [List.getLast?_cons_cons] using ht
        rw [i4 t ht2, hstep]
        have hhead : s2.m_AllocatedMemSize ≤
            maxReading (l.map fun u => u.m_AllocatedMemSize) := by
          rw [htl]
          simp only [maxReading, List.map_cons, List.foldr_cons]
          exact Nat.le_max_left _ _
        simp only [maxReading, List.map_cons, List.foldr_cons] at hhead ⊢
        omega

/-- C40: along every run of `Reserve`, `Allocate` and `Release` calls from the
empty allocator in which the pool sizes add up to less than `2 ^ 64`, the peak
counter never decreases from one state to a later one, is at least the
allocated-byte counter in every state, and in the last state equals the
largest value the allocated-byte counter has had in the states passed. -/
theorem peak_is_running_maximum (cannotGrow : Bool) (ops : List Op)
    (hist : List MemoryManager)
    (h : runStates (MemoryManager.empty cannotGrow) ops = some hist)
    (hpool : ∀ t ∈ hist, poolBytes t.m_CudaBlocks < SIZE_T_RANGE) :
    hist.Pairwise (fun a b => a.m_AllocatedMemSizePeak ≤ b.m_AllocatedMemSizePeak) ∧
      (∀ t ∈ hist, t.m_AllocatedMemSize ≤ t.m_AllocatedMemSizePeak) ∧
      (∀ t, hist.getLast? = some t →
        t.m_AllocatedMemSizePeak = maxReading (hist.map fun u => u.m_AllocatedMemSize)) := by
  obtain ⟨_, i2, i3, i4⟩ := runStates_counters ops (MemoryManager.empty cannotGrow) hist
    (Inv_empty cannotGrow) (Nat.le_refl _) h hpool
  refine ⟨i2, i3, ?_⟩
  intro t ht
  rw [i4 t ht]
  exact Nat.max_eq_right (Nat.zero_le _)

/-- Witness for C40: the run `exRunOps`; the peak of its last state is the
largest counter value of the run. -/
theorem peak_is_running_maximum_witness :
    ∃ hist, runStates (MemoryManager.empty true) exRunOps = some hist ∧
      hist.getLast? = some exRunState ∧
      exRunState.m_AllocatedMemSizePeak =
        maxReading (hist.map fun u => u.m_AllocatedMemSize) :=
  ⟨(runStates (MemoryManager.empty true) exRunOps).get (by decide), by simp, by decide,
    (peak_is_running_maximum true exRunOps
      ((runStates (MemoryManager.empty true) exRunOps).get (by decide)) (by simp)
      (by decide)).2.2 exRunState (by decide)⟩

/-! ## Reserve before Allocate -/

/-- A `size_t` minus itself. -/
theorem subSz_self (a : Nat) : subSz a a = 0 := by
  unfold subSz SIZE_T_RANGE at *
  omega

/-- A `size_t` minus a larger one wraps around. -/
theorem subSz_of_lt (a b : Nat) (ha : a < SIZE_T_RANGE) (hb : b < SIZE_T_RANGE) (h : a < b) :
    subSz a b = a + SIZE_T_RANGE - b := by
  unfold subSz SIZE_T_RANGE at *
  omega

/-- A successful growth of the pool leaves a free block at least as large as
the request; with a non-empty free list it succeeds only when the last free
block is smaller than the request. -/
theorem AllocateBlockUnsafe_large (s s1 : MemoryManager) (size i : Nat) (dev : Option Nat)
    (hinv : Inv s) (hsz : size < SIZE_T_RANGE)
    (h : AllocateBlockUnsafe s size dev = some (s1, i)) :
    (∃ b ∈ s1.m_FreeBlocks, size ≤ b.m_Size) ∧
      (∀ last, s.m_FreeBlocks.getLast? = some last → last.m_Size < size) := by
  rcases AllocateBlockUnsafe_cases s s1 size i dev h with ⟨last, d, hl, hm, hadj⟩ | ⟨d, hl, hm, hd⟩
  · rw [AllocateBlockUnsafe_extend s size d dev last hl hm hadj] at h
    cases h
    obtain ⟨hz, hlt⟩ := cudaMalloc_some dev _ d hm
    have hmem : last ∈ s.m_FreeBlocks := List.mem_of_getLast?_eq_some hl
    obtain ⟨hd0, hsp⟩ := hinv.1 last hmem
    have hE : ceilInt (subSz size last.m_Size) CUDA_GRANULARITY ≠ 0 := by
      intro h0
      have := hz h0
      omega
    have hsub : subSz size last.m_Size < SIZE_T_RANGE := Nat.mod_lt _ (by decide)
    have hge := ceilInt_ge_of_ne_zero (subSz size last.m_Size) CUDA_GRANULARITY hsub
      (by decide) (by decide) hE
    have hlast : last.m_Size < size := by
      by_contra hcon
      have hle : size ≤ last.m_Size := Nat.le_of_not_lt hcon
      rcases Nat.eq_or_lt_of_le hle with heq | hlt2
      · apply hE
        rw [heq, subSz_self]
        exact ceilInt_zero _
      · have e := subSz_of_lt size last.m_Size hsz (by omega) hlt2
        omega
    refine ⟨⟨_, List.mem_append_right _ (List.mem_singleton_self _), ?_⟩, ?_⟩
    · show size ≤ addSz last.m_Size _
      have e := subSz_of_le size last.m_Size (Nat.le_of_lt hlast) hsz
      rw [addSz_of_lt _ _ (by omega)]
      omega
    · intro last2 hl2
      rw [hl] at hl2
      cases hl2
      exact hlast
  · rw [AllocateBlockUnsafe_fresh s size d dev hl hm hd] at h
    cases h
    obtain ⟨hz, _⟩ := cudaMalloc_some dev _ d hm
    have hE : ceilInt size CUDA_GRANULARITY ≠ 0 := fun h0 => hd (hz h0)
    have hge := ceilInt_ge_of_ne_zero size CUDA_GRANULARITY hsz (by decide) (by decide) hE
    refine ⟨⟨_, List.mem_singleton_self _, hge⟩, ?_⟩
    intro last hl2
    rw [hl] at hl2
    cases hl2

/-- A free block that holds the request, in a free list of blocks whose sizes
are multiples of the granularity: `Allocate` succeeds without asking the
device. -/
theorem Allocate_of_large (t : MemoryManager) (size : Nat) ( annotation : Option String)
    (dev : Option Nat) (b : Block) (hb : b ∈ t.m_FreeBlocks) (hle : size ≤ b.m_Size)
    (hg : MEM_GRANULARITY ∣ b.m_Size) (hsp : b.m_Size < SIZE_T_RANGE) :
    ∃ p t1, Allocate t size annotation dev = some (EMemStatus.MEM_STATUS_SUCCESS, p, t1) := by
  have hr : ceilInt size MEM_GRANULARITY ≤ b.m_Size := by
    apply ceilInt_le_of_dvd size MEM_GRANULARITY b.m_Size (by decide) _ hg hle
    obtain ⟨k, hk⟩ := hg
    unfold MEM_GRANULARITY SIZE_T_RANGE at *
    omega
  have hspec := FindBestBlockUnsafe_spec t.m_FreeBlocks (ceilInt size MEM_GRANULARITY)
  cases hf : FindBestBlockUnsafe t.m_FreeBlocks (ceilInt size MEM_GRANULARITY) with
  | none =>
    rw [hf] at hspec
    have := hspec b hb
    omega
  | some r =>
    obtain ⟨i, c⟩ := r
    rw [hf] at hspec
    rw [Allocate_of_best t size i annotation dev c hf]
    obtain ⟨t1, ht1⟩ := AllocateFinish_of_getElem t i (ceilInt size MEM_GRANULARITY)
      annotation c hspec.1
    exact ⟨c.m_Data, t1, ht1⟩

/-- C36: in a reachable state, for a size below `2 ^ 64`: whenever `Reserve`
returns, it returns `MEM_STATUS_SUCCESS`, the free list it leaves has a block
of at least that size, and `Allocate` of that size then succeeds, in
fixed-capacity mode too and whatever the device would answer. When the free
list already ends in a block at least as large as the size, `Reserve` does not
return (the extra amount `size - last.size` wraps around and the call is fatal
whatever the device answers), so the first part holds there as well. -/
theorem reserve_then_allocate_succeeds (s : MemoryManager) (hr : Reachable s) (size : Nat)
    (hsz : size < SIZE_T_RANGE) (dev : Option Nat) :
    (∀ st s1, Reserve s size dev = some (st, s1) →
        st = EMemStatus.MEM_STATUS_SUCCESS ∧
        (∃ b ∈ s1.m_FreeBlocks, size ≤ b.m_Size) ∧
        (∀ (g : Bool) ( annotation : Option String) (dev2 : Option Nat),
          ∃ p s2, Allocate { s1 with m_CannotGrow := g } size annotation dev2 =
            some (EMemStatus.MEM_STATUS_SUCCESS, p, s2))) ∧
      (∀ last, s.m_FreeBlocks.getLast? = some last → size ≤ last.m_Size →
        Reserve s size dev = none) := by
  have hinv := Reachable_inv s hr
  refine ⟨?_, ?_⟩
  · intro st s1 h
    have hinv1 := Reserve_inv s s1 size dev st hinv h
    have hgran : SizesGranular s1.m_FreeBlocks ∧ SizesGranular s1.m_UsedBlocks := by
      obtain ⟨g, ops, hrun⟩ := hr
      have h0 := run_granular ops _ s ⟨SizesGranular_nil, SizesGranular_nil⟩ hrun
      exact step_granular s s1 (Op.reserve size dev) h0 (by simp [step, h])
    unfold Reserve at h
    cases ha : AllocateBlockUnsafe s size dev with
    | none => rw [ha] at h; cases h
    | some r =>
      obtain ⟨s2, i⟩ := r
      rw [ha] at h
      cases h
      obtain ⟨⟨b, hb, hle⟩, _⟩ := AllocateBlockUnsafe_large s s2 size i dev hinv hsz ha
      refine ⟨rfl, ⟨b, hb, hle⟩, ?_⟩
      intro g annotation dev2
      have hsp := (hinv1.1 b hb).2
      exact Allocate_of_large _ size annotation dev2 b hb hle (hgran.1 b hb) (by omega)
  · intro last hl hle
    unfold Reserve
    cases ha : AllocateBlockUnsafe s size dev with
    | none => rfl
    | some r =>
      obtain ⟨s2, i⟩ := r
      have := (AllocateBlockUnsafe_large s s2 size i dev hinv hsz ha).2 last hl
      omega

/-- Witness for C36: `Reserve(1024)` on the empty fixed-capacity allocator
returns with the state `exReserved`, whose free list has a block of at least
1024 bytes, and `Allocate(1024)` then succeeds in fixed-capacity mode. -/
theorem reserve_then_allocate_succeeds_witness :
    Reserve (MemoryManager.empty true) 1024 (some 131072) =
        some (EMemStatus.MEM_STATUS_SUCCESS, exReserved) ∧
      (∃ b ∈ exReserved.m_FreeBlocks, 1024 ≤ b.m_Size) ∧
      ∃ p s2, Allocate { exReserved with m_CannotGrow := true } 1024 none none =
        some (EMemStatus.MEM_STATUS_SUCCESS, p, s2) :=
  ⟨by decide,
    ((reserve_then_allocate_succeeds (MemoryManager.empty true) ⟨true, [], rfl⟩ 1024
      (by decide) (some 131072)).1 EMemStatus.MEM_STATUS_SUCCESS exReserved (by decide)).2.1,
    ((reserve_then_allocate_succeeds (MemoryManager.empty true) ⟨true, [], rfl⟩ 1024
      (by decide) (some 131072)).1 EMemStatus.MEM_STATUS_SUCCESS exReserved (by decide)).2.2
      true none none⟩

/-! ## Requests of size zero and the lists -/

/-- C38: the run `exZeroReleasedOps` starts from one reserved pool of 131072
bytes at 131072 in fixed-capacity mode and releases both pointers it was given.
It ends with an empty used list and a free list of two blocks, the pool-sized
block and a block of size 0 at 131584; a following `Allocate(512)` leaves the
free blocks `(131584, 130560)` and `(131584, 0)`, the second ending where the
first starts. -/
theorem free_list_not_one_block_after_zero_size_request :
    run (MemoryManager.empty true) exZeroReleasedOps = some exZeroReleased ∧
      exZeroReleased.m_UsedBlocks = [] ∧
      exZeroReleased.m_CudaBlocks = [⟨131072, 131072⟩] ∧
      exZeroReleased.m_FreeBlocks.map (fun b => (b.m_Data, b.m_Size)) =
        [(131072, 131072), (131584, 0)] ∧
      (Allocate exZeroReleased 512 none none).map
          (fun r => r.2.2.m_FreeBlocks.map (fun b => (b.m_Data, b.m_Size))) =
        some [(131584, 130560), (131584, 0)] := by
  decide

/-- In a reachable state with pairwise disjoint pools, used blocks of non-zero
size have pairwise distinct base addresses. -/
theorem used_bases_distinct_of_positive (s : MemoryManager) (h : Reachable s)
    (hp : s.m_CudaBlocks.Pairwise (fun p q => ∀ a,
      ¬ (p.ptr ≤ a ∧ a < p.ptr + p.size ∧ q.ptr ≤ a ∧ a < q.ptr + q.size)))
    (hpos : ∀ b ∈ s.m_UsedBlocks, 0 < b.m_Size) :
    s.m_UsedBlocks.Pairwise (fun x y => x.m_Data ≠ y.m_Data) := by
  have hdis : s.m_UsedBlocks.Pairwise (fun x y => ∀ a,
      ¬ (x.m_Data ≤ a ∧ a < x.m_Data + x.m_Size ∧
        y.m_Data ≤ a ∧ a < y.m_Data + y.m_Size)) := by
    apply pairwise_of_blocksAt_le_one
    intro a
    have h1 := Reachable_address s h a
    have h2 := poolsAt_le_one _ hp a
    omega
  refine List.Pairwise.imp_of_mem ?_ hdis
  intro x y hx hy hxy heq
  have := hpos x hx
  have := hpos y hy
  exact hxy x.m_Data ⟨Nat.le_refl _, by omega, by omega, by omega⟩

/-- C39: after `Reserve(1024)`, `Allocate(0)` and `Allocate(512)` the used list
holds two blocks with the base address 131072, the block of size 0 and the
block of 512 bytes: both calls returned 131072. `Release(131072)` releases the
block of 512 bytes and keeps the block of size 0. -/
theorem used_blocks_share_base_after_zero_size_request :
    (Allocate exReserved 0 none none).map (fun r => (r.1, r.2.1)) =
        some (EMemStatus.MEM_STATUS_SUCCESS, 131072) ∧
      ((Allocate exReserved 0 none none).bind fun r => Allocate r.2.2 512 none none).map
          (fun r => (r.1, r.2.1)) =
        some (EMemStatus.MEM_STATUS_SUCCESS, 131072) ∧
      run (MemoryManager.empty true)
          [Op.reserve 1024 (some 131072), Op.allocate 0 none none, Op.allocate 512 none none] =
        some exSameBase ∧
      exSameBase.m_UsedBlocks.map (fun b => (b.m_Data, b.m_Size)) =
        [(131072, 512), (131072, 0)] ∧
      (Release exSameBase 131072).1 = EMemStatus.MEM_STATUS_SUCCESS ∧
      (Release exSameBase 131072).2.m_UsedBlocks.map (fun b => (b.m_Data, b.m_Size)) =
        [(131072, 0)] := by
  decide

/-! ## Allocate followed by Release -/

/-- Adding a `size_t` and taking it away again. -/
theorem subSz_addSz (c r : Nat) (hc : c < SIZE_T_RANGE) : subSz (addSz c r) r = c := by
  unfold subSz addSz SIZE_T_RANGE at *
  omega

/-- The second half of `Allocate` leaves the pool registry as it is. -/
theorem AllocateFinish_pools (s s1 : MemoryManager) (i size p : Nat)
    ( annotation : Option String) (st : EMemStatus)
    (h : AllocateFinish s i size annotation = some (st, p, s1)) :
    s1.m_CudaBlocks = s.m_CudaBlocks := by
  unfold AllocateFinish at h
  cases he : ExtractBlockUnsafe s.m_FreeBlocks i size false with
  | none => rw [he] at h; cases h
  | some r =>
    obtain ⟨best, free1⟩ := r
    rw [he] at h
    cases h
    rfl

/-- Growth adds an entry to the pool registry. -/
theorem AllocateBlockUnsafe_pools (s s1 : MemoryManager) (size i : Nat) (dev : Option Nat)
    (h : AllocateBlockUnsafe s size dev = some (s1, i)) :
    ∃ c, s1.m_CudaBlocks = s.m_CudaBlocks ++ [c] := by
  rcases AllocateBlockUnsafe_cases s s1 size i dev h with ⟨last, d, hl, hm, hadj⟩ | ⟨d, hl, hm, hd⟩
  · rw [AllocateBlockUnsafe_extend s size d dev last hl hm hadj] at h
    cases h
    exact ⟨_, rfl⟩
  · rw [AllocateBlockUnsafe_fresh s size d dev hl hm hd] at h
    cases h
    exact ⟨_, rfl⟩

/-- A successful `Allocate` that leaves the pool registry as it is has found
its block in the free list. -/
theorem Allocate_without_growth (s s1 : MemoryManager) (size p : Nat)
    ( annotation : Option String) (dev : Option Nat)
    (h : Allocate s size annotation dev = some (EMemStatus.MEM_STATUS_SUCCESS, p, s1))
    (hng : s1.m_CudaBlocks = s.m_CudaBlocks) :
    ∃ i b, FindBestBlockUnsafe s.m_FreeBlocks (ceilInt size MEM_GRANULARITY) = some (i, b) := by
  cases hb : FindBestBlockUnsafe s.m_FreeBlocks (ceilInt size MEM_GRANULARITY) with
  | some r => exact ⟨r.1, r.2, rfl⟩
  | none =>
    exfalso
    cases hg : s.m_CannotGrow with
    | true =>
      rw [Allocate_of_none_fixed s size annotation dev hb hg] at h
      cases h
    | false =>
      cases ha : AllocateBlockUnsafe s (ceilInt size MEM_GRANULARITY) dev with
      | none =>
        rw [Allocate_of_none_fatal s size annotation dev hb hg ha] at h
        cases h
      | some r =>
        obtain ⟨s2, i⟩ := r
        rw [Allocate_of_none_grow s s2 size i annotation dev hb hg ha] at h
        have h1 := AllocateFinish_pools s2 s1 i _ p annotation _ h
        obtain ⟨c, hc⟩ := AllocateBlockUnsafe_pools s s2 _ i dev ha
        rw [h1, hc] at hng
        have := congrArg List.length hng
        simp at this

/-- Releasing a block into the free list it was unlinked from, between
neighbours it does not touch, puts it back in its place. -/
theorem ReleaseBlockUnsafe_unlinked (pre post : List Block) (c : Block)
    (hpre : ∀ x ∈ pre, x.m_Data < c.m_Data)
    (hpreadj : ∀ x ∈ pre, x.m_Data + x.m_Size ≠ c.m_Data)
    (hpost : ∀ y ∈ post, c.m_Data < y.m_Data)
    (hpostadj : ∀ y ∈ post, c.m_Data + c.m_Size ≠ y.m_Data) :
    ReleaseBlockUnsafe (pre ++ post) c = pre ++ c :: post := by
  rw [ReleaseBlockUnsafe_eq]
  obtain ⟨e1, e2⟩ := takeWhile_dropWhile_of_split (fun iter => decide (iter.m_Data < c.m_Data))
    pre post (fun x hx => by simpa using hpre x hx)
    (fun y hy => by
      have := hpost y (List.mem_of_mem_head? hy)
      simp only [decide_eq_false_iff_not]
      omega)
  rw [e1, e2]
  have hprev : mergeWithPrev pre c = (pre, c) := by
    cases hl : pre.getLast? with
    | none => exact mergeWithPrev_none pre c hl
    | some prev =>
      exact mergeWithPrev_keep pre c prev hl
        (fun hm => hpreadj prev (List.mem_of_getLast?_eq_some hl) hm.1)
  rw [hprev]
  cases post with
  | nil => rfl
  | cons next rest =>
    exact mergeWithNext_keep pre c next rest
      (fun hm => hpostadj next (List.mem_cons_self _ _) hm.1)

/-- Releasing the front part of a block that was split, between neighbours it
does not touch: the two parts are merged into a block of the size before the
split. -/
theorem ReleaseBlockUnsafe_split (pre post : List Block) (c : Block) (size : Nat)
    ( annotation : Option String)
    (hpre : ∀ x ∈ pre, x.m_Data < c.m_Data)
    (hpreadj : ∀ x ∈ pre, x.m_Data + x.m_Size ≠ c.m_Data)
    (hle : size ≤ c.m_Size) (hsp : c.m_Size < SIZE_T_RANGE) :
    ReleaseBlockUnsafe
        (pre ++ ⟨c.m_Data + size, subSz c.m_Size size, false, none⟩ :: post)
        ⟨c.m_Data, size, c.m_IsHead, annotation⟩ =
      pre ++ ⟨c.m_Data, c.m_Size, c.m_IsHead, annotation⟩ :: post := by
  rw [ReleaseBlockUnsafe_eq]
  obtain ⟨e1, e2⟩ := takeWhile_dropWhile_of_split (fun iter => decide (iter.m_Data < c.m_Data))
    pre (⟨c.m_Data + size, subSz c.m_Size size, false, none⟩ :: post)
    (fun x hx => by simpa using hpre x hx)
    (fun y hy => by
      simp only [List.head?_cons, Option.some.injEq] at hy
      subst hy
      simp)
  show mergeWithNext
      (mergeWithPrev ((pre ++ _ :: post).takeWhile fun iter => decide (iter.m_Data < c.m_Data))
        ⟨c.m_Data, size, c.m_IsHead, annotation⟩).1
      (mergeWithPrev ((pre ++ _ :: post).takeWhile fun iter => decide (iter.m_Data < c.m_Data))
        ⟨c.m_Data, size, c.m_IsHead, annotation⟩).2
      ((pre ++ _ :: post).dropWhile fun iter => decide (iter.m_Data < c.m_Data)) = _
  rw [e1, e2]
  have hprev : mergeWithPrev pre ⟨c.m_Data, size, c.m_IsHead, annotation⟩ =
      (pre, ⟨c.m_Data, size, c.m_IsHead, annotation⟩) := by
    cases hl : pre.getLast? with
    | none => exact mergeWithPrev_none pre _ hl
    | some prev =>
      exact mergeWithPrev_keep pre _ prev hl
        (fun hm => hpreadj prev (List.mem_of_getLast?_eq_some hl) hm.1)
  rw [hprev]
  rw [mergeWithNext_merge pre _ _ post ⟨rfl, rfl⟩]
  show pre ++ ⟨c.m_Data, addSz size (subSz c.m_Size size), c.m_IsHead, annotation⟩ :: post = _
  rw [subSz_of_le c.m_Size size hle hsp, addSz_of_lt _ _ (by omega)]
  have : size + (c.m_Size - size) = c.m_Size := by omega
  rw [this]

/-- C37: in a state that satisfies the invariant of the allocator and whose
free list is strictly sorted by base address with no block ending where
another starts, a successful `Allocate` that leaves the pool registry as it is,
followed by `Release` of the pointer it returned, succeeds and restores the
free list as a sequence of base addresses and sizes, the used list and the
allocated-byte counter. -/
theorem allocate_release_restores (s s1 : MemoryManager) (size p : Nat)
    ( annotation : Option String) (dev : Option Nat) (hinv : Inv s)
    (hsorted : s.m_FreeBlocks.Pairwise fun x y => x.m_Data < y.m_Data)
    (hadj : s.m_FreeBlocks.Pairwise fun x y => x.m_Data + x.m_Size ≠ y.m_Data)
    (h : Allocate s size annotation dev = some (EMemStatus.MEM_STATUS_SUCCESS, p, s1))
    (hng : s1.m_CudaBlocks = s.m_CudaBlocks) :
    (Release s1 p).1 = EMemStatus.MEM_STATUS_SUCCESS ∧
      (Release s1 p).2.m_FreeBlocks.map Block.extent = s.m_FreeBlocks.map Block.extent ∧
      (Release s1 p).2.m_UsedBlocks = s.m_UsedBlocks ∧
      (Release s1 p).2.m_AllocatedMemSize = s.m_AllocatedMemSize := by
  obtain ⟨i, b, hb⟩ := Allocate_without_growth s s1 size p annotation dev h hng
  have hspec := FindBestBlockUnsafe_spec s.m_FreeBlocks (ceilInt size MEM_GRANULARITY)
  rw [hb] at hspec
  obtain ⟨hget, hle, _, _⟩ := hspec
  rw [Allocate_of_best s size i annotation dev b hb, AllocateFinish_eq s i _ annotation b hget] at h
  simp only [Option.some.injEq, Prod.mk.injEq, true_and] at h
  obtain ⟨hp, hs1⟩ := h
  subst hp
  obtain ⟨hsplit, herase, hset⟩ := getElem?_split s.m_FreeBlocks i b hget
  have hbmem : b ∈ s.m_FreeBlocks := List.getElem?_mem hget
  obtain ⟨hb0, hbsp⟩ := hinv.1 b hbmem
  -- what the order of the free list says about the neighbours of `b`
  rw [hsplit] at hsorted hadj
  rw [List.pairwise_append] at hsorted hadj
  obtain ⟨_, hs2, hs3⟩ := hsorted
  obtain ⟨_, ha2, ha3⟩ := hadj
  rw [List.pairwise_cons] at hs2 ha2
  have hpre : ∀ x ∈ s.m_FreeBlocks.take i, x.m_Data < b.m_Data :=
    fun x hx => hs3 x hx b (List.mem_cons_self _ _)
  have hpreadj : ∀ x ∈ s.m_FreeBlocks.take i, x.m_Data + x.m_Size ≠ b.m_Data :=
    fun x hx => ha3 x hx b (List.mem_cons_self _ _)
  -- the block on the used list is found first
  have hfind : s1.m_UsedBlocks.find? (fun curr => curr.m_Data == b.m_Data) =
      some ⟨b.m_Data, ceilInt size MEM_GRANULARITY, b.m_IsHead, annotation⟩ := by
    rw [← hs1]
    exact List.find?_cons_of_pos _ (by simp)
  rw [Release_of_find s1 b.m_Data _ hb0 hfind]
  have hmap : s.m_FreeBlocks.map Block.extent =
      (s.m_FreeBlocks.take i ++ b :: s.m_FreeBlocks.drop (i + 1)).map Block.extent :=
    congrArg _ hsplit
  refine ⟨rfl, ?_, ?_, ?_⟩
  · show (ReleaseBlockUnsafe s1.m_FreeBlocks _).map Block.extent = _
    rw [← hs1]
    by_cases hsz : b.m_Size = ceilInt size MEM_GRANULARITY
    · simp only [if_pos hsz]
      rw [herase, ← hsz]
      rw [ReleaseBlockUnsafe_unlinked (s.m_FreeBlocks.take i) (s.m_FreeBlocks.drop (i + 1))
        ⟨b.m_Data, b.m_Size, b.m_IsHead, annotation⟩ hpre hpreadj hs2.1 ha2.1]
      rw [hmap]
      simp [Block.extent]
    · simp only [if_neg hsz]
      rw [hset, ReleaseBlockUnsafe_split (s.m_FreeBlocks.take i) (s.m_FreeBlocks.drop (i + 1)) b
        (ceilInt size MEM_GRANULARITY) annotation hpre hpreadj hle (by omega)]
      rw [hmap]
      simp [Block.extent]
  · show s1.m_UsedBlocks.eraseP _ = _
    rw [← hs1]
    exact List.eraseP_cons_of_pos (by simp)
  · show subSz s1.m_AllocatedMemSize _ = _
    rw [← hs1]
    show subSz (addSz s.m_AllocatedMemSize _) _ = _
    apply subSz_addSz
    rw [hinv.2.2.2]
    exact Nat.mod_lt _ (by decide)

/-- Witness for C37: `Allocate(100)` in the state `exReserved` returns 131072
and leaves the state `exOneUsed`; `Release(131072)` restores the lists and the
counter. -/
theorem allocate_release_restores_witness :
    (Release exOneUsed 131072).1 = EMemStatus.MEM_STATUS_SUCCESS ∧
      (Release exOneUsed 131072).2.m_FreeBlocks.map Block.extent =
        exReserved.m_FreeBlocks.map Block.extent ∧
      (Release exOneUsed 131072).2.m_UsedBlocks = exReserved.m_UsedBlocks ∧
      (Release exOneUsed 131072).2.m_AllocatedMemSize = exReserved.m_AllocatedMemSize :=
  allocate_release_restores exReserved exOneUsed 100 131072 none none
    (Reachable_inv exReserved ⟨true, [Op.reserve 1024 (some 131072)], by decide⟩)
    (by decide) (by decide) (by decide) (by decide)

/-! ## Head flags and pool boundaries -/

/-- Releasing a block whose head flag is off into a free list of such blocks
leaves a free list of such blocks. -/
theorem ReleaseBlockUnsafe_no_head (free : List Block) (curr : Block)
    (hf : ∀ b ∈ free, b.m_IsHead = false) (hc : curr.m_IsHead = false) :
    ∀ b ∈ ReleaseBlockUnsafe free curr, b.m_IsHead = false := by
  rw [ReleaseBlockUnsafe_eq]
  have hb : ∀ b ∈ free.takeWhile (fun iter => decide (iter.m_Data < curr.m_Data)),
      b.m_IsHead = false :=
    fun b h => hf b ((List.takeWhile_sublist _).subset h)
  have ha : ∀ b ∈ free.dropWhile (fun iter => decide (iter.m_Data < curr.m_Data)),
      b.m_IsHead = false :=
    fun b h => hf b ((List.dropWhile_sublist _).subset h)
  generalize free.takeWhile (fun iter => decide (iter.m_Data < curr.m_Data)) = before at hb
  generalize free.dropWhile (fun iter => decide (iter.m_Data < curr.m_Data)) = after at ha
  have hm : (∀ b ∈ (mergeWithPrev before curr).1, b.m_IsHead = false) ∧
      (mergeWithPrev before curr).2.m_IsHead = false := by
    cases hl : before.getLast? with
    | none => rw [mergeWithPrev_none _ _ hl]; exact ⟨hb, hc⟩
    | some prev =>
      have hsplit := getLast?_eq_some_split before prev hl
      have hb2 := hb
      rw [hsplit] at hb2
      by_cases hmg : prev.m_Data + prev.m_Size = curr.m_Data ∧ curr.m_IsHead = false
      · rw [mergeWithPrev_merge _ _ _ hl hmg]
        exact ⟨fun b h => hb2 b (List.mem_append_left _ h),
          hb2 prev (List.mem_append_right _ (List.mem_singleton_self _))⟩
      · rw [mergeWithPrev_keep _ _ _ hl hmg]; exact ⟨hb, hc⟩
  obtain ⟨hm1, hm2⟩ := hm
  generalize (mergeWithPrev before curr).1 = front at hm1
  generalize (mergeWithPrev before curr).2 = c at hm2
  cases after with
  | nil =>
    rw [mergeWithNext_nil]
    intro b h
    rcases List.mem_append.1 h with h | h
    · exact hm1 b h
    · rw [List.mem_singleton.1 h]; exact hm2
  | cons next rest =>
    by_cases hmg : c.m_Data + c.m_Size = next.m_Data ∧ next.m_IsHead = false
    · rw [mergeWithNext_merge _ _ _ _ hmg]
      intro b h
      rcases List.mem_append.1 h with h | h
      · exact hm1 b h
      · rcases List.mem_cons.1 h with h | h
        · rw [h]; exact hm2
        · exact ha b (List.mem_cons_of_mem _ h)
    · rw [mergeWithNext_keep _ _ _ _ hmg]
      intro b h
      rcases List.mem_append.1 h with h | h
      · exact hm1 b h
      · rcases List.mem_cons.1 h with h | h
        · rw [h]; exact hm2
        · exact ha b h

/-- Growth of the pool sets no head flag: the block of a fresh pool is built
with the flag off (line 279), an extended block keeps its flag. -/
theorem AllocateBlockUnsafe_no_head (s s1 : MemoryManager) (size i : Nat) (dev : Option Nat)
    (h : ∀ b ∈ s.m_FreeBlocks ++ s.m_UsedBlocks, b.m_IsHead = false)
    (ha : AllocateBlockUnsafe s size dev = some (s1, i)) :
    ∀ b ∈ s1.m_FreeBlocks ++ s1.m_UsedBlocks, b.m_IsHead = false := by
  rcases AllocateBlockUnsafe_cases s s1 size i dev ha with ⟨last, d, hl, hm, hadj⟩ | ⟨d, hl, hm, hd⟩
  · rw [AllocateBlockUnsafe_extend s size d dev last hl hm hadj] at ha
    cases ha
    have hsplit := getLast?_eq_some_split _ _ hl
    intro b hb
    rcases List.mem_append.1 hb with hb | hb
    · rcases List.mem_append.1 hb with hb | hb
      · exact h b (List.mem_append_left _ (List.mem_of_mem_dropLast hb))
      · rw [List.mem_singleton.1 hb]
        exact h last (List.mem_append_left _ (List.mem_of_getLast?_eq_some hl))
    · exact h b (List.mem_append_right _ hb)
  · rw [AllocateBlockUnsafe_fresh s size d dev hl hm hd] at ha
    cases ha
    intro b hb
    rcases List.mem_append.1 hb with hb | hb
    · rw [List.mem_singleton.1 hb]
    · exact h b (List.mem_append_right _ hb)

/-- Handing out a block sets no head flag: the used block takes the flag of the
free block it is cut from, the remainder is built with the flag off. -/
theorem AllocateFinish_no_head (s s1 : MemoryManager) (i size p : Nat)
    ( annotation : Option String) (st : EMemStatus)
    (h : ∀ b ∈ s.m_FreeBlocks ++ s.m_UsedBlocks, b.m_IsHead = false)
    (ha : AllocateFinish s i size annotation = some (st, p, s1)) :
    ∀ b ∈ s1.m_FreeBlocks ++ s1.m_UsedBlocks, b.m_IsHead = false := by
  cases hb : s.m_FreeBlocks[i]? with
  | none =>
    unfold AllocateFinish ExtractBlockUnsafe at ha
    rw [hb] at ha
    cases ha
  | some b =>
    rw [AllocateFinish_eq s i size annotation b hb] at ha
    simp only [Option.some.injEq, Prod.mk.injEq] at ha
    obtain ⟨_, _, hs1⟩ := ha
    subst hs1
    obtain ⟨hsplit, herase, hset⟩ := getElem?_split _ _ _ hb
    have hbm : b ∈ s.m_FreeBlocks := by
      rw [hsplit]; exact List.mem_append_right _ (List.mem_cons_self _ _)
    have ht : ∀ x ∈ s.m_FreeBlocks.take i, x.m_IsHead = false :=
      fun x hx => h x (List.mem_append_left _ (List.mem_of_mem_take hx))
    have hd : ∀ x ∈ s.m_FreeBlocks.drop (i + 1), x.m_IsHead = false :=
      fun x hx => h x (List.mem_append_left _ (List.mem_of_mem_drop hx))
    intro x hx
    rcases List.mem_append.1 hx with hx | hx
    · change x ∈ (if b.m_Size = size then _ else _) at hx
      by_cases he : b.m_Size = size
      · rw [if_pos he, herase] at hx
        rcases List.mem_append.1 hx with hx | hx
        · exact ht x hx
        · exact hd x hx
      · rw [if_neg he, hset] at hx
        rcases List.mem_append.1 hx with hx | hx
        · exact ht x hx
        · rcases List.mem_cons.1 hx with hx | hx
          · rw [hx]
          · exact hd x hx
    · change x ∈ _ :: s.m_UsedBlocks at hx
      rcases List.mem_cons.1 hx with hx | hx
      · rw [hx]; exact h b (List.mem_append_left _ hbm)
      · exact h x (List.mem_append_right _ hx)

/-- No call sets a head flag. -/
theorem step_no_head (s s1 : MemoryManager) (op : Op)
    (h : ∀ b ∈ s.m_FreeBlocks ++ s.m_UsedBlocks, b.m_IsHead = false)
    (hs : step s op = some s1) :
    ∀ b ∈ s1.m_FreeBlocks ++ s1.m_UsedBlocks, b.m_IsHead = false := by
  cases op with
  | reserve size dev =>
    simp only [step, Option.map_eq_some'] at hs
    obtain ⟨⟨st, s2⟩, h1, h2⟩ := hs
    simp only at h2
    subst h2
    unfold Reserve at h1
    cases ha : AllocateBlockUnsafe s size dev with
    | none => rw [ha] at h1; cases h1
    | some r =>
      obtain ⟨s3, i⟩ := r
      rw [ha] at h1
      simp only [Option.some.injEq, Prod.mk.injEq] at h1
      rw [← h1.2]
      exact AllocateBlockUnsafe_no_head s s3 size i dev h ha
  | allocate size annotation dev =>
    simp only [step, Option.map_eq_some'] at hs
    obtain ⟨⟨st, p, s2⟩, h1, h2⟩ := hs
    simp only at h2
    subst h2
    cases hf : FindBestBlockUnsafe s.m_FreeBlocks (ceilInt size MEM_GRANULARITY) with
    | some r =>
      obtain ⟨i, b⟩ := r
      rw [Allocate_of_best s size i annotation dev b hf] at h1
      exact AllocateFinish_no_head s _ i _ p annotation st h h1
    | none =>
      cases hg : s.m_CannotGrow with
      | true =>
        rw [Allocate_of_none_fixed s size annotation dev hf hg] at h1
        simp only [Option.some.injEq, Prod.mk.injEq] at h1
        rw [← h1.2.2]; exact h
      | false =>
        cases ha : AllocateBlockUnsafe s (ceilInt size MEM_GRANULARITY) dev with
        | none => rw [Allocate_of_none_fatal s size annotation dev hf hg ha] at h1; cases h1
        | some r =>
          obtain ⟨s3, i⟩ := r
          rw [Allocate_of_none_grow s s3 size i annotation dev hf hg ha] at h1
          exact AllocateFinish_no_head s3 _ i _ p annotation st
            (AllocateBlockUnsafe_no_head s s3 _ i dev h ha) h1
  | release ptr =>
    simp only [step, Option.some.injEq] at hs
    subst hs
    unfold Release
    by_cases hp : ptr = 0
    · rw [if_pos hp]; exact h
    · rw [if_neg hp]
      cases hf : s.m_UsedBlocks.find? (fun curr => curr.m_Data == ptr) with
      | none => exact h
      | some curr =>
        intro b hb
        rcases List.mem_append.1 hb with hb | hb
        · exact ReleaseBlockUnsafe_no_head _ _
            (fun x hx => h x (List.mem_append_left _ hx))
            (h curr (List.mem_append_right _ (List.mem_of_find?_eq_some hf))) b hb
        · exact h b (List.mem_append_right _ (List.mem_of_mem_eraseP hb))

/-- No run sets a head flag. -/
theorem run_no_head (ops : List Op) : ∀ (s s1 : MemoryManager),
    (∀ b ∈ s.m_FreeBlocks ++ s.m_UsedBlocks, b.m_IsHead = false) → run s ops = some s1 →
    ∀ b ∈ s1.m_FreeBlocks ++ s1.m_UsedBlocks, b.m_IsHead = false := by
  induction ops with
  | nil =>
    intro s s1 h hr
    simp only [run, Option.some.injEq] at hr
    subst hr; exact h
  | cons op ops ih =>
    intro s s1 h hr
    simp only [run] at hr
    cases hs : step s op with
    | none => rw [hs] at hr; cases hr
    | some s2 =>
      rw [hs] at hr
      exact ih s2 s1 (step_no_head s s2 op h hs) hr

/-- C5: in every state reachable by Reserve, Allocate and Release no block of
the free list or of the used list has its head flag set, so the tests
`!IsHead()` of `ReleaseBlockUnsafe` keep no two blocks apart. In the run
`exTwoPoolOps` the device returns the second pool at the address where the
first ends; after four calls each pool begins with a block of its own, the
block at 131072 free and the block at 262144 in use; the release of the block
at 262144 merges it into the free block of the first pool: the registry holds
two pools, everything is free, and the free list is one block that covers
both. -/
theorem pool_first_blocks_merge_on_release :
    (∀ s, Reachable s → ∀ b ∈ s.m_FreeBlocks ++ s.m_UsedBlocks, b.m_IsHead = false) ∧
      run (MemoryManager.empty false) (exTwoPoolOps.take 4) = some exTwoPoolHeld ∧
      step exTwoPoolHeld (Op.release 262144) = some exTwoPoolState ∧
      run (MemoryManager.empty false) exTwoPoolOps = some exTwoPoolState ∧
      exTwoPoolState.m_CudaBlocks = [⟨131072, 131072⟩, ⟨262144, 131072⟩] ∧
      exTwoPoolState.m_UsedBlocks = [] ∧
      exTwoPoolState.m_FreeBlocks = [⟨131072, 262144, false, none⟩] := by
  refine ⟨?_, by decide, by decide, by decide, rfl, rfl, rfl⟩
  rintro s ⟨g, ops, hrun⟩
  exact run_no_head ops _ s (by intro b hb; cases hb) hrun

/-- Witness for C5: the state after `exTwoPoolOps` is reachable; its free block,
which starts where the first pool starts, has the head flag off. -/
theorem pool_first_blocks_merge_on_release_witness :
    ∀ b ∈ exTwoPoolState.m_FreeBlocks ++ exTwoPoolState.m_UsedBlocks, b.m_IsHead = false :=
  pool_first_blocks_merge_on_release.1 exTwoPoolState ⟨false, exTwoPoolOps, by decide⟩

end Neuro
